import Mathlib

/-!
# CHeatSolver: residual and Jacobian assembly of the heat equation solver

Shallow embedding of `SU2_CFD/src/solver_direct_heat.cpp`.

Conventions of the embedding

* `su2double` is idealised as an exact linearly ordered field `K` (for instance the
  rationals or the reals); division is the total division of the field.
* The solver has one unknown per point (`nVar = 1`, constructor line 65), so a residual
  block is a scalar of `K` and a Jacobian block is a 1x1 matrix, i.e. again a scalar.
  `Residual[0]`, `Res_Visc[0]`, `Jacobian_i[0][0]` are the fields `Residual`, `Res_Visc`,
  `Jacobian_i` of the solver state.
* Points, markers, vertices and space directions are natural numbers; C arrays indexed by
  them are functions on the naturals, lists where the length matters for a loop.
* A member function of the solver that mutates the solver (and the numerics object
  it is handed) is a function from the state before the call to the state after it.
-/

namespace SU2

/-- Modelled from the spec: the solver kinds of the configuration enumeration (declared
outside the solver source). The solver only tests a kind against `HEAT_EQUATION`
(solid conduction mode); every other kind is a flow-coupled mode. -/
inductive ENUM_SOLVER where
  | EULER
  | NAVIER_STOKES
  | RANS
  | HEAT_EQUATION
  deriving DecidableEq

/-- Modelled from the spec: the time integration schemes of the configuration enumeration
(declared outside the solver source). The solver only tests for `EULER_IMPLICIT`. -/
inductive ENUM_TIME_INT where
  | RUNGE_KUTTA_EXPLICIT
  | EULER_EXPLICIT
  | EULER_IMPLICIT
  deriving DecidableEq

/-- Modelled from the spec: the boundary kinds of the configuration enumeration (declared
outside the solver source), as far as the solver routines and their driver name them. -/
inductive BC_TYPE where
  | EULER_WALL
  | ISOTHERMAL
  | HEAT_FLUX
  | INLET_FLOW
  | OUTLET_FLOW
  | SEND_RECEIVE
  | CHT_WALL_INTERFACE
  deriving DecidableEq

/-- Modelled from the spec: the gradient reconstruction methods of the configuration
enumeration (declared outside the solver source). -/
inductive ENUM_GRADIENT where
  | GREEN_GAUSS
  | WEIGHTED_LEAST_SQUARES
  deriving DecidableEq

/-- Modelled from the spec: the unsteady simulation kinds of the configuration
enumeration (declared outside the solver source). `SetResidual_DualTime` tests for the two
dual time stepping kinds. -/
inductive ENUM_UNSTEADY where
  | STEADY
  | TIME_STEPPING
  | DT_STEPPING_1ST
  | DT_STEPPING_2ND
  deriving DecidableEq

/-- Modelled from the spec: the run-time equation systems of the configuration
enumeration (declared outside the solver source). `SetResidual_DualTime` tests for the
flow and the adjoint flow system. -/
inductive ENUM_RUNTIME where
  | RUNTIME_FLOW_SYS
  | RUNTIME_TURB_SYS
  | RUNTIME_ADJFLOW_SYS
  | RUNTIME_HEAT_SYS
  deriving DecidableEq

/-- The part of `CConfig` read by the solver routines. `Marker_All_Monitoring` is `true`
for the value `YES`. -/
structure CConfig (K : Type) where
  Kind_Solver : ENUM_SOLVER
  Kind_TimeIntScheme_Flow : ENUM_TIME_INT
  Viscosity_FreeStreamND : K
  Prandtl_Lam : K
  Prandtl_Turb : K
  ThermalDiffusivity_Solid : K
  Temperature_Ref : K
  Marker_All_TagBound : Nat → String
  Isothermal_Temperature : String → K
  Temperature_FreeStreamND : K
  Wall_HeatFlux : String → K
  Density_Solid : K
  SpecificHeat_Solid : K
  Viscous : Bool
  Grid_Movement : Bool
  Inlet_Ptotal : String → K
  Velocity_Ref : K
  Inlet_FlowDir : String → Nat → K
  nMarker_All : Nat
  Marker_All_KindBC : Nat → BC_TYPE
  CFL : Nat → K
  Max_DeltaTime : K
  Marker_All_SendRecv : Nat → Int
  Marker_All_Monitoring : Nat → Bool
  Kind_Gradient_Method : ENUM_GRADIENT
  CFLRedCoeff_Turb : K
  Unsteady_Simulation : ENUM_UNSTEADY
  Delta_UnstTimeND : K

/-- An interior edge `geometry->edge[iEdge]`: its two nodes and its normal. -/
structure CEdge (K : Type) where
  Node0 : Nat
  Node1 : Nat
  Normal : Nat → K

/-- A boundary vertex `geometry->vertex[iMarker][iVertex]`. -/
structure CVertex (K : Type) where
  Node : Nat
  Normal_Neighbor : Nat
  Normal : Nat → K

/-- A mesh point `geometry->node[iPoint]`. -/
structure CPoint (K : Type) where
  Coord : Nat → K
  Domain : Bool
  Volume : K
  GridVel : Nat → K

/-- The part of `CGeometry` read by the solver: `edge` is the array of the
`GetnEdge()` interior edges, `vertex iMarker` the array of the `nVertex[iMarker]`
vertices of a marker, `nMarker` the value of `GetnMarker()`. -/
structure CGeometry (K : Type) where
  edge : List (CEdge K)
  vertex : Nat → List (CVertex K)
  node : Nat → CPoint K
  nMarker : Nat

/-- The part of the flow solver `solver_container[FLOW_SOL]` read by the heat solver. -/
structure CFlowSolver (K : Type) where
  nVar : Nat
  Primitive : Nat → Nat → K
  Gradient_Primitive : Nat → Nat → Nat → K
  EddyViscosity : Nat → K
  CharacPrimVar : Nat → Nat → Nat → K
  Delta_Time : Nat → K

/-- The state of a numerics object that the solver sets before `ComputeResidual`. -/
structure CNumerics (K : Type) where
  Normal : Nat → K
  Coord_i : Nat → K
  Coord_j : Nat → K
  V_i : Nat → K
  V_j : Nat → K
  Temp_i : K
  Temp_j : K
  ConsVarGradient_i : Nat → K
  ConsVarGradient_j : Nat → K
  Thermal_Diffusivity_i : K
  Thermal_Diffusivity_j : K
  GridVel_i : Nat → K
  GridVel_j : Nat → K
  Laminar_Viscosity_i : K
  Laminar_Viscosity_j : K
  Eddy_Viscosity_i : K
  Eddy_Viscosity_j : K

/-- The state of the heat solver touched by its routines: the temperature and
its gradient at every point, the linear system, the scratch members, the conjugate
variables `ConjugateVar[iMarker][iVertex][iVar]`, per point the spectral radii and
the local time step with the tracked extreme time steps, the previous temperature, the
increment vector of the linear system, the monitored heat fluxes and the residual norms
(`nVar` is 1, so each of these has one component per point). -/
structure CHeatSolver (K : Type) where
  nDim : Nat
  nPoint : Nat
  nPointDomain : Nat
  nVarFlow : Nat
  Solution : Nat → K
  Gradient : Nat → Nat → K
  LinSysRes : Nat → K
  Jacobian : Nat → Nat → K
  Residual : K
  Res_Visc : K
  Jacobian_i : K
  Jacobian_j : K
  Vector_i : Nat → K
  Vector_j : Nat → K
  Primitive_Flow_i : Nat → K
  Primitive_Flow_j : Nat → K
  ConjugateVar : Nat → Nat → Nat → K
  Max_Lambda_Inv : Nat → K
  Max_Lambda_Visc : Nat → K
  Delta_Time : Nat → K
  Min_Delta_Time : K
  Max_Delta_Time : K
  nMarker : Nat
  Solution_Old : Nat → K
  LinSysSol : Nat → K
  Heat_Flux : Nat → K
  AllBound_HeatFlux : K
  Total_HeatFlux : K
  Res_RMS : K
  Res_Max : K
  Point_Max : Nat
  Solution_time_n : Nat → K
  Solution_time_n1 : Nat → K

/-- The state carried through the vertex loop of `BC_Inlet` and `BC_Outlet`: the solver,
the two numerics objects, the flow solver (whose `CharacPrimVar` the loop writes) and the
local variable `Point_Normal`, which is declared outside the loop. -/
structure BCLoopState (K : Type) where
  solver : CHeatSolver K
  conv_numerics : CNumerics K
  visc_numerics : CNumerics K
  flow_sol : CFlowSolver K
  Point_Normal : Nat

section Model

variable {K : Type} [LinearOrderedField K]

/-- Modelled from the spec: `CSysVector::AddBlock`, absent from the sources at hand;
the spec fixes it as adding a 1x1 block at a row. -/
def CSysVector.AddBlock (v : Nat → K) (iPoint : Nat) (val_residual : K) : Nat → K :=
  fun p => if p = iPoint then v p + val_residual else v p

/-- Modelled from the spec: `CSysVector::SubtractBlock`, absent from the sources at hand;
the spec fixes it as subtracting a 1x1 block at a row. -/
def CSysVector.SubtractBlock (v : Nat → K) (iPoint : Nat) (val_residual : K) : Nat → K :=
  fun p => if p = iPoint then v p - val_residual else v p

/-- Modelled from the spec: `CSysMatrix::AddBlock`, absent from the sources at hand;
the spec fixes it as adding a 1x1 block at (row, col). -/
def CSysMatrix.AddBlock (m : Nat → Nat → K) (block_i block_j : Nat) (val_block : K) :
    Nat → Nat → K :=
  fun r c => if r = block_i ∧ c = block_j then m r c + val_block else m r c

/-- Modelled from the spec: `CSysMatrix::SubtractBlock`, absent from the sources at hand;
the spec fixes it as subtracting a 1x1 block at (row, col). -/
def CSysMatrix.SubtractBlock (m : Nat → Nat → K) (block_i block_j : Nat) (val_block : K) :
    Nat → Nat → K :=
  fun r c => if r = block_i ∧ c = block_j then m r c - val_block else m r c

/-- Modelled from the spec: `CSysVector::SetBlock_Zero`, absent from the sources at hand;
the spec fixes it as zeroing the residual entry of a row. -/
def CSysVector.SetBlock_Zero (v : Nat → K) (iPoint : Nat) : Nat → K :=
  fun p => if p = iPoint then 0 else v p

/-- Modelled from the spec: `CSysMatrix::SetValZero`, absent from the sources at hand;
the spec fixes it as zeroing every entry of the sparse Jacobian. -/
def CSysMatrix.SetValZero (_m : Nat → Nat → K) : Nat → Nat → K :=
  fun _ _ => 0

/-- Modelled from the spec: `CSysMatrix::AddVal2Diag`, absent from the sources at hand;
the spec fixes it as adding a value to the diagonal entry of a row. -/
def CSysMatrix.AddVal2Diag (m : Nat → Nat → K) (block_i : Nat) (val_matrix : K) :
    Nat → Nat → K :=
  fun r c => if r = block_i ∧ c = block_i then m r c + val_matrix else m r c

namespace CNumerics

/-- The setter `SetNormal`. -/
def SetNormal (numerics : CNumerics K) (val_normal : Nat → K) : CNumerics K :=
  { numerics with Normal := val_normal }

/-- The setter `SetCoord`. -/
def SetCoord (numerics : CNumerics K) (val_coord_i val_coord_j : Nat → K) : CNumerics K :=
  { numerics with Coord_i := val_coord_i, Coord_j := val_coord_j }

/-- The setter `SetPrimitive`. -/
def SetPrimitive (numerics : CNumerics K) (val_v_i val_v_j : Nat → K) : CNumerics K :=
  { numerics with V_i := val_v_i, V_j := val_v_j }

/-- The setter `SetTemperature`. -/
def SetTemperature (numerics : CNumerics K) (val_temp_i val_temp_j : K) : CNumerics K :=
  { numerics with Temp_i := val_temp_i, Temp_j := val_temp_j }

/-- The setter `SetConsVarGradient`. -/
def SetConsVarGradient (numerics : CNumerics K) (val_grad_i val_grad_j : Nat → K) :
    CNumerics K :=
  { numerics with ConsVarGradient_i := val_grad_i, ConsVarGradient_j := val_grad_j }

/-- The setter `SetThermalDiffusivity`. -/
def SetThermalDiffusivity (numerics : CNumerics K) (val_i val_j : K) : CNumerics K :=
  { numerics with Thermal_Diffusivity_i := val_i, Thermal_Diffusivity_j := val_j }

/-- The setter `SetGridVel`. -/
def SetGridVel (numerics : CNumerics K) (val_gridvel_i val_gridvel_j : Nat → K) :
    CNumerics K :=
  { numerics with GridVel_i := val_gridvel_i, GridVel_j := val_gridvel_j }

/-- The setter `SetLaminarViscosity`. -/
def SetLaminarViscosity (numerics : CNumerics K) (val_i val_j : K) : CNumerics K :=
  { numerics with Laminar_Viscosity_i := val_i, Laminar_Viscosity_j := val_j }

/-- The setter `SetEddyViscosity`. -/
def SetEddyViscosity (numerics : CNumerics K) (val_i val_j : K) : CNumerics K :=
  { numerics with Eddy_Viscosity_i := val_i, Eddy_Viscosity_j := val_j }

end CNumerics

/-- The external flux numerics service: from the state set on the numerics object and the
configuration it returns the residual and the two Jacobian blocks
`(Residual, Jacobian_i, Jacobian_j)`. Every routine below takes it as an argument. -/
abbrev ComputeResidualFn (K : Type) := CNumerics K → CConfig K → K × K × K

/-- Modelled from the spec: a gradient reconstruction of the base solver, absent from the
sources at hand: from the mesh, the configuration and the solver state it gives the
temperature gradient of every point, which is stored in the solver. -/
abbrev SetSolution_GradientFn (K : Type) :=
  CGeometry K → CConfig K → CHeatSolver K → Nat → Nat → K

/-- Modelled from the spec: the external sparse linear solve `CSysSolve::Solve`, absent
from the sources at hand: from the Jacobian, the right-hand side and the initial guess
it gives the increment vector. -/
abbrev SolveFn (K : Type) :=
  (Nat → Nat → K) → (Nat → K) → (Nat → K) → CGeometry K → CConfig K → Nat → K

namespace CHeatSolver

/-- The flag `flow = (config->GetKind_Solver() != HEAT_EQUATION)`. -/
def flow (config : CConfig K) : Bool :=
  decide (config.Kind_Solver ≠ ENUM_SOLVER.HEAT_EQUATION)

/-- The flag `implicit = (config->GetKind_TimeIntScheme_Flow() == EULER_IMPLICIT)`. -/
def implicit (config : CConfig K) : Bool :=
  decide (config.Kind_TimeIntScheme_Flow = ENUM_TIME_INT.EULER_IMPLICIT)

/-- Body of the edge loop of `Upwind_Residual` (lines 345-425) for one edge. -/
def Upwind_Residual_edge (geometry : CGeometry K) (flow_sol : CFlowSolver K)
    (ComputeResidual : ComputeResidualFn K) (config : CConfig K)
    (st : CHeatSolver K × CNumerics K) (e : CEdge K) : CHeatSolver K × CNumerics K :=
  let s := st.1
  let numerics := st.2
  let Non_Physical : K := 1
  let iPoint := e.Node0
  let jPoint := e.Node1
  let numerics := numerics.SetNormal e.Normal
  let V_i := flow_sol.Primitive iPoint
  let V_j := flow_sol.Primitive jPoint
  let Temp_i := s.Solution iPoint
  let Temp_j := s.Solution jPoint
  let Vec := (List.range s.nDim).foldl
    (fun (v : (Nat → K) × (Nat → K)) iDim =>
      (Function.update v.1 iDim
          (0.5 * ((geometry.node jPoint).Coord iDim - (geometry.node iPoint).Coord iDim)),
       Function.update v.2 iDim
          (0.5 * ((geometry.node iPoint).Coord iDim - (geometry.node jPoint).Coord iDim))))
    (s.Vector_i, s.Vector_j)
  let Vector_i := Vec.1
  let Vector_j := Vec.2
  let Gradient_i := flow_sol.Gradient_Primitive iPoint
  let Gradient_j := flow_sol.Gradient_Primitive jPoint
  let Temp_i_Grad := s.Gradient iPoint
  let Temp_j_Grad := s.Gradient jPoint
  let Prim := (List.range s.nVarFlow).foldl
    (fun (P : (Nat → K) × (Nat → K)) iVar =>
      let Project_Grad := (List.range s.nDim).foldl
        (fun (g : K × K) iDim =>
          (g.1 + Vector_i iDim * Gradient_i iVar iDim * Non_Physical,
           g.2 + Vector_j iDim * Gradient_j iVar iDim * Non_Physical))
        (0, 0)
      (Function.update P.1 iVar (V_i iVar + Project_Grad.1),
       Function.update P.2 iVar (V_j iVar + Project_Grad.2)))
    (s.Primitive_Flow_i, s.Primitive_Flow_j)
  let Primitive_Flow_i := Prim.1
  let Primitive_Flow_j := Prim.2
  let Project_Temp_Grad := (List.range s.nDim).foldl
    (fun (g : K × K) iDim =>
      (g.1 + Vector_i iDim * Temp_i_Grad iDim * Non_Physical,
       g.2 + Vector_j iDim * Temp_j_Grad iDim * Non_Physical))
    (0, 0)
  let Temp_i_Corrected := Temp_i + Project_Temp_Grad.1
  let Temp_j_Corrected := Temp_j + Project_Temp_Grad.2
  let numerics := numerics.SetPrimitive Primitive_Flow_i Primitive_Flow_j
  let numerics := numerics.SetTemperature Temp_i_Corrected Temp_j_Corrected
  let out := ComputeResidual numerics config
  let Residual := out.1
  let Jacobian_i := out.2.1
  let Jacobian_j := out.2.2
  let LinSysRes := CSysVector.AddBlock s.LinSysRes iPoint Residual
  let LinSysRes := CSysVector.SubtractBlock LinSysRes jPoint Residual
  let Jacobian := CSysMatrix.AddBlock s.Jacobian iPoint iPoint Jacobian_i
  let Jacobian := CSysMatrix.AddBlock Jacobian iPoint jPoint Jacobian_j
  let Jacobian := CSysMatrix.SubtractBlock Jacobian jPoint iPoint Jacobian_i
  let Jacobian := CSysMatrix.SubtractBlock Jacobian jPoint jPoint Jacobian_j
  ({ s with
      Vector_i := Vector_i, Vector_j := Vector_j,
      Primitive_Flow_i := Primitive_Flow_i, Primitive_Flow_j := Primitive_Flow_j,
      Residual := Residual, Jacobian_i := Jacobian_i, Jacobian_j := Jacobian_j,
      LinSysRes := LinSysRes, Jacobian := Jacobian },
   numerics)

/-- The routine `CHeatSolver::Upwind_Residual` (lines 333-428): the convective edge loop,
run only when a flow field is coupled. It returns the solver and the numerics object
after the call. -/
def Upwind_Residual (geometry : CGeometry K) (flow_sol : CFlowSolver K)
    (numerics : CNumerics K) (ComputeResidual : ComputeResidualFn K) (config : CConfig K)
    (s : CHeatSolver K) : CHeatSolver K × CNumerics K :=
  if flow config then
    geometry.edge.foldl (Upwind_Residual_edge geometry flow_sol ComputeResidual config)
      ({ s with nVarFlow := flow_sol.nVar }, numerics)
  else
    (s, numerics)

/-- Body of the edge loop of `Viscous_Residual` (lines 442-490) for one edge. -/
def Viscous_Residual_edge (geometry : CGeometry K) (flow_sol : CFlowSolver K)
    (ComputeResidual : ComputeResidualFn K) (config : CConfig K)
    (st : CHeatSolver K × CNumerics K) (e : CEdge K) : CHeatSolver K × CNumerics K :=
  let s := st.1
  let numerics := st.2
  let laminar_viscosity := config.Viscosity_FreeStreamND
  let Prandtl_Lam := config.Prandtl_Lam
  let Prandtl_Turb := config.Prandtl_Turb
  let iPoint := e.Node0
  let jPoint := e.Node1
  let numerics := numerics.SetCoord (geometry.node iPoint).Coord (geometry.node jPoint).Coord
  let numerics := numerics.SetNormal e.Normal
  let Temp_i_Grad := s.Gradient iPoint
  let Temp_j_Grad := s.Gradient jPoint
  let numerics := numerics.SetConsVarGradient Temp_i_Grad Temp_j_Grad
  let Temp_i := s.Solution iPoint
  let Temp_j := s.Solution jPoint
  let numerics := numerics.SetTemperature Temp_i Temp_j
  let thermal_diffusivity : K × K :=
    if flow config then
      let eddy_viscosity_i := flow_sol.EddyViscosity iPoint
      let eddy_viscosity_j := flow_sol.EddyViscosity jPoint
      ((laminar_viscosity / Prandtl_Lam) + (eddy_viscosity_i / Prandtl_Turb),
       (laminar_viscosity / Prandtl_Lam) + (eddy_viscosity_j / Prandtl_Turb))
    else
      (config.ThermalDiffusivity_Solid, config.ThermalDiffusivity_Solid)
  let numerics := numerics.SetThermalDiffusivity thermal_diffusivity.1 thermal_diffusivity.2
  let out := ComputeResidual numerics config
  let Residual := out.1
  let Jacobian_i := out.2.1
  let Jacobian_j := out.2.2
  let LinSysRes := CSysVector.SubtractBlock s.LinSysRes iPoint Residual
  let LinSysRes := CSysVector.AddBlock LinSysRes jPoint Residual
  let Jacobian := CSysMatrix.SubtractBlock s.Jacobian iPoint iPoint Jacobian_i
  let Jacobian := CSysMatrix.SubtractBlock Jacobian iPoint jPoint Jacobian_j
  let Jacobian := CSysMatrix.AddBlock Jacobian jPoint iPoint Jacobian_i
  let Jacobian := CSysMatrix.AddBlock Jacobian jPoint jPoint Jacobian_j
  ({ s with
      Residual := Residual, Jacobian_i := Jacobian_i, Jacobian_j := Jacobian_j,
      LinSysRes := LinSysRes, Jacobian := Jacobian },
   numerics)

/-- The routine `CHeatSolver::Viscous_Residual` (lines 430-491): the diffusive edge loop. -/
def Viscous_Residual (geometry : CGeometry K) (flow_sol : CFlowSolver K)
    (numerics : CNumerics K) (ComputeResidual : ComputeResidualFn K) (config : CConfig K)
    (s : CHeatSolver K) : CHeatSolver K × CNumerics K :=
  geometry.edge.foldl (Viscous_Residual_edge geometry flow_sol ComputeResidual config)
    (s, numerics)

/-- Body of the vertex loop of `BC_Isothermal_Wall` (lines 511-555) for one vertex.
`sqrt` is the square root of the C library, `Twall` the wall temperature computed before
the loop. The global Jacobian is updated outside the `if (implicit)` block, as in the
source (line 552). -/
def BC_Isothermal_Wall_vertex (sqrt : K → K) (geometry : CGeometry K)
    (flow_sol : CFlowSolver K) (config : CConfig K) (Twall : K)
    (s : CHeatSolver K) (v : CVertex K) : CHeatSolver K :=
  let Prandtl_Lam := config.Prandtl_Lam
  let Prandtl_Turb := config.Prandtl_Turb
  let laminar_viscosity := config.Viscosity_FreeStreamND
  let iPoint := v.Node
  if (geometry.node iPoint).Domain then
    let Point_Normal := v.Normal_Neighbor
    let Normal := v.Normal
    let Area := (List.range s.nDim).foldl (fun a iDim => a + Normal iDim * Normal iDim) 0
    let Area := sqrt Area
    let Coord_i := (geometry.node iPoint).Coord
    let Coord_j := (geometry.node Point_Normal).Coord
    let dist_ij := (List.range s.nDim).foldl
      (fun d iDim => d + (Coord_j iDim - Coord_i iDim) * (Coord_j iDim - Coord_i iDim)) 0
    let dist_ij := sqrt dist_ij
    let dTdn := -(s.Solution Point_Normal - Twall) / dist_ij
    let thermal_diffusivity :=
      if flow config then
        let eddy_viscosity := flow_sol.EddyViscosity iPoint
        eddy_viscosity / Prandtl_Turb + laminar_viscosity / Prandtl_Lam
      else
        config.ThermalDiffusivity_Solid
    let Res_Visc := thermal_diffusivity * dTdn * Area
    let Jacobian_i :=
      if implicit config then -thermal_diffusivity / dist_ij * Area else s.Jacobian_i
    { s with
        Res_Visc := Res_Visc, Jacobian_i := Jacobian_i,
        LinSysRes := CSysVector.SubtractBlock s.LinSysRes iPoint Res_Visc,
        Jacobian := CSysMatrix.SubtractBlock s.Jacobian iPoint iPoint Jacobian_i }
  else
    s

/-- The routine `CHeatSolver::BC_Isothermal_Wall` (lines 494-556). -/
def BC_Isothermal_Wall (sqrt : K → K) (geometry : CGeometry K) (flow_sol : CFlowSolver K)
    (config : CConfig K) (val_marker : Nat) (s : CHeatSolver K) : CHeatSolver K :=
  let Marker_Tag := config.Marker_All_TagBound val_marker
  let Twall := config.Isothermal_Temperature Marker_Tag / config.Temperature_Ref
  (geometry.vertex val_marker).foldl
    (BC_Isothermal_Wall_vertex sqrt geometry flow_sol config Twall) s

/-- The loop `for (iVertex = 0; iVertex < nVertex; iVertex++)` over the vertices of a
marker, for a body that reads the index `iVertex` as well as the vertex. -/
def vertexLoop {σ : Type} (body : σ → Nat → CVertex K → σ) (vs : List (CVertex K)) (st : σ) :
    σ :=
  vs.enum.foldl (fun st iv => body st iv.1 iv.2) st

/-- Body of the vertex loop of `BC_HeatFlux_Wall` (lines 575-596) for one vertex;
`Wall_HeatFlux` is the flux computed before the loop. The assignment `Res_Visc[0] = 0.0`
of line 587 is overwritten by the next line. -/
def BC_HeatFlux_Wall_vertex (sqrt : K → K) (geometry : CGeometry K) (Wall_HeatFlux : K)
    (s : CHeatSolver K) (v : CVertex K) : CHeatSolver K :=
  let iPoint := v.Node
  if (geometry.node iPoint).Domain then
    let Normal := v.Normal
    let Area := (List.range s.nDim).foldl (fun a iDim => a + Normal iDim * Normal iDim) 0
    let Area := sqrt Area
    let Res_Visc := Wall_HeatFlux * Area
    { s with
        Res_Visc := Res_Visc,
        LinSysRes := CSysVector.SubtractBlock s.LinSysRes iPoint Res_Visc }
  else
    s

/-- The routine `CHeatSolver::BC_HeatFlux_Wall` (lines 558-597). -/
def BC_HeatFlux_Wall (sqrt : K → K) (geometry : CGeometry K) (config : CConfig K)
    (val_marker : Nat) (s : CHeatSolver K) : CHeatSolver K :=
  let Marker_Tag := config.Marker_All_TagBound val_marker
  let Wall_HeatFlux := config.Wall_HeatFlux Marker_Tag
  let Wall_HeatFlux :=
    if !flow config then
      let rho_cp := config.Density_Solid * config.SpecificHeat_Solid
      Wall_HeatFlux / rho_cp
    else
      Wall_HeatFlux
  (geometry.vertex val_marker).foldl (BC_HeatFlux_Wall_vertex sqrt geometry Wall_HeatFlux) s

/-- The block `if(flow)` of `BC_Inlet` (lines 630-668): the convective inflow term.
`Normal` is the negated normal of the vertex. -/
def BC_Inlet_convective (geometry : CGeometry K) (ComputeResidual : ComputeResidualFn K)
    (config : CConfig K) (val_marker : Nat) (Normal : Nat → K)
    (st : BCLoopState K) (iVertex : Nat) (v : CVertex K) : BCLoopState K :=
  let s := st.solver
  let Marker_Tag := config.Marker_All_TagBound val_marker
  let iPoint := v.Node
  let conv_numerics := st.conv_numerics.SetNormal Normal
  let V_domain := st.flow_sol.Primitive iPoint
  let Vel_Mag := config.Inlet_Ptotal Marker_Tag / config.Velocity_Ref
  let Flow_Dir := config.Inlet_FlowDir Marker_Tag
  let V_inlet := (List.range s.nDim).foldl
    (fun V iDim => Function.update V (iDim + 1) (Vel_Mag * Flow_Dir iDim))
    (st.flow_sol.CharacPrimVar val_marker iVertex)
  let flow_sol := { st.flow_sol with
    CharacPrimVar := fun iMarker jVertex =>
      if iMarker = val_marker ∧ jVertex = iVertex then V_inlet
      else st.flow_sol.CharacPrimVar iMarker jVertex }
  let conv_numerics := conv_numerics.SetPrimitive V_domain V_inlet
  let conv_numerics :=
    if config.Grid_Movement then
      conv_numerics.SetGridVel (geometry.node iPoint).GridVel (geometry.node iPoint).GridVel
    else conv_numerics
  let conv_numerics :=
    conv_numerics.SetTemperature (s.Solution iPoint) config.Temperature_FreeStreamND
  let out := ComputeResidual conv_numerics config
  let Residual := out.1
  let Jacobian_i := out.2.1
  let Jacobian_j := out.2.2
  let LinSysRes := CSysVector.AddBlock s.LinSysRes iPoint Residual
  let Jacobian :=
    if implicit config then CSysMatrix.AddBlock s.Jacobian iPoint iPoint Jacobian_i
    else s.Jacobian
  { st with
      solver := { s with
        Residual := Residual, Jacobian_i := Jacobian_i, Jacobian_j := Jacobian_j,
        LinSysRes := LinSysRes, Jacobian := Jacobian },
      conv_numerics := conv_numerics,
      flow_sol := flow_sol }

/-- The block `if (viscous && false)` of `BC_Inlet` (lines 672-705): a call of the
viscous numerics, at the value `Point_Normal` has kept from the previous vertex. -/
def BC_Inlet_viscous (geometry : CGeometry K) (ComputeResidual : ComputeResidualFn K)
    (config : CConfig K) (Normal : Nat → K)
    (st : BCLoopState K) (v : CVertex K) : BCLoopState K :=
  let s := st.solver
  let iPoint := v.Node
  let visc_numerics := st.visc_numerics.SetNormal Normal
  let visc_numerics := visc_numerics.SetCoord (geometry.node iPoint).Coord
    (geometry.node st.Point_Normal).Coord
  let visc_numerics := visc_numerics.SetConsVarGradient (s.Gradient iPoint) (s.Gradient iPoint)
  let visc_numerics :=
    visc_numerics.SetTemperature (s.Solution iPoint) config.Temperature_FreeStreamND
  let visc_numerics := visc_numerics.SetLaminarViscosity config.Viscosity_FreeStreamND
    config.Viscosity_FreeStreamND
  let visc_numerics :=
    if false then
      visc_numerics.SetEddyViscosity (st.flow_sol.EddyViscosity iPoint)
        (st.flow_sol.EddyViscosity iPoint)
    else
      visc_numerics.SetEddyViscosity 0 0
  let out := ComputeResidual visc_numerics config
  let Residual := out.1
  let Jacobian_i := out.2.1
  let Jacobian_j := out.2.2
  let LinSysRes := CSysVector.SubtractBlock s.LinSysRes iPoint Residual
  let Jacobian :=
    if implicit config then CSysMatrix.SubtractBlock s.Jacobian iPoint iPoint Jacobian_i
    else s.Jacobian
  { st with
      solver := { s with
        Residual := Residual, Jacobian_i := Jacobian_i, Jacobian_j := Jacobian_j,
        LinSysRes := LinSysRes, Jacobian := Jacobian },
      visc_numerics := visc_numerics }

/-- The block `if (viscous || true)` of `BC_Inlet` (lines 707-745): the diffusive anchor
towards the freestream temperature `Twall`, on the solver alone. As in the source the
eddy viscosity is taken as zero and the global Jacobian is updated outside the
`if(implicit)` block (line 743). -/
def BC_Inlet_anchor (sqrt : K → K) (geometry : CGeometry K) (flow_sol : CFlowSolver K)
    (config : CConfig K) (Twall : K) (s : CHeatSolver K) (v : CVertex K) : CHeatSolver K :=
  let Prandtl_Lam := config.Prandtl_Lam
  let Prandtl_Turb := config.Prandtl_Turb
  let laminar_viscosity := config.Viscosity_FreeStreamND
  let iPoint := v.Node
  let Point_Normal := v.Normal_Neighbor
  let Normal := v.Normal
  let Area := (List.range s.nDim).foldl (fun a iDim => a + Normal iDim * Normal iDim) 0
  let Area := sqrt Area
  let Coord_i := (geometry.node iPoint).Coord
  let Coord_j := (geometry.node Point_Normal).Coord
  let dist_ij := (List.range s.nDim).foldl
    (fun d iDim => d + (Coord_j iDim - Coord_i iDim) * (Coord_j iDim - Coord_i iDim)) 0
  let dist_ij := sqrt dist_ij
  let dTdn := -(s.Solution Point_Normal - Twall) / dist_ij
  let eddy_viscosity : K := if false then flow_sol.EddyViscosity iPoint else 0
  let thermal_conductivity := eddy_viscosity / Prandtl_Turb + laminar_viscosity / Prandtl_Lam
  let Res_Visc := thermal_conductivity * dTdn * Area
  let Jacobian_i :=
    if implicit config then -thermal_conductivity / dist_ij * Area else s.Jacobian_i
  { s with
      Res_Visc := Res_Visc, Jacobian_i := Jacobian_i,
      LinSysRes := CSysVector.SubtractBlock s.LinSysRes iPoint Res_Visc,
      Jacobian := CSysMatrix.SubtractBlock s.Jacobian iPoint iPoint Jacobian_i }

/-- Body of the vertex loop of `BC_Inlet` (lines 621-747) for one vertex. -/
def BC_Inlet_vertex (sqrt : K → K) (geometry : CGeometry K)
    (CRconv CRvisc : ComputeResidualFn K) (config : CConfig K) (val_marker : Nat)
    (st : BCLoopState K) (iVertex : Nat) (v : CVertex K) : BCLoopState K :=
  let viscous := config.Viscous
  let Twall := config.Temperature_FreeStreamND
  let iPoint := v.Node
  if (geometry.node iPoint).Domain then
    let Normal := (List.range st.solver.nDim).foldl
      (fun N iDim => Function.update N iDim (-(N iDim))) v.Normal
    let st :=
      if flow config then BC_Inlet_convective geometry CRconv config val_marker Normal st iVertex v
      else st
    let st :=
      if viscous && false then BC_Inlet_viscous geometry CRvisc config Normal st v
      else st
    if viscous || true then
      { st with
          solver := BC_Inlet_anchor sqrt geometry st.flow_sol config Twall st.solver v,
          Point_Normal := v.Normal_Neighbor }
    else st
  else
    st

/-- The routine `CHeatSolver::BC_Inlet` (lines 599-752). -/
def BC_Inlet (sqrt : K → K) (geometry : CGeometry K) (CRconv CRvisc : ComputeResidualFn K)
    (config : CConfig K) (val_marker : Nat) (st : BCLoopState K) : BCLoopState K :=
  vertexLoop (BC_Inlet_vertex sqrt geometry CRconv CRvisc config val_marker)
    (geometry.vertex val_marker) st

/-- The block `if(flow)` of `BC_Outlet` (lines 782-814): the convective outflow term, the
velocity being copied from the interior neighbour. -/
def BC_Outlet_convective (geometry : CGeometry K) (ComputeResidual : ComputeResidualFn K)
    (config : CConfig K) (val_marker : Nat) (Normal : Nat → K)
    (st : BCLoopState K) (iVertex : Nat) (v : CVertex K) : BCLoopState K :=
  let s := st.solver
  let iPoint := v.Node
  let Point_Normal := st.Point_Normal
  let conv_numerics := st.conv_numerics.SetNormal Normal
  let V_domain := st.flow_sol.Primitive iPoint
  let V_outlet := (List.range s.nDim).foldl
    (fun V iDim => Function.update V (iDim + 1) (st.flow_sol.Primitive Point_Normal (iDim + 1)))
    (st.flow_sol.CharacPrimVar val_marker iVertex)
  let flow_sol := { st.flow_sol with
    CharacPrimVar := fun iMarker jVertex =>
      if iMarker = val_marker ∧ jVertex = iVertex then V_outlet
      else st.flow_sol.CharacPrimVar iMarker jVertex }
  let conv_numerics := conv_numerics.SetPrimitive V_domain V_outlet
  let conv_numerics :=
    if config.Grid_Movement then
      conv_numerics.SetGridVel (geometry.node iPoint).GridVel (geometry.node iPoint).GridVel
    else conv_numerics
  let conv_numerics :=
    conv_numerics.SetTemperature (s.Solution iPoint) (s.Solution Point_Normal)
  let out := ComputeResidual conv_numerics config
  let Residual := out.1
  let Jacobian_i := out.2.1
  let Jacobian_j := out.2.2
  let LinSysRes := CSysVector.AddBlock s.LinSysRes iPoint Residual
  let Jacobian :=
    if implicit config then CSysMatrix.AddBlock s.Jacobian iPoint iPoint Jacobian_i
    else s.Jacobian
  { st with
      solver := { s with
        Residual := Residual, Jacobian_i := Jacobian_i, Jacobian_j := Jacobian_j,
        LinSysRes := LinSysRes, Jacobian := Jacobian },
      conv_numerics := conv_numerics,
      flow_sol := flow_sol }

/-- The block `if (false)` of `BC_Outlet` (lines 819-850): a call of the viscous
numerics. -/
def BC_Outlet_viscous (geometry : CGeometry K) (ComputeResidual : ComputeResidualFn K)
    (config : CConfig K) (Normal : Nat → K)
    (st : BCLoopState K) (v : CVertex K) : BCLoopState K :=
  let s := st.solver
  let iPoint := v.Node
  let Point_Normal := st.Point_Normal
  let visc_numerics := st.visc_numerics.SetNormal Normal
  let visc_numerics := visc_numerics.SetCoord (geometry.node iPoint).Coord
    (geometry.node Point_Normal).Coord
  let visc_numerics := visc_numerics.SetConsVarGradient (s.Gradient iPoint) (s.Gradient iPoint)
  let visc_numerics := visc_numerics.SetTemperature (s.Solution iPoint) (s.Solution iPoint)
  let visc_numerics := visc_numerics.SetLaminarViscosity config.Viscosity_FreeStreamND
    config.Viscosity_FreeStreamND
  let visc_numerics :=
    if flow config then
      visc_numerics.SetEddyViscosity (st.flow_sol.EddyViscosity iPoint)
        (st.flow_sol.EddyViscosity Point_Normal)
    else
      visc_numerics.SetEddyViscosity 0 0
  let out := ComputeResidual visc_numerics config
  let Residual := out.1
  let Jacobian_i := out.2.1
  let Jacobian_j := out.2.2
  let LinSysRes := CSysVector.SubtractBlock s.LinSysRes iPoint Residual
  let Jacobian :=
    if implicit config then CSysMatrix.SubtractBlock s.Jacobian iPoint iPoint Jacobian_i
    else s.Jacobian
  { st with
      solver := { s with
        Residual := Residual, Jacobian_i := Jacobian_i, Jacobian_j := Jacobian_j,
        LinSysRes := LinSysRes, Jacobian := Jacobian },
      visc_numerics := visc_numerics }

/-- Body of the vertex loop of `BC_Outlet` (lines 769-852) for one vertex. -/
def BC_Outlet_vertex (geometry : CGeometry K)
    (CRconv CRvisc : ComputeResidualFn K) (config : CConfig K) (val_marker : Nat)
    (st : BCLoopState K) (iVertex : Nat) (v : CVertex K) : BCLoopState K :=
  let iPoint := v.Node
  if (geometry.node iPoint).Domain then
    let st := { st with Point_Normal := v.Normal_Neighbor }
    let Normal := (List.range st.solver.nDim).foldl
      (fun N iDim => Function.update N iDim (-(N iDim))) v.Normal
    let st :=
      if flow config then
        BC_Outlet_convective geometry CRconv config val_marker Normal st iVertex v
      else st
    if false then BC_Outlet_viscous geometry CRvisc config Normal st v
    else st
  else
    st

/-- The routine `CHeatSolver::BC_Outlet` (lines 754-857). -/
def BC_Outlet (geometry : CGeometry K) (CRconv CRvisc : ComputeResidualFn K)
    (config : CConfig K) (val_marker : Nat) (st : BCLoopState K) : BCLoopState K :=
  vertexLoop (BC_Outlet_vertex geometry CRconv CRvisc config val_marker)
    (geometry.vertex val_marker) st

/-- Body of the vertex loop of the flow branch of `BC_ConjugateTFFB_Interface`
(lines 891-936) for one vertex of the marker `iMarker`. The aggregates `maxTemperature`,
`maxHeatFluxDensity` and `HeatFluxIntegral` are local variables that are only printed;
they are left out. The global Jacobian is updated outside the `if(implicit)` block, as
in the source (line 933). -/
def BC_ConjugateTFFB_Interface_flow_vertex (sqrt : K → K) (geometry : CGeometry K)
    (config : CConfig K) (iMarker : Nat)
    (s : CHeatSolver K) (iVertex : Nat) (v : CVertex K) : CHeatSolver K :=
  let Prandtl_Lam := config.Prandtl_Lam
  let laminar_viscosity := config.Viscosity_FreeStreamND
  let iPoint := v.Node
  if (geometry.node iPoint).Domain then
    let Twall := s.ConjugateVar iMarker iVertex 0
    let Point_Normal := v.Normal_Neighbor
    let Normal := v.Normal
    let Area := (List.range s.nDim).foldl (fun a iDim => a + Normal iDim * Normal iDim) 0
    let Area := sqrt Area
    let Coord_i := (geometry.node iPoint).Coord
    let Coord_j := (geometry.node Point_Normal).Coord
    let dist_ij := (List.range s.nDim).foldl
      (fun d iDim => d + (Coord_j iDim - Coord_i iDim) * (Coord_j iDim - Coord_i iDim)) 0
    let dist_ij := sqrt dist_ij
    let dTdn := -(s.Solution Point_Normal - Twall) / dist_ij
    let thermal_conductivity := laminar_viscosity / Prandtl_Lam
    let HeatFluxDensity := thermal_conductivity * dTdn
    let HeatFluxValue := HeatFluxDensity * Area
    let Res_Visc := HeatFluxValue
    let Jacobian_i :=
      if implicit config then -thermal_conductivity / dist_ij * Area else s.Jacobian_i
    { s with
        Res_Visc := Res_Visc, Jacobian_i := Jacobian_i,
        LinSysRes := CSysVector.SubtractBlock s.LinSysRes iPoint Res_Visc,
        Jacobian := CSysMatrix.SubtractBlock s.Jacobian iPoint iPoint Jacobian_i }
  else
    s

/-- Body of the vertex loop of the solid branch of `BC_ConjugateTFFB_Interface`
(lines 955-977) for one vertex of the marker `iMarker`; the printed aggregates are left
out as in the flow branch. -/
def BC_ConjugateTFFB_Interface_solid_vertex (sqrt : K → K) (geometry : CGeometry K)
    (iMarker : Nat) (s : CHeatSolver K) (iVertex : Nat) (v : CVertex K) : CHeatSolver K :=
  let iPoint := v.Node
  if (geometry.node iPoint).Domain then
    let HeatFluxDensity := s.ConjugateVar iMarker iVertex 1
    let Normal := v.Normal
    let Area := (List.range s.nDim).foldl (fun a iDim => a + Normal iDim * Normal iDim) 0
    let Area := sqrt Area
    let HeatFluxValue := HeatFluxDensity * Area
    let Res_Visc := -HeatFluxValue
    { s with
        Res_Visc := Res_Visc,
        LinSysRes := CSysVector.SubtractBlock s.LinSysRes iPoint Res_Visc }
  else
    s

/-- The routine `CHeatSolver::BC_ConjugateTFFB_Interface` (lines 859-982): over every
marker of kind `CHT_WALL_INTERFACE`, the flow branch in flow mode and the solid branch in
solid conduction mode. -/
def BC_ConjugateTFFB_Interface (sqrt : K → K) (geometry : CGeometry K) (config : CConfig K)
    (s : CHeatSolver K) : CHeatSolver K :=
  if flow config then
    (List.range config.nMarker_All).foldl
      (fun s iMarker =>
        if config.Marker_All_KindBC iMarker = BC_TYPE.CHT_WALL_INTERFACE then
          vertexLoop (BC_ConjugateTFFB_Interface_flow_vertex sqrt geometry config iMarker)
            (geometry.vertex iMarker) s
        else s)
      s
  else
    (List.range config.nMarker_All).foldl
      (fun s iMarker =>
        if config.Marker_All_KindBC iMarker = BC_TYPE.CHT_WALL_INTERFACE then
          vertexLoop (BC_ConjugateTFFB_Interface_solid_vertex sqrt geometry iMarker)
            (geometry.vertex iMarker) s
        else s)
      s

/-- The thermal diffusivity used by the loops of `SetTime_Step` at the point `iPoint`:
the local variable `thermal_diffusivity` starts as the solid constant (line 1092) and, in
flow mode, is reassigned before every use (lines 1113-1116 and 1134-1137). -/
def SetTime_Step_diffusivity (flow_sol : CFlowSolver K) (config : CConfig K) (iPoint : Nat) :
    K :=
  let laminar_viscosity := config.Viscosity_FreeStreamND
  let Prandtl_Lam := config.Prandtl_Lam
  let Prandtl_Turb := config.Prandtl_Turb
  if flow config then
    let eddy_viscosity := flow_sol.EddyViscosity iPoint
    laminar_viscosity / Prandtl_Lam + eddy_viscosity / Prandtl_Turb
  else
    config.ThermalDiffusivity_Solid

/-- The accessor `AddMax_Lambda_Visc` applied to the point `iPoint` when the point is
domain-owned (lines 1120, 1121 and 1140). -/
def AddMax_Lambda_Visc (geometry : CGeometry K) (s : CHeatSolver K) (iPoint : Nat)
    (Lambda : K) : CHeatSolver K :=
  if (geometry.node iPoint).Domain then
    { s with
        Max_Lambda_Visc :=
          Function.update s.Max_Lambda_Visc iPoint (s.Max_Lambda_Visc iPoint + Lambda) }
  else s

/-- Body of the edge loop of `SetTime_Step` (lines 1104-1123) for one edge. -/
def SetTime_Step_edge (sqrt : K → K) (geometry : CGeometry K) (flow_sol : CFlowSolver K)
    (config : CConfig K) (s : CHeatSolver K) (e : CEdge K) : CHeatSolver K :=
  let iPoint := e.Node0
  let jPoint := e.Node1
  let Normal := e.Normal
  let Area := (List.range s.nDim).foldl (fun a iDim => a + Normal iDim * Normal iDim) 0
  let Area := sqrt Area
  let thermal_diffusivity := SetTime_Step_diffusivity flow_sol config iPoint
  let Lambda := thermal_diffusivity * Area * Area
  let s := AddMax_Lambda_Visc geometry s iPoint Lambda
  AddMax_Lambda_Visc geometry s jPoint Lambda

/-- Body of the boundary loop of `SetTime_Step` (lines 1126-1142) for one vertex. -/
def SetTime_Step_vertex (sqrt : K → K) (geometry : CGeometry K) (flow_sol : CFlowSolver K)
    (config : CConfig K) (s : CHeatSolver K) (v : CVertex K) : CHeatSolver K :=
  let iPoint := v.Node
  let Normal := v.Normal
  let Area := (List.range s.nDim).foldl (fun a iDim => a + Normal iDim * Normal iDim) 0
  let Area := sqrt Area
  let thermal_diffusivity := SetTime_Step_diffusivity flow_sol config iPoint
  let Lambda := thermal_diffusivity * Area * Area
  AddMax_Lambda_Visc geometry s iPoint Lambda

/-- Body of the point loop of `SetTime_Step` (lines 1147-1167) for one point;
`1000000` is the constant `1.E6`. The quotient `CFL*K_v*Vol*Vol / Max_Lambda_Visc` is the
one of the field: it is the quotient of the source when the spectral radius of the point
is not zero, and the statements about the value of the time step assume so. -/
def SetTime_Step_point (geometry : CGeometry K) (config : CConfig K) (iMesh : Nat)
    (s : CHeatSolver K) (iPoint : Nat) : CHeatSolver K :=
  let K_v : K := 0.25
  let Vol := (geometry.node iPoint).Volume
  if Vol ≠ 0 then
    let Local_Delta_Time : K := 1000000
    let Local_Delta_Time_Visc :=
      config.CFL iMesh * K_v * Vol * Vol / s.Max_Lambda_Visc iPoint
    let Local_Delta_Time := min Local_Delta_Time Local_Delta_Time_Visc
    let Min_Delta_Time := min s.Min_Delta_Time Local_Delta_Time
    let Max_Delta_Time := max s.Max_Delta_Time Local_Delta_Time
    let Local_Delta_Time :=
      if Local_Delta_Time > config.Max_DeltaTime then config.Max_DeltaTime
      else Local_Delta_Time
    { s with
        Min_Delta_Time := Min_Delta_Time, Max_Delta_Time := Max_Delta_Time,
        Delta_Time := Function.update s.Delta_Time iPoint Local_Delta_Time }
  else
    { s with Delta_Time := Function.update s.Delta_Time iPoint 0 }

/-- The three loops of `SetTime_Step` that compute the spectral radius (lines 1098-1143):
the reset over the domain points, the interior edges, the boundary vertices. -/
def SetTime_Step_spectral (sqrt : K → K) (geometry : CGeometry K) (flow_sol : CFlowSolver K)
    (config : CConfig K) (s : CHeatSolver K) : CHeatSolver K :=
  let s := (List.range s.nPointDomain).foldl
    (fun s iPoint =>
      { s with
          Max_Lambda_Inv := Function.update s.Max_Lambda_Inv iPoint 0,
          Max_Lambda_Visc := Function.update s.Max_Lambda_Visc iPoint 0 })
    s
  let s := geometry.edge.foldl (SetTime_Step_edge sqrt geometry flow_sol config) s
  (List.range geometry.nMarker).foldl
    (fun s iMarker =>
      (geometry.vertex iMarker).foldl (SetTime_Step_vertex sqrt geometry flow_sol config) s)
    s

/-- The routine `CHeatSolver::SetTime_Step` (lines 1079-1168). -/
def SetTime_Step (sqrt : K → K) (geometry : CGeometry K) (flow_sol : CFlowSolver K)
    (config : CConfig K) (iMesh : Nat) (s : CHeatSolver K) : CHeatSolver K :=
  let s := { s with Min_Delta_Time := 1000000, Max_Delta_Time := 0 }
  let s := SetTime_Step_spectral sqrt geometry flow_sol config s
  (List.range s.nPointDomain).foldl (SetTime_Step_point geometry config iMesh) s

/-- The routine `CHeatSolver::Preprocessing` (lines 308-326): the reset of the residual
vector over all `nPoint` points, the reset of the Jacobian, and the gradient
reconstruction selected by the configuration. `SetSolution_Gradient_GG` and
`SetSolution_Gradient_LS` are the two reconstructions of the base solver. -/
def Preprocessing (SetSolution_Gradient_GG SetSolution_Gradient_LS : SetSolution_GradientFn K)
    (geometry : CGeometry K) (config : CConfig K) (s : CHeatSolver K) : CHeatSolver K :=
  let s := (List.range s.nPoint).foldl
    (fun s iPoint => { s with LinSysRes := CSysVector.SetBlock_Zero s.LinSysRes iPoint }) s
  let s := { s with Jacobian := CSysMatrix.SetValZero s.Jacobian }
  let s :=
    if config.Kind_Gradient_Method = ENUM_GRADIENT.GREEN_GAUSS then
      { s with Gradient := SetSolution_Gradient_GG geometry config s }
    else s
  let s :=
    if config.Kind_Gradient_Method = ENUM_GRADIENT.WEIGHTED_LEAST_SQUARES then
      { s with Gradient := SetSolution_Gradient_LS geometry config s }
    else s
  s

/-- Body of the vertex loop of the `ISOTHERMAL` branch of `Heat_Fluxes` (lines 1009-1030)
for one vertex of the marker `iMarker`. The source does not test `GetDomain()` here. -/
def Heat_Fluxes_isothermal_vertex (sqrt : K → K) (geometry : CGeometry K)
    (flow_sol : CFlowSolver K) (config : CConfig K) (iMarker : Nat) (Twall : K)
    (s : CHeatSolver K) (v : CVertex K) : CHeatSolver K :=
  let iPoint := v.Node
  let iPointNormal := v.Normal_Neighbor
  let Coord := (geometry.node iPoint).Coord
  let Coord_Normal := (geometry.node iPointNormal).Coord
  let Normal := v.Normal
  let Area := (List.range s.nDim).foldl (fun a iDim => a + Normal iDim * Normal iDim) 0
  let Area := sqrt Area
  let dist := (List.range s.nDim).foldl
    (fun d iDim =>
      d + (Coord_Normal iDim - Coord iDim) * (Coord_Normal iDim - Coord iDim)) 0
  let dist := sqrt dist
  let dTdn := (Twall - s.Solution iPointNormal) / dist
  let eddy_viscosity := flow_sol.EddyViscosity iPoint
  let thermal_conductivity :=
    config.Viscosity_FreeStreamND / config.Prandtl_Lam + eddy_viscosity / config.Prandtl_Turb
  { s with
      Heat_Flux := Function.update s.Heat_Flux iMarker
        (s.Heat_Flux iMarker + thermal_conductivity * dTdn * Area) }

/-- Body of the vertex loop of the `CHT_WALL_INTERFACE` branch of `Heat_Fluxes`
(lines 1034-1057) for one vertex of the marker `iMarker`: the wall temperature is the
temperature of the point of the vertex. The source does not test `GetDomain()` here. -/
def Heat_Fluxes_interface_vertex (sqrt : K → K) (geometry : CGeometry K)
    (flow_sol : CFlowSolver K) (config : CConfig K) (iMarker : Nat)
    (s : CHeatSolver K) (v : CVertex K) : CHeatSolver K :=
  let iPoint := v.Node
  let iPointNormal := v.Normal_Neighbor
  let Twall := s.Solution iPoint
  let Coord := (geometry.node iPoint).Coord
  let Coord_Normal := (geometry.node iPointNormal).Coord
  let Normal := v.Normal
  let Area := (List.range s.nDim).foldl (fun a iDim => a + Normal iDim * Normal iDim) 0
  let Area := sqrt Area
  let dist := (List.range s.nDim).foldl
    (fun d iDim =>
      d + (Coord_Normal iDim - Coord iDim) * (Coord_Normal iDim - Coord iDim)) 0
  let dist := sqrt dist
  let dTdn := (Twall - s.Solution iPointNormal) / dist
  let eddy_viscosity := flow_sol.EddyViscosity iPoint
  let thermal_conductivity :=
    config.Viscosity_FreeStreamND / config.Prandtl_Lam + eddy_viscosity / config.Prandtl_Turb
  { s with
      Heat_Flux := Function.update s.Heat_Flux iMarker
        (s.Heat_Flux iMarker + thermal_conductivity * dTdn * Area) }

/-- Body of the marker loop of `Heat_Fluxes` (lines 997-1065) for one marker. -/
def Heat_Fluxes_marker (sqrt : K → K) (geometry : CGeometry K) (flow_sol : CFlowSolver K)
    (config : CConfig K) (s : CHeatSolver K) (iMarker : Nat) : CHeatSolver K :=
  let Boundary := config.Marker_All_KindBC iMarker
  let Marker_Tag := config.Marker_All_TagBound iMarker
  let Monitoring := config.Marker_All_Monitoring iMarker
  let s := { s with Heat_Flux := Function.update s.Heat_Flux iMarker 0 }
  let s :=
    if Boundary = BC_TYPE.ISOTHERMAL ∧ Monitoring = true then
      let Twall := config.Isothermal_Temperature Marker_Tag / config.Temperature_Ref
      (geometry.vertex iMarker).foldl
        (Heat_Fluxes_isothermal_vertex sqrt geometry flow_sol config iMarker Twall) s
    else if Boundary = BC_TYPE.CHT_WALL_INTERFACE ∧ Monitoring = true then
      (geometry.vertex iMarker).foldl
        (Heat_Fluxes_interface_vertex sqrt geometry flow_sol config iMarker) s
    else s
  { s with AllBound_HeatFlux := s.AllBound_HeatFlux + s.Heat_Flux iMarker }

/-- The routine `CHeatSolver::Heat_Fluxes` (lines 984-1077) in a build without MPI, where
the total is the sum over the markers of this subdomain. -/
def Heat_Fluxes (sqrt : K → K) (geometry : CGeometry K) (flow_sol : CFlowSolver K)
    (config : CConfig K) (s : CHeatSolver K) : CHeatSolver K :=
  let s := { s with AllBound_HeatFlux := 0 }
  let s := (List.range s.nMarker).foldl (Heat_Fluxes_marker sqrt geometry flow_sol config) s
  { s with Total_HeatFlux := s.AllBound_HeatFlux }

/-- Body of the marker loop of `Set_MPI_Solution` (lines 1262-1312) for a sending marker
`iMarker`, in a build without MPI: the temperatures of the points of the sending marker
are packed in vertex order, copied to the receive buffer, whose length is the number of
vertices of the marker `iMarker + 1`, and unpacked into the points of that marker in
vertex order. A read past the end of the send buffer, which the source does when the
receiving marker has more vertices than the sending one, is given the value 0. -/
def Set_MPI_Solution_marker (geometry : CGeometry K) (s : CHeatSolver K) (iMarker : Nat) :
    CHeatSolver K :=
  let MarkerS := iMarker
  let MarkerR := iMarker + 1
  let nVertexR := (geometry.vertex MarkerR).length
  let Buffer_Send_U : List K := (geometry.vertex MarkerS).map (fun v => s.Solution v.Node)
  let Buffer_Receive_U : List K :=
    (List.range nVertexR).map (fun iVertex => Buffer_Send_U.getD iVertex 0)
  vertexLoop
    (fun s iVertex v =>
      { s with Solution := Function.update s.Solution v.Node (Buffer_Receive_U.getD iVertex 0) })
    (geometry.vertex MarkerR) s

/-- The marker loop of `Set_MPI_Solution` over a list of markers: a marker of kind
`SEND_RECEIVE` with a positive send/receive tag is a sending marker. -/
def Set_MPI_Solution_loop (geometry : CGeometry K) (config : CConfig K) (markers : List Nat)
    (s : CHeatSolver K) : CHeatSolver K :=
  markers.foldl
    (fun s iMarker =>
      if config.Marker_All_KindBC iMarker = BC_TYPE.SEND_RECEIVE
          ∧ 0 < config.Marker_All_SendRecv iMarker then
        Set_MPI_Solution_marker geometry s iMarker
      else s)
    s

/-- The routine `CHeatSolver::Set_MPI_Solution` (lines 1247-1318) in a build without MPI:
the markers below `config->GetnMarker_All()` in increasing order. -/
def Set_MPI_Solution (geometry : CGeometry K) (config : CConfig K) (s : CHeatSolver K) :
    CHeatSolver K :=
  Set_MPI_Solution_loop geometry config (List.range config.nMarker_All) s

/-- Body of the marker loop of `Set_MPI_Solution_Old` (lines 1336-1384) for a sending
marker, in a build without MPI: as `Set_MPI_Solution_marker`, on the previous
temperature. -/
def Set_MPI_Solution_Old_marker (geometry : CGeometry K) (s : CHeatSolver K) (iMarker : Nat) :
    CHeatSolver K :=
  let MarkerS := iMarker
  let MarkerR := iMarker + 1
  let nVertexR := (geometry.vertex MarkerR).length
  let Buffer_Send_U : List K := (geometry.vertex MarkerS).map (fun v => s.Solution_Old v.Node)
  let Buffer_Receive_U : List K :=
    (List.range nVertexR).map (fun iVertex => Buffer_Send_U.getD iVertex 0)
  vertexLoop
    (fun s iVertex v =>
      { s with
          Solution_Old :=
            Function.update s.Solution_Old v.Node (Buffer_Receive_U.getD iVertex 0) })
    (geometry.vertex MarkerR) s

/-- The marker loop of `Set_MPI_Solution_Old` over a list of markers. -/
def Set_MPI_Solution_Old_loop (geometry : CGeometry K) (config : CConfig K)
    (markers : List Nat) (s : CHeatSolver K) : CHeatSolver K :=
  markers.foldl
    (fun s iMarker =>
      if config.Marker_All_KindBC iMarker = BC_TYPE.SEND_RECEIVE
          ∧ 0 < config.Marker_All_SendRecv iMarker then
        Set_MPI_Solution_Old_marker geometry s iMarker
      else s)
    s

/-- The routine `CHeatSolver::Set_MPI_Solution_Old` (lines 1320-1388) in a build without
MPI: the markers below the member `nMarker` in increasing order. -/
def Set_MPI_Solution_Old (geometry : CGeometry K) (config : CConfig K) (s : CHeatSolver K) :
    CHeatSolver K :=
  Set_MPI_Solution_Old_loop geometry config (List.range s.nMarker) s

/-- Body of the first point loop of `ImplicitEuler_Iteration` (lines 1187-1214) for one
point below `nPointDomain`: the diagonal term, the sign change of the residual entry, the
zero initial guess and the accumulation of the squared residual. The quotients `Delta`
and `Delta_Flow` are those of the field: they are the quotients of the source when their
divisors are not zero, and the statements about the value of the diagonal term assume so;
`ImplicitEuler_Iteration_Delta` below makes the division explicit. -/
def ImplicitEuler_Iteration_point (geometry : CGeometry K) (flow_sol : CFlowSolver K)
    (config : CConfig K) (s : CHeatSolver K) (iPoint : Nat) : CHeatSolver K :=
  let Vol := (geometry.node iPoint).Volume
  let Jacobian :=
    if flow config then
      let Delta := Vol / s.Delta_Time iPoint
      let Delta_Flow := Vol / (config.CFLRedCoeff_Turb * flow_sol.Delta_Time iPoint)
      let Min_Delta := min Delta Delta_Flow
      CSysMatrix.AddVal2Diag s.Jacobian iPoint Min_Delta
    else
      let Delta := Vol / s.Delta_Time iPoint
      CSysMatrix.AddVal2Diag s.Jacobian iPoint Delta
  let total_index := iPoint
  let LinSysRes := Function.update s.LinSysRes total_index (-s.LinSysRes total_index)
  let LinSysSol := Function.update s.LinSysSol total_index 0
  let Res_RMS := s.Res_RMS + LinSysRes total_index * LinSysRes total_index
  { s with Jacobian := Jacobian, LinSysRes := LinSysRes, LinSysSol := LinSysSol,
           Res_RMS := Res_RMS }

/-- Body of the second point loop of `ImplicitEuler_Iteration` (lines 1218-1224) for one
point from `nPointDomain` on. -/
def ImplicitEuler_Iteration_ghost (s : CHeatSolver K) (iPoint : Nat) : CHeatSolver K :=
  let total_index := iPoint
  { s with
      LinSysRes := Function.update s.LinSysRes total_index 0,
      LinSysSol := Function.update s.LinSysSol total_index 0 }

/-- The part of `ImplicitEuler_Iteration` before the linear solve (lines 1178-1224): the
reset of the residual norms, the loop over the points below `nPointDomain` and the loop
over the points from `nPointDomain` to `nPoint`. -/
def ImplicitEuler_Iteration_system (geometry : CGeometry K) (flow_sol : CFlowSolver K)
    (config : CConfig K) (s : CHeatSolver K) : CHeatSolver K :=
  let s := { s with Res_RMS := 0, Res_Max := 0, Point_Max := 0 }
  let s := (List.range s.nPointDomain).foldl
    (ImplicitEuler_Iteration_point geometry flow_sol config) s
  (List.range' s.nPointDomain (s.nPoint - s.nPointDomain)).foldl ImplicitEuler_Iteration_ghost s

/-- The call `system.Solve(Jacobian, LinSysRes, LinSysSol, geometry, config)` of
`ImplicitEuler_Iteration` (line 1229). -/
def ImplicitEuler_Iteration_solve (Solve : SolveFn K) (geometry : CGeometry K)
    (config : CConfig K) (s : CHeatSolver K) : CHeatSolver K :=
  { s with LinSysSol := Solve s.Jacobian s.LinSysRes s.LinSysSol geometry config }

/-- The update loop of `ImplicitEuler_Iteration` (lines 1231-1235): the increment is added
to the temperature of every point below `nPointDomain`. -/
def ImplicitEuler_Iteration_update (s : CHeatSolver K) : CHeatSolver K :=
  (List.range s.nPointDomain).foldl
    (fun s iPoint =>
      { s with
          Solution := Function.update s.Solution iPoint
            (s.Solution iPoint + s.LinSysSol iPoint) })
    s

/-- The routine `CHeatSolver::ImplicitEuler_Iteration` (lines 1170-1245).
`SetResidual_RMS` is the normalisation of the residual norm by the base solver. -/
def ImplicitEuler_Iteration (Solve : SolveFn K)
    (SetResidual_RMS : CGeometry K → CConfig K → CHeatSolver K → K)
    (geometry : CGeometry K) (flow_sol : CFlowSolver K) (config : CConfig K)
    (s : CHeatSolver K) : CHeatSolver K :=
  let s := ImplicitEuler_Iteration_system geometry flow_sol config s
  let s := ImplicitEuler_Iteration_solve Solve geometry config s
  let s := ImplicitEuler_Iteration_update s
  let s := Set_MPI_Solution geometry config s
  { s with Res_RMS := SetResidual_RMS geometry config s }

/-- The quotient `Vol / node[iPoint]->GetDelta_Time()` of `ImplicitEuler_Iteration`
(lines 1196 and 1202) with its division made explicit: `none` when the divisor, the
local time step of the point, is zero. The source has no test on the divisor. -/
def ImplicitEuler_Iteration_Delta (geometry : CGeometry K) (s : CHeatSolver K)
    (iPoint : Nat) : Option K :=
  let Vol := (geometry.node iPoint).Volume
  if s.Delta_Time iPoint = 0 then none else some (Vol / s.Delta_Time iPoint)

/-- The chain of extractions that reads the restart line of a locally owned point
(lines 260-278): the number of `dull_val` extractions between `index` and `Solution[0]`,
and the value of the local variable `turbulent` after the line. `SA` and `SST` are the
codes of the two turbulence models in the configuration enumeration (declared outside
the solver source). The second test of the source, `turbulent = SST`, is an assignment:
it stores `SST` in `turbulent`, and it holds iff the code of `SST` is not zero. -/
def Restart_dull_vals (SA SST : Nat) (flow : Bool) (nDim : Nat) (turbulent : Nat) :
    Nat × Nat :=
  if flow then
    if nDim = 2 then
      if turbulent = SA then (6, turbulent)
      else if SST ≠ 0 then (7, SST)
      else (5, SST)
    else
      if turbulent = SA then (7, turbulent)
      else if SST ≠ 0 then (8, SST)
      else (6, SST)
  else (0, turbulent)

/-- The temperature read from the restart line of a locally owned point, the line being
the list of its values after the point index: the value that follows the skipped ones,
`none` when the line is too short; and the value of `turbulent` after the line. -/
def Restart_point_line (SA SST : Nat) (flow : Bool) (nDim : Nat) (turbulent : Nat)
    (point_line : List K) : Option K × Nat :=
  ((point_line)[(Restart_dull_vals SA SST flow nDim turbulent).1]?,
   (Restart_dull_vals SA SST flow nDim turbulent).2)

/-- The index `iDim*nVar*nVertex+iVar*nVertex+iVertex` of a gradient component in a halo
buffer of `Set_MPI_Solution_Gradient` (lines 1430, 1445 and 1459). -/
def Gradient_buffer_index (nVertex nVar iVertex iVar iDim : Nat) : Nat :=
  iDim * nVar * nVertex + iVar * nVertex + iVertex

/-- The packing loop of `Set_MPI_Solution_Gradient` (lines 1426-1431) for the sending
marker `MarkerS`, with `nVar = 1`: the gradient of the point of every vertex is written in
the send buffer. The buffers are arrays indexed by `Gradient_buffer_index`; an entry that
has not been written reads as 0. -/
def Set_MPI_Solution_Gradient_pack (geometry : CGeometry K) (s : CHeatSolver K)
    (MarkerS : Nat) : Nat → K :=
  let nVar := 1
  let nVertexS := (geometry.vertex MarkerS).length
  vertexLoop
    (fun Buffer_Send_Gradient iVertex v =>
      (List.range nVar).foldl
        (fun Buffer_Send_Gradient iVar =>
          (List.range s.nDim).foldl
            (fun Buffer_Send_Gradient iDim =>
              Function.update Buffer_Send_Gradient
                (Gradient_buffer_index nVertexS nVar iVertex iVar iDim)
                (s.Gradient v.Node iDim))
            Buffer_Send_Gradient)
        Buffer_Send_Gradient)
    (geometry.vertex MarkerS) (fun _ => 0)

/-- The copy loop of `Set_MPI_Solution_Gradient` in a build without MPI (lines 1442-1446),
with `nVar = 1`: the send buffer is copied to the receive buffer over the index range of
the receiving marker, of `nVertexR` vertices. -/
def Set_MPI_Solution_Gradient_copy (nDim nVertexR : Nat) (Buffer_Send_Gradient : Nat → K) :
    Nat → K :=
  let nVar := 1
  (List.range nVertexR).foldl
    (fun Buffer_Receive_Gradient iVertex =>
      (List.range nVar).foldl
        (fun Buffer_Receive_Gradient iVar =>
          (List.range nDim).foldl
            (fun Buffer_Receive_Gradient iDim =>
              Function.update Buffer_Receive_Gradient
                (Gradient_buffer_index nVertexR nVar iVertex iVar iDim)
                (Buffer_Send_Gradient (Gradient_buffer_index nVertexR nVar iVertex iVar iDim)))
            Buffer_Receive_Gradient)
        Buffer_Receive_Gradient)
    (fun _ => 0)

/-- The unpacking loop of `Set_MPI_Solution_Gradient` (lines 1454-1461) for the receiving
marker `MarkerR`, with `nVar = 1`: the gradient of the point of every vertex is set from
the receive buffer. -/
def Set_MPI_Solution_Gradient_unpack (geometry : CGeometry K) (MarkerR : Nat)
    (Buffer_Receive_Gradient : Nat → K) (s : CHeatSolver K) : CHeatSolver K :=
  let nVar := 1
  let nVertexR := (geometry.vertex MarkerR).length
  vertexLoop
    (fun s iVertex v =>
      (List.range nVar).foldl
        (fun s iVar =>
          (List.range s.nDim).foldl
            (fun s iDim =>
              { s with
                  Gradient := Function.update s.Gradient v.Node
                    (Function.update (s.Gradient v.Node) iDim
                      (Buffer_Receive_Gradient
                        (Gradient_buffer_index nVertexR nVar iVertex iVar iDim))) })
            s)
        s)
    (geometry.vertex MarkerR) s

/-- Body of the marker loop of `Set_MPI_Solution_Gradient` (lines 1411-1464) for a sending
marker `iMarker`, in a build without MPI: the gradients of the points of the sending
marker are packed in the send buffer, copied to the receive buffer, and unpacked into the
points of the marker `iMarker + 1`. -/
def Set_MPI_Solution_Gradient_marker (geometry : CGeometry K) (s : CHeatSolver K)
    (iMarker : Nat) : CHeatSolver K :=
  let MarkerS := iMarker
  let MarkerR := iMarker + 1
  let nVertexR := (geometry.vertex MarkerR).length
  let Buffer_Send_Gradient := Set_MPI_Solution_Gradient_pack geometry s MarkerS
  let Buffer_Receive_Gradient :=
    Set_MPI_Solution_Gradient_copy s.nDim nVertexR Buffer_Send_Gradient
  Set_MPI_Solution_Gradient_unpack geometry MarkerR Buffer_Receive_Gradient s

/-- The routine `CHeatSolver::Set_MPI_Solution_Gradient` (lines 1391-1474) in a build
without MPI: the markers below the member `nMarker` in increasing order. -/
def Set_MPI_Solution_Gradient (geometry : CGeometry K) (config : CConfig K)
    (s : CHeatSolver K) : CHeatSolver K :=
  (List.range s.nMarker).foldl
    (fun s iMarker =>
      if config.Marker_All_KindBC iMarker = BC_TYPE.SEND_RECEIVE
          ∧ 0 < config.Marker_All_SendRecv iMarker then
        Set_MPI_Solution_Gradient_marker geometry s iMarker
      else s)
    s

/-- Body of the point loop of `SetResidual_DualTime` (lines 1503-1545) for one point: the
dual time source term of the chosen time discretisation, added to the residual, and in
implicit mode its Jacobian term, added on the diagonal. The scratch `Residual` keeps its
old value when the simulation is of neither dual time stepping kind. -/
def SetResidual_DualTime_point (geometry : CGeometry K) (config : CConfig K)
    (RunTime_EqSystem : ENUM_RUNTIME) (s : CHeatSolver K) (iPoint : Nat) : CHeatSolver K :=
  let FlowEq := decide (RunTime_EqSystem = ENUM_RUNTIME.RUNTIME_FLOW_SYS)
  let AdjEq := decide (RunTime_EqSystem = ENUM_RUNTIME.RUNTIME_ADJFLOW_SYS)
  let TimeStep := config.Delta_UnstTimeND
  let U_time_nM1 := s.Solution_time_n1 iPoint
  let U_time_n := s.Solution_time_n iPoint
  let U_time_nP1 := s.Solution iPoint
  let Volume_nP1 := (geometry.node iPoint).Volume
  let Residual :=
    if config.Unsteady_Simulation = ENUM_UNSTEADY.DT_STEPPING_1ST then
      (U_time_nP1 - U_time_n) * Volume_nP1 / TimeStep
    else s.Residual
  let Residual :=
    if config.Unsteady_Simulation = ENUM_UNSTEADY.DT_STEPPING_2ND then
      (3 * U_time_nP1 - 4 * U_time_n + 1 * U_time_nM1) * Volume_nP1 / (2 * TimeStep)
    else Residual
  let Residual := if FlowEq || AdjEq then 0 else Residual
  let s := { s with
    Residual := Residual, LinSysRes := CSysVector.AddBlock s.LinSysRes iPoint Residual }
  if implicit config then
    let Jacobian_i : K := 0
    let Jacobian_i :=
      if config.Unsteady_Simulation = ENUM_UNSTEADY.DT_STEPPING_1ST then
        Volume_nP1 / TimeStep
      else Jacobian_i
    let Jacobian_i :=
      if config.Unsteady_Simulation = ENUM_UNSTEADY.DT_STEPPING_2ND then
        (Volume_nP1 * 3) / (2 * TimeStep)
      else Jacobian_i
    let Jacobian_i := if FlowEq || AdjEq then 0 else Jacobian_i
    { s with
        Jacobian_i := Jacobian_i,
        Jacobian := CSysMatrix.AddBlock s.Jacobian iPoint iPoint Jacobian_i }
  else s

/-- The routine `CHeatSolver::SetResidual_DualTime` (lines 1476-1547): on a static mesh
the loop over the points below `nPointDomain`; nothing on a moving mesh. -/
def SetResidual_DualTime (geometry : CGeometry K) (config : CConfig K)
    (RunTime_EqSystem : ENUM_RUNTIME) (s : CHeatSolver K) : CHeatSolver K :=
  if !config.Grid_Movement then
    (List.range s.nPointDomain).foldl
      (SetResidual_DualTime_point geometry config RunTime_EqSystem) s
  else s

end CHeatSolver

/-! ### Quantities named by the specification -/

/-- Euclidean norm of the first `nDim` components of a vector, for a given square root. -/
def euclideanNorm (sqrt : K → K) (nDim : Nat) (x : Nat → K) : K :=
  sqrt (∑ iDim in Finset.range nDim, x iDim ^ 2)

/-- The spec's `Area` of a boundary vertex: the norm of its normal. -/
def vertexArea (sqrt : K → K) (nDim : Nat) (v : CVertex K) : K :=
  euclideanNorm sqrt nDim v.Normal

/-- The spec's `dist` of a boundary vertex: the distance from its point to its interior
neighbour. -/
def vertexDist (sqrt : K → K) (nDim : Nat) (geometry : CGeometry K) (v : CVertex K) : K :=
  euclideanNorm sqrt nDim
    (fun iDim => (geometry.node v.Normal_Neighbor).Coord iDim - (geometry.node v.Node).Coord iDim)

/-- The spec's thermal diffusivity at a point: the solid constant in solid conduction
mode, `laminar/Prandtl_laminar + eddy/Prandtl_turbulent` when flow coupled. -/
def thermalDiffusivity (flow_sol : CFlowSolver K) (config : CConfig K) (iPoint : Nat) : K :=
  if config.Kind_Solver = ENUM_SOLVER.HEAT_EQUATION then config.ThermalDiffusivity_Solid
  else config.Viscosity_FreeStreamND / config.Prandtl_Lam
        + flow_sol.EddyViscosity iPoint / config.Prandtl_Turb

/-- The spec's non-dimensional wall temperature of an isothermal marker. -/
def wallTemperature (config : CConfig K) (val_marker : Nat) : K :=
  config.Isothermal_Temperature (config.Marker_All_TagBound val_marker) / config.Temperature_Ref

/-- The spec's isothermal wall flux at a vertex for temperature field `T`:
`diffusivity * (Twall - Tneighbor) / dist * Area`. -/
def isothermalFlux (sqrt : K → K) (nDim : Nat) (geometry : CGeometry K)
    (flow_sol : CFlowSolver K) (config : CConfig K) (Twall : K) (T : Nat → K)
    (v : CVertex K) : K :=
  thermalDiffusivity flow_sol config v.Node * (Twall - T v.Normal_Neighbor)
    / vertexDist sqrt nDim geometry v * vertexArea sqrt nDim v

/-- The spec's isothermal wall Jacobian term at a vertex: `-diffusivity / dist * Area`. -/
def isothermalJacobianTerm (sqrt : K → K) (nDim : Nat) (geometry : CGeometry K)
    (flow_sol : CFlowSolver K) (config : CConfig K) (v : CVertex K) : K :=
  -thermalDiffusivity flow_sol config v.Node / vertexDist sqrt nDim geometry v
    * vertexArea sqrt nDim v

/-- The domain-owned vertices of a marker located at point `p`. -/
def ownedVerticesAt (geometry : CGeometry K) (val_marker p : Nat) : List (CVertex K) :=
  (geometry.vertex val_marker).filter
    (fun v => (geometry.node v.Node).Domain && decide (v.Node = p))

/-- The spec's prescribed flux of a heat-flux wall marker: the configured wall heat flux,
divided by density times specific heat in solid conduction mode. -/
def wallHeatFlux (config : CConfig K) (val_marker : Nat) : K :=
  if config.Kind_Solver = ENUM_SOLVER.HEAT_EQUATION then
    config.Wall_HeatFlux (config.Marker_All_TagBound val_marker)
      / (config.Density_Solid * config.SpecificHeat_Solid)
  else config.Wall_HeatFlux (config.Marker_All_TagBound val_marker)

/-- The domain-owned vertices of a marker located at `p`, each with its index in the
marker. -/
def ownedIndexedVerticesAt (geometry : CGeometry K) (iMarker p : Nat) :
    List (Nat × CVertex K) :=
  (geometry.vertex iMarker).enum.filter
    (fun iv => (geometry.node iv.2.Node).Domain && decide (iv.2.Node = p))

/-- The markers of kind `CHT_WALL_INTERFACE` of a configuration. -/
def interfaceMarkers (config : CConfig K) : List Nat :=
  (List.range config.nMarker_All).filter
    (fun iMarker => decide (config.Marker_All_KindBC iMarker = BC_TYPE.CHT_WALL_INTERFACE))

/-- The spec's contribution of an interior edge to the spectral radius of its endpoints:
`diffusivity * Area^2`, the diffusivity being taken at the first node of the edge. -/
def edgeLambda (sqrt : K → K) (nDim : Nat) (flow_sol : CFlowSolver K) (config : CConfig K)
    (e : CEdge K) : K :=
  thermalDiffusivity flow_sol config e.Node0 * euclideanNorm sqrt nDim e.Normal ^ 2

/-- The spec's contribution of a boundary face to the spectral radius of its point:
`diffusivity * Area^2`. -/
def vertexLambda (sqrt : K → K) (nDim : Nat) (flow_sol : CFlowSolver K) (config : CConfig K)
    (v : CVertex K) : K :=
  thermalDiffusivity flow_sol config v.Node * vertexArea sqrt nDim v ^ 2

/-- The temperature field `T` with the value at point `p` raised by `eps`. -/
def perturb (T : Nat → K) (p : Nat) (eps : K) : Nat → K :=
  fun q => if q = p then T q + eps else T q

/-- The spec's maximum over the points below `n` of the absolute value of a residual
vector (0 when there is no point). -/
def maxAbsResidual (n : Nat) (R : Nat → K) : K :=
  (List.range n).foldl (fun m p => max m |R p|) 0

/-- The spec's number of values skipped between the point index and the temperature on a
restart line: in flow mode 6 for the SA model, 7 for the SST model and 5 for any other
turbulence-model selection in 2D, and 7, 8 and 6 in 3D; 0 in solid conduction mode. -/
def restartSkip (SA SST : Nat) (flow : Bool) (nDim : Nat) (turbulent : Nat) : Nat :=
  if flow then
    if nDim = 2 then
      if turbulent = SA then 6 else if turbulent = SST then 7 else 5
    else
      if turbulent = SA then 7 else if turbulent = SST then 8 else 6
  else 0

/-- The spec's local time step of a point before the clamp to the configured maximum
step, for the spectral radius `lambda`: `min (1.E6, CFL * 0.25 * Vol^2 / lambda)`. -/
def unclampedTimeStep (geometry : CGeometry K) (config : CConfig K) (iMesh : Nat)
    (lambda : Nat → K) (p : Nat) : K :=
  min 1000000 (config.CFL iMesh * 0.25 * (geometry.node p).Volume ^ 2 / lambda p)

/-- The spec's diagonal term of the implicit Euler iteration at a point: `Vol / dt` in
solid conduction mode, `min (Vol / dt, Vol / (CFLRedCoeff_Turb * dt_flow))` when flow
coupled. -/
def diagonalTerm (geometry : CGeometry K) (flow_sol : CFlowSolver K) (config : CConfig K)
    (dt : Nat → K) (p : Nat) : K :=
  if config.Kind_Solver = ENUM_SOLVER.HEAT_EQUATION then (geometry.node p).Volume / dt p
  else min ((geometry.node p).Volume / dt p)
    ((geometry.node p).Volume / (config.CFLRedCoeff_Turb * flow_sol.Delta_Time p))

/-- The spec's same-size local buffer copy of a marker pair on a field `T`: the values of
`T` at the points of the sending vertices `S` are packed in vertex order, copied, and
unpacked into the points of the receiving vertices `R` in vertex order. -/
def haloCopy (T : Nat → K) (S R : List (CVertex K)) : Nat → K :=
  R.enum.foldl
    (fun T2 iv =>
      Function.update T2 iv.2.Node
        (((List.range R.length).map
            (fun iVertex => (S.map (fun v => T v.Node)).getD iVertex 0)).getD iv.1 0))
    T

/-- The spec's halo exchange of a field `T` over a list of markers: each marker of kind
`SEND_RECEIVE` with a positive send/receive tag is copied into the next marker. -/
def haloLoop (geometry : CGeometry K) (config : CConfig K) (markers : List Nat)
    (T : Nat → K) : Nat → K :=
  markers.foldl
    (fun T iMarker =>
      if config.Marker_All_KindBC iMarker = BC_TYPE.SEND_RECEIVE
          ∧ 0 < config.Marker_All_SendRecv iMarker then
        haloCopy T (geometry.vertex iMarker) (geometry.vertex (iMarker + 1))
      else T)
    T

/-- The heat flux that `Heat_Fluxes` accumulates for a marker, in closed form for the
temperature field `T`: for a monitored marker of kind `ISOTHERMAL` or
`CHT_WALL_INTERFACE` a sum over all the vertices of the marker, domain-owned or not, of
`k * (Twall - T_n) / dist * Area` with `k = laminar / Prandtl_lam + eddy / Prandtl_turb`,
the wall temperature being the configured one resp. the temperature of the point of the
vertex; 0 for any other marker. -/
def markerHeatFlux (sqrt : K → K) (nDim : Nat) (geometry : CGeometry K)
    (flow_sol : CFlowSolver K) (config : CConfig K) (T : Nat → K) (iMarker : Nat) : K :=
  if config.Marker_All_KindBC iMarker = BC_TYPE.ISOTHERMAL
      ∧ config.Marker_All_Monitoring iMarker = true then
    ((geometry.vertex iMarker).map (fun v =>
      (config.Viscosity_FreeStreamND / config.Prandtl_Lam
          + flow_sol.EddyViscosity v.Node / config.Prandtl_Turb)
        * ((wallTemperature config iMarker - T v.Normal_Neighbor)
            / vertexDist sqrt nDim geometry v)
        * vertexArea sqrt nDim v)).sum
  else if config.Marker_All_KindBC iMarker = BC_TYPE.CHT_WALL_INTERFACE
      ∧ config.Marker_All_Monitoring iMarker = true then
    ((geometry.vertex iMarker).map (fun v =>
      (config.Viscosity_FreeStreamND / config.Prandtl_Lam
          + flow_sol.EddyViscosity v.Node / config.Prandtl_Turb)
        * ((T v.Node - T v.Normal_Neighbor) / vertexDist sqrt nDim geometry v)
        * vertexArea sqrt nDim v)).sum
  else 0

end Model

/-! ### A small one-dimensional mesh over the rationals

Three points at the abscissae 0, 3 and 6, two interior edges 0-1 and 1-2, and one
boundary vertex at point 0 (marker 0) with interior neighbour 1 and normal of norm 2. -/

section Instances

/-- Square root on the rationals, exact on the perfect squares 0, 1, 4 and 9 (the only
arguments it receives on the mesh below). -/
def sqrtQ (x : ℚ) : ℚ :=
  if x = 1 then 1 else if x = 4 then 2 else if x = 9 then 3 else 0

/-- The mesh of the instance. -/
def exGeometry : CGeometry ℚ where
  edge := [⟨0, 1, fun _ => 1⟩, ⟨1, 2, fun _ => 1⟩]
  vertex := fun iMarker => if iMarker = 0 then [⟨0, 1, fun _ => 2⟩] else []
  node := fun iPoint => ⟨fun _ => 3 * iPoint, true, 1, fun _ => 0⟩
  nMarker := 1

/-- A flow-coupled, implicit configuration; the wall temperature of every marker is
600 for a reference temperature of 300. -/
def exConfig : CConfig ℚ where
  Kind_Solver := ENUM_SOLVER.NAVIER_STOKES
  Kind_TimeIntScheme_Flow := ENUM_TIME_INT.EULER_IMPLICIT
  Viscosity_FreeStreamND := 3
  Prandtl_Lam := 1
  Prandtl_Turb := 1
  ThermalDiffusivity_Solid := 3
  Temperature_Ref := 300
  Marker_All_TagBound := fun _ => "wall"
  Isothermal_Temperature := fun _ => 600
  Temperature_FreeStreamND := 2
  Wall_HeatFlux := fun _ => 6
  Density_Solid := 2
  SpecificHeat_Solid := 3
  Viscous := true
  Grid_Movement := false
  Inlet_Ptotal := fun _ => 1
  Velocity_Ref := 1
  Inlet_FlowDir := fun _ _ => 1
  nMarker_All := 1
  Marker_All_KindBC := fun _ => BC_TYPE.CHT_WALL_INTERFACE
  CFL := fun _ => 1
  Max_DeltaTime := 10000000
  Marker_All_SendRecv := fun _ => 0
  Marker_All_Monitoring := fun _ => true
  Kind_Gradient_Method := ENUM_GRADIENT.GREEN_GAUSS
  CFLRedCoeff_Turb := 1
  Unsteady_Simulation := ENUM_UNSTEADY.DT_STEPPING_1ST
  Delta_UnstTimeND := 2

/-- The same configuration in solid conduction mode. -/
def exConfigSolid : CConfig ℚ :=
  { exConfig with Kind_Solver := ENUM_SOLVER.HEAT_EQUATION }

/-- The solid conduction configuration with an explicit time integration. -/
def exConfigExplicit : CConfig ℚ :=
  { exConfigSolid with Kind_TimeIntScheme_Flow := ENUM_TIME_INT.EULER_EXPLICIT }

/-- A flow solver at rest without eddy viscosity. -/
def exFlow : CFlowSolver ℚ where
  nVar := 0
  Primitive := fun _ _ => 0
  Gradient_Primitive := fun _ _ _ => 0
  EddyViscosity := fun _ => 0
  CharacPrimVar := fun _ _ _ => 0
  Delta_Time := fun _ => 1

/-- A numerics object on which nothing has been set yet. -/
def exNumerics : CNumerics ℚ where
  Normal := fun _ => 0
  Coord_i := fun _ => 0
  Coord_j := fun _ => 0
  V_i := fun _ => 0
  V_j := fun _ => 0
  Temp_i := 0
  Temp_j := 0
  ConsVarGradient_i := fun _ => 0
  ConsVarGradient_j := fun _ => 0
  Thermal_Diffusivity_i := 0
  Thermal_Diffusivity_j := 0
  GridVel_i := fun _ => 0
  GridVel_j := fun _ => 0
  Laminar_Viscosity_i := 0
  Laminar_Viscosity_j := 0
  Eddy_Viscosity_i := 0
  Eddy_Viscosity_j := 0

/-- A flux numerics stub: the residual is the temperature jump, the Jacobian blocks
are 1 and -1. -/
def exCompute : ComputeResidualFn ℚ :=
  fun numerics _ => (numerics.Temp_i - numerics.Temp_j, 1, -1)

/-- A solver state with temperatures 5, 7, 0 at the points 0, 1, 2, a zero linear system,
the value 1 left in the scratch block `Jacobian_i` by an earlier routine, the conjugate
temperature 2 and the conjugate heat-flux density -5 at every boundary vertex, and the
value 7 left in the spectral radii by an earlier call. -/
def exSolver : CHeatSolver ℚ where
  nDim := 1
  nPoint := 3
  nPointDomain := 3
  nVarFlow := 0
  Solution := fun iPoint => if iPoint = 0 then 5 else if iPoint = 1 then 7 else 0
  Gradient := fun _ _ => 0
  LinSysRes := fun _ => 0
  Jacobian := fun _ _ => 0
  Residual := 0
  Res_Visc := 0
  Jacobian_i := 1
  Jacobian_j := 0
  Vector_i := fun _ => 0
  Vector_j := fun _ => 0
  Primitive_Flow_i := fun _ => 0
  Primitive_Flow_j := fun _ => 0
  ConjugateVar := fun _ _ iVar => if iVar = 0 then 2 else -5
  Max_Lambda_Inv := fun _ => 7
  Max_Lambda_Visc := fun _ => 7
  Delta_Time := fun _ => 0
  Min_Delta_Time := 0
  Max_Delta_Time := 0
  nMarker := 1
  Solution_Old := fun _ => 0
  LinSysSol := fun _ => 0
  Heat_Flux := fun _ => 0
  AllBound_HeatFlux := 0
  Total_HeatFlux := 0
  Res_RMS := 0
  Res_Max := 0
  Point_Max := 0
  Solution_time_n := fun _ => 1
  Solution_time_n1 := fun _ => 3

/-- A flow solver at rest with eddy viscosity 1 at every point. -/
def exFlowEddy : CFlowSolver ℚ :=
  { exFlow with EddyViscosity := fun _ => 1 }

/-- The solid conduction configuration with the solid thermal diffusivity 6, different
from the laminar viscosity over the laminar Prandtl number, which is 3. -/
def exConfigSolid6 : CConfig ℚ :=
  { exConfigSolid with ThermalDiffusivity_Solid := 6 }

/-- The boundary vertex of marker 0 of the instance mesh. -/
def exVertex : CVertex ℚ := ⟨0, 1, fun _ => 2⟩

/-- The mesh of the instance with the boundary point 0 owned by another subdomain. -/
def exGeometryGhost : CGeometry ℚ :=
  { exGeometry with
    node := fun iPoint => ⟨fun _ => 3 * iPoint, decide (iPoint ≠ 0), 1, fun _ => 0⟩ }

/-- The loop state of an inlet or outlet routine before its first vertex. -/
def exLoopState : BCLoopState ℚ where
  solver := exSolver
  conv_numerics := exNumerics
  visc_numerics := exNumerics
  flow_sol := exFlow
  Point_Normal := 0

/-- The mesh of the instance with control volumes of measure 4000. -/
def exGeometryBig : CGeometry ℚ :=
  { exGeometry with node := fun iPoint => ⟨fun _ => 3 * iPoint, true, 4000, fun _ => 0⟩ }

/-- The mesh of the instance with the normal of every interior edge doubled. -/
def exGeometryDouble : CGeometry ℚ :=
  { exGeometry with
    edge := exGeometry.edge.map (fun e => { e with Normal := fun _ => 2 }),
    vertex := fun iMarker =>
      (exGeometry.vertex iMarker).map (fun v => { v with Normal := fun _ => 2 }) }

/-- The flow-coupled configuration with every marker an isothermal wall. -/
def exConfigIso : CConfig ℚ :=
  { exConfig with Marker_All_KindBC := fun _ => BC_TYPE.ISOTHERMAL }

/-- The mesh with the boundary point 0 owned by another subdomain and the normal of its
boundary vertex of norm 1 instead of 2. -/
def exGeometryGhostThin : CGeometry ℚ :=
  { exGeometryGhost with
    vertex := fun iMarker => if iMarker = 0 then [⟨0, 1, fun _ => 1⟩] else [] }

/-- The three-point mesh with a pair of halo markers: marker 0 sends from point 1,
marker 1 receives at point 2. -/
def exGeometryHalo : CGeometry ℚ :=
  { exGeometry with
    vertex := fun iMarker =>
      if iMarker = 0 then [⟨1, 1, fun _ => 1⟩]
      else if iMarker = 1 then [⟨2, 2, fun _ => 1⟩] else [],
    nMarker := 2 }

/-- The configuration of the halo pair: two markers of kind `SEND_RECEIVE`, the first
with the send tag 1, the second with the receive tag -1. -/
def exConfigHalo : CConfig ℚ :=
  { exConfig with
    nMarker_All := 2,
    Marker_All_KindBC := fun _ => BC_TYPE.SEND_RECEIVE,
    Marker_All_SendRecv := fun iMarker => if iMarker = 0 then 1 else -1 }

/-- The flow-coupled configuration with the maximum time step 1/100. -/
def exConfigSmallMax : CConfig ℚ :=
  { exConfig with Max_DeltaTime := 1 / 100 }

/-- The flow-coupled configuration with second-order dual time stepping. -/
def exConfigSecond : CConfig ℚ :=
  { exConfig with Unsteady_Simulation := ENUM_UNSTEADY.DT_STEPPING_2ND }

/-- The mesh of the instance with a control volume of measure 0 at point 2. -/
def exGeometryVoid : CGeometry ℚ :=
  { exGeometry with
    node := fun iPoint =>
      ⟨fun _ => 3 * iPoint, true, if iPoint = 2 then 0 else 1, fun _ => 0⟩ }

/-- The solver state with the assembled residual 3 at point 0 and -4 at the other
points. -/
def exSolverRes : CHeatSolver ℚ :=
  { exSolver with LinSysRes := fun iPoint => if iPoint = 0 then 3 else -4 }

/-- The solver state with the temperature gradient 4 at point 1 and 0 elsewhere. -/
def exSolverGrad : CHeatSolver ℚ :=
  { exSolver with Gradient := fun iPoint _ => if iPoint = 1 then 4 else 0 }

/-- The solver state with the local time step 1/2 at every point. -/
def exSolverStep : CHeatSolver ℚ :=
  { exSolver with Delta_Time := fun _ => 1 / 2 }

/-- One more interior edge, from point 2 back to point 0. -/
def exEdge : CEdge ℚ := ⟨2, 0, fun _ => 1⟩

end Instances

/-! ## Interior edges: helper lemmas -/

section EdgeLemmas

variable {K : Type} [LinearOrderedField K]

namespace CHeatSolver

/-- The convective edge body reads the geometry through its points only. -/
theorem Upwind_Residual_edge_geometry (geometry : CGeometry K) (es : List (CEdge K))
    (flow_sol : CFlowSolver K) (CR : ComputeResidualFn K) (config : CConfig K) :
    Upwind_Residual_edge { geometry with edge := es } flow_sol CR config =
      Upwind_Residual_edge geometry flow_sol CR config :=
  rfl

/-- The diffusive edge body reads the geometry through its points only. -/
theorem Viscous_Residual_edge_geometry (geometry : CGeometry K) (es : List (CEdge K))
    (flow_sol : CFlowSolver K) (CR : ComputeResidualFn K) (config : CConfig K) :
    Viscous_Residual_edge { geometry with edge := es } flow_sol CR config =
      Viscous_Residual_edge geometry flow_sol CR config :=
  rfl

/-- In flow mode, appending an edge to the mesh runs the edge body once more, last. -/
theorem Upwind_Residual_snoc (geometry : CGeometry K) (flow_sol : CFlowSolver K)
    (numerics : CNumerics K) (CR : ComputeResidualFn K) (config : CConfig K)
    (s : CHeatSolver K) (e : CEdge K)
    (hflow : config.Kind_Solver ≠ ENUM_SOLVER.HEAT_EQUATION) :
    Upwind_Residual { geometry with edge := geometry.edge ++ [e] } flow_sol numerics CR config s
      = Upwind_Residual_edge geometry flow_sol CR config
          (Upwind_Residual geometry flow_sol numerics CR config s) e := by
  simp [Upwind_Residual, flow, hflow, List.foldl_append, Upwind_Residual_edge_geometry]

/-- Appending an edge to the mesh runs the diffusive edge body once more, last. -/
theorem Viscous_Residual_snoc (geometry : CGeometry K) (flow_sol : CFlowSolver K)
    (numerics : CNumerics K) (CR : ComputeResidualFn K) (config : CConfig K)
    (s : CHeatSolver K) (e : CEdge K) :
    Viscous_Residual { geometry with edge := geometry.edge ++ [e] } flow_sol numerics CR config s
      = Viscous_Residual_edge geometry flow_sol CR config
          (Viscous_Residual geometry flow_sol numerics CR config s) e := by
  simp [Viscous_Residual, List.foldl_append, Viscous_Residual_edge_geometry]

/-- Residual after one convective edge, pointwise. -/
theorem Upwind_Residual_edge_LinSysRes (geometry : CGeometry K) (flow_sol : CFlowSolver K)
    (CR : ComputeResidualFn K) (config : CConfig K) (st : CHeatSolver K × CNumerics K)
    (e : CEdge K) (p : Nat) :
    (Upwind_Residual_edge geometry flow_sol CR config st e).1.LinSysRes p =
      st.1.LinSysRes p
        + (if p = e.Node0 then
            (CR (Upwind_Residual_edge geometry flow_sol CR config st e).2 config).1 else 0)
        - (if p = e.Node1 then
            (CR (Upwind_Residual_edge geometry flow_sol CR config st e).2 config).1 else 0) := by
  simp only [Upwind_Residual_edge, CSysVector.AddBlock, CSysVector.SubtractBlock]
  split_ifs <;> ring

/-- Residual after one diffusive edge, pointwise. -/
theorem Viscous_Residual_edge_LinSysRes (geometry : CGeometry K) (flow_sol : CFlowSolver K)
    (CR : ComputeResidualFn K) (config : CConfig K) (st : CHeatSolver K × CNumerics K)
    (e : CEdge K) (p : Nat) :
    (Viscous_Residual_edge geometry flow_sol CR config st e).1.LinSysRes p =
      st.1.LinSysRes p
        - (if p = e.Node0 then
            (CR (Viscous_Residual_edge geometry flow_sol CR config st e).2 config).1 else 0)
        + (if p = e.Node1 then
            (CR (Viscous_Residual_edge geometry flow_sol CR config st e).2 config).1 else 0) := by
  simp only [Viscous_Residual_edge, CSysVector.AddBlock, CSysVector.SubtractBlock]
  split_ifs <;> ring

end CHeatSolver

end EdgeLemmas

/-! ## Interior edges: conservation and sign conventions -/

section EdgeTheorems

variable {K : Type} [LinearOrderedField K]

namespace CHeatSolver

/-- Jacobian after one convective edge, entrywise. -/
theorem Upwind_Residual_edge_Jacobian (geometry : CGeometry K) (flow_sol : CFlowSolver K)
    (CR : ComputeResidualFn K) (config : CConfig K) (st : CHeatSolver K × CNumerics K)
    (e : CEdge K) (r c : Nat) :
    (Upwind_Residual_edge geometry flow_sol CR config st e).1.Jacobian r c =
      st.1.Jacobian r c
        + (if r = e.Node0 ∧ c = e.Node0 then
            (CR (Upwind_Residual_edge geometry flow_sol CR config st e).2 config).2.1 else 0)
        + (if r = e.Node0 ∧ c = e.Node1 then
            (CR (Upwind_Residual_edge geometry flow_sol CR config st e).2 config).2.2 else 0)
        - (if r = e.Node1 ∧ c = e.Node0 then
            (CR (Upwind_Residual_edge geometry flow_sol CR config st e).2 config).2.1 else 0)
        - (if r = e.Node1 ∧ c = e.Node1 then
            (CR (Upwind_Residual_edge geometry flow_sol CR config st e).2 config).2.2 else 0) := by
  simp only [Upwind_Residual_edge, CSysMatrix.AddBlock, CSysMatrix.SubtractBlock]
  split_ifs <;> ring

/-- Jacobian after one diffusive edge, entrywise. -/
theorem Viscous_Residual_edge_Jacobian (geometry : CGeometry K) (flow_sol : CFlowSolver K)
    (CR : ComputeResidualFn K) (config : CConfig K) (st : CHeatSolver K × CNumerics K)
    (e : CEdge K) (r c : Nat) :
    (Viscous_Residual_edge geometry flow_sol CR config st e).1.Jacobian r c =
      st.1.Jacobian r c
        - (if r = e.Node0 ∧ c = e.Node0 then
            (CR (Viscous_Residual_edge geometry flow_sol CR config st e).2 config).2.1 else 0)
        - (if r = e.Node0 ∧ c = e.Node1 then
            (CR (Viscous_Residual_edge geometry flow_sol CR config st e).2 config).2.2 else 0)
        + (if r = e.Node1 ∧ c = e.Node0 then
            (CR (Viscous_Residual_edge geometry flow_sol CR config st e).2 config).2.1 else 0)
        + (if r = e.Node1 ∧ c = e.Node1 then
            (CR (Viscous_Residual_edge geometry flow_sol CR config st e).2 config).2.2 else 0) := by
  simp only [Viscous_Residual_edge, CSysMatrix.AddBlock, CSysMatrix.SubtractBlock]
  split_ifs <;> ring

/-- One convective edge between points below `n` keeps the sum of the residual over the
points below `n`. -/
theorem Upwind_Residual_edge_sum (geometry : CGeometry K) (flow_sol : CFlowSolver K)
    (CR : ComputeResidualFn K) (config : CConfig K) (st : CHeatSolver K × CNumerics K)
    (e : CEdge K) (n : Nat) (h0 : e.Node0 < n) (h1 : e.Node1 < n) :
    ∑ p in Finset.range n, (Upwind_Residual_edge geometry flow_sol CR config st e).1.LinSysRes p
      = ∑ p in Finset.range n, st.1.LinSysRes p := by
  simp only [Upwind_Residual_edge_LinSysRes, Finset.sum_sub_distrib, Finset.sum_add_distrib,
    Finset.sum_ite_eq', Finset.mem_range, h0, h1, if_true]
  ring

/-- One diffusive edge between points below `n` keeps the sum of the residual over the
points below `n`. -/
theorem Viscous_Residual_edge_sum (geometry : CGeometry K) (flow_sol : CFlowSolver K)
    (CR : ComputeResidualFn K) (config : CConfig K) (st : CHeatSolver K × CNumerics K)
    (e : CEdge K) (n : Nat) (h0 : e.Node0 < n) (h1 : e.Node1 < n) :
    ∑ p in Finset.range n, (Viscous_Residual_edge geometry flow_sol CR config st e).1.LinSysRes p
      = ∑ p in Finset.range n, st.1.LinSysRes p := by
  simp only [Viscous_Residual_edge_LinSysRes, Finset.sum_sub_distrib, Finset.sum_add_distrib,
    Finset.sum_ite_eq', Finset.mem_range, h0, h1, if_true]
  ring

/-- A loop whose body keeps the residual sum on every edge of the list keeps it. -/
theorem foldl_edge_sum (f : CHeatSolver K × CNumerics K → CEdge K → CHeatSolver K × CNumerics K)
    (n : Nat) (es : List (CEdge K))
    (hf : ∀ st, ∀ e ∈ es, ∑ p in Finset.range n, (f st e).1.LinSysRes p
        = ∑ p in Finset.range n, st.1.LinSysRes p)
    (st : CHeatSolver K × CNumerics K) :
    ∑ p in Finset.range n, (es.foldl f st).1.LinSysRes p
      = ∑ p in Finset.range n, st.1.LinSysRes p := by
  induction es generalizing st with
  | nil => rfl
  | cons e es ih =>
    rw [List.foldl_cons, ih (fun st e he => hf st e (List.mem_cons_of_mem _ he)),
      hf st e (List.mem_cons_self _ _)]

/-- C1. Flow mode: the convective edge loop, run on a mesh extended by one more edge
`e = (i, j)`, differs from the run without `e` by `+R` at `i` and `-R` at `j`, where `R`
is the residual the numerics returned for `e`, whatever the numerics is. -/
theorem Upwind_Residual_edge_antisymmetric (geometry : CGeometry K) (flow_sol : CFlowSolver K)
    (numerics : CNumerics K) (CR : ComputeResidualFn K) (config : CConfig K)
    (s : CHeatSolver K) (e : CEdge K)
    (hflow : config.Kind_Solver ≠ ENUM_SOLVER.HEAT_EQUATION) :
    (Upwind_Residual { geometry with edge := geometry.edge ++ [e] }
        flow_sol numerics CR config s).1.Residual
      = (CR (Upwind_Residual { geometry with edge := geometry.edge ++ [e] }
          flow_sol numerics CR config s).2 config).1 ∧
    ∀ p : Nat,
      (Upwind_Residual { geometry with edge := geometry.edge ++ [e] }
          flow_sol numerics CR config s).1.LinSysRes p
        = (Upwind_Residual geometry flow_sol numerics CR config s).1.LinSysRes p
          + (if p = e.Node0 then
              (Upwind_Residual { geometry with edge := geometry.edge ++ [e] }
                flow_sol numerics CR config s).1.Residual else 0)
          - (if p = e.Node1 then
              (Upwind_Residual { geometry with edge := geometry.edge ++ [e] }
                flow_sol numerics CR config s).1.Residual else 0) := by
  rw [Upwind_Residual_snoc geometry flow_sol numerics CR config s e hflow]
  have hR : ∀ st : CHeatSolver K × CNumerics K,
      (Upwind_Residual_edge geometry flow_sol CR config st e).1.Residual
        = (CR (Upwind_Residual_edge geometry flow_sol CR config st e).2 config).1 :=
    fun _ => rfl
  refine ⟨hR _, fun p => ?_⟩
  rw [hR]
  exact Upwind_Residual_edge_LinSysRes geometry flow_sol CR config _ e p

/-- C2. The diffusive edge loop, run on a mesh extended by one more edge `e = (i, j)`,
differs from the run without `e` by `-R` at `i` and `+R` at `j`, where `R` is the
residual the numerics returned for `e`: the opposite of the convective convention. -/
theorem Viscous_Residual_edge_antisymmetric (geometry : CGeometry K) (flow_sol : CFlowSolver K)
    (numerics : CNumerics K) (CR : ComputeResidualFn K) (config : CConfig K)
    (s : CHeatSolver K) (e : CEdge K) :
    (Viscous_Residual { geometry with edge := geometry.edge ++ [e] }
        flow_sol numerics CR config s).1.Residual
      = (CR (Viscous_Residual { geometry with edge := geometry.edge ++ [e] }
          flow_sol numerics CR config s).2 config).1 ∧
    ∀ p : Nat,
      (Viscous_Residual { geometry with edge := geometry.edge ++ [e] }
          flow_sol numerics CR config s).1.LinSysRes p
        = (Viscous_Residual geometry flow_sol numerics CR config s).1.LinSysRes p
          - (if p = e.Node0 then
              (Viscous_Residual { geometry with edge := geometry.edge ++ [e] }
                flow_sol numerics CR config s).1.Residual else 0)
          + (if p = e.Node1 then
              (Viscous_Residual { geometry with edge := geometry.edge ++ [e] }
                flow_sol numerics CR config s).1.Residual else 0) := by
  rw [Viscous_Residual_snoc geometry flow_sol numerics CR config s e]
  have hR : ∀ st : CHeatSolver K × CNumerics K,
      (Viscous_Residual_edge geometry flow_sol CR config st e).1.Residual
        = (CR (Viscous_Residual_edge geometry flow_sol CR config st e).2 config).1 :=
    fun _ => rfl
  refine ⟨hR _, fun p => ?_⟩
  rw [hR]
  exact Viscous_Residual_edge_LinSysRes geometry flow_sol CR config _ e p

/-- C3. Global discrete conservation: on a mesh whose edges join points of the solver,
the sum of the residual over all points is the same after `Upwind_Residual` followed by
`Viscous_Residual` as before, for every state and every pair of numerics. -/
theorem edge_assembly_conserves_residual_sum (geometry : CGeometry K) (flow_sol : CFlowSolver K)
    (conv_numerics visc_numerics : CNumerics K) (CRconv CRvisc : ComputeResidualFn K)
    (config : CConfig K) (s : CHeatSolver K)
    (hmesh : ∀ e ∈ geometry.edge, e.Node0 < s.nPoint ∧ e.Node1 < s.nPoint) :
    ∑ p in Finset.range s.nPoint,
        (Viscous_Residual geometry flow_sol visc_numerics CRvisc config
          (Upwind_Residual geometry flow_sol conv_numerics CRconv config s).1).1.LinSysRes p
      = ∑ p in Finset.range s.nPoint, s.LinSysRes p := by
  have hvisc : ∀ st : CHeatSolver K × CNumerics K,
      ∑ p in Finset.range s.nPoint,
        (Viscous_Residual geometry flow_sol st.2 CRvisc config st.1).1.LinSysRes p
        = ∑ p in Finset.range s.nPoint, st.1.LinSysRes p := fun st =>
    foldl_edge_sum _ s.nPoint geometry.edge
      (fun st e he => Viscous_Residual_edge_sum geometry flow_sol CRvisc config st e _
        (hmesh e he).1 (hmesh e he).2) st
  rw [hvisc (_, visc_numerics)]
  unfold Upwind_Residual
  split_ifs
  · exact foldl_edge_sum _ s.nPoint geometry.edge
      (fun st e he => Upwind_Residual_edge_sum geometry flow_sol CRconv config st e _
        (hmesh e he).1 (hmesh e he).2) _
  · rfl

/-- C4. Flow mode: the convective edge loop, run on a mesh extended by one more edge
`e = (i, j)`, changes the global Jacobian by `+Ji` at `(i,i)`, `+Jj` at `(i,j)`, `-Ji` at
`(j,i)` and `-Jj` at `(j,j)` and nowhere else, `Ji`, `Jj` being the blocks the numerics
returned for `e`. -/
theorem Upwind_Residual_edge_Jacobian_signs (geometry : CGeometry K) (flow_sol : CFlowSolver K)
    (numerics : CNumerics K) (CR : ComputeResidualFn K) (config : CConfig K)
    (s : CHeatSolver K) (e : CEdge K)
    (hflow : config.Kind_Solver ≠ ENUM_SOLVER.HEAT_EQUATION) (r c : Nat) :
    (Upwind_Residual { geometry with edge := geometry.edge ++ [e] }
        flow_sol numerics CR config s).1.Jacobian r c
      = (Upwind_Residual geometry flow_sol numerics CR config s).1.Jacobian r c
        + (if r = e.Node0 ∧ c = e.Node0 then
            (CR (Upwind_Residual { geometry with edge := geometry.edge ++ [e] }
              flow_sol numerics CR config s).2 config).2.1 else 0)
        + (if r = e.Node0 ∧ c = e.Node1 then
            (CR (Upwind_Residual { geometry with edge := geometry.edge ++ [e] }
              flow_sol numerics CR config s).2 config).2.2 else 0)
        - (if r = e.Node1 ∧ c = e.Node0 then
            (CR (Upwind_Residual { geometry with edge := geometry.edge ++ [e] }
              flow_sol numerics CR config s).2 config).2.1 else 0)
        - (if r = e.Node1 ∧ c = e.Node1 then
            (CR (Upwind_Residual { geometry with edge := geometry.edge ++ [e] }
              flow_sol numerics CR config s).2 config).2.2 else 0) := by
  rw [Upwind_Residual_snoc geometry flow_sol numerics CR config s e hflow]
  exact Upwind_Residual_edge_Jacobian geometry flow_sol CR config _ e r c

/-- C5. The diffusive edge loop, run on a mesh extended by one more edge `e = (i, j)`,
changes the global Jacobian by `-Ji` at `(i,i)`, `-Jj` at `(i,j)`, `+Ji` at `(j,i)` and
`+Jj` at `(j,j)` and nowhere else: row `i` is subtracted and row `j` added, as for the
residual. -/
theorem Viscous_Residual_edge_Jacobian_signs (geometry : CGeometry K) (flow_sol : CFlowSolver K)
    (numerics : CNumerics K) (CR : ComputeResidualFn K) (config : CConfig K)
    (s : CHeatSolver K) (e : CEdge K) (r c : Nat) :
    (Viscous_Residual { geometry with edge := geometry.edge ++ [e] }
        flow_sol numerics CR config s).1.Jacobian r c
      = (Viscous_Residual geometry flow_sol numerics CR config s).1.Jacobian r c
        - (if r = e.Node0 ∧ c = e.Node0 then
            (CR (Viscous_Residual { geometry with edge := geometry.edge ++ [e] }
              flow_sol numerics CR config s).2 config).2.1 else 0)
        - (if r = e.Node0 ∧ c = e.Node1 then
            (CR (Viscous_Residual { geometry with edge := geometry.edge ++ [e] }
              flow_sol numerics CR config s).2 config).2.2 else 0)
        + (if r = e.Node1 ∧ c = e.Node0 then
            (CR (Viscous_Residual { geometry with edge := geometry.edge ++ [e] }
              flow_sol numerics CR config s).2 config).2.1 else 0)
        + (if r = e.Node1 ∧ c = e.Node1 then
            (CR (Viscous_Residual { geometry with edge := geometry.edge ++ [e] }
              flow_sol numerics CR config s).2 config).2.2 else 0) := by
  rw [Viscous_Residual_snoc geometry flow_sol numerics CR config s e]
  exact Viscous_Residual_edge_Jacobian geometry flow_sol CR config _ e r c

/-- C6. Solid conduction mode: `Upwind_Residual` returns the solver and the numerics
object exactly as it received them, whatever the mesh, the state and the numerics; in
particular no residual or Jacobian entry changes and the result does not depend on the
numerics service. -/
theorem Upwind_Residual_solid_noop (geometry : CGeometry K) (flow_sol : CFlowSolver K)
    (numerics : CNumerics K) (CR : ComputeResidualFn K) (config : CConfig K)
    (s : CHeatSolver K) (hsolid : config.Kind_Solver = ENUM_SOLVER.HEAT_EQUATION) :
    Upwind_Residual geometry flow_sol numerics CR config s = (s, numerics) := by
  simp [Upwind_Residual, flow, hsolid]

end CHeatSolver

end EdgeTheorems

/-! ### The edge theorems on the instance mesh -/

section EdgeWitnesses

open CHeatSolver

/-- Instance of C1 on the three-point mesh extended by the edge from point 2 to point 0,
with a flow-coupled configuration. -/
theorem Upwind_Residual_edge_antisymmetric_witness :
    exConfig.Kind_Solver ≠ ENUM_SOLVER.HEAT_EQUATION ∧
    ∀ p : Nat,
      (Upwind_Residual { exGeometry with edge := exGeometry.edge ++ [exEdge] }
          exFlow exNumerics exCompute exConfig exSolver).1.LinSysRes p
        = (Upwind_Residual exGeometry exFlow exNumerics exCompute exConfig exSolver).1.LinSysRes p
          + (if p = exEdge.Node0 then
              (Upwind_Residual { exGeometry with edge := exGeometry.edge ++ [exEdge] }
                exFlow exNumerics exCompute exConfig exSolver).1.Residual else 0)
          - (if p = exEdge.Node1 then
              (Upwind_Residual { exGeometry with edge := exGeometry.edge ++ [exEdge] }
                exFlow exNumerics exCompute exConfig exSolver).1.Residual else 0) :=
  ⟨by decide,
   (Upwind_Residual_edge_antisymmetric exGeometry exFlow exNumerics exCompute exConfig
      exSolver exEdge (by decide)).2⟩

/-- Instance of C3 on the three-point mesh: both edges join points below `nPoint = 3`. -/
theorem edge_assembly_conserves_residual_sum_witness :
    (∀ e ∈ exGeometry.edge, e.Node0 < exSolver.nPoint ∧ e.Node1 < exSolver.nPoint) ∧
    ∑ p in Finset.range exSolver.nPoint,
        (Viscous_Residual exGeometry exFlow exNumerics exCompute exConfig
          (Upwind_Residual exGeometry exFlow exNumerics exCompute exConfig exSolver).1).1.LinSysRes p
      = ∑ p in Finset.range exSolver.nPoint, exSolver.LinSysRes p :=
  ⟨by simp [exGeometry, exSolver],
   edge_assembly_conserves_residual_sum exGeometry exFlow exNumerics exNumerics exCompute
     exCompute exConfig exSolver (by simp [exGeometry, exSolver])⟩

/-- Instance of C4 on the extended three-point mesh, at the entry `(2, 0)`. -/
theorem Upwind_Residual_edge_Jacobian_signs_witness :
    exConfig.Kind_Solver ≠ ENUM_SOLVER.HEAT_EQUATION ∧
    (Upwind_Residual { exGeometry with edge := exGeometry.edge ++ [exEdge] }
        exFlow exNumerics exCompute exConfig exSolver).1.Jacobian 2 0
      = (Upwind_Residual exGeometry exFlow exNumerics exCompute exConfig exSolver).1.Jacobian 2 0
        + (if 2 = exEdge.Node0 ∧ 0 = exEdge.Node0 then
            (exCompute (Upwind_Residual { exGeometry with edge := exGeometry.edge ++ [exEdge] }
              exFlow exNumerics exCompute exConfig exSolver).2 exConfig).2.1 else 0)
        + (if 2 = exEdge.Node0 ∧ 0 = exEdge.Node1 then
            (exCompute (Upwind_Residual { exGeometry with edge := exGeometry.edge ++ [exEdge] }
              exFlow exNumerics exCompute exConfig exSolver).2 exConfig).2.2 else 0)
        - (if 2 = exEdge.Node1 ∧ 0 = exEdge.Node0 then
            (exCompute (Upwind_Residual { exGeometry with edge := exGeometry.edge ++ [exEdge] }
              exFlow exNumerics exCompute exConfig exSolver).2 exConfig).2.1 else 0)
        - (if 2 = exEdge.Node1 ∧ 0 = exEdge.Node1 then
            (exCompute (Upwind_Residual { exGeometry with edge := exGeometry.edge ++ [exEdge] }
              exFlow exNumerics exCompute exConfig exSolver).2 exConfig).2.2 else 0) :=
  ⟨by decide,
   Upwind_Residual_edge_Jacobian_signs exGeometry exFlow exNumerics exCompute exConfig
     exSolver exEdge (by decide) 2 0⟩

/-- Instance of C6 on the three-point mesh in solid conduction mode. -/
theorem Upwind_Residual_solid_noop_witness :
    exConfigSolid.Kind_Solver = ENUM_SOLVER.HEAT_EQUATION ∧
    Upwind_Residual exGeometry exFlow exNumerics exCompute exConfigSolid exSolver
      = (exSolver, exNumerics) :=
  ⟨by decide,
   Upwind_Residual_solid_noop exGeometry exFlow exNumerics exCompute exConfigSolid exSolver
     (by decide)⟩

end EdgeWitnesses

/-! ## Isothermal wall -/

section IsothermalWall

variable {K : Type} [LinearOrderedField K]

/-- An accumulation loop over the space directions is the finite sum of its terms. -/
theorem foldl_range_add (f : Nat → K) (n : Nat) :
    (List.range n).foldl (fun a iDim => a + f iDim) 0 = ∑ iDim in Finset.range n, f iDim := by
  induction n with
  | zero => rfl
  | succ n ih => simp [List.range_succ, List.foldl_append, Finset.sum_range_succ, ih]

namespace CHeatSolver

/-- The area loop of a boundary routine computes the norm of the normal. -/
theorem area_loop_eq (sqrt : K → K) (n : Nat) (Normal : Nat → K) :
    sqrt ((List.range n).foldl (fun a iDim => a + Normal iDim * Normal iDim) 0)
      = euclideanNorm sqrt n Normal := by
  rw [foldl_range_add, euclideanNorm]
  congr 1
  exact Finset.sum_congr rfl (fun iDim _ => (pow_two (Normal iDim)).symm)

/-- The distance loop of a boundary routine computes the norm of the difference of the
coordinates. -/
theorem dist_loop_eq (sqrt : K → K) (n : Nat) (Coord_i Coord_j : Nat → K) :
    sqrt ((List.range n).foldl
        (fun d iDim => d + (Coord_j iDim - Coord_i iDim) * (Coord_j iDim - Coord_i iDim)) 0)
      = euclideanNorm sqrt n (fun iDim => Coord_j iDim - Coord_i iDim) := by
  rw [foldl_range_add, euclideanNorm]
  congr 1
  exact Finset.sum_congr rfl (fun iDim _ => (pow_two (Coord_j iDim - Coord_i iDim)).symm)

/-- The diffusivity chosen by the wall routines is the spec's thermal diffusivity. -/
theorem diffusivity_branch_eq (flow_sol : CFlowSolver K) (config : CConfig K) (iPoint : Nat) :
    (if flow config = true then
        flow_sol.EddyViscosity iPoint / config.Prandtl_Turb
          + config.Viscosity_FreeStreamND / config.Prandtl_Lam
      else config.ThermalDiffusivity_Solid)
      = thermalDiffusivity flow_sol config iPoint := by
  by_cases hk : config.Kind_Solver = ENUM_SOLVER.HEAT_EQUATION
  · simp [flow, thermalDiffusivity, hk]
  · simp [flow, thermalDiffusivity, hk, add_comm]

/-- The vertex body of the isothermal wall at a domain-owned vertex, in the spec's terms. -/
theorem BC_Isothermal_Wall_vertex_owned (sqrt : K → K) (geometry : CGeometry K)
    (flow_sol : CFlowSolver K) (config : CConfig K) (Twall : K) (s : CHeatSolver K)
    (v : CVertex K) (hd : (geometry.node v.Node).Domain = true) :
    BC_Isothermal_Wall_vertex sqrt geometry flow_sol config Twall s v =
      { s with
        Res_Visc := thermalDiffusivity flow_sol config v.Node
          * (-(s.Solution v.Normal_Neighbor - Twall) / vertexDist sqrt s.nDim geometry v)
          * vertexArea sqrt s.nDim v,
        Jacobian_i :=
          if implicit config = true then
            -thermalDiffusivity flow_sol config v.Node / vertexDist sqrt s.nDim geometry v
              * vertexArea sqrt s.nDim v
          else s.Jacobian_i,
        LinSysRes := CSysVector.SubtractBlock s.LinSysRes v.Node
          (thermalDiffusivity flow_sol config v.Node
            * (-(s.Solution v.Normal_Neighbor - Twall) / vertexDist sqrt s.nDim geometry v)
            * vertexArea sqrt s.nDim v),
        Jacobian := CSysMatrix.SubtractBlock s.Jacobian v.Node v.Node
          (if implicit config = true then
            -thermalDiffusivity flow_sol config v.Node / vertexDist sqrt s.nDim geometry v
              * vertexArea sqrt s.nDim v
           else s.Jacobian_i) } := by
  simp only [BC_Isothermal_Wall_vertex, hd, if_true, area_loop_eq, dist_loop_eq,
    diffusivity_branch_eq, vertexDist, vertexArea]

/-- The vertex body of the isothermal wall skips a vertex that is not domain-owned. -/
theorem BC_Isothermal_Wall_vertex_ghost (sqrt : K → K) (geometry : CGeometry K)
    (flow_sol : CFlowSolver K) (config : CConfig K) (Twall : K) (s : CHeatSolver K)
    (v : CVertex K) (hd : ¬ (geometry.node v.Node).Domain = true) :
    BC_Isothermal_Wall_vertex sqrt geometry flow_sol config Twall s v = s := by
  simp [BC_Isothermal_Wall_vertex, hd]

/-- The vertex body of the isothermal wall does not touch the temperature. -/
theorem BC_Isothermal_Wall_vertex_Solution (sqrt : K → K) (geometry : CGeometry K)
    (flow_sol : CFlowSolver K) (config : CConfig K) (Twall : K) (s : CHeatSolver K)
    (v : CVertex K) :
    (BC_Isothermal_Wall_vertex sqrt geometry flow_sol config Twall s v).Solution = s.Solution := by
  by_cases hd : (geometry.node v.Node).Domain = true
  · rw [BC_Isothermal_Wall_vertex_owned sqrt geometry flow_sol config Twall s v hd]
  · rw [BC_Isothermal_Wall_vertex_ghost sqrt geometry flow_sol config Twall s v hd]

/-- The vertex body of the isothermal wall does not touch the dimension. -/
theorem BC_Isothermal_Wall_vertex_nDim (sqrt : K → K) (geometry : CGeometry K)
    (flow_sol : CFlowSolver K) (config : CConfig K) (Twall : K) (s : CHeatSolver K)
    (v : CVertex K) :
    (BC_Isothermal_Wall_vertex sqrt geometry flow_sol config Twall s v).nDim = s.nDim := by
  by_cases hd : (geometry.node v.Node).Domain = true
  · rw [BC_Isothermal_Wall_vertex_owned sqrt geometry flow_sol config Twall s v hd]
  · rw [BC_Isothermal_Wall_vertex_ghost sqrt geometry flow_sol config Twall s v hd]

/-- Residual after one vertex of the isothermal wall, pointwise. -/
theorem BC_Isothermal_Wall_vertex_LinSysRes (sqrt : K → K) (geometry : CGeometry K)
    (flow_sol : CFlowSolver K) (config : CConfig K) (Twall : K) (s : CHeatSolver K)
    (v : CVertex K) (p : Nat) :
    (BC_Isothermal_Wall_vertex sqrt geometry flow_sol config Twall s v).LinSysRes p =
      s.LinSysRes p
        - (if ((geometry.node v.Node).Domain && decide (v.Node = p)) = true then
            isothermalFlux sqrt s.nDim geometry flow_sol config Twall s.Solution v else 0) := by
  by_cases hd : (geometry.node v.Node).Domain = true
  · rw [BC_Isothermal_Wall_vertex_owned sqrt geometry flow_sol config Twall s v hd]
    by_cases hp : v.Node = p
    · subst hp
      simp only [CSysVector.SubtractBlock, hd, isothermalFlux, if_true, Bool.true_and,
        decide_True]
      ring
    · have hp2 : ¬ p = v.Node := fun h => hp h.symm
      simp only [CSysVector.SubtractBlock, if_neg hp2]
      simp [hp]
  · rw [BC_Isothermal_Wall_vertex_ghost sqrt geometry flow_sol config Twall s v hd]
    simp [hd]

/-- Jacobian after one vertex of the isothermal wall in implicit mode, entrywise. -/
theorem BC_Isothermal_Wall_vertex_Jacobian (sqrt : K → K) (geometry : CGeometry K)
    (flow_sol : CFlowSolver K) (config : CConfig K) (Twall : K) (s : CHeatSolver K)
    (v : CVertex K) (himpl : config.Kind_TimeIntScheme_Flow = ENUM_TIME_INT.EULER_IMPLICIT)
    (r c : Nat) :
    (BC_Isothermal_Wall_vertex sqrt geometry flow_sol config Twall s v).Jacobian r c =
      s.Jacobian r c
        - (if ((geometry.node v.Node).Domain && decide (v.Node = r)) = true ∧ r = c then
            isothermalJacobianTerm sqrt s.nDim geometry flow_sol config v else 0) := by
  have hi : implicit config = true := by simp [implicit, himpl]
  by_cases hd : (geometry.node v.Node).Domain = true
  · rw [BC_Isothermal_Wall_vertex_owned sqrt geometry flow_sol config Twall s v hd]
    by_cases hr : r = v.Node
    · by_cases hc : c = v.Node
      · subst hr
        subst hc
        simp [CSysMatrix.SubtractBlock, hd, hi, isothermalJacobianTerm]
      · have hrc : ¬ r = c := fun h => hc (h ▸ hr)
        simp only [CSysMatrix.SubtractBlock, if_neg (fun h : r = v.Node ∧ c = v.Node => hc h.2)]
        simp [hrc]
    · have hr2 : ¬ v.Node = r := fun h => hr h.symm
      simp only [CSysMatrix.SubtractBlock, if_neg (fun h : r = v.Node ∧ c = v.Node => hr h.1)]
      simp [hr2]
  · rw [BC_Isothermal_Wall_vertex_ghost sqrt geometry flow_sol config Twall s v hd]
    simp [hd]

/-- Residual after the vertex loop of the isothermal wall over any list of vertices. -/
theorem BC_Isothermal_Wall_loop_LinSysRes (sqrt : K → K) (geometry : CGeometry K)
    (flow_sol : CFlowSolver K) (config : CConfig K) (Twall : K) (vs : List (CVertex K))
    (s : CHeatSolver K) (p : Nat) :
    (vs.foldl (BC_Isothermal_Wall_vertex sqrt geometry flow_sol config Twall) s).LinSysRes p =
      s.LinSysRes p
        - ((vs.filter (fun v => (geometry.node v.Node).Domain && decide (v.Node = p))).map
            (isothermalFlux sqrt s.nDim geometry flow_sol config Twall s.Solution)).sum := by
  induction vs generalizing s with
  | nil => simp
  | cons v vs ih =>
    rw [List.foldl_cons, ih, BC_Isothermal_Wall_vertex_LinSysRes,
      BC_Isothermal_Wall_vertex_nDim, BC_Isothermal_Wall_vertex_Solution, List.filter_cons]
    by_cases hc : ((geometry.node v.Node).Domain && decide (v.Node = p)) = true
    · rw [if_pos hc, if_pos hc, List.map_cons, List.sum_cons]
      ring
    · rw [if_neg hc, if_neg hc]
      ring

/-- Jacobian after the vertex loop of the isothermal wall over any list of vertices, in
implicit mode. -/
theorem BC_Isothermal_Wall_loop_Jacobian (sqrt : K → K) (geometry : CGeometry K)
    (flow_sol : CFlowSolver K) (config : CConfig K) (Twall : K) (vs : List (CVertex K))
    (s : CHeatSolver K) (himpl : config.Kind_TimeIntScheme_Flow = ENUM_TIME_INT.EULER_IMPLICIT)
    (r c : Nat) :
    (vs.foldl (BC_Isothermal_Wall_vertex sqrt geometry flow_sol config Twall) s).Jacobian r c =
      s.Jacobian r c
        - (if r = c then
            ((vs.filter (fun v => (geometry.node v.Node).Domain && decide (v.Node = r))).map
              (isothermalJacobianTerm sqrt s.nDim geometry flow_sol config)).sum
           else 0) := by
  induction vs generalizing s with
  | nil => simp
  | cons v vs ih =>
    rw [List.foldl_cons, ih, BC_Isothermal_Wall_vertex_Jacobian _ _ _ _ _ _ _ himpl,
      BC_Isothermal_Wall_vertex_nDim, List.filter_cons]
    by_cases hrc : r = c
    · by_cases hc : ((geometry.node v.Node).Domain && decide (v.Node = r)) = true
      · rw [if_pos ⟨hc, hrc⟩, if_pos hrc, if_pos hrc, if_pos hc, List.map_cons, List.sum_cons]
        ring
      · rw [if_neg (fun h => hc h.1), if_pos hrc, if_pos hrc, if_neg hc]
        ring
    · rw [if_neg (fun h => hrc h.2), if_neg hrc, if_neg hrc]
      ring

/-- Two maps over a list whose terms differ by `eps` times a third have sums that
differ by `eps` times the sum of the third. -/
theorem sum_map_add_mul {α : Type} (L : List α) (f g h : α → K) (eps : K)
    (hfg : ∀ v ∈ L, f v = g v + eps * h v) :
    (L.map f).sum = (L.map g).sum + eps * (L.map h).sum := by
  induction L with
  | nil => simp
  | cons v L ih =>
    rw [List.map_cons, List.map_cons, List.map_cons, List.sum_cons, List.sum_cons, List.sum_cons,
      ih (fun w hw => hfg w (List.mem_cons_of_mem _ hw)), hfg v (List.mem_cons_self _ _)]
    ring

/-- C7. For every mesh, marker, mode and state, `BC_Isothermal_Wall` lowers the residual
at each point `p` by the sum, over the domain-owned vertices of the marker located at `p`,
of `D * (Twall - T_n) / dist * Area`, with `Area` the norm of the vertex normal, `dist`
the distance to the interior neighbour `n`, `D` the thermal diffusivity and `Twall` the
configured wall temperature over the reference temperature. -/
theorem BC_Isothermal_Wall_residual (sqrt : K → K) (geometry : CGeometry K)
    (flow_sol : CFlowSolver K) (config : CConfig K) (val_marker : Nat) (s : CHeatSolver K)
    (p : Nat) :
    (BC_Isothermal_Wall sqrt geometry flow_sol config val_marker s).LinSysRes p =
      s.LinSysRes p
        - ((ownedVerticesAt geometry val_marker p).map
            (fun v => thermalDiffusivity flow_sol config v.Node
              * (wallTemperature config val_marker - s.Solution v.Normal_Neighbor)
              / vertexDist sqrt s.nDim geometry v * vertexArea sqrt s.nDim v)).sum :=
  BC_Isothermal_Wall_loop_LinSysRes sqrt geometry flow_sol config
    (wallTemperature config val_marker) (geometry.vertex val_marker) s p

/-- C8. Implicit mode: `BC_Isothermal_Wall` subtracts from the diagonal entry `(r,r)` the
terms `-D / dist * Area` of the domain-owned vertices located at `r`, so that entry
grows by the sum of `D * Area / dist`; no off-diagonal entry changes; and the resulting
Jacobian is the same for every temperature field. -/
theorem BC_Isothermal_Wall_Jacobian_diagonal (sqrt : K → K) (geometry : CGeometry K)
    (flow_sol : CFlowSolver K) (config : CConfig K) (val_marker : Nat) (s : CHeatSolver K)
    (himpl : config.Kind_TimeIntScheme_Flow = ENUM_TIME_INT.EULER_IMPLICIT) :
    (∀ r : Nat,
      (BC_Isothermal_Wall sqrt geometry flow_sol config val_marker s).Jacobian r r =
        s.Jacobian r r
          - ((ownedVerticesAt geometry val_marker r).map
              (fun v => -thermalDiffusivity flow_sol config v.Node
                / vertexDist sqrt s.nDim geometry v * vertexArea sqrt s.nDim v)).sum) ∧
    (∀ r : Nat,
      (BC_Isothermal_Wall sqrt geometry flow_sol config val_marker s).Jacobian r r =
        s.Jacobian r r
          + ((ownedVerticesAt geometry val_marker r).map
              (fun v => thermalDiffusivity flow_sol config v.Node * vertexArea sqrt s.nDim v
                / vertexDist sqrt s.nDim geometry v)).sum) ∧
    (∀ r c : Nat, r ≠ c →
      (BC_Isothermal_Wall sqrt geometry flow_sol config val_marker s).Jacobian r c
        = s.Jacobian r c) ∧
    (∀ T : Nat → K,
      (BC_Isothermal_Wall sqrt geometry flow_sol config val_marker
          { s with Solution := T }).Jacobian
        = (BC_Isothermal_Wall sqrt geometry flow_sol config val_marker s).Jacobian) := by
  have key := BC_Isothermal_Wall_loop_Jacobian sqrt geometry flow_sol config
    (wallTemperature config val_marker) (geometry.vertex val_marker)
  refine ⟨fun r => ?_, fun r => ?_, fun r c hrc => ?_, fun T => ?_⟩
  · have h := key s himpl r r
    rw [if_pos rfl] at h
    exact h
  · have h := key s himpl r r
    rw [if_pos rfl] at h
    have hsum := sum_map_add_mul (ownedVerticesAt geometry val_marker r)
      (fun v => thermalDiffusivity flow_sol config v.Node * vertexArea sqrt s.nDim v
        / vertexDist sqrt s.nDim geometry v)
      (fun _ => (0 : K))
      (fun v => -thermalDiffusivity flow_sol config v.Node
        / vertexDist sqrt s.nDim geometry v * vertexArea sqrt s.nDim v) (-1)
      (fun v _ => by ring)
    have hL : (BC_Isothermal_Wall sqrt geometry flow_sol config val_marker s).Jacobian r r
        = s.Jacobian r r
          - ((ownedVerticesAt geometry val_marker r).map
              (fun v => -thermalDiffusivity flow_sol config v.Node
                / vertexDist sqrt s.nDim geometry v * vertexArea sqrt s.nDim v)).sum := h
    rw [hL, hsum]
    simp
    ring
  · have h := key s himpl r c
    rw [if_neg hrc, sub_zero] at h
    exact h
  · funext r c
    exact (key { s with Solution := T } himpl r c).trans (key s himpl r c).symm

/-- C9 as amended. Implicit mode, on a marker whose domain-owned vertices at the boundary
point `i` all have the interior neighbour `n`: raising the temperature at `n` by `eps`
changes the residual contribution of `BC_Isothermal_Wall` at `i` by `eps` times the entry
the routine added on the diagonal `(i,i)`; raising the temperature at any point other
than `n` leaves that contribution unchanged; and the routine adds nothing at `(i,p)` for
`p` other than `i`. -/
theorem BC_Isothermal_Wall_Jacobian_consistency (sqrt : K → K) (geometry : CGeometry K)
    (flow_sol : CFlowSolver K) (config : CConfig K) (val_marker : Nat) (s : CHeatSolver K)
    (i n : Nat) (eps : K)
    (himpl : config.Kind_TimeIntScheme_Flow = ENUM_TIME_INT.EULER_IMPLICIT)
    (hn : ∀ v ∈ ownedVerticesAt geometry val_marker i, v.Normal_Neighbor = n) :
    (((BC_Isothermal_Wall sqrt geometry flow_sol config val_marker
          { s with Solution := perturb s.Solution n eps }).LinSysRes i - s.LinSysRes i)
        - ((BC_Isothermal_Wall sqrt geometry flow_sol config val_marker s).LinSysRes i
            - s.LinSysRes i)
      = eps * ((BC_Isothermal_Wall sqrt geometry flow_sol config val_marker s).Jacobian i i
          - s.Jacobian i i)) ∧
    (∀ p : Nat, p ≠ n →
      (BC_Isothermal_Wall sqrt geometry flow_sol config val_marker
          { s with Solution := perturb s.Solution p eps }).LinSysRes i
        = (BC_Isothermal_Wall sqrt geometry flow_sol config val_marker s).LinSysRes i) ∧
    (∀ p : Nat, p ≠ i →
      (BC_Isothermal_Wall sqrt geometry flow_sol config val_marker s).Jacobian i p
        = s.Jacobian i p) := by
  have keyR := BC_Isothermal_Wall_loop_LinSysRes sqrt geometry flow_sol config
    (wallTemperature config val_marker) (geometry.vertex val_marker)
  have keyJ := BC_Isothermal_Wall_loop_Jacobian sqrt geometry flow_sol config
    (wallTemperature config val_marker) (geometry.vertex val_marker)
  have hBC : ∀ s0 : CHeatSolver K,
      BC_Isothermal_Wall sqrt geometry flow_sol config val_marker s0
        = (geometry.vertex val_marker).foldl
            (BC_Isothermal_Wall_vertex sqrt geometry flow_sol config
              (wallTemperature config val_marker)) s0 :=
    fun _ => rfl
  refine ⟨?_, fun p hp => ?_, fun p hp => ?_⟩
  · have h1 := keyR { s with Solution := perturb s.Solution n eps } i
    have h2 := keyR s i
    have h3 := keyJ s himpl i i
    rw [if_pos rfl] at h3
    have hsum := sum_map_add_mul (ownedVerticesAt geometry val_marker i)
      (isothermalFlux sqrt s.nDim geometry flow_sol config (wallTemperature config val_marker)
        (perturb s.Solution n eps))
      (isothermalFlux sqrt s.nDim geometry flow_sol config (wallTemperature config val_marker)
        s.Solution)
      (isothermalJacobianTerm sqrt s.nDim geometry flow_sol config) eps
      (fun v hv => by
        simp only [isothermalFlux, isothermalJacobianTerm, perturb, hn v hv, if_true]
        ring)
    unfold ownedVerticesAt at hsum
    rw [hBC, hBC, h1, h2, h3]
    simp only []
    rw [hsum]
    ring
  · have h1 := keyR { s with Solution := perturb s.Solution p eps } i
    have h2 := keyR s i
    rw [hBC, hBC, h1, h2]
    simp only []
    congr 2
    refine List.map_congr_left (fun v hv => ?_)
    have hvn : ¬ v.Normal_Neighbor = p := fun h => hp (h.symm.trans (hn v hv))
    simp only [isothermalFlux, perturb, if_neg hvn]
  · have h := keyJ s himpl i p
    rw [if_neg (fun h => hp h.symm), sub_zero] at h
    exact h

end CHeatSolver

end IsothermalWall

/-! ### The isothermal wall on the instance mesh -/

section IsothermalWallInstances

open CHeatSolver

/-- Instance of C8 on the three-point mesh, implicit flow-coupled configuration, at the
diagonal entry of the boundary point 0. -/
theorem BC_Isothermal_Wall_Jacobian_diagonal_witness :
    exConfig.Kind_TimeIntScheme_Flow = ENUM_TIME_INT.EULER_IMPLICIT ∧
    (BC_Isothermal_Wall sqrtQ exGeometry exFlow exConfig 0 exSolver).Jacobian 0 0 =
      exSolver.Jacobian 0 0
        + ((ownedVerticesAt exGeometry 0 0).map
            (fun v => thermalDiffusivity exFlow exConfig v.Node
              * vertexArea sqrtQ exSolver.nDim v
              / vertexDist sqrtQ exSolver.nDim exGeometry v)).sum :=
  ⟨by decide,
   (BC_Isothermal_Wall_Jacobian_diagonal sqrtQ exGeometry exFlow exConfig 0 exSolver
      (by decide)).2.1 0⟩

/-- C9 fails as stated. Implicit mode, marker 0 of the three-point mesh, whose only vertex
is domain-owned with boundary point 0 and interior neighbour 1: raising the temperature
at point 1 by 1 changes the residual contribution at point 0 from 10 to 12, but the
routine added nothing at the Jacobian entry `(0,1)`. -/
theorem BC_Isothermal_Wall_Jacobian_consistency_fails :
    exConfig.Kind_TimeIntScheme_Flow = ENUM_TIME_INT.EULER_IMPLICIT ∧
    (exGeometry.node 0).Domain = true ∧
    ((BC_Isothermal_Wall sqrtQ exGeometry exFlow exConfig 0
          { exSolver with Solution := perturb exSolver.Solution 1 1 }).LinSysRes 0
        - exSolver.LinSysRes 0)
      - ((BC_Isothermal_Wall sqrtQ exGeometry exFlow exConfig 0 exSolver).LinSysRes 0
        - exSolver.LinSysRes 0)
      ≠ 1 * ((BC_Isothermal_Wall sqrtQ exGeometry exFlow exConfig 0 exSolver).Jacobian 0 1
          - exSolver.Jacobian 0 1) := by
  refine ⟨by decide, by simp [exGeometry], ?_⟩
  simp [BC_Isothermal_Wall, BC_Isothermal_Wall_vertex, exGeometry, exFlow, exConfig, exSolver,
    flow, implicit, CSysVector.SubtractBlock, CSysMatrix.SubtractBlock, sqrtQ, List.range_succ,
    perturb]
  norm_num

/-- Instance of the amended C9 on the three-point mesh: the vertex of marker 0 at the
boundary point 0 has the interior neighbour 1. -/
theorem BC_Isothermal_Wall_Jacobian_consistency_witness :
    exConfig.Kind_TimeIntScheme_Flow = ENUM_TIME_INT.EULER_IMPLICIT ∧
    (∀ v ∈ ownedVerticesAt exGeometry 0 0, v.Normal_Neighbor = 1) ∧
    ((BC_Isothermal_Wall sqrtQ exGeometry exFlow exConfig 0
          { exSolver with Solution := perturb exSolver.Solution 1 1 }).LinSysRes 0
        - exSolver.LinSysRes 0)
      - ((BC_Isothermal_Wall sqrtQ exGeometry exFlow exConfig 0 exSolver).LinSysRes 0
        - exSolver.LinSysRes 0)
      = 1 * ((BC_Isothermal_Wall sqrtQ exGeometry exFlow exConfig 0 exSolver).Jacobian 0 0
          - exSolver.Jacobian 0 0) :=
  ⟨by decide, by simp [ownedVerticesAt, exGeometry],
   (BC_Isothermal_Wall_Jacobian_consistency sqrtQ exGeometry exFlow exConfig 0 exSolver 0 1 1
      (by decide) (by simp [ownedVerticesAt, exGeometry])).1⟩

/-- C10 on the code. Explicit time integration, marker 0 of the three-point mesh:
with the value 1 in the scratch block `Jacobian_i`, `BC_Isothermal_Wall` takes the
Jacobian entry `(0,0)` from 0 to -1; and run right after `Viscous_Residual`, whose last
numerics call left 1 in `Jacobian_i`, it lowers the entry `(0,0)` by that stale 1. -/
theorem BC_Isothermal_Wall_explicit_changes_Jacobian :
    implicit exConfigExplicit = false ∧
    exSolver.Jacobian_i = 1 ∧
    exSolver.Jacobian 0 0 = 0 ∧
    (BC_Isothermal_Wall sqrtQ exGeometry exFlow exConfigExplicit 0 exSolver).Jacobian 0 0 = -1 ∧
    (Viscous_Residual exGeometry exFlow exNumerics exCompute exConfigExplicit
        exSolver).1.Jacobian_i = 1 ∧
    (BC_Isothermal_Wall sqrtQ exGeometry exFlow exConfigExplicit 0
        (Viscous_Residual exGeometry exFlow exNumerics exCompute exConfigExplicit
          exSolver).1).Jacobian 0 0
      = (Viscous_Residual exGeometry exFlow exNumerics exCompute exConfigExplicit
          exSolver).1.Jacobian 0 0 - 1 := by
  refine ⟨by decide, rfl, rfl, ?_, ?_, ?_⟩
  · simp [BC_Isothermal_Wall, BC_Isothermal_Wall_vertex, exGeometry, exFlow, exConfig,
      exConfigSolid, exConfigExplicit, exSolver, flow, implicit, CSysVector.SubtractBlock,
      CSysMatrix.SubtractBlock, sqrtQ, List.range_succ]
  · simp [Viscous_Residual, Viscous_Residual_edge, exGeometry, exCompute]
  · simp [BC_Isothermal_Wall, BC_Isothermal_Wall_vertex, Viscous_Residual,
      Viscous_Residual_edge, exGeometry, exFlow, exConfig, exConfigSolid, exConfigExplicit,
      exSolver, exCompute, flow, implicit, CSysVector.SubtractBlock, CSysVector.AddBlock,
      CSysMatrix.SubtractBlock, CSysMatrix.AddBlock, sqrtQ, List.range_succ]

end IsothermalWallInstances

/-! ## Heat-flux wall -/

section HeatFluxWall

variable {K : Type} [LinearOrderedField K]

/-- A loop keeps every quantity that each of its steps keeps. -/
theorem foldl_preserves {σ α β : Type} (proj : σ → β) (body : σ → α → σ) (L : List α)
    (h : ∀ st, ∀ x ∈ L, proj (body st x) = proj st) (st : σ) :
    proj (L.foldl body st) = proj st := by
  induction L generalizing st with
  | nil => rfl
  | cons x L ih =>
    rw [List.foldl_cons, ih (fun st y hy => h st y (List.mem_cons_of_mem _ hy)),
      h st x (List.mem_cons_self _ _)]

namespace CHeatSolver

/-- The vertex body of the heat-flux wall at a domain-owned vertex, in the spec's terms. -/
theorem BC_HeatFlux_Wall_vertex_owned (sqrt : K → K) (geometry : CGeometry K)
    (Wall_HeatFlux : K) (s : CHeatSolver K) (v : CVertex K)
    (hd : (geometry.node v.Node).Domain = true) :
    BC_HeatFlux_Wall_vertex sqrt geometry Wall_HeatFlux s v =
      { s with
        Res_Visc := Wall_HeatFlux * vertexArea sqrt s.nDim v,
        LinSysRes := CSysVector.SubtractBlock s.LinSysRes v.Node
          (Wall_HeatFlux * vertexArea sqrt s.nDim v) } := by
  simp only [BC_HeatFlux_Wall_vertex, hd, if_true, area_loop_eq, vertexArea]

/-- The vertex body of the heat-flux wall skips a vertex that is not domain-owned. -/
theorem BC_HeatFlux_Wall_vertex_ghost (sqrt : K → K) (geometry : CGeometry K)
    (Wall_HeatFlux : K) (s : CHeatSolver K) (v : CVertex K)
    (hd : ¬ (geometry.node v.Node).Domain = true) :
    BC_HeatFlux_Wall_vertex sqrt geometry Wall_HeatFlux s v = s := by
  simp [BC_HeatFlux_Wall_vertex, hd]

/-- The vertex body of the heat-flux wall keeps the dimension and the global Jacobian. -/
theorem BC_HeatFlux_Wall_vertex_frame (sqrt : K → K) (geometry : CGeometry K)
    (Wall_HeatFlux : K) (s : CHeatSolver K) (v : CVertex K) :
    (BC_HeatFlux_Wall_vertex sqrt geometry Wall_HeatFlux s v).nDim = s.nDim ∧
    (BC_HeatFlux_Wall_vertex sqrt geometry Wall_HeatFlux s v).Jacobian = s.Jacobian := by
  by_cases hd : (geometry.node v.Node).Domain = true
  · rw [BC_HeatFlux_Wall_vertex_owned sqrt geometry Wall_HeatFlux s v hd]
    exact ⟨rfl, rfl⟩
  · rw [BC_HeatFlux_Wall_vertex_ghost sqrt geometry Wall_HeatFlux s v hd]
    exact ⟨rfl, rfl⟩

/-- Residual after one vertex of the heat-flux wall, pointwise. -/
theorem BC_HeatFlux_Wall_vertex_LinSysRes (sqrt : K → K) (geometry : CGeometry K)
    (Wall_HeatFlux : K) (s : CHeatSolver K) (v : CVertex K) (p : Nat) :
    (BC_HeatFlux_Wall_vertex sqrt geometry Wall_HeatFlux s v).LinSysRes p =
      s.LinSysRes p
        - (if ((geometry.node v.Node).Domain && decide (v.Node = p)) = true then
            Wall_HeatFlux * vertexArea sqrt s.nDim v else 0) := by
  by_cases hd : (geometry.node v.Node).Domain = true
  · rw [BC_HeatFlux_Wall_vertex_owned sqrt geometry Wall_HeatFlux s v hd]
    by_cases hp : v.Node = p
    · subst hp
      simp only [CSysVector.SubtractBlock, hd, if_true, Bool.true_and, decide_True]
    · have hp2 : ¬ p = v.Node := fun h => hp h.symm
      simp only [CSysVector.SubtractBlock, if_neg hp2]
      simp [hp]
  · rw [BC_HeatFlux_Wall_vertex_ghost sqrt geometry Wall_HeatFlux s v hd]
    simp [hd]

/-- Residual after the vertex loop of the heat-flux wall over any list of vertices. -/
theorem BC_HeatFlux_Wall_loop_LinSysRes (sqrt : K → K) (geometry : CGeometry K)
    (Wall_HeatFlux : K) (vs : List (CVertex K)) (s : CHeatSolver K) (p : Nat) :
    (vs.foldl (BC_HeatFlux_Wall_vertex sqrt geometry Wall_HeatFlux) s).LinSysRes p =
      s.LinSysRes p
        - ((vs.filter (fun v => (geometry.node v.Node).Domain && decide (v.Node = p))).map
            (fun v => Wall_HeatFlux * vertexArea sqrt s.nDim v)).sum := by
  induction vs generalizing s with
  | nil => simp
  | cons v vs ih =>
    rw [List.foldl_cons, ih, BC_HeatFlux_Wall_vertex_LinSysRes,
      (BC_HeatFlux_Wall_vertex_frame sqrt geometry Wall_HeatFlux s v).1, List.filter_cons]
    by_cases hc : ((geometry.node v.Node).Domain && decide (v.Node = p)) = true
    · rw [if_pos hc, if_pos hc, List.map_cons, List.sum_cons]
      ring
    · rw [if_neg hc, if_neg hc]
      ring

/-- The flux computed before the loop of the heat-flux wall is the spec's prescribed
flux. -/
theorem BC_HeatFlux_Wall_eq_loop (sqrt : K → K) (geometry : CGeometry K) (config : CConfig K)
    (val_marker : Nat) (s : CHeatSolver K) :
    BC_HeatFlux_Wall sqrt geometry config val_marker s =
      (geometry.vertex val_marker).foldl
        (BC_HeatFlux_Wall_vertex sqrt geometry (wallHeatFlux config val_marker)) s := by
  by_cases hk : config.Kind_Solver = ENUM_SOLVER.HEAT_EQUATION
  · simp [BC_HeatFlux_Wall, wallHeatFlux, flow, hk]
  · simp [BC_HeatFlux_Wall, wallHeatFlux, flow, hk]

/-- C11. For every mesh, marker, mode and state, `BC_HeatFlux_Wall` lowers the residual at
each point `p` by the sum of `q * Area` over the domain-owned vertices of the marker
located at `p`, where `Area` is the norm of the vertex normal and `q` the configured wall
heat flux, divided by solid density times solid specific heat in solid conduction mode;
and the resulting residual is the same for every temperature field. -/
theorem BC_HeatFlux_Wall_residual (sqrt : K → K) (geometry : CGeometry K) (config : CConfig K)
    (val_marker : Nat) (s : CHeatSolver K) :
    (∀ p : Nat,
      (BC_HeatFlux_Wall sqrt geometry config val_marker s).LinSysRes p =
        s.LinSysRes p
          - ((ownedVerticesAt geometry val_marker p).map
              (fun v =>
                (if config.Kind_Solver = ENUM_SOLVER.HEAT_EQUATION then
                  config.Wall_HeatFlux (config.Marker_All_TagBound val_marker)
                    / (config.Density_Solid * config.SpecificHeat_Solid)
                 else config.Wall_HeatFlux (config.Marker_All_TagBound val_marker))
                * vertexArea sqrt s.nDim v)).sum) ∧
    (∀ T : Nat → K,
      (BC_HeatFlux_Wall sqrt geometry config val_marker { s with Solution := T }).LinSysRes
        = (BC_HeatFlux_Wall sqrt geometry config val_marker s).LinSysRes) := by
  refine ⟨fun p => ?_, fun T => ?_⟩
  · rw [BC_HeatFlux_Wall_eq_loop]
    exact BC_HeatFlux_Wall_loop_LinSysRes sqrt geometry (wallHeatFlux config val_marker)
      (geometry.vertex val_marker) s p
  · funext p
    rw [BC_HeatFlux_Wall_eq_loop, BC_HeatFlux_Wall_eq_loop,
      BC_HeatFlux_Wall_loop_LinSysRes, BC_HeatFlux_Wall_loop_LinSysRes]

/-- C12. `BC_HeatFlux_Wall` leaves every entry of the global Jacobian unchanged, for every
marker, geometry, mode and state. -/
theorem BC_HeatFlux_Wall_Jacobian_unchanged (sqrt : K → K) (geometry : CGeometry K)
    (config : CConfig K) (val_marker : Nat) (s : CHeatSolver K) :
    (BC_HeatFlux_Wall sqrt geometry config val_marker s).Jacobian = s.Jacobian := by
  rw [BC_HeatFlux_Wall_eq_loop]
  exact foldl_preserves (fun st : CHeatSolver K => st.Jacobian) _ _
    (fun st v _ => (BC_HeatFlux_Wall_vertex_frame sqrt geometry _ st v).2) s

end CHeatSolver

end HeatFluxWall

/-! ## Boundary routines: only the rows of domain-owned vertices change -/

section BoundaryFrame

/-- The vertex loop keeps every quantity that its body keeps at each vertex of the
marker. -/
theorem vertexLoop_preserves {K σ β : Type} (proj : σ → β) (body : σ → Nat → CVertex K → σ)
    (vs : List (CVertex K))
    (h : ∀ st iVertex, ∀ v ∈ vs, proj (body st iVertex v) = proj st) (st : σ) :
    proj (CHeatSolver.vertexLoop body vs st) = proj st :=
  foldl_preserves proj _ _ (fun st iv hiv => h st iv.1 iv.2 (List.snd_mem_of_mem_enum hiv)) st

variable {K : Type} [LinearOrderedField K]

/-- Adding a block at another row keeps an entry of the residual. -/
theorem CSysVector_AddBlock_of_ne (v : Nat → K) (iPoint p : Nat) (b : K) (h : iPoint ≠ p) :
    CSysVector.AddBlock v iPoint b p = v p := by
  unfold CSysVector.AddBlock
  rw [if_neg (fun hp : p = iPoint => h hp.symm)]

/-- Subtracting a block at another row keeps an entry of the residual. -/
theorem CSysVector_SubtractBlock_of_ne (v : Nat → K) (iPoint p : Nat) (b : K)
    (h : iPoint ≠ p) : CSysVector.SubtractBlock v iPoint b p = v p := by
  unfold CSysVector.SubtractBlock
  rw [if_neg (fun hp : p = iPoint => h hp.symm)]

/-- Adding a block in another row keeps a row of the Jacobian. -/
theorem CSysMatrix_AddBlock_of_ne (m : Nat → Nat → K) (iPoint jPoint p : Nat) (b : K)
    (h : iPoint ≠ p) : CSysMatrix.AddBlock m iPoint jPoint b p = m p := by
  funext c
  unfold CSysMatrix.AddBlock
  rw [if_neg (fun hp : p = iPoint ∧ c = jPoint => h hp.1.symm)]

/-- Subtracting a block in another row keeps a row of the Jacobian. -/
theorem CSysMatrix_SubtractBlock_of_ne (m : Nat → Nat → K) (iPoint jPoint p : Nat) (b : K)
    (h : iPoint ≠ p) : CSysMatrix.SubtractBlock m iPoint jPoint b p = m p := by
  funext c
  unfold CSysMatrix.SubtractBlock
  rw [if_neg (fun hp : p = iPoint ∧ c = jPoint => h hp.1.symm)]

namespace CHeatSolver

/-- The isothermal wall body keeps the rows of every point but the vertex's, when the
vertex is domain-owned, and of every point otherwise. -/
theorem BC_Isothermal_Wall_vertex_row (sqrt : K → K) (geometry : CGeometry K)
    (flow_sol : CFlowSolver K) (config : CConfig K) (Twall : K) (s : CHeatSolver K)
    (v : CVertex K) (p : Nat) (hne : (geometry.node v.Node).Domain = true → v.Node ≠ p) :
    ((BC_Isothermal_Wall_vertex sqrt geometry flow_sol config Twall s v).LinSysRes p,
      (BC_Isothermal_Wall_vertex sqrt geometry flow_sol config Twall s v).Jacobian p)
      = (s.LinSysRes p, s.Jacobian p) := by
  by_cases hd : (geometry.node v.Node).Domain = true
  · rw [BC_Isothermal_Wall_vertex_owned sqrt geometry flow_sol config Twall s v hd]
    simp only [CSysVector_SubtractBlock_of_ne _ _ _ _ (hne hd),
      CSysMatrix_SubtractBlock_of_ne _ _ _ _ _ (hne hd)]
  · rw [BC_Isothermal_Wall_vertex_ghost sqrt geometry flow_sol config Twall s v hd]

/-- The heat-flux wall body keeps the rows of every point but the vertex's, when the
vertex is domain-owned, and of every point otherwise. -/
theorem BC_HeatFlux_Wall_vertex_row (sqrt : K → K) (geometry : CGeometry K)
    (Wall_HeatFlux : K) (s : CHeatSolver K)
    (v : CVertex K) (p : Nat) (hne : (geometry.node v.Node).Domain = true → v.Node ≠ p) :
    ((BC_HeatFlux_Wall_vertex sqrt geometry Wall_HeatFlux s v).LinSysRes p,
      (BC_HeatFlux_Wall_vertex sqrt geometry Wall_HeatFlux s v).Jacobian p)
      = (s.LinSysRes p, s.Jacobian p) := by
  by_cases hd : (geometry.node v.Node).Domain = true
  · rw [BC_HeatFlux_Wall_vertex_owned sqrt geometry Wall_HeatFlux s v hd]
    simp only [CSysVector_SubtractBlock_of_ne _ _ _ _ (hne hd)]
  · rw [BC_HeatFlux_Wall_vertex_ghost sqrt geometry Wall_HeatFlux s v hd]

/-- The convective block of the inlet changes the rows of the vertex's point only. -/
theorem BC_Inlet_convective_row (geometry : CGeometry K) (CR : ComputeResidualFn K)
    (config : CConfig K) (val_marker : Nat) (Normal : Nat → K) (st : BCLoopState K)
    (iVertex : Nat) (v : CVertex K) (p : Nat) (hne : v.Node ≠ p) :
    ((BC_Inlet_convective geometry CR config val_marker Normal st iVertex v).solver.LinSysRes p,
      (BC_Inlet_convective geometry CR config val_marker Normal st iVertex v).solver.Jacobian p)
      = (st.solver.LinSysRes p, st.solver.Jacobian p) := by
  by_cases hi : implicit config = true
  · simp only [BC_Inlet_convective, hi, if_true, CSysVector_AddBlock_of_ne _ _ _ _ hne,
      CSysMatrix_AddBlock_of_ne _ _ _ _ _ hne]
  · simp only [BC_Inlet_convective, hi, Bool.false_eq_true, if_false,
      CSysVector_AddBlock_of_ne _ _ _ _ hne]

/-- The viscous block of the inlet changes the rows of the vertex's point only. -/
theorem BC_Inlet_viscous_row (geometry : CGeometry K) (CR : ComputeResidualFn K)
    (config : CConfig K) (Normal : Nat → K) (st : BCLoopState K)
    (v : CVertex K) (p : Nat) (hne : v.Node ≠ p) :
    ((BC_Inlet_viscous geometry CR config Normal st v).solver.LinSysRes p,
      (BC_Inlet_viscous geometry CR config Normal st v).solver.Jacobian p)
      = (st.solver.LinSysRes p, st.solver.Jacobian p) := by
  by_cases hi : implicit config = true
  · simp only [BC_Inlet_viscous, hi, if_true, CSysVector_SubtractBlock_of_ne _ _ _ _ hne,
      CSysMatrix_SubtractBlock_of_ne _ _ _ _ _ hne]
  · simp only [BC_Inlet_viscous, hi, Bool.false_eq_true, if_false,
      CSysVector_SubtractBlock_of_ne _ _ _ _ hne]

/-- The anchor block of the inlet changes the rows of the vertex's point only. -/
theorem BC_Inlet_anchor_row (sqrt : K → K) (geometry : CGeometry K) (flow_sol : CFlowSolver K)
    (config : CConfig K) (Twall : K) (s : CHeatSolver K)
    (v : CVertex K) (p : Nat) (hne : v.Node ≠ p) :
    ((BC_Inlet_anchor sqrt geometry flow_sol config Twall s v).LinSysRes p,
      (BC_Inlet_anchor sqrt geometry flow_sol config Twall s v).Jacobian p)
      = (s.LinSysRes p, s.Jacobian p) := by
  simp only [BC_Inlet_anchor, CSysVector_SubtractBlock_of_ne _ _ _ _ hne,
    CSysMatrix_SubtractBlock_of_ne _ _ _ _ _ hne]

/-- The inlet body keeps the rows of every point but the vertex's, when the vertex is
domain-owned, and of every point otherwise. -/
theorem BC_Inlet_vertex_row (sqrt : K → K) (geometry : CGeometry K)
    (CRconv CRvisc : ComputeResidualFn K) (config : CConfig K) (val_marker : Nat)
    (st : BCLoopState K) (iVertex : Nat) (v : CVertex K) (p : Nat)
    (hne : (geometry.node v.Node).Domain = true → v.Node ≠ p) :
    ((BC_Inlet_vertex sqrt geometry CRconv CRvisc config val_marker st iVertex v).solver.LinSysRes p,
      (BC_Inlet_vertex sqrt geometry CRconv CRvisc config val_marker st iVertex v).solver.Jacobian p)
      = (st.solver.LinSysRes p, st.solver.Jacobian p) := by
  by_cases hd : (geometry.node v.Node).Domain = true
  · have h := hne hd
    simp only [BC_Inlet_vertex, hd, if_true, Bool.and_false, Bool.or_true, Bool.false_eq_true,
      if_false]
    rw [BC_Inlet_anchor_row sqrt geometry _ config _ _ v p h]
    by_cases hf : flow config = true
    · simp only [hf, if_true]
      exact BC_Inlet_convective_row geometry CRconv config val_marker _ st iVertex v p h
    · simp only [hf, Bool.false_eq_true, if_false]
  · simp only [BC_Inlet_vertex, hd, Bool.false_eq_true, if_false]

/-- The convective block of the outlet changes the rows of the vertex's point only. -/
theorem BC_Outlet_convective_row (geometry : CGeometry K) (CR : ComputeResidualFn K)
    (config : CConfig K) (val_marker : Nat) (Normal : Nat → K) (st : BCLoopState K)
    (iVertex : Nat) (v : CVertex K) (p : Nat) (hne : v.Node ≠ p) :
    ((BC_Outlet_convective geometry CR config val_marker Normal st iVertex v).solver.LinSysRes p,
      (BC_Outlet_convective geometry CR config val_marker Normal st iVertex v).solver.Jacobian p)
      = (st.solver.LinSysRes p, st.solver.Jacobian p) := by
  by_cases hi : implicit config = true
  · simp only [BC_Outlet_convective, hi, if_true, CSysVector_AddBlock_of_ne _ _ _ _ hne,
      CSysMatrix_AddBlock_of_ne _ _ _ _ _ hne]
  · simp only [BC_Outlet_convective, hi, Bool.false_eq_true, if_false,
      CSysVector_AddBlock_of_ne _ _ _ _ hne]

/-- The outlet body keeps the rows of every point but the vertex's, when the vertex is
domain-owned, and of every point otherwise. -/
theorem BC_Outlet_vertex_row (geometry : CGeometry K)
    (CRconv CRvisc : ComputeResidualFn K) (config : CConfig K) (val_marker : Nat)
    (st : BCLoopState K) (iVertex : Nat) (v : CVertex K) (p : Nat)
    (hne : (geometry.node v.Node).Domain = true → v.Node ≠ p) :
    ((BC_Outlet_vertex geometry CRconv CRvisc config val_marker st iVertex v).solver.LinSysRes p,
      (BC_Outlet_vertex geometry CRconv CRvisc config val_marker st iVertex v).solver.Jacobian p)
      = (st.solver.LinSysRes p, st.solver.Jacobian p) := by
  by_cases hd : (geometry.node v.Node).Domain = true
  · have h := hne hd
    simp only [BC_Outlet_vertex, hd, if_true, Bool.false_eq_true, if_false]
    by_cases hf : flow config = true
    · simp only [hf, if_true]
      exact BC_Outlet_convective_row geometry CRconv config val_marker _ _ iVertex v p h
    · simp only [hf, Bool.false_eq_true, if_false]
  · simp only [BC_Outlet_vertex, hd, Bool.false_eq_true, if_false]

/-- The flow body of the conjugate interface keeps the rows of every point but the
vertex's, when the vertex is domain-owned, and of every point otherwise. -/
theorem BC_ConjugateTFFB_Interface_flow_vertex_row (sqrt : K → K) (geometry : CGeometry K)
    (config : CConfig K) (iMarker : Nat) (s : CHeatSolver K) (iVertex : Nat)
    (v : CVertex K) (p : Nat) (hne : (geometry.node v.Node).Domain = true → v.Node ≠ p) :
    ((BC_ConjugateTFFB_Interface_flow_vertex sqrt geometry config iMarker s iVertex v).LinSysRes p,
      (BC_ConjugateTFFB_Interface_flow_vertex sqrt geometry config iMarker s iVertex v).Jacobian p)
      = (s.LinSysRes p, s.Jacobian p) := by
  by_cases hd : (geometry.node v.Node).Domain = true
  · simp only [BC_ConjugateTFFB_Interface_flow_vertex, hd, if_true,
      CSysVector_SubtractBlock_of_ne _ _ _ _ (hne hd),
      CSysMatrix_SubtractBlock_of_ne _ _ _ _ _ (hne hd)]
  · simp only [BC_ConjugateTFFB_Interface_flow_vertex, hd, Bool.false_eq_true, if_false]

/-- The solid body of the conjugate interface keeps the rows of every point but the
vertex's, when the vertex is domain-owned, and of every point otherwise. -/
theorem BC_ConjugateTFFB_Interface_solid_vertex_row (sqrt : K → K) (geometry : CGeometry K)
    (iMarker : Nat) (s : CHeatSolver K) (iVertex : Nat)
    (v : CVertex K) (p : Nat) (hne : (geometry.node v.Node).Domain = true → v.Node ≠ p) :
    ((BC_ConjugateTFFB_Interface_solid_vertex sqrt geometry iMarker s iVertex v).LinSysRes p,
      (BC_ConjugateTFFB_Interface_solid_vertex sqrt geometry iMarker s iVertex v).Jacobian p)
      = (s.LinSysRes p, s.Jacobian p) := by
  by_cases hd : (geometry.node v.Node).Domain = true
  · simp only [BC_ConjugateTFFB_Interface_solid_vertex, hd, if_true,
      CSysVector_SubtractBlock_of_ne _ _ _ _ (hne hd)]
  · simp only [BC_ConjugateTFFB_Interface_solid_vertex, hd, Bool.false_eq_true, if_false]

/-- A row of the linear system read off a pair of its residual entry and its Jacobian
row. -/
theorem row_of_pair {α β : Type} {a b : α} {f g : Nat → β} (h : (a, f) = (b, g)) :
    a = b ∧ ∀ c : Nat, f c = g c :=
  ⟨congrArg Prod.fst h, fun c => congrFun (congrArg Prod.snd h) c⟩

/-- C13. Each boundary routine leaves the residual entry and the Jacobian row of a point
`p` unchanged unless `p` is the point of a domain-owned vertex of a marker it processes:
the marker `val_marker` for `BC_Isothermal_Wall`, `BC_HeatFlux_Wall`, `BC_Inlet` and
`BC_Outlet`, the markers of kind `CHT_WALL_INTERFACE` for `BC_ConjugateTFFB_Interface`.
So vertices that are not domain-owned are skipped and an owned vertex contributes to its
own point only. -/
theorem boundary_handlers_touch_owned_vertices_only (sqrt : K → K) (geometry : CGeometry K)
    (flow_sol : CFlowSolver K) (CRconv CRvisc : ComputeResidualFn K) (config : CConfig K)
    (val_marker : Nat) (s : CHeatSolver K) (st : BCLoopState K) (p : Nat) :
    ((∀ v ∈ geometry.vertex val_marker, (geometry.node v.Node).Domain = true → v.Node ≠ p) →
      ((BC_Isothermal_Wall sqrt geometry flow_sol config val_marker s).LinSysRes p
          = s.LinSysRes p ∧
        ∀ c : Nat, (BC_Isothermal_Wall sqrt geometry flow_sol config val_marker s).Jacobian p c
          = s.Jacobian p c) ∧
      ((BC_HeatFlux_Wall sqrt geometry config val_marker s).LinSysRes p = s.LinSysRes p ∧
        ∀ c : Nat, (BC_HeatFlux_Wall sqrt geometry config val_marker s).Jacobian p c
          = s.Jacobian p c) ∧
      ((BC_Inlet sqrt geometry CRconv CRvisc config val_marker st).solver.LinSysRes p
          = st.solver.LinSysRes p ∧
        ∀ c : Nat, (BC_Inlet sqrt geometry CRconv CRvisc config val_marker st).solver.Jacobian p c
          = st.solver.Jacobian p c) ∧
      ((BC_Outlet geometry CRconv CRvisc config val_marker st).solver.LinSysRes p
          = st.solver.LinSysRes p ∧
        ∀ c : Nat, (BC_Outlet geometry CRconv CRvisc config val_marker st).solver.Jacobian p c
          = st.solver.Jacobian p c)) ∧
    ((∀ iMarker : Nat, iMarker < config.nMarker_All →
        config.Marker_All_KindBC iMarker = BC_TYPE.CHT_WALL_INTERFACE →
        ∀ v ∈ geometry.vertex iMarker, (geometry.node v.Node).Domain = true → v.Node ≠ p) →
      ((BC_ConjugateTFFB_Interface sqrt geometry config s).LinSysRes p = s.LinSysRes p ∧
        ∀ c : Nat, (BC_ConjugateTFFB_Interface sqrt geometry config s).Jacobian p c
          = s.Jacobian p c)) := by
  refine ⟨fun hp => ⟨?_, ?_, ?_, ?_⟩, fun hpc => ?_⟩
  · exact row_of_pair
      (foldl_preserves (fun t : CHeatSolver K => (t.LinSysRes p, t.Jacobian p)) _ _
        (fun t v hv => BC_Isothermal_Wall_vertex_row sqrt geometry flow_sol config _ t v p
          (hp v hv)) s)
  · rw [BC_HeatFlux_Wall_eq_loop]
    exact row_of_pair
      (foldl_preserves (fun t : CHeatSolver K => (t.LinSysRes p, t.Jacobian p)) _ _
        (fun t v hv => BC_HeatFlux_Wall_vertex_row sqrt geometry _ t v p (hp v hv)) s)
  · exact row_of_pair
      (vertexLoop_preserves
        (fun t : BCLoopState K => (t.solver.LinSysRes p, t.solver.Jacobian p)) _ _
        (fun t iVertex v hv =>
          BC_Inlet_vertex_row sqrt geometry CRconv CRvisc config val_marker t iVertex v p
            (hp v hv)) st)
  · exact row_of_pair
      (vertexLoop_preserves
        (fun t : BCLoopState K => (t.solver.LinSysRes p, t.solver.Jacobian p)) _ _
        (fun t iVertex v hv =>
          BC_Outlet_vertex_row geometry CRconv CRvisc config val_marker t iVertex v p
            (hp v hv)) st)
  · unfold BC_ConjugateTFFB_Interface
    by_cases hf : flow config = true
    · rw [if_pos hf]
      refine row_of_pair
        (foldl_preserves (fun t : CHeatSolver K => (t.LinSysRes p, t.Jacobian p)) _ _
          (fun t iMarker hm => ?_) s)
      by_cases hk : config.Marker_All_KindBC iMarker = BC_TYPE.CHT_WALL_INTERFACE
      · rw [if_pos hk]
        exact vertexLoop_preserves
          (fun t : CHeatSolver K => (t.LinSysRes p, t.Jacobian p)) _ _
          (fun t iVertex v hv =>
            BC_ConjugateTFFB_Interface_flow_vertex_row sqrt geometry config iMarker t iVertex
              v p (hpc iMarker (List.mem_range.mp hm) hk v hv)) t
      · rw [if_neg hk]
    · rw [if_neg hf]
      refine row_of_pair
        (foldl_preserves (fun t : CHeatSolver K => (t.LinSysRes p, t.Jacobian p)) _ _
          (fun t iMarker hm => ?_) s)
      by_cases hk : config.Marker_All_KindBC iMarker = BC_TYPE.CHT_WALL_INTERFACE
      · rw [if_pos hk]
        exact vertexLoop_preserves
          (fun t : CHeatSolver K => (t.LinSysRes p, t.Jacobian p)) _ _
          (fun t iVertex v hv =>
            BC_ConjugateTFFB_Interface_solid_vertex_row sqrt geometry iMarker t iVertex
              v p (hpc iMarker (List.mem_range.mp hm) hk v hv)) t
      · rw [if_neg hk]

end CHeatSolver

end BoundaryFrame

/-! ### The boundary routines on the instance mesh with a ghost boundary point -/

section BoundaryFrameInstances

open CHeatSolver

/-- Instance of C13: on the three-point mesh whose boundary point 0 belongs to another
subdomain, the inlet routine and the conjugate interface routine leave the residual at
point 0 as it was. -/
theorem boundary_handlers_touch_owned_vertices_only_witness :
    (∀ v ∈ exGeometryGhost.vertex 0,
      (exGeometryGhost.node v.Node).Domain = true → v.Node ≠ 0) ∧
    (∀ iMarker : Nat, iMarker < exConfig.nMarker_All →
      exConfig.Marker_All_KindBC iMarker = BC_TYPE.CHT_WALL_INTERFACE →
      ∀ v ∈ exGeometryGhost.vertex iMarker,
        (exGeometryGhost.node v.Node).Domain = true → v.Node ≠ 0) ∧
    (BC_Inlet sqrtQ exGeometryGhost exCompute exCompute exConfig 0 exLoopState).solver.LinSysRes 0
      = exLoopState.solver.LinSysRes 0 ∧
    (BC_ConjugateTFFB_Interface sqrtQ exGeometryGhost exConfig exSolver).LinSysRes 0
      = exSolver.LinSysRes 0 :=
  have h1 : ∀ v ∈ exGeometryGhost.vertex 0,
      (exGeometryGhost.node v.Node).Domain = true → v.Node ≠ 0 := by
    simp [exGeometryGhost, exGeometry]
  have h2 : ∀ iMarker : Nat, iMarker < exConfig.nMarker_All →
      exConfig.Marker_All_KindBC iMarker = BC_TYPE.CHT_WALL_INTERFACE →
      ∀ v ∈ exGeometryGhost.vertex iMarker,
        (exGeometryGhost.node v.Node).Domain = true → v.Node ≠ 0 := by
    intro iMarker hm _
    have h0 : iMarker = 0 := by simpa [exConfig] using hm
    subst h0
    exact h1
  ⟨h1, h2,
   ((boundary_handlers_touch_owned_vertices_only sqrtQ exGeometryGhost exFlow exCompute
      exCompute exConfig 0 exSolver exLoopState 0).1 h1).2.2.1.1,
   ((boundary_handlers_touch_owned_vertices_only sqrtQ exGeometryGhost exFlow exCompute
      exCompute exConfig 0 exSolver exLoopState 0).2 h2).1⟩

end BoundaryFrameInstances

/-! ## Inlet anchor and conjugate interface against the isothermal wall -/

section IsothermalStyle

variable {K : Type} [LinearOrderedField K]

namespace CHeatSolver

/-- The anchor block of the inlet at a domain-owned vertex where the thermal diffusivity
of the isothermal wall is the laminar one: it is the vertex body of the isothermal wall. -/
theorem BC_Inlet_anchor_eq (sqrt : K → K) (geometry : CGeometry K)
    (flow_sol flow_sol2 : CFlowSolver K) (config : CConfig K) (Twall : K) (s : CHeatSolver K)
    (v : CVertex K) (hd : (geometry.node v.Node).Domain = true)
    (hD : thermalDiffusivity flow_sol config v.Node
      = config.Viscosity_FreeStreamND / config.Prandtl_Lam) :
    BC_Inlet_anchor sqrt geometry flow_sol2 config Twall s v =
      BC_Isothermal_Wall_vertex sqrt geometry flow_sol config Twall s v := by
  rw [BC_Isothermal_Wall_vertex_owned sqrt geometry flow_sol config _ s v hd, hD]
  simp only [BC_Inlet_anchor, Bool.false_eq_true, if_false, zero_div, zero_add, area_loop_eq,
    dist_loop_eq, vertexDist, vertexArea]

/-- C14 as amended. At a domain-owned vertex where the thermal diffusivity of the
isothermal wall equals laminar viscosity over laminar Prandtl number, the anchor block of
`BC_Inlet` leaves the solver exactly as the vertex body of `BC_Isothermal_Wall` does with
the freestream temperature as wall temperature (same residual, same Jacobian, same
scratch blocks); and the vertex body of `BC_Inlet` is, in every mode and for either value
of the viscous flag, that isothermal wall body run after the convective block, which runs
in flow mode only. -/
theorem BC_Inlet_anchor_eq_isothermal (sqrt : K → K) (geometry : CGeometry K)
    (CRconv CRvisc : ComputeResidualFn K) (config : CConfig K) (val_marker : Nat)
    (st : BCLoopState K) (iVertex : Nat) (v : CVertex K)
    (hd : (geometry.node v.Node).Domain = true)
    (hD : thermalDiffusivity st.flow_sol config v.Node
      = config.Viscosity_FreeStreamND / config.Prandtl_Lam) :
    BC_Inlet_anchor sqrt geometry st.flow_sol config config.Temperature_FreeStreamND
        st.solver v
      = BC_Isothermal_Wall_vertex sqrt geometry st.flow_sol config
          config.Temperature_FreeStreamND st.solver v ∧
    (BC_Inlet_vertex sqrt geometry CRconv CRvisc config val_marker st iVertex v).solver
      = BC_Isothermal_Wall_vertex sqrt geometry st.flow_sol config
          config.Temperature_FreeStreamND
          (if flow config = true then
            BC_Inlet_convective geometry CRconv config val_marker
              ((List.range st.solver.nDim).foldl
                (fun N iDim => Function.update N iDim (-(N iDim))) v.Normal)
              st iVertex v
           else st).solver v := by
  refine ⟨BC_Inlet_anchor_eq sqrt geometry _ _ config _ _ v hd hD, ?_⟩
  simp only [BC_Inlet_vertex, hd, if_true, Bool.and_false, Bool.or_true, Bool.false_eq_true,
    if_false]
  exact BC_Inlet_anchor_eq sqrt geometry _ _ config _ _ v hd hD

/-- C15 as amended. At a domain-owned vertex whose point has a vanishing eddy viscosity
term `eddy / Prandtl_turb`, in flow mode, the flow branch of
`BC_ConjugateTFFB_Interface` leaves the solver exactly as the vertex body of
`BC_Isothermal_Wall` does with the conjugate variable 0 of the vertex as wall
temperature. -/
theorem BC_ConjugateTFFB_Interface_flow_eq_isothermal (sqrt : K → K) (geometry : CGeometry K)
    (flow_sol : CFlowSolver K) (config : CConfig K) (iMarker iVertex : Nat)
    (s : CHeatSolver K) (v : CVertex K)
    (hflow : config.Kind_Solver ≠ ENUM_SOLVER.HEAT_EQUATION)
    (hd : (geometry.node v.Node).Domain = true)
    (heddy : flow_sol.EddyViscosity v.Node / config.Prandtl_Turb = 0) :
    BC_ConjugateTFFB_Interface_flow_vertex sqrt geometry config iMarker s iVertex v =
      BC_Isothermal_Wall_vertex sqrt geometry flow_sol config (s.ConjugateVar iMarker iVertex 0)
        s v := by
  have hD : thermalDiffusivity flow_sol config v.Node
      = config.Viscosity_FreeStreamND / config.Prandtl_Lam := by
    simp [thermalDiffusivity, hflow, heddy]
  rw [BC_Isothermal_Wall_vertex_owned sqrt geometry flow_sol config _ s v hd, hD]
  simp only [BC_ConjugateTFFB_Interface_flow_vertex, hd, if_true, area_loop_eq,
    dist_loop_eq, vertexDist, vertexArea]

end CHeatSolver

end IsothermalStyle

/-! ### Inlet anchor and conjugate interface on the instance mesh -/

section IsothermalStyleInstances

open CHeatSolver

/-- C14 fails as stated. Flow mode with eddy viscosity 1 at the domain-owned vertex of
marker 0: the anchor block brings the residual at point 0 to 10, the isothermal wall
body with the freestream temperature as wall temperature to 40/3. Solid mode with solid
diffusivity 6: `BC_Inlet` brings it to 10, `BC_Isothermal_Wall`, whose wall temperature
is the freestream temperature, to 20. -/
theorem BC_Inlet_anchor_eq_isothermal_fails :
    (exGeometry.node exVertex.Node).Domain = true ∧
    (BC_Inlet_anchor sqrtQ exGeometry exFlowEddy exConfig exConfig.Temperature_FreeStreamND
        exSolver exVertex).LinSysRes 0 = 10 ∧
    (BC_Isothermal_Wall_vertex sqrtQ exGeometry exFlowEddy exConfig
        exConfig.Temperature_FreeStreamND exSolver exVertex).LinSysRes 0 = 40 / 3 ∧
    wallTemperature exConfigSolid6 0 = exConfigSolid6.Temperature_FreeStreamND ∧
    (BC_Inlet sqrtQ exGeometry exCompute exCompute exConfigSolid6 0
        exLoopState).solver.LinSysRes 0 = 10 ∧
    (BC_Isothermal_Wall sqrtQ exGeometry exFlow exConfigSolid6 0 exSolver).LinSysRes 0 = 20 ∧
    (BC_Inlet_anchor sqrtQ exGeometry exFlowEddy exConfig exConfig.Temperature_FreeStreamND
        exSolver exVertex).LinSysRes 0
      ≠ (BC_Isothermal_Wall_vertex sqrtQ exGeometry exFlowEddy exConfig
          exConfig.Temperature_FreeStreamND exSolver exVertex).LinSysRes 0 := by
  have h1 : (BC_Inlet_anchor sqrtQ exGeometry exFlowEddy exConfig
      exConfig.Temperature_FreeStreamND exSolver exVertex).LinSysRes 0 = 10 := by
    simp [BC_Inlet_anchor, exGeometry, exConfig, exSolver, exVertex, implicit,
      CSysVector.SubtractBlock, sqrtQ, List.range_succ]
    norm_num
  have h2 : (BC_Isothermal_Wall_vertex sqrtQ exGeometry exFlowEddy exConfig
      exConfig.Temperature_FreeStreamND exSolver exVertex).LinSysRes 0 = 40 / 3 := by
    simp [BC_Isothermal_Wall_vertex, exGeometry, exFlowEddy, exFlow, exConfig, exSolver,
      exVertex, flow, implicit, CSysVector.SubtractBlock, sqrtQ, List.range_succ]
    norm_num
  refine ⟨by simp [exGeometry, exVertex], h1, h2, ?_, ?_, ?_, by rw [h1, h2]; norm_num⟩
  · simp [wallTemperature, exConfigSolid6, exConfigSolid, exConfig]
    norm_num
  · simp [BC_Inlet, vertexLoop, BC_Inlet_vertex, BC_Inlet_anchor, exGeometry, exConfigSolid6,
      exConfigSolid, exConfig, exLoopState, exSolver, flow, implicit,
      CSysVector.SubtractBlock, sqrtQ, List.range_succ, List.enum]
    norm_num
  · simp [BC_Isothermal_Wall, BC_Isothermal_Wall_vertex, exGeometry, exFlow, exConfigSolid6,
      exConfigSolid, exConfig, exSolver, flow, implicit, CSysVector.SubtractBlock, sqrtQ,
      List.range_succ]
    norm_num

/-- Instance of the amended C14: flow mode without eddy viscosity, the domain-owned
vertex of marker 0. -/
theorem BC_Inlet_anchor_eq_isothermal_witness :
    (exGeometry.node exVertex.Node).Domain = true ∧
    thermalDiffusivity exLoopState.flow_sol exConfig exVertex.Node
      = exConfig.Viscosity_FreeStreamND / exConfig.Prandtl_Lam ∧
    BC_Inlet_anchor sqrtQ exGeometry exLoopState.flow_sol exConfig
        exConfig.Temperature_FreeStreamND exLoopState.solver exVertex
      = BC_Isothermal_Wall_vertex sqrtQ exGeometry exLoopState.flow_sol exConfig
          exConfig.Temperature_FreeStreamND exLoopState.solver exVertex :=
  ⟨by simp [exGeometry, exVertex],
   by simp [thermalDiffusivity, exLoopState, exFlow, exConfig],
   (BC_Inlet_anchor_eq_isothermal sqrtQ exGeometry exCompute exCompute exConfig 0 exLoopState 0
      exVertex (by simp [exGeometry, exVertex])
      (by simp [thermalDiffusivity, exLoopState, exFlow, exConfig])).1⟩

/-- C15 fails as stated. Flow mode with eddy viscosity 1, marker 0 of kind
`CHT_WALL_INTERFACE` with its domain-owned vertex at point 0, whose conjugate temperature
2 is also the wall temperature of the marker: `BC_ConjugateTFFB_Interface` brings the
residual at point 0 to 10, `BC_Isothermal_Wall` to 40/3. -/
theorem BC_ConjugateTFFB_Interface_flow_eq_isothermal_fails :
    exConfig.Kind_Solver ≠ ENUM_SOLVER.HEAT_EQUATION ∧
    (exGeometry.node exVertex.Node).Domain = true ∧
    exSolver.ConjugateVar 0 0 0 = wallTemperature exConfig 0 ∧
    (BC_ConjugateTFFB_Interface sqrtQ exGeometry exConfig exSolver).LinSysRes 0 = 10 ∧
    (BC_Isothermal_Wall sqrtQ exGeometry exFlowEddy exConfig 0 exSolver).LinSysRes 0
      = 40 / 3 ∧
    (BC_ConjugateTFFB_Interface sqrtQ exGeometry exConfig exSolver).LinSysRes 0
      ≠ (BC_Isothermal_Wall sqrtQ exGeometry exFlowEddy exConfig 0 exSolver).LinSysRes 0 := by
  have h1 : (BC_ConjugateTFFB_Interface sqrtQ exGeometry exConfig exSolver).LinSysRes 0
      = 10 := by
    simp [BC_ConjugateTFFB_Interface, vertexLoop, BC_ConjugateTFFB_Interface_flow_vertex,
      exGeometry, exConfig, exSolver, flow, implicit, CSysVector.SubtractBlock, sqrtQ,
      List.range_succ, List.enum]
    norm_num
  have h2 : (BC_Isothermal_Wall sqrtQ exGeometry exFlowEddy exConfig 0 exSolver).LinSysRes 0
      = 40 / 3 := by
    simp [BC_Isothermal_Wall, BC_Isothermal_Wall_vertex, exGeometry, exFlowEddy, exFlow,
      exConfig, exSolver, flow, implicit, CSysVector.SubtractBlock, sqrtQ, List.range_succ]
    norm_num
  refine ⟨by decide, by simp [exGeometry, exVertex], ?_, h1, h2, by rw [h1, h2]; norm_num⟩
  simp [wallTemperature, exConfig, exSolver]
  norm_num

/-- Instance of the amended C15: flow mode without eddy viscosity, the domain-owned
vertex of marker 0. -/
theorem BC_ConjugateTFFB_Interface_flow_eq_isothermal_witness :
    exConfig.Kind_Solver ≠ ENUM_SOLVER.HEAT_EQUATION ∧
    (exGeometry.node exVertex.Node).Domain = true ∧
    exFlow.EddyViscosity exVertex.Node / exConfig.Prandtl_Turb = 0 ∧
    BC_ConjugateTFFB_Interface_flow_vertex sqrtQ exGeometry exConfig 0 exSolver 0 exVertex
      = BC_Isothermal_Wall_vertex sqrtQ exGeometry exFlow exConfig (exSolver.ConjugateVar 0 0 0)
          exSolver exVertex :=
  ⟨by decide, by simp [exGeometry, exVertex], by simp [exFlow],
   BC_ConjugateTFFB_Interface_flow_eq_isothermal sqrtQ exGeometry exFlow exConfig 0 0 exSolver
     exVertex (by decide) (by simp [exGeometry, exVertex]) (by simp [exFlow])⟩

end IsothermalStyleInstances

/-! ## Conjugate interface -/

section ConjugateInterface

variable {K : Type} [LinearOrderedField K]

/-- A loop whose steps each add a term to a quantity adds the sum of the terms, when the
terms depend on the state only through data that every step keeps. -/
theorem foldl_accumulate {σ α γ : Type} (val : σ → K) (inv : σ → γ) (c : γ → α → K)
    (body : σ → α → σ) (L : List α)
    (hinv : ∀ st, ∀ x ∈ L, inv (body st x) = inv st)
    (hval : ∀ st, ∀ x ∈ L, val (body st x) = val st + c (inv st) x) (st : σ) :
    val (L.foldl body st) = val st + (L.map (c (inv st))).sum := by
  induction L generalizing st with
  | nil => simp
  | cons x L ih =>
    rw [List.foldl_cons,
      ih (fun st y hy => hinv st y (List.mem_cons_of_mem _ hy))
        (fun st y hy => hval st y (List.mem_cons_of_mem _ hy)),
      hinv st x (List.mem_cons_self _ _), hval st x (List.mem_cons_self _ _),
      List.map_cons, List.sum_cons]
    ring

/-- A sum of terms that vanish off a condition is the sum over the list filtered by the
condition. -/
theorem sum_map_ite_eq_filter {α : Type} (L : List α) (q : α → Bool) (f : α → K) :
    (L.map (fun x => if q x = true then f x else 0)).sum = ((L.filter q).map f).sum := by
  induction L with
  | nil => simp
  | cons x L ih =>
    rw [List.map_cons, List.sum_cons, ih, List.filter_cons]
    by_cases hq : q x = true
    · rw [if_pos hq, if_pos hq, List.map_cons, List.sum_cons]
    · rw [if_neg hq, if_neg hq, zero_add]

namespace CHeatSolver

/-- The solid body of the conjugate interface keeps the dimension, the conjugate
variables and the global Jacobian. -/
theorem BC_ConjugateTFFB_Interface_solid_vertex_inv (sqrt : K → K) (geometry : CGeometry K)
    (iMarker : Nat) (s : CHeatSolver K) (iVertex : Nat) (v : CVertex K) :
    ((BC_ConjugateTFFB_Interface_solid_vertex sqrt geometry iMarker s iVertex v).nDim,
      (BC_ConjugateTFFB_Interface_solid_vertex sqrt geometry iMarker s iVertex v).ConjugateVar,
      (BC_ConjugateTFFB_Interface_solid_vertex sqrt geometry iMarker s iVertex v).Jacobian)
      = (s.nDim, s.ConjugateVar, s.Jacobian) := by
  by_cases hd : (geometry.node v.Node).Domain = true
  · simp only [BC_ConjugateTFFB_Interface_solid_vertex, hd, if_true]
  · simp only [BC_ConjugateTFFB_Interface_solid_vertex, hd, Bool.false_eq_true, if_false]

/-- Residual after one vertex of the solid branch of the conjugate interface. -/
theorem BC_ConjugateTFFB_Interface_solid_vertex_LinSysRes (sqrt : K → K)
    (geometry : CGeometry K) (iMarker : Nat) (s : CHeatSolver K) (iVertex : Nat)
    (v : CVertex K) (p : Nat) :
    (BC_ConjugateTFFB_Interface_solid_vertex sqrt geometry iMarker s iVertex v).LinSysRes p =
      s.LinSysRes p
        + (if ((geometry.node v.Node).Domain && decide (v.Node = p)) = true then
            s.ConjugateVar iMarker iVertex 1 * vertexArea sqrt s.nDim v else 0) := by
  by_cases hd : (geometry.node v.Node).Domain = true
  · by_cases hp : v.Node = p
    · subst hp
      simp only [BC_ConjugateTFFB_Interface_solid_vertex, hd, if_true, Bool.true_and,
        decide_True, CSysVector.SubtractBlock, area_loop_eq, vertexArea]
      ring
    · simp only [BC_ConjugateTFFB_Interface_solid_vertex, hd, if_true,
        CSysVector_SubtractBlock_of_ne _ _ _ _ hp]
      simp [hp]
  · simp [BC_ConjugateTFFB_Interface_solid_vertex, hd]

/-- The flow body of the conjugate interface keeps the dimension, the conjugate
variables and the temperature. -/
theorem BC_ConjugateTFFB_Interface_flow_vertex_inv (sqrt : K → K) (geometry : CGeometry K)
    (config : CConfig K) (iMarker : Nat) (s : CHeatSolver K) (iVertex : Nat) (v : CVertex K) :
    ((BC_ConjugateTFFB_Interface_flow_vertex sqrt geometry config iMarker s iVertex v).nDim,
      (BC_ConjugateTFFB_Interface_flow_vertex sqrt geometry config iMarker s iVertex
        v).ConjugateVar,
      (BC_ConjugateTFFB_Interface_flow_vertex sqrt geometry config iMarker s iVertex v).Solution)
      = (s.nDim, s.ConjugateVar, s.Solution) := by
  by_cases hd : (geometry.node v.Node).Domain = true
  · simp only [BC_ConjugateTFFB_Interface_flow_vertex, hd, if_true]
  · simp only [BC_ConjugateTFFB_Interface_flow_vertex, hd, Bool.false_eq_true, if_false]

/-- Residual after one vertex of the flow branch of the conjugate interface. -/
theorem BC_ConjugateTFFB_Interface_flow_vertex_LinSysRes (sqrt : K → K)
    (geometry : CGeometry K) (config : CConfig K) (iMarker : Nat) (s : CHeatSolver K)
    (iVertex : Nat) (v : CVertex K) (p : Nat) :
    (BC_ConjugateTFFB_Interface_flow_vertex sqrt geometry config iMarker s iVertex v).LinSysRes p =
      s.LinSysRes p
        + (if ((geometry.node v.Node).Domain && decide (v.Node = p)) = true then
            -(config.Viscosity_FreeStreamND / config.Prandtl_Lam
                * (s.ConjugateVar iMarker iVertex 0 - s.Solution v.Normal_Neighbor)
                / vertexDist sqrt s.nDim geometry v * vertexArea sqrt s.nDim v)
           else 0) := by
  by_cases hd : (geometry.node v.Node).Domain = true
  · by_cases hp : v.Node = p
    · subst hp
      simp only [BC_ConjugateTFFB_Interface_flow_vertex, hd, if_true, Bool.true_and,
        decide_True, CSysVector.SubtractBlock, area_loop_eq, dist_loop_eq, vertexArea,
        vertexDist]
      ring
    · simp only [BC_ConjugateTFFB_Interface_flow_vertex, hd, if_true,
        CSysVector_SubtractBlock_of_ne _ _ _ _ hp]
      simp [hp]
  · simp [BC_ConjugateTFFB_Interface_flow_vertex, hd]

/-- Residual after the solid branch of the conjugate interface on one marker. -/
theorem BC_ConjugateTFFB_Interface_solid_marker (sqrt : K → K) (geometry : CGeometry K)
    (iMarker : Nat) (s : CHeatSolver K) (p : Nat) :
    (vertexLoop (BC_ConjugateTFFB_Interface_solid_vertex sqrt geometry iMarker)
        (geometry.vertex iMarker) s).LinSysRes p =
      s.LinSysRes p
        + ((ownedIndexedVerticesAt geometry iMarker p).map
            (fun iv => s.ConjugateVar iMarker iv.1 1 * vertexArea sqrt s.nDim iv.2)).sum := by
  have h := foldl_accumulate (fun t : CHeatSolver K => t.LinSysRes p)
    (fun t : CHeatSolver K => (t.nDim, t.ConjugateVar))
    (fun g (iv : Nat × CVertex K) =>
      if ((geometry.node iv.2.Node).Domain && decide (iv.2.Node = p)) = true then
        g.2 iMarker iv.1 1 * vertexArea sqrt g.1 iv.2 else 0)
    (fun t iv => BC_ConjugateTFFB_Interface_solid_vertex sqrt geometry iMarker t iv.1 iv.2)
    (geometry.vertex iMarker).enum
    (fun t iv _ => by
      have h := BC_ConjugateTFFB_Interface_solid_vertex_inv sqrt geometry iMarker t iv.1 iv.2
      beta_reduce
      simp only [Prod.mk.injEq] at h ⊢
      exact ⟨h.1, h.2.1⟩)
    (fun t iv _ =>
      BC_ConjugateTFFB_Interface_solid_vertex_LinSysRes sqrt geometry iMarker t iv.1 iv.2 p)
    s
  rw [sum_map_ite_eq_filter] at h
  exact h

/-- Residual after the flow branch of the conjugate interface on one marker. -/
theorem BC_ConjugateTFFB_Interface_flow_marker (sqrt : K → K) (geometry : CGeometry K)
    (config : CConfig K) (iMarker : Nat) (s : CHeatSolver K) (p : Nat) :
    (vertexLoop (BC_ConjugateTFFB_Interface_flow_vertex sqrt geometry config iMarker)
        (geometry.vertex iMarker) s).LinSysRes p =
      s.LinSysRes p
        + ((ownedIndexedVerticesAt geometry iMarker p).map
            (fun iv =>
              -(config.Viscosity_FreeStreamND / config.Prandtl_Lam
                * (s.ConjugateVar iMarker iv.1 0 - s.Solution iv.2.Normal_Neighbor)
                / vertexDist sqrt s.nDim geometry iv.2 * vertexArea sqrt s.nDim iv.2))).sum := by
  have h := foldl_accumulate (fun t : CHeatSolver K => t.LinSysRes p)
    (fun t : CHeatSolver K => (t.nDim, t.ConjugateVar, t.Solution))
    (fun g (iv : Nat × CVertex K) =>
      if ((geometry.node iv.2.Node).Domain && decide (iv.2.Node = p)) = true then
        -(config.Viscosity_FreeStreamND / config.Prandtl_Lam
          * (g.2.1 iMarker iv.1 0 - g.2.2 iv.2.Normal_Neighbor)
          / vertexDist sqrt g.1 geometry iv.2 * vertexArea sqrt g.1 iv.2)
      else 0)
    (fun t iv => BC_ConjugateTFFB_Interface_flow_vertex sqrt geometry config iMarker t iv.1 iv.2)
    (geometry.vertex iMarker).enum
    (fun t iv _ =>
      BC_ConjugateTFFB_Interface_flow_vertex_inv sqrt geometry config iMarker t iv.1 iv.2)
    (fun t iv _ =>
      BC_ConjugateTFFB_Interface_flow_vertex_LinSysRes sqrt geometry config iMarker t iv.1
        iv.2 p)
    s
  rw [sum_map_ite_eq_filter] at h
  exact h

/-- Residual after `BC_ConjugateTFFB_Interface` in solid conduction mode. -/
theorem BC_ConjugateTFFB_Interface_solid_LinSysRes (sqrt : K → K) (geometry : CGeometry K)
    (config : CConfig K) (s : CHeatSolver K) (p : Nat)
    (hsolid : config.Kind_Solver = ENUM_SOLVER.HEAT_EQUATION) :
    (BC_ConjugateTFFB_Interface sqrt geometry config s).LinSysRes p =
      s.LinSysRes p
        + ((interfaceMarkers config).map
            (fun iMarker =>
              ((ownedIndexedVerticesAt geometry iMarker p).map
                (fun iv =>
                  s.ConjugateVar iMarker iv.1 1 * vertexArea sqrt s.nDim iv.2)).sum)).sum := by
  have hf : ¬ flow config = true := by simp [flow, hsolid]
  have h := foldl_accumulate (fun t : CHeatSolver K => t.LinSysRes p)
    (fun t : CHeatSolver K => (t.nDim, t.ConjugateVar))
    (fun g (iMarker : Nat) =>
      if decide (config.Marker_All_KindBC iMarker = BC_TYPE.CHT_WALL_INTERFACE) = true then
        ((ownedIndexedVerticesAt geometry iMarker p).map
          (fun iv => g.2 iMarker iv.1 1 * vertexArea sqrt g.1 iv.2)).sum
      else 0)
    (fun t iMarker =>
      if config.Marker_All_KindBC iMarker = BC_TYPE.CHT_WALL_INTERFACE then
        vertexLoop (BC_ConjugateTFFB_Interface_solid_vertex sqrt geometry iMarker)
          (geometry.vertex iMarker) t
      else t)
    (List.range config.nMarker_All)
    (fun t iMarker _ => by
      beta_reduce
      by_cases hk : config.Marker_All_KindBC iMarker = BC_TYPE.CHT_WALL_INTERFACE
      · rw [if_pos hk]
        exact vertexLoop_preserves (fun t : CHeatSolver K => (t.nDim, t.ConjugateVar)) _ _
          (fun t iVertex v _ => by
            have h := BC_ConjugateTFFB_Interface_solid_vertex_inv sqrt geometry iMarker t
              iVertex v
            beta_reduce
            simp only [Prod.mk.injEq] at h ⊢
            exact ⟨h.1, h.2.1⟩) t
      · rw [if_neg hk])
    (fun t iMarker _ => by
      beta_reduce
      by_cases hk : config.Marker_All_KindBC iMarker = BC_TYPE.CHT_WALL_INTERFACE
      · rw [if_pos hk, if_pos (decide_eq_true hk)]
        exact BC_ConjugateTFFB_Interface_solid_marker sqrt geometry iMarker t p
      · rw [if_neg hk, if_neg (by simpa using hk), add_zero])
    s
  rw [sum_map_ite_eq_filter] at h
  unfold BC_ConjugateTFFB_Interface
  rw [if_neg hf]
  exact h

/-- Residual after `BC_ConjugateTFFB_Interface` in flow mode. -/
theorem BC_ConjugateTFFB_Interface_flow_LinSysRes (sqrt : K → K) (geometry : CGeometry K)
    (config : CConfig K) (s : CHeatSolver K) (p : Nat)
    (hflow : config.Kind_Solver ≠ ENUM_SOLVER.HEAT_EQUATION) :
    (BC_ConjugateTFFB_Interface sqrt geometry config s).LinSysRes p =
      s.LinSysRes p
        + ((interfaceMarkers config).map
            (fun iMarker =>
              ((ownedIndexedVerticesAt geometry iMarker p).map
                (fun iv =>
                  -(config.Viscosity_FreeStreamND / config.Prandtl_Lam
                    * (s.ConjugateVar iMarker iv.1 0 - s.Solution iv.2.Normal_Neighbor)
                    / vertexDist sqrt s.nDim geometry iv.2
                    * vertexArea sqrt s.nDim iv.2))).sum)).sum := by
  have hf : flow config = true := by simp [flow, hflow]
  have h := foldl_accumulate (fun t : CHeatSolver K => t.LinSysRes p)
    (fun t : CHeatSolver K => (t.nDim, t.ConjugateVar, t.Solution))
    (fun g (iMarker : Nat) =>
      if decide (config.Marker_All_KindBC iMarker = BC_TYPE.CHT_WALL_INTERFACE) = true then
        ((ownedIndexedVerticesAt geometry iMarker p).map
          (fun iv =>
            -(config.Viscosity_FreeStreamND / config.Prandtl_Lam
              * (g.2.1 iMarker iv.1 0 - g.2.2 iv.2.Normal_Neighbor)
              / vertexDist sqrt g.1 geometry iv.2 * vertexArea sqrt g.1 iv.2))).sum
      else 0)
    (fun t iMarker =>
      if config.Marker_All_KindBC iMarker = BC_TYPE.CHT_WALL_INTERFACE then
        vertexLoop (BC_ConjugateTFFB_Interface_flow_vertex sqrt geometry config iMarker)
          (geometry.vertex iMarker) t
      else t)
    (List.range config.nMarker_All)
    (fun t iMarker _ => by
      beta_reduce
      by_cases hk : config.Marker_All_KindBC iMarker = BC_TYPE.CHT_WALL_INTERFACE
      · rw [if_pos hk]
        exact vertexLoop_preserves
          (fun t : CHeatSolver K => (t.nDim, t.ConjugateVar, t.Solution)) _ _
          (fun t iVertex v _ =>
            BC_ConjugateTFFB_Interface_flow_vertex_inv sqrt geometry config iMarker t
              iVertex v) t
      · rw [if_neg hk])
    (fun t iMarker _ => by
      beta_reduce
      by_cases hk : config.Marker_All_KindBC iMarker = BC_TYPE.CHT_WALL_INTERFACE
      · rw [if_pos hk, if_pos (decide_eq_true hk)]
        exact BC_ConjugateTFFB_Interface_flow_marker sqrt geometry config iMarker t p
      · rw [if_neg hk, if_neg (by simpa using hk), add_zero])
    s
  rw [sum_map_ite_eq_filter] at h
  unfold BC_ConjugateTFFB_Interface
  rw [if_pos hf]
  exact h

/-- The sum of the opposites is the opposite of the sum. -/
theorem sum_map_neg_eq {α : Type} (L : List α) (f : α → K) :
    (L.map (fun x => -f x)).sum = -(L.map f).sum := by
  induction L with
  | nil => simp
  | cons x L ih =>
    rw [List.map_cons, List.sum_cons, ih, List.map_cons, List.sum_cons]
    ring

/-- C16. Solid conduction mode: `BC_ConjugateTFFB_Interface` raises the residual at each
point `p` by the sum, over the markers of kind `CHT_WALL_INTERFACE` and their domain-owned
vertices located at `p`, of `q * Area`, with `q` the conjugate variable 1 of the vertex
and `Area` the norm of its normal; it changes no entry of the global Jacobian; and the
resulting residual is the same for every temperature field. -/
theorem BC_ConjugateTFFB_Interface_solid_residual (sqrt : K → K) (geometry : CGeometry K)
    (config : CConfig K) (s : CHeatSolver K)
    (hsolid : config.Kind_Solver = ENUM_SOLVER.HEAT_EQUATION) :
    (∀ p : Nat,
      (BC_ConjugateTFFB_Interface sqrt geometry config s).LinSysRes p =
        s.LinSysRes p
          + ((interfaceMarkers config).map
              (fun iMarker =>
                ((ownedIndexedVerticesAt geometry iMarker p).map
                  (fun iv =>
                    s.ConjugateVar iMarker iv.1 1 * vertexArea sqrt s.nDim iv.2)).sum)).sum) ∧
    (BC_ConjugateTFFB_Interface sqrt geometry config s).Jacobian = s.Jacobian ∧
    (∀ T : Nat → K,
      (BC_ConjugateTFFB_Interface sqrt geometry config { s with Solution := T }).LinSysRes
        = (BC_ConjugateTFFB_Interface sqrt geometry config s).LinSysRes) := by
  have hf : ¬ flow config = true := by simp [flow, hsolid]
  refine ⟨fun p => BC_ConjugateTFFB_Interface_solid_LinSysRes sqrt geometry config s p hsolid,
    ?_, fun T => ?_⟩
  · unfold BC_ConjugateTFFB_Interface
    rw [if_neg hf]
    refine foldl_preserves (fun t : CHeatSolver K => t.Jacobian) _ _ (fun t iMarker _ => ?_) s
    beta_reduce
    by_cases hk : config.Marker_All_KindBC iMarker = BC_TYPE.CHT_WALL_INTERFACE
    · rw [if_pos hk]
      exact vertexLoop_preserves (fun t : CHeatSolver K => t.Jacobian) _ _
        (fun t iVertex v _ =>
          congrArg (fun x => x.2.2)
            (BC_ConjugateTFFB_Interface_solid_vertex_inv sqrt geometry iMarker t iVertex v)) t
    · rw [if_neg hk]
  · funext p
    rw [BC_ConjugateTFFB_Interface_solid_LinSysRes sqrt geometry config _ p hsolid,
      BC_ConjugateTFFB_Interface_solid_LinSysRes sqrt geometry config s p hsolid]

/-- C17. Energy balance across the conjugate interface. Take a flow-side and a
solid-side run of `BC_ConjugateTFFB_Interface` with the same interface markers, and a
point on each side, such that on every interface marker the domain-owned vertices at the
two points match one to one: the heat-flux density handed to the solid-side vertex
(conjugate variable 1) is the density `k * (Twall - T_n) / dist` the flow branch computes
at the matching flow-side vertex, `k` being laminar viscosity over laminar Prandtl
number, and the two vertices have the same face area. Then the solid-side residual
contribution is the exact negative of the flow-side residual contribution. -/
theorem conjugate_interface_energy_balance (sqrt : K → K) (geometryF geometryS : CGeometry K)
    (configF configS : CConfig K) (sF sS : CHeatSolver K) (pF pS : Nat)
    (hflow : configF.Kind_Solver ≠ ENUM_SOLVER.HEAT_EQUATION)
    (hsolid : configS.Kind_Solver = ENUM_SOLVER.HEAT_EQUATION)
    (hmarkers : interfaceMarkers configS = interfaceMarkers configF)
    (hmatch : ∀ iMarker ∈ interfaceMarkers configF,
      (ownedIndexedVerticesAt geometryS iMarker pS).map
          (fun iv => (sS.ConjugateVar iMarker iv.1 1, vertexArea sqrt sS.nDim iv.2))
        = (ownedIndexedVerticesAt geometryF iMarker pF).map
          (fun iv =>
            (configF.Viscosity_FreeStreamND / configF.Prandtl_Lam
                * (sF.ConjugateVar iMarker iv.1 0 - sF.Solution iv.2.Normal_Neighbor)
                / vertexDist sqrt sF.nDim geometryF iv.2,
              vertexArea sqrt sF.nDim iv.2))) :
    (BC_ConjugateTFFB_Interface sqrt geometryS configS sS).LinSysRes pS - sS.LinSysRes pS
      = -((BC_ConjugateTFFB_Interface sqrt geometryF configF sF).LinSysRes pF
          - sF.LinSysRes pF) := by
  rw [BC_ConjugateTFFB_Interface_solid_LinSysRes sqrt geometryS configS sS pS hsolid,
    BC_ConjugateTFFB_Interface_flow_LinSysRes sqrt geometryF configF sF pF hflow, hmarkers,
    add_sub_cancel_left, add_sub_cancel_left, ← sum_map_neg_eq]
  congr 1
  refine List.map_congr_left (fun iMarker hm => ?_)
  have h := congrArg (fun L : List (K × K) => (L.map (fun pr => pr.1 * pr.2)).sum)
    (hmatch iMarker hm)
  simp only [List.map_map] at h
  rw [sum_map_neg_eq, neg_neg]
  exact h

end CHeatSolver

end ConjugateInterface

/-! ### The conjugate interface on the instance mesh -/

section ConjugateInterfaceInstances

open CHeatSolver

/-- Instance of C16: solid conduction mode on the three-point mesh, whose marker 0 is a
conjugate interface with one domain-owned vertex at point 0, of area 2 and conjugate
heat-flux density -5: the residual at point 0 goes from 0 to -10 and the Jacobian is
unchanged. -/
theorem BC_ConjugateTFFB_Interface_solid_residual_witness :
    exConfigSolid.Kind_Solver = ENUM_SOLVER.HEAT_EQUATION ∧
    (BC_ConjugateTFFB_Interface sqrtQ exGeometry exConfigSolid exSolver).LinSysRes 0 =
      exSolver.LinSysRes 0
        + ((interfaceMarkers exConfigSolid).map
            (fun iMarker =>
              ((ownedIndexedVerticesAt exGeometry iMarker 0).map
                (fun iv =>
                  exSolver.ConjugateVar iMarker iv.1 1
                    * vertexArea sqrtQ exSolver.nDim iv.2)).sum)).sum ∧
    (BC_ConjugateTFFB_Interface sqrtQ exGeometry exConfigSolid exSolver).Jacobian
      = exSolver.Jacobian :=
  ⟨by decide,
   (BC_ConjugateTFFB_Interface_solid_residual sqrtQ exGeometry exConfigSolid exSolver
      (by decide)).1 0,
   (BC_ConjugateTFFB_Interface_solid_residual sqrtQ exGeometry exConfigSolid exSolver
      (by decide)).2.1⟩

/-- The interface data of the instance: marker 0 is the only interface marker, and at
point 0 the conjugate heat-flux density -5 of the solid side is the density
`3 * (2 - 7) / 3` computed by the flow side at the same vertex. -/
theorem exInterface_match :
    interfaceMarkers exConfigSolid = interfaceMarkers exConfig ∧
    ∀ iMarker ∈ interfaceMarkers exConfig,
      (ownedIndexedVerticesAt exGeometry iMarker 0).map
          (fun iv => (exSolver.ConjugateVar iMarker iv.1 1, vertexArea sqrtQ exSolver.nDim iv.2))
        = (ownedIndexedVerticesAt exGeometry iMarker 0).map
          (fun iv =>
            (exConfig.Viscosity_FreeStreamND / exConfig.Prandtl_Lam
                * (exSolver.ConjugateVar iMarker iv.1 0 - exSolver.Solution iv.2.Normal_Neighbor)
                / vertexDist sqrtQ exSolver.nDim exGeometry iv.2,
              vertexArea sqrtQ exSolver.nDim iv.2)) := by
  refine ⟨rfl, fun iMarker hm => ?_⟩
  have h0 : iMarker = 0 := by
    simpa [interfaceMarkers, exConfig] using hm
  subst h0
  simp [ownedIndexedVerticesAt, exGeometry, exConfig, exSolver, vertexDist, euclideanNorm,
    sqrtQ, List.enum]
  norm_num

/-- Instance of C17: the flow-coupled and the solid conduction configuration on the
three-point mesh, at the interface vertex of point 0. -/
theorem conjugate_interface_energy_balance_witness :
    exConfig.Kind_Solver ≠ ENUM_SOLVER.HEAT_EQUATION ∧
    exConfigSolid.Kind_Solver = ENUM_SOLVER.HEAT_EQUATION ∧
    (BC_ConjugateTFFB_Interface sqrtQ exGeometry exConfigSolid exSolver).LinSysRes 0
        - exSolver.LinSysRes 0
      = -((BC_ConjugateTFFB_Interface sqrtQ exGeometry exConfig exSolver).LinSysRes 0
          - exSolver.LinSysRes 0) :=
  ⟨by decide, by decide,
   conjugate_interface_energy_balance sqrtQ exGeometry exGeometry exConfig exConfigSolid
     exSolver exSolver 0 0 (by decide) (by decide) exInterface_match.1 exInterface_match.2⟩

end ConjugateInterfaceInstances

/-! ## Time step -/

section TimeStep

/-- At a domain-owned point the ownership test of an endpoint located there is void. -/
theorem CHeatSolver.owned_at_eq {K : Type} (geometry : CGeometry K) (p : Nat)
    (hdom : (geometry.node p).Domain = true) (i : Nat) :
    ((geometry.node i).Domain && decide (i = p)) = decide (i = p) := by
  by_cases h : i = p
  · subst h
    simp [hdom]
  · simp [h]

variable {K : Type} [LinearOrderedField K]

/-- A loop that writes one entry of an array per step, each value depending on the state
only through data that every step keeps, leaves in an entry the value of its index when
the index is in the list, and the old entry otherwise. -/
theorem foldl_update {σ γ β : Type} (fld : σ → Nat → β) (inv : σ → γ) (g : γ → Nat → β)
    (body : σ → Nat → σ) (L : List Nat)
    (hinv : ∀ st, ∀ i ∈ L, inv (body st i) = inv st)
    (hfld : ∀ st, ∀ i ∈ L, fld (body st i) = Function.update (fld st) i (g (inv st) i))
    (st : σ) (p : Nat) :
    fld (L.foldl body st) p = if p ∈ L then g (inv st) p else fld st p := by
  induction L generalizing st with
  | nil => simp
  | cons i L ih =>
    rw [List.foldl_cons,
      ih (fun st j hj => hinv st j (List.mem_cons_of_mem _ hj))
        (fun st j hj => hfld st j (List.mem_cons_of_mem _ hj)),
      hinv st i (List.mem_cons_self _ _), hfld st i (List.mem_cons_self _ _)]
    by_cases hL : p ∈ L
    · rw [if_pos hL, if_pos (List.mem_cons_of_mem _ hL)]
    · rw [if_neg hL]
      by_cases hpi : p = i
      · subst hpi
        rw [if_pos (List.mem_cons_self _ _), Function.update_same]
      · rw [if_neg (fun h => (List.mem_cons.mp h).elim hpi hL), Function.update_noteq hpi]

namespace CHeatSolver

/-- The diffusivity used by `SetTime_Step` is the spec's thermal diffusivity. -/
theorem SetTime_Step_diffusivity_eq (flow_sol : CFlowSolver K) (config : CConfig K)
    (iPoint : Nat) :
    SetTime_Step_diffusivity flow_sol config iPoint = thermalDiffusivity flow_sol config iPoint := by
  by_cases hk : config.Kind_Solver = ENUM_SOLVER.HEAT_EQUATION
  · simp [SetTime_Step_diffusivity, flow, thermalDiffusivity, hk]
  · simp [SetTime_Step_diffusivity, flow, thermalDiffusivity, hk]

/-- The guarded accessor adds `Lambda` to the spectral radius of a domain-owned point
and keeps the dimension and the number of domain points. -/
theorem AddMax_Lambda_Visc_eq (geometry : CGeometry K) (s : CHeatSolver K) (iPoint : Nat)
    (Lambda : K) (p : Nat) :
    (AddMax_Lambda_Visc geometry s iPoint Lambda).Max_Lambda_Visc p =
        s.Max_Lambda_Visc p
          + (if ((geometry.node iPoint).Domain && decide (iPoint = p)) = true then Lambda
             else 0) ∧
    ((AddMax_Lambda_Visc geometry s iPoint Lambda).nDim,
      (AddMax_Lambda_Visc geometry s iPoint Lambda).nPointDomain)
      = (s.nDim, s.nPointDomain) := by
  by_cases hd : (geometry.node iPoint).Domain = true
  · by_cases hp : iPoint = p
    · subst hp
      simp [AddMax_Lambda_Visc, hd]
    · have hp2 : p ≠ iPoint := fun h => hp h.symm
      simp [AddMax_Lambda_Visc, hd, hp, Function.update_noteq hp2]
  · simp [AddMax_Lambda_Visc, hd]

/-- Spectral radius after one edge of `SetTime_Step`, and what the edge body keeps. -/
theorem SetTime_Step_edge_eq (sqrt : K → K) (geometry : CGeometry K) (flow_sol : CFlowSolver K)
    (config : CConfig K) (s : CHeatSolver K) (e : CEdge K) (p : Nat) :
    (SetTime_Step_edge sqrt geometry flow_sol config s e).Max_Lambda_Visc p =
        s.Max_Lambda_Visc p
          + ((if ((geometry.node e.Node0).Domain && decide (e.Node0 = p)) = true then
                edgeLambda sqrt s.nDim flow_sol config e else 0)
            + (if ((geometry.node e.Node1).Domain && decide (e.Node1 = p)) = true then
                edgeLambda sqrt s.nDim flow_sol config e else 0)) ∧
    ((SetTime_Step_edge sqrt geometry flow_sol config s e).nDim,
      (SetTime_Step_edge sqrt geometry flow_sol config s e).nPointDomain)
      = (s.nDim, s.nPointDomain) := by
  have hL : thermalDiffusivity flow_sol config e.Node0
      * euclideanNorm sqrt s.nDim e.Normal * euclideanNorm sqrt s.nDim e.Normal
      = edgeLambda sqrt s.nDim flow_sol config e := by
    unfold edgeLambda
    ring
  simp only [SetTime_Step_edge, area_loop_eq, SetTime_Step_diffusivity_eq, hL]
  refine ⟨?_, ?_⟩
  · rw [(AddMax_Lambda_Visc_eq geometry _ e.Node1 _ p).1,
      (AddMax_Lambda_Visc_eq geometry _ e.Node0 _ p).1]
    ring
  · rw [(AddMax_Lambda_Visc_eq geometry _ e.Node1 _ p).2,
      (AddMax_Lambda_Visc_eq geometry _ e.Node0 _ p).2]

/-- Spectral radius after one boundary vertex of `SetTime_Step`, and what the vertex body
keeps. -/
theorem SetTime_Step_vertex_eq (sqrt : K → K) (geometry : CGeometry K)
    (flow_sol : CFlowSolver K) (config : CConfig K) (s : CHeatSolver K) (v : CVertex K)
    (p : Nat) :
    (SetTime_Step_vertex sqrt geometry flow_sol config s v).Max_Lambda_Visc p =
        s.Max_Lambda_Visc p
          + (if ((geometry.node v.Node).Domain && decide (v.Node = p)) = true then
              vertexLambda sqrt s.nDim flow_sol config v else 0) ∧
    ((SetTime_Step_vertex sqrt geometry flow_sol config s v).nDim,
      (SetTime_Step_vertex sqrt geometry flow_sol config s v).nPointDomain)
      = (s.nDim, s.nPointDomain) := by
  have hL : thermalDiffusivity flow_sol config v.Node
      * euclideanNorm sqrt s.nDim v.Normal * euclideanNorm sqrt s.nDim v.Normal
      = vertexLambda sqrt s.nDim flow_sol config v := by
    unfold vertexLambda vertexArea
    ring
  simp only [SetTime_Step_vertex, area_loop_eq, SetTime_Step_diffusivity_eq, hL]
  exact AddMax_Lambda_Visc_eq geometry s v.Node _ p

/-- The spec's sum of the contributions that reach the spectral radius of the point `p`:
every interior edge once per domain-owned endpoint at `p`, every boundary vertex of
the markers below `nMarker` whose domain-owned point is `p`. -/
theorem SetTime_Step_spectral_eq (sqrt : K → K) (geometry : CGeometry K)
    (flow_sol : CFlowSolver K) (config : CConfig K) (s : CHeatSolver K) (p : Nat) :
    (SetTime_Step_spectral sqrt geometry flow_sol config s).Max_Lambda_Visc p =
        (if p < s.nPointDomain then 0 else s.Max_Lambda_Visc p)
          + (geometry.edge.map (fun e =>
              (if ((geometry.node e.Node0).Domain && decide (e.Node0 = p)) = true then
                edgeLambda sqrt s.nDim flow_sol config e else 0)
              + (if ((geometry.node e.Node1).Domain && decide (e.Node1 = p)) = true then
                edgeLambda sqrt s.nDim flow_sol config e else 0))).sum
          + ((List.range geometry.nMarker).map (fun iMarker =>
              ((geometry.vertex iMarker).map (fun v =>
                if ((geometry.node v.Node).Domain && decide (v.Node = p)) = true then
                  vertexLambda sqrt s.nDim flow_sol config v else 0)).sum)).sum ∧
    ((SetTime_Step_spectral sqrt geometry flow_sol config s).nDim,
      (SetTime_Step_spectral sqrt geometry flow_sol config s).nPointDomain)
      = (s.nDim, s.nPointDomain) := by
  -- the reset loop
  have h1 := foldl_update (fun t : CHeatSolver K => t.Max_Lambda_Visc) (fun _ => ())
    (fun _ _ => (0 : K))
    (fun (t : CHeatSolver K) iPoint =>
      { t with
          Max_Lambda_Inv := Function.update t.Max_Lambda_Inv iPoint 0,
          Max_Lambda_Visc := Function.update t.Max_Lambda_Visc iPoint 0 })
    (List.range s.nPointDomain) (fun _ _ _ => rfl) (fun _ _ _ => rfl) s p
  have h1i := foldl_preserves (fun t : CHeatSolver K => (t.nDim, t.nPointDomain))
    (fun (t : CHeatSolver K) iPoint =>
      { t with
          Max_Lambda_Inv := Function.update t.Max_Lambda_Inv iPoint 0,
          Max_Lambda_Visc := Function.update t.Max_Lambda_Visc iPoint 0 })
    (List.range s.nPointDomain) (fun _ _ _ => rfl) s
  -- the edge loop
  have h2 := fun t : CHeatSolver K =>
    foldl_accumulate (fun t : CHeatSolver K => t.Max_Lambda_Visc p)
      (fun t : CHeatSolver K => (t.nDim, t.nPointDomain))
      (fun g (e : CEdge K) =>
        (if ((geometry.node e.Node0).Domain && decide (e.Node0 = p)) = true then
          edgeLambda sqrt g.1 flow_sol config e else 0)
        + (if ((geometry.node e.Node1).Domain && decide (e.Node1 = p)) = true then
          edgeLambda sqrt g.1 flow_sol config e else 0))
      (SetTime_Step_edge sqrt geometry flow_sol config) geometry.edge
      (fun t e _ => (SetTime_Step_edge_eq sqrt geometry flow_sol config t e p).2)
      (fun t e _ => (SetTime_Step_edge_eq sqrt geometry flow_sol config t e p).1) t
  have h2i := fun t : CHeatSolver K =>
    foldl_preserves (fun t : CHeatSolver K => (t.nDim, t.nPointDomain))
      (SetTime_Step_edge sqrt geometry flow_sol config) geometry.edge
      (fun t e _ => (SetTime_Step_edge_eq sqrt geometry flow_sol config t e p).2) t
  -- the boundary loop
  have h3i := fun (t : CHeatSolver K) (iMarker : Nat) =>
    foldl_preserves (fun t : CHeatSolver K => (t.nDim, t.nPointDomain))
      (SetTime_Step_vertex sqrt geometry flow_sol config) (geometry.vertex iMarker)
      (fun t v _ => (SetTime_Step_vertex_eq sqrt geometry flow_sol config t v p).2) t
  have h3 := fun t : CHeatSolver K =>
    foldl_accumulate (fun t : CHeatSolver K => t.Max_Lambda_Visc p)
      (fun t : CHeatSolver K => (t.nDim, t.nPointDomain))
      (fun g (iMarker : Nat) =>
        ((geometry.vertex iMarker).map (fun v =>
          if ((geometry.node v.Node).Domain && decide (v.Node = p)) = true then
            vertexLambda sqrt g.1 flow_sol config v else 0)).sum)
      (fun t iMarker =>
        (geometry.vertex iMarker).foldl (SetTime_Step_vertex sqrt geometry flow_sol config) t)
      (List.range geometry.nMarker)
      (fun t iMarker _ => h3i t iMarker)
      (fun t iMarker _ =>
        foldl_accumulate (fun t : CHeatSolver K => t.Max_Lambda_Visc p)
          (fun t : CHeatSolver K => (t.nDim, t.nPointDomain))
          (fun g (v : CVertex K) =>
            if ((geometry.node v.Node).Domain && decide (v.Node = p)) = true then
              vertexLambda sqrt g.1 flow_sol config v else 0)
          (SetTime_Step_vertex sqrt geometry flow_sol config) (geometry.vertex iMarker)
          (fun t v _ => (SetTime_Step_vertex_eq sqrt geometry flow_sol config t v p).2)
          (fun t v _ => (SetTime_Step_vertex_eq sqrt geometry flow_sol config t v p).1) t) t
  have h3j := fun t : CHeatSolver K =>
    foldl_preserves (fun t : CHeatSolver K => (t.nDim, t.nPointDomain))
      (fun t iMarker =>
        (geometry.vertex iMarker).foldl (SetTime_Step_vertex sqrt geometry flow_sol config) t)
      (List.range geometry.nMarker) (fun t iMarker _ => h3i t iMarker) t
  unfold SetTime_Step_spectral
  beta_reduce at h1 h1i h2 h2i h3 h3j
  simp only [List.mem_range] at h1
  simp only [Prod.mk.injEq] at h1i h2i h3j
  refine ⟨?_, ?_⟩
  · rw [h3, h2, h1]
    simp only [(h2i _).1, h1i.1]
  · rw [(h3j _).1, (h3j _).2, (h2i _).1, (h2i _).2, h1i.1, h1i.2]

/-- The clamp of the point loop is a minimum. -/
theorem clamp_eq_min (x M : K) : (if x > M then M else x) = min x M := by
  by_cases h : x ≤ M
  · rw [if_neg (not_lt.mpr h), min_eq_left h]
  · rw [if_pos (not_le.mp h), min_eq_right (le_of_lt (not_le.mp h))]

/-- Time step written by the point body of `SetTime_Step`; the body keeps the spectral
radius. -/
theorem SetTime_Step_point_eq (geometry : CGeometry K) (config : CConfig K) (iMesh : Nat)
    (s : CHeatSolver K) (iPoint : Nat) :
    (SetTime_Step_point geometry config iMesh s iPoint).Delta_Time =
        Function.update s.Delta_Time iPoint
          (if (geometry.node iPoint).Volume = 0 then 0
           else min (min 1000000
              (config.CFL iMesh * 0.25 * (geometry.node iPoint).Volume ^ 2
                / s.Max_Lambda_Visc iPoint)) config.Max_DeltaTime) ∧
    (SetTime_Step_point geometry config iMesh s iPoint).Max_Lambda_Visc = s.Max_Lambda_Visc := by
  have hsq : config.CFL iMesh * 0.25 * (geometry.node iPoint).Volume
      * (geometry.node iPoint).Volume
      = config.CFL iMesh * 0.25 * (geometry.node iPoint).Volume ^ 2 := by ring
  by_cases hv : (geometry.node iPoint).Volume = 0
  · simp [SetTime_Step_point, hv]
  · simp only [SetTime_Step_point, ne_eq, hv, not_false_eq_true, if_true, if_false,
      clamp_eq_min, hsq, and_self]

/-- Time step and spectral radius after `SetTime_Step`, through the spectral radius its
first loops compute. -/
theorem SetTime_Step_eq (sqrt : K → K) (geometry : CGeometry K) (flow_sol : CFlowSolver K)
    (config : CConfig K) (iMesh : Nat) (s : CHeatSolver K) (p : Nat)
    (hp : p < s.nPointDomain) :
    (SetTime_Step sqrt geometry flow_sol config iMesh s).Max_Lambda_Visc p
      = (SetTime_Step_spectral sqrt geometry flow_sol config s).Max_Lambda_Visc p ∧
    (SetTime_Step sqrt geometry flow_sol config iMesh s).Delta_Time p =
      (if (geometry.node p).Volume = 0 then 0
       else min (min 1000000
          (config.CFL iMesh * 0.25 * (geometry.node p).Volume ^ 2
            / (SetTime_Step sqrt geometry flow_sol config iMesh s).Max_Lambda_Visc p))
          config.Max_DeltaTime) := by
  have hs0 : ∀ q : Nat,
      (SetTime_Step_spectral sqrt geometry flow_sol config
          { s with Min_Delta_Time := 1000000, Max_Delta_Time := 0 }).Max_Lambda_Visc q
        = (SetTime_Step_spectral sqrt geometry flow_sol config s).Max_Lambda_Visc q := by
    intro q
    rw [(SetTime_Step_spectral_eq sqrt geometry flow_sol config _ q).1,
      (SetTime_Step_spectral_eq sqrt geometry flow_sol config s q).1]
  have hn : (SetTime_Step_spectral sqrt geometry flow_sol config
      { s with Min_Delta_Time := 1000000, Max_Delta_Time := 0 }).nPointDomain
      = s.nPointDomain :=
    congrArg Prod.snd (SetTime_Step_spectral_eq sqrt geometry flow_sol config
      { s with Min_Delta_Time := 1000000, Max_Delta_Time := 0 } p).2
  have hL := foldl_preserves (fun t : CHeatSolver K => t.Max_Lambda_Visc)
    (SetTime_Step_point geometry config iMesh) (List.range s.nPointDomain)
    (fun t i _ => (SetTime_Step_point_eq geometry config iMesh t i).2)
    (SetTime_Step_spectral sqrt geometry flow_sol config
      { s with Min_Delta_Time := 1000000, Max_Delta_Time := 0 })
  have hD := foldl_update (fun t : CHeatSolver K => t.Delta_Time)
    (fun t : CHeatSolver K => t.Max_Lambda_Visc)
    (fun lam i =>
      if (geometry.node i).Volume = 0 then 0
      else min (min 1000000
        (config.CFL iMesh * 0.25 * (geometry.node i).Volume ^ 2 / lam i)) config.Max_DeltaTime)
    (SetTime_Step_point geometry config iMesh) (List.range s.nPointDomain)
    (fun t i _ => (SetTime_Step_point_eq geometry config iMesh t i).2)
    (fun t i _ => (SetTime_Step_point_eq geometry config iMesh t i).1)
    (SetTime_Step_spectral sqrt geometry flow_sol config
      { s with Min_Delta_Time := 1000000, Max_Delta_Time := 0 }) p
  beta_reduce at hL hD
  rw [if_pos (List.mem_range.mpr hp)] at hD
  have hM : (SetTime_Step sqrt geometry flow_sol config iMesh s).Max_Lambda_Visc
      = (SetTime_Step_spectral sqrt geometry flow_sol config
          { s with Min_Delta_Time := 1000000, Max_Delta_Time := 0 }).Max_Lambda_Visc := by
    unfold SetTime_Step
    simp only [hn]
    exact hL
  refine ⟨by rw [hM, hs0], ?_⟩
  rw [hM]
  unfold SetTime_Step
  simp only [hn]
  exact hD

/-- C18 as amended. For every point `p` below `nPointDomain`, `SetTime_Step` stores the
local time step 0 when the volume of `p` is 0, and otherwise, the viscous spectral radius
`lambda` that the call has accumulated at `p` being non-zero,
`min (min 1.E6 (CFL * 0.25 * Vol^2 / lambda)) MaxDeltaTime`: besides the configured maximum
step the fixed bound `1.E6` is applied. The quotient is formed only for a non-zero
volume, and the statement is for a non-zero divisor `lambda` there. -/
theorem SetTime_Step_local_time_step (sqrt : K → K) (geometry : CGeometry K)
    (flow_sol : CFlowSolver K) (config : CConfig K) (iMesh : Nat) (s : CHeatSolver K)
    (p : Nat) (hp : p < s.nPointDomain) :
    ((geometry.node p).Volume ≠ 0 →
      (SetTime_Step sqrt geometry flow_sol config iMesh s).Max_Lambda_Visc p ≠ 0) →
    (SetTime_Step sqrt geometry flow_sol config iMesh s).Delta_Time p =
      (if (geometry.node p).Volume = 0 then 0
       else min (min 1000000
          (config.CFL iMesh * 0.25 * (geometry.node p).Volume ^ 2
            / (SetTime_Step sqrt geometry flow_sol config iMesh s).Max_Lambda_Visc p))
          config.Max_DeltaTime) :=
  fun _ => (SetTime_Step_eq sqrt geometry flow_sol config iMesh s p hp).2

/-- C19. Whatever the spectral radii stored before the call, after `SetTime_Step` the
viscous spectral radius of a domain-owned point `p` is the sum of `D * Area^2` over the
interior edges whose first node is `p`, over the interior edges whose second node is
`p`, and over the boundary vertices located at `p`; `Area` is the norm of the edge or
vertex normal, `D` the solid diffusivity in solid mode and
`laminar / Prandtl_lam + eddy / Prandtl_turb` in flow mode, with the eddy viscosity of the
first node of the edge, resp. of the point of the vertex. -/
theorem SetTime_Step_spectral_radius (sqrt : K → K) (geometry : CGeometry K)
    (flow_sol : CFlowSolver K) (config : CConfig K) (iMesh : Nat) (s : CHeatSolver K)
    (p : Nat) (hp : p < s.nPointDomain) (hdom : (geometry.node p).Domain = true) :
    (SetTime_Step sqrt geometry flow_sol config iMesh s).Max_Lambda_Visc p =
      ((geometry.edge.filter (fun e => decide (e.Node0 = p))).map
          (fun e => thermalDiffusivity flow_sol config e.Node0
            * euclideanNorm sqrt s.nDim e.Normal ^ 2)).sum
        + ((geometry.edge.filter (fun e => decide (e.Node1 = p))).map
          (fun e => thermalDiffusivity flow_sol config e.Node0
            * euclideanNorm sqrt s.nDim e.Normal ^ 2)).sum
        + ((List.range geometry.nMarker).map (fun iMarker =>
            (((geometry.vertex iMarker).filter (fun v => decide (v.Node = p))).map
              (fun v => thermalDiffusivity flow_sol config v.Node
                * vertexArea sqrt s.nDim v ^ 2)).sum)).sum := by
  rw [(SetTime_Step_eq sqrt geometry flow_sol config iMesh s p hp).1,
    (SetTime_Step_spectral_eq sqrt geometry flow_sol config s p).1, if_pos hp, zero_add,
    List.sum_map_add]
  simp only [owned_at_eq geometry p hdom, sum_map_ite_eq_filter]
  rfl

/-- A sum whose terms are each a constant multiple of the terms of another. -/
theorem sum_map_const_mul {α : Type} (L : List α) (c c2 : α → K) (k : K)
    (h : ∀ x ∈ L, c2 x = k * c x) : (L.map c2).sum = k * (L.map c).sum := by
  induction L with
  | nil => simp
  | cons x L ih =>
    rw [List.map_cons, List.sum_cons, List.map_cons, List.sum_cons,
      ih (fun y hy => h y (List.mem_cons_of_mem _ hy)), h x (List.mem_cons_self _ _)]
    ring

/-- Doubling the area of every edge and boundary face at a point below `nPointDomain`
multiplies by four the spectral radius `SetTime_Step` accumulates there. -/
theorem SetTime_Step_spectral_double (sqrt : K → K) (geometry : CGeometry K)
    (flow_sol : CFlowSolver K) (config : CConfig K) (s : CHeatSolver K) (p : Nat)
    (NE : CEdge K → Nat → K) (NV : CVertex K → Nat → K) (hp : p < s.nPointDomain)
    (hE : ∀ e ∈ geometry.edge, (e.Node0 = p ∨ e.Node1 = p) →
      euclideanNorm sqrt s.nDim (NE e) = 2 * euclideanNorm sqrt s.nDim e.Normal)
    (hV : ∀ iMarker : Nat, iMarker < geometry.nMarker →
      ∀ v ∈ geometry.vertex iMarker, v.Node = p →
        euclideanNorm sqrt s.nDim (NV v) = 2 * euclideanNorm sqrt s.nDim v.Normal) :
    (SetTime_Step_spectral sqrt
        { geometry with
          edge := geometry.edge.map (fun e => { e with Normal := NE e }),
          vertex := fun iMarker =>
            (geometry.vertex iMarker).map (fun v => { v with Normal := NV v }) }
        flow_sol config s).Max_Lambda_Visc p
      = 4 * (SetTime_Step_spectral sqrt geometry flow_sol config s).Max_Lambda_Visc p := by
  rw [(SetTime_Step_spectral_eq sqrt _ flow_sol config s p).1,
    (SetTime_Step_spectral_eq sqrt geometry flow_sol config s p).1, if_pos hp, zero_add,
    zero_add, mul_add]
  simp only [List.map_map]
  congr 1
  · refine sum_map_const_mul _ _ _ 4 (fun e he => ?_)
    simp only [Function.comp, edgeLambda]
    by_cases h0 : e.Node0 = p
    · rw [hE e he (Or.inl h0)]
      split_ifs <;> ring
    · by_cases h1 : e.Node1 = p
      · rw [hE e he (Or.inr h1)]
        split_ifs <;> ring
      · simp [h0, h1]
  · refine sum_map_const_mul _ _ _ 4 (fun iMarker hm => ?_)
    refine sum_map_const_mul _ _ _ 4 (fun v hv => ?_)
    simp only [Function.comp, vertexLambda, vertexArea]
    by_cases h0 : v.Node = p
    · rw [hV iMarker (List.mem_range.mp hm) v hv h0]
      split_ifs <;> ring
    · simp [h0]

/-- C20. Time-step monotonicity: for a point `p` below `nPointDomain` and a CFL number
that is not negative, replace the normal of every interior edge and of every boundary
face so that the area of each edge and face incident to `p` is doubled, all else fixed.
If the spectral radius of `p` was positive, it is multiplied by four and the local time
step `SetTime_Step` stores at `p` is at most the one stored before. -/
theorem SetTime_Step_monotone_in_area (sqrt : K → K) (geometry : CGeometry K)
    (flow_sol : CFlowSolver K) (config : CConfig K) (iMesh : Nat) (s : CHeatSolver K)
    (p : Nat) (NE : CEdge K → Nat → K) (NV : CVertex K → Nat → K)
    (hp : p < s.nPointDomain) (hCFL : 0 ≤ config.CFL iMesh)
    (hE : ∀ e ∈ geometry.edge, (e.Node0 = p ∨ e.Node1 = p) →
      euclideanNorm sqrt s.nDim (NE e) = 2 * euclideanNorm sqrt s.nDim e.Normal)
    (hV : ∀ iMarker : Nat, iMarker < geometry.nMarker →
      ∀ v ∈ geometry.vertex iMarker, v.Node = p →
        euclideanNorm sqrt s.nDim (NV v) = 2 * euclideanNorm sqrt s.nDim v.Normal)
    (hpos : 0 < (SetTime_Step sqrt geometry flow_sol config iMesh s).Max_Lambda_Visc p) :
    (SetTime_Step sqrt
        { geometry with
          edge := geometry.edge.map (fun e => { e with Normal := NE e }),
          vertex := fun iMarker =>
            (geometry.vertex iMarker).map (fun v => { v with Normal := NV v }) }
        flow_sol config iMesh s).Max_Lambda_Visc p
      = 4 * (SetTime_Step sqrt geometry flow_sol config iMesh s).Max_Lambda_Visc p ∧
    (SetTime_Step sqrt
        { geometry with
          edge := geometry.edge.map (fun e => { e with Normal := NE e }),
          vertex := fun iMarker =>
            (geometry.vertex iMarker).map (fun v => { v with Normal := NV v }) }
        flow_sol config iMesh s).Delta_Time p
      ≤ (SetTime_Step sqrt geometry flow_sol config iMesh s).Delta_Time p := by
  have hlam : (SetTime_Step sqrt
        { geometry with
          edge := geometry.edge.map (fun e => { e with Normal := NE e }),
          vertex := fun iMarker =>
            (geometry.vertex iMarker).map (fun v => { v with Normal := NV v }) }
        flow_sol config iMesh s).Max_Lambda_Visc p
      = 4 * (SetTime_Step sqrt geometry flow_sol config iMesh s).Max_Lambda_Visc p := by
    rw [(SetTime_Step_eq sqrt _ flow_sol config iMesh s p hp).1,
      (SetTime_Step_eq sqrt geometry flow_sol config iMesh s p hp).1]
    exact SetTime_Step_spectral_double sqrt geometry flow_sol config s p NE NV hp hE hV
  refine ⟨hlam, ?_⟩
  rw [(SetTime_Step_eq sqrt _ flow_sol config iMesh s p hp).2,
    (SetTime_Step_eq sqrt geometry flow_sol config iMesh s p hp).2, hlam]
  by_cases hv : (geometry.node p).Volume = 0
  · simp only [hv, if_true, le_refl]
  · simp only [hv, if_false]
    have hnum : 0 ≤ config.CFL iMesh * 0.25 * (geometry.node p).Volume ^ 2 :=
      mul_nonneg (mul_nonneg hCFL (by norm_num)) (sq_nonneg _)
    have hdiv : config.CFL iMesh * 0.25 * (geometry.node p).Volume ^ 2
        / (4 * (SetTime_Step sqrt geometry flow_sol config iMesh s).Max_Lambda_Visc p)
        ≤ config.CFL iMesh * 0.25 * (geometry.node p).Volume ^ 2
          / (SetTime_Step sqrt geometry flow_sol config iMesh s).Max_Lambda_Visc p :=
      div_le_div_of_nonneg_left hnum hpos (by linarith)
    exact min_le_min (min_le_min le_rfl hdiv) le_rfl

end CHeatSolver

end TimeStep

/-! ## Time step: instances -/

section TimeStepInstances

open CHeatSolver

/-- The viscous spectral radius that `SetTime_Step` accumulates at point 2 of the
three-point mesh: one edge of area 1 and diffusivity 3 ends there, whatever the measure
of the control volumes. -/
theorem exBig_Max_Lambda_Visc :
    (SetTime_Step sqrtQ exGeometryBig exFlow exConfig 0 exSolver).Max_Lambda_Visc 2 = 3 := by
  rw [(SetTime_Step_eq sqrtQ exGeometryBig exFlow exConfig 0 exSolver 2 (by decide)).1,
    (SetTime_Step_spectral_eq sqrtQ exGeometryBig exFlow exConfig exSolver 2).1]
  simp [exGeometryBig, exGeometry, exSolver, exConfig, exFlow, edgeLambda, vertexLambda,
    thermalDiffusivity, euclideanNorm, vertexArea, sqrtQ, List.range_succ, flow]

/-- Counterexample to C18 as stated: on the three-point mesh with control volumes of
measure 4000, CFL number 1 and maximum step 10000000, point 2 is domain-owned with
spectral radius 3, so that `min (CFL * 0.25 * Vol^2 / lambda) MaxDeltaTime` is
`4000000 / 3`; the routine stores the time step 1000000. -/
theorem SetTime_Step_local_time_step_fails :
    2 < exSolver.nPointDomain ∧ (exGeometryBig.node 2).Domain = true ∧
    (exGeometryBig.node 2).Volume ≠ 0 ∧
    min (exConfig.CFL 0 * 0.25 * (exGeometryBig.node 2).Volume ^ 2
        / (SetTime_Step sqrtQ exGeometryBig exFlow exConfig 0 exSolver).Max_Lambda_Visc 2)
      exConfig.Max_DeltaTime = 4000000 / 3 ∧
    (SetTime_Step sqrtQ exGeometryBig exFlow exConfig 0 exSolver).Delta_Time 2 = 1000000 ∧
    (SetTime_Step sqrtQ exGeometryBig exFlow exConfig 0 exSolver).Delta_Time 2 ≠
      min (exConfig.CFL 0 * 0.25 * (exGeometryBig.node 2).Volume ^ 2
          / (SetTime_Step sqrtQ exGeometryBig exFlow exConfig 0 exSolver).Max_Lambda_Visc 2)
        exConfig.Max_DeltaTime := by
  have hD : (SetTime_Step sqrtQ exGeometryBig exFlow exConfig 0 exSolver).Delta_Time 2
      = 1000000 := by
    rw [(SetTime_Step_eq sqrtQ exGeometryBig exFlow exConfig 0 exSolver 2 (by decide)).2,
      exBig_Max_Lambda_Visc]
    simp [exGeometryBig, exConfig]
    norm_num
  have hm : min (exConfig.CFL 0 * 0.25 * (exGeometryBig.node 2).Volume ^ 2
        / (SetTime_Step sqrtQ exGeometryBig exFlow exConfig 0 exSolver).Max_Lambda_Visc 2)
      exConfig.Max_DeltaTime = 4000000 / 3 := by
    rw [exBig_Max_Lambda_Visc]
    simp [exGeometryBig, exConfig]
    norm_num
  refine ⟨by decide, rfl, ?_, hm, hD, ?_⟩
  · simp [exGeometryBig]
  · rw [hD, hm]
    norm_num

/-- Instance of C18 as amended: point 2 of the three-point mesh with control volumes of
measure 4000, where the spectral radius is 3. -/
theorem SetTime_Step_local_time_step_witness :
    2 < exSolver.nPointDomain ∧
    (SetTime_Step sqrtQ exGeometryBig exFlow exConfig 0 exSolver).Max_Lambda_Visc 2 ≠ 0 ∧
    (SetTime_Step sqrtQ exGeometryBig exFlow exConfig 0 exSolver).Delta_Time 2 =
      (if (exGeometryBig.node 2).Volume = 0 then 0
       else min (min 1000000
          (exConfig.CFL 0 * 0.25 * (exGeometryBig.node 2).Volume ^ 2
            / (SetTime_Step sqrtQ exGeometryBig exFlow exConfig 0 exSolver).Max_Lambda_Visc 2))
          exConfig.Max_DeltaTime) :=
  ⟨by decide,
   by rw [exBig_Max_Lambda_Visc]; norm_num,
   SetTime_Step_local_time_step sqrtQ exGeometryBig exFlow exConfig 0 exSolver 2 (by decide)
     (fun _ => by rw [exBig_Max_Lambda_Visc]; norm_num)⟩

/-- Instance of C19: point 0 of the three-point mesh is the first node of one edge of
area 1 and carries one boundary vertex of area 2; with the diffusivity 3 its spectral
radius is 3 + 0 + 12, whatever was stored before (7 here). -/
theorem SetTime_Step_spectral_radius_witness :
    0 < exSolver.nPointDomain ∧ (exGeometry.node 0).Domain = true ∧
    exSolver.Max_Lambda_Visc 0 = 7 ∧
    (SetTime_Step sqrtQ exGeometry exFlow exConfig 0 exSolver).Max_Lambda_Visc 0 =
      ((exGeometry.edge.filter (fun e => decide (e.Node0 = 0))).map
          (fun e => thermalDiffusivity exFlow exConfig e.Node0
            * euclideanNorm sqrtQ exSolver.nDim e.Normal ^ 2)).sum
        + ((exGeometry.edge.filter (fun e => decide (e.Node1 = 0))).map
          (fun e => thermalDiffusivity exFlow exConfig e.Node0
            * euclideanNorm sqrtQ exSolver.nDim e.Normal ^ 2)).sum
        + ((List.range exGeometry.nMarker).map (fun iMarker =>
            (((exGeometry.vertex iMarker).filter (fun v => decide (v.Node = 0))).map
              (fun v => thermalDiffusivity exFlow exConfig v.Node
                * vertexArea sqrtQ exSolver.nDim v ^ 2)).sum)).sum ∧
    ((exGeometry.edge.filter (fun e => decide (e.Node0 = 0))).map
          (fun e => thermalDiffusivity exFlow exConfig e.Node0
            * euclideanNorm sqrtQ exSolver.nDim e.Normal ^ 2)).sum
        + ((exGeometry.edge.filter (fun e => decide (e.Node1 = 0))).map
          (fun e => thermalDiffusivity exFlow exConfig e.Node0
            * euclideanNorm sqrtQ exSolver.nDim e.Normal ^ 2)).sum
        + ((List.range exGeometry.nMarker).map (fun iMarker =>
            (((exGeometry.vertex iMarker).filter (fun v => decide (v.Node = 0))).map
              (fun v => thermalDiffusivity exFlow exConfig v.Node
                * vertexArea sqrtQ exSolver.nDim v ^ 2)).sum)).sum = 15 :=
  ⟨by decide, rfl, rfl,
   SetTime_Step_spectral_radius sqrtQ exGeometry exFlow exConfig 0 exSolver 0 (by decide) rfl,
   by
    simp [exGeometry, exSolver, exConfig, exFlow, thermalDiffusivity, euclideanNorm,
      vertexArea, sqrtQ, List.range_succ, flow]
    norm_num⟩

/-- The normals of the doubled mesh: each edge that meets point 2 has twice the area, and
no boundary vertex lies at point 2. -/
theorem exGeometryDouble_area :
    (∀ e ∈ exGeometry.edge, (e.Node0 = 2 ∨ e.Node1 = 2) →
      euclideanNorm sqrtQ exSolver.nDim (fun _ => (2 : ℚ))
        = 2 * euclideanNorm sqrtQ exSolver.nDim e.Normal) ∧
    (∀ iMarker : Nat, iMarker < exGeometry.nMarker →
      ∀ v ∈ exGeometry.vertex iMarker, v.Node = 2 →
        euclideanNorm sqrtQ exSolver.nDim (fun _ => (2 : ℚ))
          = 2 * euclideanNorm sqrtQ exSolver.nDim v.Normal) := by
  constructor
  · intro e he _
    simp only [exGeometry, List.mem_cons, List.mem_singleton, List.not_mem_nil,
      or_false] at he
    rcases he with rfl | rfl <;>
      · simp [euclideanNorm, exSolver, sqrtQ, List.range_succ]
        norm_num
  · intro iMarker hm v hv hn
    have h0 : iMarker = 0 := by
      simpa [exGeometry] using hm
    subst h0
    simp [exGeometry] at hv
    subst hv
    simp at hn

/-- The spectral radius at point 2 of the three-point mesh: one edge of area 1 and
diffusivity 3 ends there. -/
theorem ex_Max_Lambda_Visc :
    (SetTime_Step sqrtQ exGeometry exFlow exConfig 0 exSolver).Max_Lambda_Visc 2 = 3 := by
  rw [(SetTime_Step_eq sqrtQ exGeometry exFlow exConfig 0 exSolver 2 (by decide)).1,
    (SetTime_Step_spectral_eq sqrtQ exGeometry exFlow exConfig exSolver 2).1]
  simp [exGeometry, exSolver, exConfig, exFlow, edgeLambda, vertexLambda,
    thermalDiffusivity, euclideanNorm, vertexArea, sqrtQ, List.range_succ, flow]

/-- Instance of C20: on the three-point mesh with every normal replaced by one of norm 2,
the area of the edge that ends at point 2 is doubled; the spectral radius of point 2
goes from 3 to 12 and its time step does not grow. -/
theorem SetTime_Step_monotone_in_area_witness :
    2 < exSolver.nPointDomain ∧ 0 ≤ exConfig.CFL 0 ∧
    0 < (SetTime_Step sqrtQ exGeometry exFlow exConfig 0 exSolver).Max_Lambda_Visc 2 ∧
    (SetTime_Step sqrtQ exGeometryDouble exFlow exConfig 0 exSolver).Max_Lambda_Visc 2
      = 4 * (SetTime_Step sqrtQ exGeometry exFlow exConfig 0 exSolver).Max_Lambda_Visc 2 ∧
    (SetTime_Step sqrtQ exGeometryDouble exFlow exConfig 0 exSolver).Delta_Time 2
      ≤ (SetTime_Step sqrtQ exGeometry exFlow exConfig 0 exSolver).Delta_Time 2 :=
  ⟨by decide, by simp [exConfig], by rw [ex_Max_Lambda_Visc]; norm_num,
   SetTime_Step_monotone_in_area sqrtQ exGeometry exFlow exConfig 0 exSolver 2
     (fun _ _ => 2) (fun _ _ => 2) (by decide) (by simp [exConfig])
     exGeometryDouble_area.1 exGeometryDouble_area.2
     (by rw [ex_Max_Lambda_Visc]; norm_num)⟩

end TimeStepInstances

/-! ## Inlet, outlet and the diffusivities of the diffusive edge loop -/

section InletOutlet

variable {K : Type} [LinearOrderedField K]

namespace CHeatSolver

end CHeatSolver

end InletOutlet

/-! ## The vertex bodies of the inlet and of the outlet -/

section InletOutletVertex

variable {K : Type} [LinearOrderedField K]

namespace CHeatSolver

/-- C27. `BC_Inlet` applies its diffusive anchor whatever the viscous flag: for every
marker, mesh, state and mode, and for every convective numerics whose result does not
read the viscous flag of the configuration handed to it, `BC_Inlet` run with the flag
set to true leaves the same state, so the same residual and the same Jacobian, as run
with the flag set to false. The viscous numerics is never called. -/
theorem BC_Inlet_viscous_flag_irrelevant (sqrt : K → K) (geometry : CGeometry K)
    (CRconv CRvisc : ComputeResidualFn K) (config : CConfig K) (val_marker : Nat)
    (st : BCLoopState K)
    (hCR : ∀ numerics : CNumerics K,
      CRconv numerics { config with Viscous := true }
        = CRconv numerics { config with Viscous := false }) :
    BC_Inlet sqrt geometry CRconv CRvisc { config with Viscous := true } val_marker st
      = BC_Inlet sqrt geometry CRconv CRvisc { config with Viscous := false } val_marker
          st := by
  have hbody : BC_Inlet_vertex sqrt geometry CRconv CRvisc { config with Viscous := true }
        val_marker
      = BC_Inlet_vertex sqrt geometry CRconv CRvisc { config with Viscous := false }
        val_marker := by
    funext st iVertex v
    simp only [BC_Inlet_vertex, BC_Inlet_convective, BC_Inlet_anchor, flow, implicit, hCR,
      Bool.and_false, Bool.or_true, Bool.false_eq_true, if_false, if_true]
  unfold BC_Inlet
  rw [hbody]

end CHeatSolver

end InletOutletVertex

/-! ## Preprocessing and the implicit Euler iteration -/

section ImplicitUpdate

/-- A loop over the first `n` indices that rewrites one entry of an array per step, from
the old entry and data that every step keeps, leaves in each of the first `n` entries
its rewritten value and keeps the others. -/
theorem foldl_range_modify {σ γ β : Type} (fld : σ → Nat → β) (inv : σ → γ)
    (h : γ → Nat → β → β) (body : σ → Nat → σ)
    (hinv : ∀ st i, inv (body st i) = inv st)
    (hfld : ∀ st i, fld (body st i) = Function.update (fld st) i (h (inv st) i (fld st i)))
    (n : Nat) (st : σ) (j : Nat) :
    fld ((List.range n).foldl body st) j
      = if j < n then h (inv st) j (fld st j) else fld st j := by
  induction n with
  | zero => simp
  | succ n ih =>
    have hI : inv ((List.range n).foldl body st) = inv st :=
      foldl_preserves inv body _ (fun st i _ => hinv st i) st
    rw [List.range_succ, List.foldl_append, List.foldl_cons, List.foldl_nil, hfld, hI]
    by_cases hj : j = n
    · subst hj
      rw [Function.update_same, ih, if_neg (lt_irrefl _), if_pos (Nat.lt_succ_self _)]
    · rw [Function.update_noteq hj, ih]
      by_cases hlt : j < n
      · rw [if_pos hlt, if_pos (Nat.lt_succ_of_lt hlt)]
      · rw [if_neg hlt, if_neg (fun h => hlt (lt_of_le_of_ne (Nat.lt_succ_iff.mp h) hj))]

variable {K : Type} [LinearOrderedField K]

/-- Zeroing a block of the residual is an update of one entry. -/
theorem CSysVector_SetBlock_Zero_eq (v : Nat → K) (iPoint : Nat) :
    CSysVector.SetBlock_Zero v iPoint = Function.update v iPoint 0 := by
  funext p
  by_cases hp : p = iPoint
  · subst hp
    simp [CSysVector.SetBlock_Zero]
  · simp [CSysVector.SetBlock_Zero, hp]

namespace CHeatSolver

/-- C24. For any prior state, after `Preprocessing` the residual entry of every point
below `nPoint`, owned or ghost, is zero and every entry of the Jacobian is zero, and
no temperature value has changed, whatever gradient reconstruction is selected. -/
theorem Preprocessing_resets_system
    (SetSolution_Gradient_GG SetSolution_Gradient_LS : SetSolution_GradientFn K)
    (geometry : CGeometry K) (config : CConfig K) (s : CHeatSolver K) :
    (∀ p : Nat, p < s.nPoint →
      (Preprocessing SetSolution_Gradient_GG SetSolution_Gradient_LS geometry config
        s).LinSysRes p = 0) ∧
    (∀ r c : Nat,
      (Preprocessing SetSolution_Gradient_GG SetSolution_Gradient_LS geometry config
        s).Jacobian r c = 0) ∧
    (Preprocessing SetSolution_Gradient_GG SetSolution_Gradient_LS geometry config
        s).Solution = s.Solution := by
  have hR : ∀ p : Nat,
      ((List.range s.nPoint).foldl
        (fun s iPoint => { s with LinSysRes := CSysVector.SetBlock_Zero s.LinSysRes iPoint })
        s).LinSysRes p = if p < s.nPoint then 0 else s.LinSysRes p :=
    fun p => foldl_range_modify (fun s : CHeatSolver K => s.LinSysRes) (fun _ => ())
      (fun _ _ _ => (0 : K)) _ (fun _ _ => rfl)
      (fun st i => CSysVector_SetBlock_Zero_eq st.LinSysRes i) s.nPoint s p
  have hS : ((List.range s.nPoint).foldl
        (fun s iPoint => { s with LinSysRes := CSysVector.SetBlock_Zero s.LinSysRes iPoint })
        s).Solution = s.Solution := by
    apply foldl_preserves (fun s : CHeatSolver K => s.Solution)
    intro _ _ _
    rfl
  refine ⟨fun p hp => ?_, fun r c => ?_, ?_⟩
  · have h := hR p
    rw [if_pos hp] at h
    unfold Preprocessing
    split_ifs <;> exact h
  · unfold Preprocessing
    split_ifs <;> rfl
  · unfold Preprocessing
    split_ifs <;> exact hS

/-- The loop of `ImplicitEuler_Iteration` over the points below `n`: the residual entries
change sign, the increment entries are zeroed, and the temperature and the point
counts are kept. -/
theorem ImplicitEuler_Iteration_point_loop (geometry : CGeometry K)
    (flow_sol : CFlowSolver K) (config : CConfig K) (n : Nat) (s : CHeatSolver K) :
    (∀ j : Nat,
      ((List.range n).foldl (ImplicitEuler_Iteration_point geometry flow_sol config)
        s).LinSysRes j = if j < n then -(s.LinSysRes j) else s.LinSysRes j) ∧
    (∀ j : Nat,
      ((List.range n).foldl (ImplicitEuler_Iteration_point geometry flow_sol config)
        s).LinSysSol j = if j < n then 0 else s.LinSysSol j) ∧
    (fun t : CHeatSolver K => (t.Solution, t.nPoint, t.nPointDomain))
        ((List.range n).foldl (ImplicitEuler_Iteration_point geometry flow_sol config) s)
      = (s.Solution, s.nPoint, s.nPointDomain) := by
  refine ⟨fun j => ?_, fun j => ?_, ?_⟩
  · exact foldl_range_modify (fun s : CHeatSolver K => s.LinSysRes) (fun _ => ())
      (fun _ _ x => -x) _ (fun _ _ => rfl) (fun _ _ => rfl) n s j
  · exact foldl_range_modify (fun s : CHeatSolver K => s.LinSysSol) (fun _ => ())
      (fun _ _ _ => (0 : K)) _ (fun _ _ => rfl) (fun _ _ => rfl) n s j
  · apply foldl_preserves (fun t : CHeatSolver K => (t.Solution, t.nPoint, t.nPointDomain))
    intro _ _ _
    rfl

/-- The loop of `ImplicitEuler_Iteration` over a list of ghost points: their residual and
increment entries are zeroed, and the temperature is kept. -/
theorem ImplicitEuler_Iteration_ghost_loop (L : List Nat) (s : CHeatSolver K) :
    (∀ j : Nat,
      (L.foldl ImplicitEuler_Iteration_ghost s).LinSysRes j
        = if j ∈ L then 0 else s.LinSysRes j) ∧
    (∀ j : Nat,
      (L.foldl ImplicitEuler_Iteration_ghost s).LinSysSol j
        = if j ∈ L then 0 else s.LinSysSol j) ∧
    (L.foldl ImplicitEuler_Iteration_ghost s).Solution = s.Solution ∧
    (L.foldl ImplicitEuler_Iteration_ghost s).nPointDomain = s.nPointDomain := by
  refine ⟨fun j => ?_, fun j => ?_, ?_, ?_⟩
  · exact foldl_update (fun s : CHeatSolver K => s.LinSysRes) (fun _ => ())
      (fun _ _ => (0 : K)) _ L (fun _ _ _ => rfl) (fun _ _ _ => rfl) s j
  · exact foldl_update (fun s : CHeatSolver K => s.LinSysSol) (fun _ => ())
      (fun _ _ => (0 : K)) _ L (fun _ _ _ => rfl) (fun _ _ _ => rfl) s j
  · apply foldl_preserves (fun t : CHeatSolver K => t.Solution)
    intro _ _ _
    rfl
  · apply foldl_preserves (fun t : CHeatSolver K => t.nPointDomain)
    intro _ _ _
    rfl

/-- The system handed to the linear solve: entry by entry the right-hand side and the
initial guess, and the temperature, which is kept. -/
theorem ImplicitEuler_Iteration_system_eq (geometry : CGeometry K)
    (flow_sol : CFlowSolver K) (config : CConfig K) (s : CHeatSolver K) :
    (∀ j : Nat,
      (ImplicitEuler_Iteration_system geometry flow_sol config s).LinSysRes j
        = if s.nPointDomain ≤ j ∧ j < s.nPoint then 0
          else if j < s.nPointDomain then -(s.LinSysRes j) else s.LinSysRes j) ∧
    (∀ j : Nat,
      (ImplicitEuler_Iteration_system geometry flow_sol config s).LinSysSol j
        = if s.nPointDomain ≤ j ∧ j < s.nPoint then 0
          else if j < s.nPointDomain then 0 else s.LinSysSol j) ∧
    (ImplicitEuler_Iteration_system geometry flow_sol config s).Solution = s.Solution ∧
    (ImplicitEuler_Iteration_system geometry flow_sol config s).nPointDomain
      = s.nPointDomain := by
  have h1 := ImplicitEuler_Iteration_point_loop geometry flow_sol config s.nPointDomain
    { s with Res_RMS := 0, Res_Max := 0, Point_Max := 0 }
  obtain ⟨hR, hS, hI⟩ := h1
  simp only [Prod.mk.injEq] at hI
  have hmem : ∀ j : Nat,
      j ∈ List.range' s.nPointDomain (s.nPoint - s.nPointDomain)
        ↔ s.nPointDomain ≤ j ∧ j < s.nPoint := by
    intro j
    rw [List.mem_range'_1]
    omega
  unfold ImplicitEuler_Iteration_system
  simp only [hI.1, hI.2.1, hI.2.2]
  refine ⟨fun j => ?_, fun j => ?_, ?_, ?_⟩
  · rw [(ImplicitEuler_Iteration_ghost_loop _ _).1 j, hR j]
    simp only [hmem]
  · rw [(ImplicitEuler_Iteration_ghost_loop _ _).2.1 j, hS j]
    simp only [hmem]
  · rw [(ImplicitEuler_Iteration_ghost_loop _ _).2.2.1, hI.1]
  · rw [(ImplicitEuler_Iteration_ghost_loop _ _).2.2.2, hI.2.2]

/-- The update loop of `ImplicitEuler_Iteration`: the increment is added to the
temperature of the points below `nPointDomain`, and the increment vector is kept. -/
theorem ImplicitEuler_Iteration_update_eq (s : CHeatSolver K) :
    (∀ j : Nat,
      (ImplicitEuler_Iteration_update s).Solution j
        = if j < s.nPointDomain then s.Solution j + s.LinSysSol j else s.Solution j) ∧
    (ImplicitEuler_Iteration_update s).LinSysSol = s.LinSysSol := by
  unfold ImplicitEuler_Iteration_update
  refine ⟨fun j => ?_, ?_⟩
  · exact foldl_range_modify (fun s : CHeatSolver K => s.Solution)
      (fun s : CHeatSolver K => s.LinSysSol) (fun L i x => x + L i)
      (fun s iPoint =>
        { s with
            Solution := Function.update s.Solution iPoint
              (s.Solution iPoint + s.LinSysSol iPoint) })
      (fun _ _ => rfl) (fun _ _ => rfl) s.nPointDomain s j
  · apply foldl_preserves (fun t : CHeatSolver K => t.LinSysSol)
    intro _ _ _
    rfl

/-- The halo exchange of the temperature keeps every quantity of the solver that does
not depend on the temperature. -/
theorem Set_MPI_Solution_loop_preserves {β : Type} (proj : CHeatSolver K → β)
    (hproj : ∀ (s : CHeatSolver K) (T : Nat → K), proj { s with Solution := T } = proj s)
    (geometry : CGeometry K) (config : CConfig K) (markers : List Nat) (s : CHeatSolver K) :
    proj (Set_MPI_Solution_loop geometry config markers s) = proj s := by
  unfold Set_MPI_Solution_loop
  apply foldl_preserves proj
  intro st iMarker _
  beta_reduce
  split_ifs
  · unfold Set_MPI_Solution_marker
    apply vertexLoop_preserves proj
    intro st iVertex v _
    exact hproj _ _
  · rfl

/-- C21. Just before the linear solve of `ImplicitEuler_Iteration`, the right-hand-side
entry of every point below `nPointDomain` is the negative of its assembled residual, the
right-hand-side entry of every ghost point, from `nPointDomain` to `nPoint`, is 0, and
the increment entry of every point below `nPoint`, owned or ghost, is 0; the increment
vector the routine ends with is what the linear solve returns on that system. -/
theorem ImplicitEuler_Iteration_right_hand_side (Solve : SolveFn K)
    (SetResidual_RMS : CGeometry K → CConfig K → CHeatSolver K → K)
    (geometry : CGeometry K) (flow_sol : CFlowSolver K) (config : CConfig K)
    (s : CHeatSolver K) :
    (∀ p : Nat, p < s.nPointDomain →
      (ImplicitEuler_Iteration_system geometry flow_sol config s).LinSysRes p
        = -(s.LinSysRes p)) ∧
    (∀ p : Nat, s.nPointDomain ≤ p → p < s.nPoint →
      (ImplicitEuler_Iteration_system geometry flow_sol config s).LinSysRes p = 0) ∧
    (∀ p : Nat, p < s.nPoint →
      (ImplicitEuler_Iteration_system geometry flow_sol config s).LinSysSol p = 0) ∧
    (ImplicitEuler_Iteration Solve SetResidual_RMS geometry flow_sol config s).LinSysSol
      = Solve (ImplicitEuler_Iteration_system geometry flow_sol config s).Jacobian
          (ImplicitEuler_Iteration_system geometry flow_sol config s).LinSysRes
          (ImplicitEuler_Iteration_system geometry flow_sol config s).LinSysSol
          geometry config := by
  obtain ⟨hR, hS, _, _⟩ := ImplicitEuler_Iteration_system_eq geometry flow_sol config s
  refine ⟨fun p hp => ?_, fun p h1 h2 => ?_, fun p hp => ?_, ?_⟩
  · rw [hR p, if_neg (fun h => absurd hp (not_lt.mpr h.1)), if_pos hp]
  · rw [hR p, if_pos ⟨h1, h2⟩]
  · rw [hS p]
    by_cases hd : p < s.nPointDomain
    · rw [if_neg (fun h => absurd hd (not_lt.mpr h.1)), if_pos hd]
    · rw [if_pos ⟨not_lt.mp hd, hp⟩]
  · show (Set_MPI_Solution geometry config
        (ImplicitEuler_Iteration_update
          (ImplicitEuler_Iteration_solve Solve geometry config
            (ImplicitEuler_Iteration_system geometry flow_sol config s)))).LinSysSol = _
    unfold Set_MPI_Solution
    rw [Set_MPI_Solution_loop_preserves (fun t : CHeatSolver K => t.LinSysSol)
      (fun _ _ => rfl), (ImplicitEuler_Iteration_update_eq _).2]
    rfl

/-- C22. For any linear solve, so for any increment vector it returns, after the update
step of `ImplicitEuler_Iteration` and before the halo exchange, the temperature of every
point below `nPointDomain` is its previous temperature plus its increment entry, and the
temperature of every ghost point is the previous one; the halo exchange then runs on
that state. -/
theorem ImplicitEuler_Iteration_update_solution (Solve : SolveFn K)
    (SetResidual_RMS : CGeometry K → CConfig K → CHeatSolver K → K)
    (geometry : CGeometry K) (flow_sol : CFlowSolver K) (config : CConfig K)
    (s : CHeatSolver K) :
    (∀ p : Nat, p < s.nPointDomain →
      (ImplicitEuler_Iteration_update
          (ImplicitEuler_Iteration_solve Solve geometry config
            (ImplicitEuler_Iteration_system geometry flow_sol config s))).Solution p
        = s.Solution p
          + (ImplicitEuler_Iteration_solve Solve geometry config
              (ImplicitEuler_Iteration_system geometry flow_sol config s)).LinSysSol p) ∧
    (∀ p : Nat, s.nPointDomain ≤ p →
      (ImplicitEuler_Iteration_update
          (ImplicitEuler_Iteration_solve Solve geometry config
            (ImplicitEuler_Iteration_system geometry flow_sol config s))).Solution p
        = s.Solution p) ∧
    (ImplicitEuler_Iteration Solve SetResidual_RMS geometry flow_sol config s).Solution
      = (Set_MPI_Solution geometry config
          (ImplicitEuler_Iteration_update
            (ImplicitEuler_Iteration_solve Solve geometry config
              (ImplicitEuler_Iteration_system geometry flow_sol config s)))).Solution := by
  obtain ⟨_, _, hT, hn⟩ := ImplicitEuler_Iteration_system_eq geometry flow_sol config s
  have hT2 : (ImplicitEuler_Iteration_solve Solve geometry config
      (ImplicitEuler_Iteration_system geometry flow_sol config s)).Solution = s.Solution := hT
  have hn2 : (ImplicitEuler_Iteration_solve Solve geometry config
      (ImplicitEuler_Iteration_system geometry flow_sol config s)).nPointDomain
        = s.nPointDomain := hn
  refine ⟨fun p hp => ?_, fun p hp => ?_, rfl⟩
  · rw [(ImplicitEuler_Iteration_update_eq _).1 p, hn2, if_pos hp, hT2]
  · rw [(ImplicitEuler_Iteration_update_eq _).1 p, hn2, if_neg (not_lt.mpr hp), hT2]

end CHeatSolver

end ImplicitUpdate

/-! ## Heat flux monitoring -/

section HeatFluxes

variable {K : Type} [LinearOrderedField K]

/-- A sum over the points below `n` of the sums over the elements located at each point
is the sum over all the elements, when every element passes the test and lies below
`n`. -/
theorem sum_range_filter_at {α : Type} (L : List α) (key : α → Nat) (q : α → Bool)
    (f : α → K) (n : Nat) (hq : ∀ x ∈ L, q x = true) (hk : ∀ x ∈ L, key x < n) :
    ∑ p in Finset.range n, ((L.filter (fun x => q x && decide (key x = p))).map f).sum
      = (L.map f).sum := by
  induction L with
  | nil => simp
  | cons x L ih =>
    have hx : q x = true := hq x (List.mem_cons_self _ _)
    have hkx : key x < n := hk x (List.mem_cons_self _ _)
    have hstep : ∀ p : Nat,
        (((x :: L).filter (fun x => q x && decide (key x = p))).map f).sum
          = (if key x = p then f x else 0)
            + ((L.filter (fun x => q x && decide (key x = p))).map f).sum := by
      intro p
      by_cases hp : key x = p
      · simp [List.filter_cons, hx, hp]
      · simp [List.filter_cons, hx, hp]
    simp only [hstep, Finset.sum_add_distrib,
      ih (fun y hy => hq y (List.mem_cons_of_mem _ hy))
        (fun y hy => hk y (List.mem_cons_of_mem _ hy)),
      Finset.sum_ite_eq, Finset.mem_range, hkx, if_true, List.map_cons, List.sum_cons]

namespace CHeatSolver

/-- The vertex body of the `ISOTHERMAL` branch of `Heat_Fluxes`, in the spec's terms. -/
theorem Heat_Fluxes_isothermal_vertex_eq (sqrt : K → K) (geometry : CGeometry K)
    (flow_sol : CFlowSolver K) (config : CConfig K) (iMarker : Nat) (Twall : K)
    (s : CHeatSolver K) (v : CVertex K) :
    Heat_Fluxes_isothermal_vertex sqrt geometry flow_sol config iMarker Twall s v =
      { s with
          Heat_Flux := Function.update s.Heat_Flux iMarker
            (s.Heat_Flux iMarker
              + (config.Viscosity_FreeStreamND / config.Prandtl_Lam
                  + flow_sol.EddyViscosity v.Node / config.Prandtl_Turb)
                * ((Twall - s.Solution v.Normal_Neighbor) / vertexDist sqrt s.nDim geometry v)
                * vertexArea sqrt s.nDim v) } := by
  simp only [Heat_Fluxes_isothermal_vertex, area_loop_eq, dist_loop_eq, vertexDist,
    vertexArea]

/-- The vertex body of the `CHT_WALL_INTERFACE` branch of `Heat_Fluxes`, in the spec's
terms. -/
theorem Heat_Fluxes_interface_vertex_eq (sqrt : K → K) (geometry : CGeometry K)
    (flow_sol : CFlowSolver K) (config : CConfig K) (iMarker : Nat)
    (s : CHeatSolver K) (v : CVertex K) :
    Heat_Fluxes_interface_vertex sqrt geometry flow_sol config iMarker s v =
      { s with
          Heat_Flux := Function.update s.Heat_Flux iMarker
            (s.Heat_Flux iMarker
              + (config.Viscosity_FreeStreamND / config.Prandtl_Lam
                  + flow_sol.EddyViscosity v.Node / config.Prandtl_Turb)
                * ((s.Solution v.Node - s.Solution v.Normal_Neighbor)
                    / vertexDist sqrt s.nDim geometry v)
                * vertexArea sqrt s.nDim v) } := by
  simp only [Heat_Fluxes_interface_vertex, area_loop_eq, dist_loop_eq, vertexDist,
    vertexArea]

/-- A vertex loop whose body adds a term to the heat flux of one marker adds the sum of
the terms and keeps every quantity that does not depend on the heat fluxes. -/
theorem Heat_Fluxes_vertex_loop (iMarker : Nat) (c : (Nat → K) × Nat → CVertex K → K)
    (body : CHeatSolver K → CVertex K → CHeatSolver K)
    (hbody : ∀ s v, body s v =
      { s with
          Heat_Flux := Function.update s.Heat_Flux iMarker
            (s.Heat_Flux iMarker + c (s.Solution, s.nDim) v) })
    (vs : List (CVertex K)) (s : CHeatSolver K) :
    (vs.foldl body s).Heat_Flux
        = Function.update s.Heat_Flux iMarker
            (s.Heat_Flux iMarker + (vs.map (c (s.Solution, s.nDim))).sum) ∧
    (fun t : CHeatSolver K => (t.Solution, t.nDim, t.nMarker, t.AllBound_HeatFlux))
        (vs.foldl body s)
      = (s.Solution, s.nDim, s.nMarker, s.AllBound_HeatFlux) := by
  induction vs generalizing s with
  | nil => simp
  | cons v vs ih =>
    rw [List.foldl_cons, hbody]
    refine ⟨?_, ?_⟩
    · rw [(ih _).1]
      simp only [Function.update_same, Function.update_idem, List.map_cons, List.sum_cons,
        add_assoc]
    · rw [(ih _).2]

/-- The marker body of `Heat_Fluxes` in closed form. -/
theorem Heat_Fluxes_marker_eq (sqrt : K → K) (geometry : CGeometry K)
    (flow_sol : CFlowSolver K) (config : CConfig K) (s : CHeatSolver K) (iMarker : Nat) :
    (Heat_Fluxes_marker sqrt geometry flow_sol config s iMarker).Heat_Flux
        = Function.update s.Heat_Flux iMarker
            (markerHeatFlux sqrt s.nDim geometry flow_sol config s.Solution iMarker) ∧
    (Heat_Fluxes_marker sqrt geometry flow_sol config s iMarker).AllBound_HeatFlux
        = s.AllBound_HeatFlux
          + markerHeatFlux sqrt s.nDim geometry flow_sol config s.Solution iMarker ∧
    (fun t : CHeatSolver K => (t.Solution, t.nDim))
        (Heat_Fluxes_marker sqrt geometry flow_sol config s iMarker)
      = (s.Solution, s.nDim) := by
  have key : ∀ s1 : CHeatSolver K,
      s1.Heat_Flux = Function.update s.Heat_Flux iMarker
        (markerHeatFlux sqrt s.nDim geometry flow_sol config s.Solution iMarker) →
      (fun t : CHeatSolver K => (t.Solution, t.nDim, t.nMarker, t.AllBound_HeatFlux)) s1
        = (s.Solution, s.nDim, s.nMarker, s.AllBound_HeatFlux) →
      ({ s1 with AllBound_HeatFlux := s1.AllBound_HeatFlux + s1.Heat_Flux iMarker } :
          CHeatSolver K).Heat_Flux
        = Function.update s.Heat_Flux iMarker
            (markerHeatFlux sqrt s.nDim geometry flow_sol config s.Solution iMarker) ∧
      ({ s1 with AllBound_HeatFlux := s1.AllBound_HeatFlux + s1.Heat_Flux iMarker } :
          CHeatSolver K).AllBound_HeatFlux
        = s.AllBound_HeatFlux
          + markerHeatFlux sqrt s.nDim geometry flow_sol config s.Solution iMarker ∧
      (fun t : CHeatSolver K => (t.Solution, t.nDim))
          ({ s1 with AllBound_HeatFlux := s1.AllBound_HeatFlux + s1.Heat_Flux iMarker } :
            CHeatSolver K)
        = (s.Solution, s.nDim) := by
    intro s1 hF hI
    simp only [Prod.mk.injEq] at hI
    refine ⟨hF, ?_, ?_⟩
    · show s1.AllBound_HeatFlux + s1.Heat_Flux iMarker = _
      rw [hF, hI.2.2.2, Function.update_same]
    · show (s1.Solution, s1.nDim) = _
      rw [hI.1, hI.2.1]
  by_cases h1 : config.Marker_All_KindBC iMarker = BC_TYPE.ISOTHERMAL
      ∧ config.Marker_All_Monitoring iMarker = true
  · obtain ⟨hF, hI⟩ := Heat_Fluxes_vertex_loop iMarker
      (fun inv v =>
        (config.Viscosity_FreeStreamND / config.Prandtl_Lam
            + flow_sol.EddyViscosity v.Node / config.Prandtl_Turb)
          * ((wallTemperature config iMarker - inv.1 v.Normal_Neighbor)
              / vertexDist sqrt inv.2 geometry v)
          * vertexArea sqrt inv.2 v)
      (Heat_Fluxes_isothermal_vertex sqrt geometry flow_sol config iMarker
        (wallTemperature config iMarker))
      (fun s v => Heat_Fluxes_isothermal_vertex_eq sqrt geometry flow_sol config iMarker _ s v)
      (geometry.vertex iMarker) { s with Heat_Flux := Function.update s.Heat_Flux iMarker 0 }
    have hk := key _
      (by
        rw [hF]
        simp only [Function.update_same, Function.update_idem, zero_add, markerHeatFlux,
          if_pos h1])
      hI
    simp only [Heat_Fluxes_marker, if_pos h1]
    exact hk
  · by_cases h2 : config.Marker_All_KindBC iMarker = BC_TYPE.CHT_WALL_INTERFACE
        ∧ config.Marker_All_Monitoring iMarker = true
    · obtain ⟨hF, hI⟩ := Heat_Fluxes_vertex_loop iMarker
        (fun inv v =>
          (config.Viscosity_FreeStreamND / config.Prandtl_Lam
              + flow_sol.EddyViscosity v.Node / config.Prandtl_Turb)
            * ((inv.1 v.Node - inv.1 v.Normal_Neighbor) / vertexDist sqrt inv.2 geometry v)
            * vertexArea sqrt inv.2 v)
        (Heat_Fluxes_interface_vertex sqrt geometry flow_sol config iMarker)
        (fun s v => Heat_Fluxes_interface_vertex_eq sqrt geometry flow_sol config iMarker s v)
        (geometry.vertex iMarker) { s with Heat_Flux := Function.update s.Heat_Flux iMarker 0 }
      have hk := key _
        (by
          rw [hF]
          simp only [Function.update_same, Function.update_idem, zero_add, markerHeatFlux,
            if_neg h1, if_pos h2])
        hI
      simp only [Heat_Fluxes_marker, if_neg h1, if_pos h2]
      exact hk
    · simp only [Heat_Fluxes_marker, markerHeatFlux, if_neg h1, if_neg h2,
        Function.update_same, and_self]

/-- The routine `Heat_Fluxes` in closed form: the heat flux of every marker below
`nMarker` and the total. -/
theorem Heat_Fluxes_eq (sqrt : K → K) (geometry : CGeometry K) (flow_sol : CFlowSolver K)
    (config : CConfig K) (s : CHeatSolver K) :
    (∀ iMarker : Nat,
      (Heat_Fluxes sqrt geometry flow_sol config s).Heat_Flux iMarker
        = if iMarker ∈ List.range s.nMarker then
            markerHeatFlux sqrt s.nDim geometry flow_sol config s.Solution iMarker
          else s.Heat_Flux iMarker) ∧
    (Heat_Fluxes sqrt geometry flow_sol config s).Total_HeatFlux
      = ((List.range s.nMarker).map
          (markerHeatFlux sqrt s.nDim geometry flow_sol config s.Solution)).sum := by
  refine ⟨fun iMarker => ?_, ?_⟩
  · exact foldl_update (fun t : CHeatSolver K => t.Heat_Flux)
      (fun t : CHeatSolver K => (t.Solution, t.nDim))
      (fun inv i => markerHeatFlux sqrt inv.2 geometry flow_sol config inv.1 i)
      (Heat_Fluxes_marker sqrt geometry flow_sol config) (List.range s.nMarker)
      (fun t i _ => (Heat_Fluxes_marker_eq sqrt geometry flow_sol config t i).2.2)
      (fun t i _ => (Heat_Fluxes_marker_eq sqrt geometry flow_sol config t i).1)
      { s with AllBound_HeatFlux := 0 } iMarker
  · have h := foldl_accumulate (fun t : CHeatSolver K => t.AllBound_HeatFlux)
      (fun t : CHeatSolver K => (t.Solution, t.nDim))
      (fun inv i => markerHeatFlux sqrt inv.2 geometry flow_sol config inv.1 i)
      (Heat_Fluxes_marker sqrt geometry flow_sol config) (List.range s.nMarker)
      (fun t i _ => (Heat_Fluxes_marker_eq sqrt geometry flow_sol config t i).2.2)
      (fun t i _ => (Heat_Fluxes_marker_eq sqrt geometry flow_sol config t i).2.1)
      { s with AllBound_HeatFlux := 0 }
    simp only [zero_add] at h
    exact h

/-- C25. Flow mode: for a monitored marker of kind `ISOTHERMAL` below `nMarker` all of
whose vertices are domain-owned points below `nPoint`, and for the same state,
`Heat_Flux[marker]` after `Heat_Fluxes` is the sum over the vertices of the marker of the
flux `D * (Twall - T_n) / dist * Area` that `BC_Isothermal_Wall` subtracts from the
residual, and so minus the total change of the residual that `BC_Isothermal_Wall` makes
on that marker. -/
theorem Heat_Fluxes_isothermal_agrees (sqrt : K → K) (geometry : CGeometry K)
    (flow_sol : CFlowSolver K) (config : CConfig K) (s : CHeatSolver K) (iMarker : Nat)
    (hflow : config.Kind_Solver ≠ ENUM_SOLVER.HEAT_EQUATION)
    (hm : iMarker < s.nMarker)
    (hkind : config.Marker_All_KindBC iMarker = BC_TYPE.ISOTHERMAL)
    (hmon : config.Marker_All_Monitoring iMarker = true)
    (hown : ∀ v ∈ geometry.vertex iMarker, (geometry.node v.Node).Domain = true)
    (hpt : ∀ v ∈ geometry.vertex iMarker, v.Node < s.nPoint) :
    (Heat_Fluxes sqrt geometry flow_sol config s).Heat_Flux iMarker
      = ((geometry.vertex iMarker).map
          (fun v => thermalDiffusivity flow_sol config v.Node
            * (wallTemperature config iMarker - s.Solution v.Normal_Neighbor)
            / vertexDist sqrt s.nDim geometry v * vertexArea sqrt s.nDim v)).sum ∧
    (Heat_Fluxes sqrt geometry flow_sol config s).Heat_Flux iMarker
      = -∑ p in Finset.range s.nPoint,
          ((BC_Isothermal_Wall sqrt geometry flow_sol config iMarker s).LinSysRes p
            - s.LinSysRes p) := by
  have hHF : (Heat_Fluxes sqrt geometry flow_sol config s).Heat_Flux iMarker
      = ((geometry.vertex iMarker).map
          (fun v => thermalDiffusivity flow_sol config v.Node
            * (wallTemperature config iMarker - s.Solution v.Normal_Neighbor)
            / vertexDist sqrt s.nDim geometry v * vertexArea sqrt s.nDim v)).sum := by
    rw [(Heat_Fluxes_eq sqrt geometry flow_sol config s).1 iMarker,
      if_pos (List.mem_range.mpr hm), markerHeatFlux, if_pos ⟨hkind, hmon⟩]
    congr 1
    apply List.map_congr_left
    intro v _
    simp only [thermalDiffusivity, if_neg hflow]
    ring
  have h7 : ∀ p : Nat,
      (BC_Isothermal_Wall sqrt geometry flow_sol config iMarker s).LinSysRes p - s.LinSysRes p
        = -(((geometry.vertex iMarker).filter
              (fun v => (geometry.node v.Node).Domain && decide (v.Node = p))).map
            (isothermalFlux sqrt s.nDim geometry flow_sol config
              (wallTemperature config iMarker) s.Solution)).sum := by
    intro p
    have h := BC_Isothermal_Wall_loop_LinSysRes sqrt geometry flow_sol config
      (wallTemperature config iMarker) (geometry.vertex iMarker) s p
    have h2 : (BC_Isothermal_Wall sqrt geometry flow_sol config iMarker s).LinSysRes p
        = s.LinSysRes p
          - (((geometry.vertex iMarker).filter
                (fun v => (geometry.node v.Node).Domain && decide (v.Node = p))).map
              (isothermalFlux sqrt s.nDim geometry flow_sol config
                (wallTemperature config iMarker) s.Solution)).sum := h
    rw [h2]
    ring
  refine ⟨hHF, ?_⟩
  rw [hHF]
  simp only [h7, Finset.sum_neg_distrib, neg_neg]
  rw [sum_range_filter_at (geometry.vertex iMarker) (fun v => v.Node)
    (fun v => (geometry.node v.Node).Domain) _ s.nPoint hown hpt]
  rfl

end CHeatSolver

end HeatFluxes

/-! ## Halo exchange -/

section HaloExchange

/-- A loop on a state, seen through a projection that each step acts on by a step of its
own, is the loop of those steps on the projection. -/
theorem foldl_proj {σ α β : Type} (proj : σ → β) (body : σ → α → σ) (body2 : β → α → β)
    (h : ∀ st x, proj (body st x) = body2 (proj st) x) (L : List α) (st : σ) :
    proj (L.foldl body st) = L.foldl body2 (proj st) := by
  induction L generalizing st with
  | nil => rfl
  | cons x L ih => rw [List.foldl_cons, ih, h, List.foldl_cons]

/-- An indexed loop that writes one entry per element keeps the entries whose index is
the key of no element. -/
theorem enumFrom_foldl_update_frame {α β : Type} (key : α → Nat) (val : Nat → β)
    (L : List α) (n : Nat) (T : Nat → β) (p : Nat) (hp : p ∉ L.map key) :
    (L.enumFrom n).foldl (fun T2 iv => Function.update T2 (key iv.2) (val iv.1)) T p
      = T p := by
  induction L generalizing n T with
  | nil => rfl
  | cons a L ih =>
    rw [List.enumFrom_cons, List.foldl_cons,
      ih (n + 1) _ (fun h => hp (by rw [List.map_cons]; exact List.mem_cons_of_mem _ h))]
    exact Function.update_noteq
      (fun h => hp (by rw [List.map_cons, h]; exact List.mem_cons_self _ _)) _ _

/-- An indexed loop that writes one entry per element, the keys of the elements being
pairwise distinct, leaves at the key of the `k`-th element the value of index `k`. -/
theorem enumFrom_foldl_update_at {α β : Type} (key : α → Nat) (val : Nat → β)
    (L : List α) (hnd : (L.map key).Nodup) (n : Nat) (T : Nat → β) (k : Nat) (x : α)
    (hk : L[k]? = some x) :
    (L.enumFrom n).foldl (fun T2 iv => Function.update T2 (key iv.2) (val iv.1)) T (key x)
      = val (n + k) := by
  induction L generalizing n T k with
  | nil => simp at hk
  | cons a L ih =>
    rw [List.map_cons, List.nodup_cons] at hnd
    rw [List.enumFrom_cons, List.foldl_cons]
    cases k with
    | zero =>
      simp only [List.getElem?_cons_zero, Option.some.injEq] at hk
      subst hk
      rw [enumFrom_foldl_update_frame key val L (n + 1) _ (key a) hnd.1]
      exact Function.update_same _ _ _
    | succ k =>
      simp only [List.getElem?_cons_succ] at hk
      rw [ih hnd.2 (n + 1) _ k hk]
      congr 1
      omega

variable {K : Type} [LinearOrderedField K]

/-- The buffer copy of a marker pair keeps the field at every point that is not the point
of a receiving vertex. -/
theorem haloCopy_frame (T : Nat → K) (S R : List (CVertex K)) (p : Nat)
    (hp : p ∉ R.map (fun v => v.Node)) : haloCopy T S R p = T p := by
  rw [haloCopy, List.enum]
  exact enumFrom_foldl_update_frame (fun v : CVertex K => v.Node)
    (fun i => ((List.range R.length).map
      (fun iVertex => (S.map (fun v => T v.Node)).getD iVertex 0)).getD i 0)
    R 0 T p hp

/-- The buffer copy of a marker pair with equal vertex counts, the points of the
receiving vertices being pairwise distinct: the field at the point of the `k`-th
receiving vertex becomes the field at the point of the `k`-th sending vertex. -/
theorem haloCopy_at (T : Nat → K) (S R : List (CVertex K))
    (hlen : S.length = R.length) (hnd : (R.map (fun v => v.Node)).Nodup) (k : Nat)
    (vR : CVertex K) (hR : R[k]? = some vR) :
    ∃ vS : CVertex K, S[k]? = some vS ∧ haloCopy T S R vR.Node = T vS.Node := by
  obtain ⟨hkR, _⟩ := List.getElem?_eq_some.mp hR
  have hkS : k < S.length := hlen ▸ hkR
  refine ⟨S[k], List.getElem?_eq_getElem hkS, ?_⟩
  have h := enumFrom_foldl_update_at (fun v : CVertex K => v.Node)
    (fun i => ((List.range R.length).map
      (fun iVertex => (S.map (fun v => T v.Node)).getD iVertex 0)).getD i 0)
    R hnd 0 T k vR hR
  rw [zero_add] at h
  rw [haloCopy, List.enum, h]
  simp [List.getD_eq_getElem?_getD, hkR, hkS]

/-- The halo exchange over a list of markers keeps the field at every point that is the
point of no vertex of a receiving marker. -/
theorem haloLoop_frame (geometry : CGeometry K) (config : CConfig K) (markers : List Nat)
    (T : Nat → K) (p : Nat)
    (hp : ∀ j ∈ markers, config.Marker_All_KindBC j = BC_TYPE.SEND_RECEIVE →
      0 < config.Marker_All_SendRecv j →
      p ∉ (geometry.vertex (j + 1)).map (fun v => v.Node)) :
    haloLoop geometry config markers T p = T p := by
  induction markers generalizing T with
  | nil => rfl
  | cons j markers ih =>
    rw [haloLoop, List.foldl_cons]
    have hrest := ih
      (if config.Marker_All_KindBC j = BC_TYPE.SEND_RECEIVE
          ∧ 0 < config.Marker_All_SendRecv j then
        haloCopy T (geometry.vertex j) (geometry.vertex (j + 1))
      else T)
      (fun i hi => hp i (List.mem_cons_of_mem _ hi))
    rw [haloLoop] at hrest
    rw [hrest]
    split_ifs with hc
    · exact haloCopy_frame T _ _ p (hp j (List.mem_cons_self _ _) hc.1 hc.2)
    · rfl

/-- The halo exchange over the markers below `n`, split at a sending marker `i`. -/
theorem haloLoop_split (geometry : CGeometry K) (config : CConfig K) (n i : Nat)
    (hi : i < n) (hk : config.Marker_All_KindBC i = BC_TYPE.SEND_RECEIVE)
    (ht : 0 < config.Marker_All_SendRecv i) (T : Nat → K) :
    haloLoop geometry config (List.range n) T
      = haloLoop geometry config (List.range' (i + 1) (n - i - 1))
          (haloCopy (haloLoop geometry config (List.range i) T) (geometry.vertex i)
            (geometry.vertex (i + 1))) := by
  have hsplit : List.range n = List.range i ++ i :: List.range' (i + 1) (n - i - 1) := by
    rw [List.range_eq_range', List.range_eq_range', ← List.range'_succ,
      show n - i - 1 + 1 = n - i by omega]
    have h := List.range'_append 0 i (n - i) 1
    simp only [one_mul, zero_add] at h
    rw [h, show n - i + i = n by omega]
  rw [hsplit, haloLoop, List.foldl_append, List.foldl_cons, if_pos ⟨hk, ht⟩]
  rfl

/-- The halo exchange over the markers below `n` at the `k`-th vertex of the receiving
marker of a sending marker `i`. -/
theorem haloLoop_at (geometry : CGeometry K) (config : CConfig K) (n i : Nat)
    (hi : i < n) (hk : config.Marker_All_KindBC i = BC_TYPE.SEND_RECEIVE)
    (ht : 0 < config.Marker_All_SendRecv i) (T : Nat → K)
    (hlen : (geometry.vertex i).length = (geometry.vertex (i + 1)).length)
    (hnd : ((geometry.vertex (i + 1)).map (fun v => v.Node)).Nodup) (k : Nat)
    (vR : CVertex K) (hR : (geometry.vertex (i + 1))[k]? = some vR)
    (hlater : ∀ j : Nat, i < j → config.Marker_All_KindBC j = BC_TYPE.SEND_RECEIVE →
      0 < config.Marker_All_SendRecv j →
      vR.Node ∉ (geometry.vertex (j + 1)).map (fun v => v.Node)) :
    ∃ vS : CVertex K, (geometry.vertex i)[k]? = some vS ∧
      haloLoop geometry config (List.range n) T vR.Node
        = haloLoop geometry config (List.range i) T vS.Node := by
  obtain ⟨vS, hS, hcopy⟩ := haloCopy_at (haloLoop geometry config (List.range i) T)
    (geometry.vertex i) (geometry.vertex (i + 1)) hlen hnd k vR hR
  refine ⟨vS, hS, ?_⟩
  rw [haloLoop_split geometry config n i hi hk ht T, haloLoop_frame, hcopy]
  intro j hj
  exact hlater j (by rw [List.mem_range'_1] at hj; omega)

namespace CHeatSolver

/-- The temperature after the marker body of `Set_MPI_Solution` is the buffer copy of the
marker pair. -/
theorem Set_MPI_Solution_marker_Solution (geometry : CGeometry K) (s : CHeatSolver K)
    (iMarker : Nat) :
    (Set_MPI_Solution_marker geometry s iMarker).Solution
      = haloCopy s.Solution (geometry.vertex iMarker) (geometry.vertex (iMarker + 1)) := by
  unfold Set_MPI_Solution_marker vertexLoop haloCopy
  apply foldl_proj (fun t : CHeatSolver K => t.Solution)
  intro _ _
  rfl

/-- The previous temperature after the marker body of `Set_MPI_Solution_Old` is the
buffer copy of the marker pair. -/
theorem Set_MPI_Solution_Old_marker_Solution_Old (geometry : CGeometry K)
    (s : CHeatSolver K) (iMarker : Nat) :
    (Set_MPI_Solution_Old_marker geometry s iMarker).Solution_Old
      = haloCopy s.Solution_Old (geometry.vertex iMarker)
          (geometry.vertex (iMarker + 1)) := by
  unfold Set_MPI_Solution_Old_marker vertexLoop haloCopy
  apply foldl_proj (fun t : CHeatSolver K => t.Solution_Old)
  intro _ _
  rfl

/-- The temperature after the marker loop of `Set_MPI_Solution` is the halo exchange of
the temperature. -/
theorem Set_MPI_Solution_loop_Solution (geometry : CGeometry K) (config : CConfig K)
    (markers : List Nat) (s : CHeatSolver K) :
    (Set_MPI_Solution_loop geometry config markers s).Solution
      = haloLoop geometry config markers s.Solution := by
  unfold Set_MPI_Solution_loop haloLoop
  apply foldl_proj (fun t : CHeatSolver K => t.Solution)
  intro st iMarker
  beta_reduce
  split_ifs
  · exact Set_MPI_Solution_marker_Solution geometry st iMarker
  · rfl

/-- The previous temperature after the marker loop of `Set_MPI_Solution_Old` is the halo
exchange of the previous temperature. -/
theorem Set_MPI_Solution_Old_loop_Solution_Old (geometry : CGeometry K) (config : CConfig K)
    (markers : List Nat) (s : CHeatSolver K) :
    (Set_MPI_Solution_Old_loop geometry config markers s).Solution_Old
      = haloLoop geometry config markers s.Solution_Old := by
  unfold Set_MPI_Solution_Old_loop haloLoop
  apply foldl_proj (fun t : CHeatSolver K => t.Solution_Old)
  intro st iMarker
  beta_reduce
  split_ifs
  · exact Set_MPI_Solution_Old_marker_Solution_Old geometry st iMarker
  · rfl

/-- C23. Build without MPI. Let `S = iMarker` be a marker of kind `SEND_RECEIVE` with a
positive send/receive tag and `R = iMarker + 1` the next marker, with equal vertex
counts, the points of the vertices of `R` being pairwise distinct, and let the point of
the `k`-th vertex of `R` be a vertex of no receiving marker processed later. Then after
`Set_MPI_Solution` the temperature at the point of the `k`-th vertex of `R` is the
temperature that the point of the `k`-th vertex of `S` had when the pair was processed,
that is after the markers below `S`; `Set_MPI_Solution_Old`, whose loop runs over the
markers below the member `nMarker`, does the same for the previous temperature; and
both keep their field at every point that is a vertex of no receiving marker. -/
theorem Set_MPI_Solution_halo_exchange (geometry : CGeometry K) (config : CConfig K)
    (s : CHeatSolver K) (iMarker k : Nat) (vR : CVertex K)
    (hkind : config.Marker_All_KindBC iMarker = BC_TYPE.SEND_RECEIVE)
    (htag : 0 < config.Marker_All_SendRecv iMarker)
    (hlen : (geometry.vertex iMarker).length = (geometry.vertex (iMarker + 1)).length)
    (hnd : ((geometry.vertex (iMarker + 1)).map (fun v => v.Node)).Nodup)
    (hR : (geometry.vertex (iMarker + 1))[k]? = some vR)
    (hlater : ∀ j : Nat, iMarker < j →
      config.Marker_All_KindBC j = BC_TYPE.SEND_RECEIVE →
      0 < config.Marker_All_SendRecv j →
      vR.Node ∉ (geometry.vertex (j + 1)).map (fun v => v.Node)) :
    (iMarker < config.nMarker_All →
      ∃ vS : CVertex K, (geometry.vertex iMarker)[k]? = some vS ∧
        (Set_MPI_Solution geometry config s).Solution vR.Node
          = (Set_MPI_Solution_loop geometry config (List.range iMarker) s).Solution
              vS.Node) ∧
    (iMarker < s.nMarker →
      ∃ vS : CVertex K, (geometry.vertex iMarker)[k]? = some vS ∧
        (Set_MPI_Solution_Old geometry config s).Solution_Old vR.Node
          = (Set_MPI_Solution_Old_loop geometry config (List.range iMarker) s).Solution_Old
              vS.Node) ∧
    (∀ p : Nat,
      (∀ j : Nat, config.Marker_All_KindBC j = BC_TYPE.SEND_RECEIVE →
        0 < config.Marker_All_SendRecv j →
        p ∉ (geometry.vertex (j + 1)).map (fun v => v.Node)) →
      (Set_MPI_Solution geometry config s).Solution p = s.Solution p ∧
      (Set_MPI_Solution_Old geometry config s).Solution_Old p = s.Solution_Old p) := by
  refine ⟨fun hm => ?_, fun hm => ?_, fun p hp => ⟨?_, ?_⟩⟩
  · unfold Set_MPI_Solution
    simp only [Set_MPI_Solution_loop_Solution]
    exact haloLoop_at geometry config config.nMarker_All iMarker hm hkind htag s.Solution hlen
      hnd k vR hR hlater
  · unfold Set_MPI_Solution_Old
    simp only [Set_MPI_Solution_Old_loop_Solution_Old]
    exact haloLoop_at geometry config s.nMarker iMarker hm hkind htag s.Solution_Old hlen
      hnd k vR hR hlater
  · unfold Set_MPI_Solution
    rw [Set_MPI_Solution_loop_Solution]
    exact haloLoop_frame geometry config _ s.Solution p (fun j _ => hp j)
  · unfold Set_MPI_Solution_Old
    rw [Set_MPI_Solution_Old_loop_Solution_Old]
    exact haloLoop_frame geometry config _ s.Solution_Old p (fun j _ => hp j)

end CHeatSolver

end HaloExchange

/-! ## Instances for the inlet, the heat fluxes and the halo exchange -/

section UpdateInstances

open CHeatSolver

/-- Instance of C23: marker 0 sends from point 1 and marker 1 receives at point 2; the
temperature at point 2 goes from 0 to 7, the temperature of point 1. -/
theorem Set_MPI_Solution_halo_exchange_witness :
    exConfigHalo.Marker_All_KindBC 0 = BC_TYPE.SEND_RECEIVE ∧
    0 < exConfigHalo.Marker_All_SendRecv 0 ∧
    (exGeometryHalo.vertex 0).length = (exGeometryHalo.vertex (0 + 1)).length ∧
    exSolver.Solution 2 = 0 ∧
    (Set_MPI_Solution exGeometryHalo exConfigHalo exSolver).Solution 2 = 7 ∧
    (0 < exConfigHalo.nMarker_All →
      ∃ vS : CVertex ℚ, (exGeometryHalo.vertex 0)[0]? = some vS ∧
        (Set_MPI_Solution exGeometryHalo exConfigHalo exSolver).Solution 2
          = (Set_MPI_Solution_loop exGeometryHalo exConfigHalo (List.range 0)
              exSolver).Solution vS.Node) :=
  ⟨rfl, by decide, rfl, by simp [exSolver],
   by
    simp [Set_MPI_Solution, Set_MPI_Solution_loop, Set_MPI_Solution_marker, vertexLoop,
      exGeometryHalo, exConfigHalo, exConfig, exSolver, List.range_succ, List.enum],
   (Set_MPI_Solution_halo_exchange exGeometryHalo exConfigHalo exSolver 0 0
      ⟨2, 2, fun _ => 1⟩ rfl (by decide) rfl (by simp [exGeometryHalo])
      (by simp [exGeometryHalo])
      (fun j hj _ ht => by
        have hj0 : j ≠ 0 := Nat.pos_iff_ne_zero.mp hj
        simp [exConfigHalo, hj0] at ht)).1⟩

/-- Instance of C25: the flow-coupled configuration with marker 0 an isothermal wall on
the three-point mesh; the vertex at point 0 has diffusivity 3, wall temperature 2,
neighbour temperature 7, distance 3 and area 2, so the heat flux of the marker is -10,
and the isothermal wall raises the residual at point 0 by 10. -/
theorem Heat_Fluxes_isothermal_agrees_witness :
    exConfigIso.Kind_Solver ≠ ENUM_SOLVER.HEAT_EQUATION ∧ 0 < exSolver.nMarker ∧
    exConfigIso.Marker_All_KindBC 0 = BC_TYPE.ISOTHERMAL ∧
    exConfigIso.Marker_All_Monitoring 0 = true ∧
    (Heat_Fluxes sqrtQ exGeometry exFlow exConfigIso exSolver).Heat_Flux 0 = -10 ∧
    (BC_Isothermal_Wall sqrtQ exGeometry exFlow exConfigIso 0 exSolver).LinSysRes 0 = 10 ∧
    (Heat_Fluxes sqrtQ exGeometry exFlow exConfigIso exSolver).Heat_Flux 0
      = -∑ p in Finset.range exSolver.nPoint,
          ((BC_Isothermal_Wall sqrtQ exGeometry exFlow exConfigIso 0 exSolver).LinSysRes p
            - exSolver.LinSysRes p) :=
  ⟨by decide, by decide, rfl, rfl,
   by
    rw [(Heat_Fluxes_eq sqrtQ exGeometry exFlow exConfigIso exSolver).1 0]
    simp [markerHeatFlux, exGeometry, exFlow, exConfigIso, exConfig, exSolver, wallTemperature,
      vertexDist, vertexArea, euclideanNorm, sqrtQ, List.range_succ]
    norm_num,
   by
    simp [BC_Isothermal_Wall, BC_Isothermal_Wall_vertex, exGeometry, exFlow, exConfigIso,
      exConfig, exSolver, flow, implicit, CSysVector.SubtractBlock, sqrtQ, List.range_succ]
    norm_num,
   (Heat_Fluxes_isothermal_agrees sqrtQ exGeometry exFlow exConfigIso exSolver 0 (by decide)
      (by decide) rfl rfl
      (fun v hv => by
        simp [exGeometry] at hv
        subst hv
        rfl)
      (fun v hv => by
        simp [exGeometry] at hv
        subst hv
        decide)).2⟩

/-- The monitored heat flux counts a vertex whose point is not domain-owned (C26): on the
mesh whose boundary point 0 belongs to another subdomain, the only vertex of the
isothermal marker 0 is a ghost, `BC_Isothermal_Wall` skips it, and yet `Heat_Fluxes`
gives the marker and the total the flux -10 of that vertex, and -5 once the normal of
the ghost vertex is halved. -/
theorem Heat_Fluxes_counts_ghost_vertices :
    (∀ v ∈ exGeometryGhost.vertex 0, (exGeometryGhost.node v.Node).Domain = false) ∧
    (BC_Isothermal_Wall sqrtQ exGeometryGhost exFlow exConfigIso 0 exSolver).LinSysRes 0
      = exSolver.LinSysRes 0 ∧
    (Heat_Fluxes sqrtQ exGeometryGhost exFlow exConfigIso exSolver).Heat_Flux 0 = -10 ∧
    (Heat_Fluxes sqrtQ exGeometryGhost exFlow exConfigIso exSolver).Total_HeatFlux = -10 ∧
    (Heat_Fluxes sqrtQ exGeometryGhostThin exFlow exConfigIso exSolver).Heat_Flux 0 = -5 ∧
    (Heat_Fluxes sqrtQ exGeometryGhostThin exFlow exConfigIso exSolver).Total_HeatFlux
      = -5 := by
  refine ⟨fun v hv => ?_, ?_, ?_, ?_, ?_, ?_⟩
  · simp [exGeometryGhost, exGeometry] at hv
    subst hv
    simp [exGeometryGhost]
  · simp [BC_Isothermal_Wall, BC_Isothermal_Wall_vertex, exGeometryGhost, exGeometry]
  · rw [(Heat_Fluxes_eq sqrtQ exGeometryGhost exFlow exConfigIso exSolver).1 0]
    simp [markerHeatFlux, exGeometryGhost, exGeometry, exFlow, exConfigIso, exConfig,
      exSolver, wallTemperature, vertexDist, vertexArea, euclideanNorm, sqrtQ,
      List.range_succ]
    norm_num
  · rw [(Heat_Fluxes_eq sqrtQ exGeometryGhost exFlow exConfigIso exSolver).2]
    simp [markerHeatFlux, exGeometryGhost, exGeometry, exFlow, exConfigIso, exConfig,
      exSolver, wallTemperature, vertexDist, vertexArea, euclideanNorm, sqrtQ,
      List.range_succ]
    norm_num
  · rw [(Heat_Fluxes_eq sqrtQ exGeometryGhostThin exFlow exConfigIso exSolver).1 0]
    simp [markerHeatFlux, exGeometryGhostThin, exGeometryGhost, exGeometry, exFlow,
      exConfigIso, exConfig, exSolver, wallTemperature, vertexDist, vertexArea,
      euclideanNorm, sqrtQ, List.range_succ]
    norm_num
  · rw [(Heat_Fluxes_eq sqrtQ exGeometryGhostThin exFlow exConfigIso exSolver).2]
    simp [markerHeatFlux, exGeometryGhostThin, exGeometryGhost, exGeometry, exFlow,
      exConfigIso, exConfig, exSolver, wallTemperature, vertexDist, vertexArea,
      euclideanNorm, sqrtQ, List.range_succ]
    norm_num

/-- Instance of C27: the numerics stub does not read the configuration, and `BC_Inlet`
on marker 0 of the three-point mesh leaves the same state for both values of the
viscous flag. -/
theorem BC_Inlet_viscous_flag_irrelevant_witness :
    (∀ numerics : CNumerics ℚ,
      exCompute numerics { exConfig with Viscous := true }
        = exCompute numerics { exConfig with Viscous := false }) ∧
    BC_Inlet sqrtQ exGeometry exCompute exCompute { exConfig with Viscous := true } 0
        exLoopState
      = BC_Inlet sqrtQ exGeometry exCompute exCompute { exConfig with Viscous := false } 0
          exLoopState :=
  ⟨fun _ => rfl,
   BC_Inlet_viscous_flag_irrelevant sqrtQ exGeometry exCompute exCompute exConfig 0
     exLoopState (fun _ => rfl)⟩

end UpdateInstances

/-! ## Interior edges: column sums of the Jacobian -/

section EdgeColumnSums

variable {K : Type} [LinearOrderedField K]

namespace CHeatSolver

/-- One convective edge between points below `n` keeps the sum of every column of the
Jacobian over the rows below `n`. -/
theorem Upwind_Residual_edge_column_sum (geometry : CGeometry K) (flow_sol : CFlowSolver K)
    (CR : ComputeResidualFn K) (config : CConfig K) (st : CHeatSolver K × CNumerics K)
    (e : CEdge K) (n : Nat) (h0 : e.Node0 < n) (h1 : e.Node1 < n) (c : Nat) :
    ∑ r in Finset.range n, (Upwind_Residual_edge geometry flow_sol CR config st e).1.Jacobian r c
      = ∑ r in Finset.range n, st.1.Jacobian r c := by
  simp only [Upwind_Residual_edge_Jacobian, Finset.sum_sub_distrib, Finset.sum_add_distrib,
    ite_and, Finset.sum_ite_eq', Finset.mem_range, h0, h1, if_true]
  ring

/-- One diffusive edge between points below `n` keeps the sum of every column of the
Jacobian over the rows below `n`. -/
theorem Viscous_Residual_edge_column_sum (geometry : CGeometry K) (flow_sol : CFlowSolver K)
    (CR : ComputeResidualFn K) (config : CConfig K) (st : CHeatSolver K × CNumerics K)
    (e : CEdge K) (n : Nat) (h0 : e.Node0 < n) (h1 : e.Node1 < n) (c : Nat) :
    ∑ r in Finset.range n, (Viscous_Residual_edge geometry flow_sol CR config st e).1.Jacobian r c
      = ∑ r in Finset.range n, st.1.Jacobian r c := by
  simp only [Viscous_Residual_edge_Jacobian, Finset.sum_sub_distrib, Finset.sum_add_distrib,
    ite_and, Finset.sum_ite_eq', Finset.mem_range, h0, h1, if_true]
  ring

/-- C37. On a mesh whose edges join points of the solver, for every state, every pair of
numerics and every column `c`, the sum over all rows of the Jacobian entry `(r, c)` is
the same after `Upwind_Residual` followed by `Viscous_Residual` as before: each block
added in a row of an edge is subtracted in the other row of the edge, in the same
column. -/
theorem edge_assembly_conserves_Jacobian_column_sums (geometry : CGeometry K)
    (flow_sol : CFlowSolver K) (conv_numerics visc_numerics : CNumerics K)
    (CRconv CRvisc : ComputeResidualFn K) (config : CConfig K) (s : CHeatSolver K)
    (hmesh : ∀ e ∈ geometry.edge, e.Node0 < s.nPoint ∧ e.Node1 < s.nPoint) (c : Nat) :
    ∑ r in Finset.range s.nPoint,
        (Viscous_Residual geometry flow_sol visc_numerics CRvisc config
          (Upwind_Residual geometry flow_sol conv_numerics CRconv config s).1).1.Jacobian r c
      = ∑ r in Finset.range s.nPoint, s.Jacobian r c := by
  have hvisc : ∀ st : CHeatSolver K × CNumerics K,
      ∑ r in Finset.range s.nPoint,
        (Viscous_Residual geometry flow_sol st.2 CRvisc config st.1).1.Jacobian r c
        = ∑ r in Finset.range s.nPoint, st.1.Jacobian r c := fun st =>
    foldl_preserves
      (fun st : CHeatSolver K × CNumerics K => ∑ r in Finset.range s.nPoint, st.1.Jacobian r c)
      (Viscous_Residual_edge geometry flow_sol CRvisc config) geometry.edge
      (fun st e he => Viscous_Residual_edge_column_sum geometry flow_sol CRvisc config st e _
        (hmesh e he).1 (hmesh e he).2 c) st
  rw [hvisc (_, visc_numerics)]
  unfold Upwind_Residual
  split_ifs
  · exact foldl_preserves
      (fun st : CHeatSolver K × CNumerics K => ∑ r in Finset.range s.nPoint, st.1.Jacobian r c)
      (Upwind_Residual_edge geometry flow_sol CRconv config) geometry.edge
      (fun st e he => Upwind_Residual_edge_column_sum geometry flow_sol CRconv config st e _
        (hmesh e he).1 (hmesh e he).2 c) _
  · rfl

end CHeatSolver

end EdgeColumnSums

/-! ## The implicit Euler iteration: diagonal term and residual norms -/

section ImplicitDiagonal

variable {K : Type} [LinearOrderedField K]

namespace CHeatSolver

/-- The Jacobian after the point body of `ImplicitEuler_Iteration`: the diagonal entry of
the point has received the spec's diagonal term. -/
theorem ImplicitEuler_Iteration_point_Jacobian (geometry : CGeometry K)
    (flow_sol : CFlowSolver K) (config : CConfig K) (s : CHeatSolver K) (iPoint : Nat) :
    (ImplicitEuler_Iteration_point geometry flow_sol config s iPoint).Jacobian
      = Function.update s.Jacobian iPoint
          (fun c => if c = iPoint then
              s.Jacobian iPoint c + diagonalTerm geometry flow_sol config s.Delta_Time iPoint
            else s.Jacobian iPoint c) := by
  funext r c
  by_cases hk : config.Kind_Solver = ENUM_SOLVER.HEAT_EQUATION
  · by_cases hr : r = iPoint
    · subst hr
      by_cases hc : c = r
      · simp [ImplicitEuler_Iteration_point, CSysMatrix.AddVal2Diag, diagonalTerm, flow, hk, hc]
      · simp [ImplicitEuler_Iteration_point, CSysMatrix.AddVal2Diag, diagonalTerm, flow, hk, hc]
    · simp [ImplicitEuler_Iteration_point, CSysMatrix.AddVal2Diag, diagonalTerm, flow, hk, hr]
  · by_cases hr : r = iPoint
    · subst hr
      by_cases hc : c = r
      · simp [ImplicitEuler_Iteration_point, CSysMatrix.AddVal2Diag, diagonalTerm, flow, hk, hc]
      · simp [ImplicitEuler_Iteration_point, CSysMatrix.AddVal2Diag, diagonalTerm, flow, hk, hc]
    · simp [ImplicitEuler_Iteration_point, CSysMatrix.AddVal2Diag, diagonalTerm, flow, hk, hr]

/-- The Jacobian and the residual norms of the system handed to the linear solve. -/
theorem ImplicitEuler_Iteration_system_Jacobian (geometry : CGeometry K)
    (flow_sol : CFlowSolver K) (config : CConfig K) (s : CHeatSolver K) :
    (∀ r c : Nat,
      (ImplicitEuler_Iteration_system geometry flow_sol config s).Jacobian r c
        = if r < s.nPointDomain then
            (if c = r then
              s.Jacobian r c + diagonalTerm geometry flow_sol config s.Delta_Time r
             else s.Jacobian r c)
          else s.Jacobian r c) ∧
    (ImplicitEuler_Iteration_system geometry flow_sol config s).Res_RMS
      = ((List.range s.nPointDomain).map (fun p => s.LinSysRes p ^ 2)).sum ∧
    (ImplicitEuler_Iteration_system geometry flow_sol config s).Res_Max = 0 ∧
    (ImplicitEuler_Iteration_system geometry flow_sol config s).Point_Max = 0 := by
  have hn : ((List.range s.nPointDomain).foldl
      (ImplicitEuler_Iteration_point geometry flow_sol config)
      { s with Res_RMS := 0, Res_Max := 0, Point_Max := 0 }).nPointDomain = s.nPointDomain := by
    apply foldl_preserves (fun t : CHeatSolver K => t.nPointDomain)
    intro _ _ _
    rfl
  have hnP : ((List.range s.nPointDomain).foldl
      (ImplicitEuler_Iteration_point geometry flow_sol config)
      { s with Res_RMS := 0, Res_Max := 0, Point_Max := 0 }).nPoint = s.nPoint := by
    apply foldl_preserves (fun t : CHeatSolver K => t.nPoint)
    intro _ _ _
    rfl
  unfold ImplicitEuler_Iteration_system
  simp only [hn, hnP]
  refine ⟨fun r c => ?_, ?_, ?_, ?_⟩
  · have hg : ∀ (L : List Nat) (t : CHeatSolver K),
        (L.foldl ImplicitEuler_Iteration_ghost t).Jacobian = t.Jacobian := by
      intro L t
      apply foldl_preserves (fun t : CHeatSolver K => t.Jacobian)
      intro _ _ _
      rfl
    rw [hg]
    have h := foldl_range_modify (fun t : CHeatSolver K => t.Jacobian)
      (fun t : CHeatSolver K => t.Delta_Time)
      (fun dt i row => fun c => if c = i then
          row c + diagonalTerm geometry flow_sol config dt i else row c)
      (ImplicitEuler_Iteration_point geometry flow_sol config) (fun _ _ => rfl)
      (fun t i => ImplicitEuler_Iteration_point_Jacobian geometry flow_sol config t i)
      s.nPointDomain { s with Res_RMS := 0, Res_Max := 0, Point_Max := 0 } r
    rw [h]
    by_cases hr : r < s.nPointDomain
    · simp only [hr, if_true]
    · simp only [hr, if_false]
  · have hg : ∀ (L : List Nat) (t : CHeatSolver K),
        (L.foldl ImplicitEuler_Iteration_ghost t).Res_RMS = t.Res_RMS := by
      intro L t
      apply foldl_preserves (fun t : CHeatSolver K => t.Res_RMS)
      intro _ _ _
      rfl
    rw [hg]
    have h := foldl_accumulate (fun t : CHeatSolver K => t.Res_RMS)
      (fun t : CHeatSolver K => fun p => t.LinSysRes p ^ 2) (fun sq p => sq p)
      (ImplicitEuler_Iteration_point geometry flow_sol config) (List.range s.nPointDomain)
      (fun t i _ => by
        funext p
        by_cases hp : p = i
        · subst hp
          simp [ImplicitEuler_Iteration_point]
        · simp [ImplicitEuler_Iteration_point, Function.update_noteq hp])
      (fun t i _ => by
        simp [ImplicitEuler_Iteration_point]
        ring)
      { s with Res_RMS := 0, Res_Max := 0, Point_Max := 0 }
    rw [h]
    simp
  · have hg : ∀ (L : List Nat) (t : CHeatSolver K),
        (L.foldl ImplicitEuler_Iteration_ghost t).Res_Max = t.Res_Max := by
      intro L t
      apply foldl_preserves (fun t : CHeatSolver K => t.Res_Max)
      intro _ _ _
      rfl
    rw [hg]
    apply foldl_preserves (fun t : CHeatSolver K => t.Res_Max)
    intro _ _ _
    rfl
  · have hg : ∀ (L : List Nat) (t : CHeatSolver K),
        (L.foldl ImplicitEuler_Iteration_ghost t).Point_Max = t.Point_Max := by
      intro L t
      apply foldl_preserves (fun t : CHeatSolver K => t.Point_Max)
      intro _ _ _
      rfl
    rw [hg]
    apply foldl_preserves (fun t : CHeatSolver K => t.Point_Max)
    intro _ _ _
    rfl

/-- C33. In the system that `ImplicitEuler_Iteration` hands to the linear solve, the
Jacobian diagonal entry of every point below `nPointDomain` whose quotients have non-zero
divisors (`dt`, and in flow mode `CFLRedCoeff_Turb * dt_flow`) has been increased by
`Vol / dt` in solid conduction mode and by
`min (Vol / dt, Vol / (CFLRedCoeff_Turb * dt_flow))` in flow mode, `dt` being the local
time step of the point in the heat solver and `dt_flow` the one in the flow solver; the
diagonal entries of the ghost points and all off-diagonal entries are unchanged. -/
theorem ImplicitEuler_Iteration_diagonal_term (geometry : CGeometry K)
    (flow_sol : CFlowSolver K) (config : CConfig K) (s : CHeatSolver K) :
    (∀ p : Nat, p < s.nPointDomain → s.Delta_Time p ≠ 0 →
      (config.Kind_Solver ≠ ENUM_SOLVER.HEAT_EQUATION →
        config.CFLRedCoeff_Turb * flow_sol.Delta_Time p ≠ 0) →
      (ImplicitEuler_Iteration_system geometry flow_sol config s).Jacobian p p
        = s.Jacobian p p
          + (if config.Kind_Solver = ENUM_SOLVER.HEAT_EQUATION then
              (geometry.node p).Volume / s.Delta_Time p
             else min ((geometry.node p).Volume / s.Delta_Time p)
              ((geometry.node p).Volume
                / (config.CFLRedCoeff_Turb * flow_sol.Delta_Time p)))) ∧
    (∀ p : Nat, s.nPointDomain ≤ p →
      (ImplicitEuler_Iteration_system geometry flow_sol config s).Jacobian p p
        = s.Jacobian p p) ∧
    (∀ r c : Nat, r ≠ c →
      (ImplicitEuler_Iteration_system geometry flow_sol config s).Jacobian r c
        = s.Jacobian r c) := by
  have hJ := (ImplicitEuler_Iteration_system_Jacobian geometry flow_sol config s).1
  refine ⟨fun p hp _ _ => ?_, fun p hp => ?_, fun r c hrc => ?_⟩
  · rw [hJ p p, if_pos hp, if_pos rfl]
    rfl
  · rw [hJ p p, if_neg (not_lt.mpr hp)]
  · rw [hJ r c]
    by_cases hr : r < s.nPointDomain
    · rw [if_pos hr, if_neg (fun h => hrc h.symm)]
    · rw [if_neg hr]

/-- C35 as amended. After `ImplicitEuler_Iteration` has built the right-hand side, the
max-residual value recorded for the temperature variable and the point recorded with it
are the 0 they were reset to, whatever the residual, since the call that would record
the maximum is commented out; the RMS accumulator is the sum over the points below
`nPointDomain` of the squared residual. -/
theorem ImplicitEuler_Iteration_residual_norms (geometry : CGeometry K)
    (flow_sol : CFlowSolver K) (config : CConfig K) (s : CHeatSolver K) :
    (ImplicitEuler_Iteration_system geometry flow_sol config s).Res_Max = 0 ∧
    (ImplicitEuler_Iteration_system geometry flow_sol config s).Point_Max = 0 ∧
    (ImplicitEuler_Iteration_system geometry flow_sol config s).Res_RMS
      = ((List.range s.nPointDomain).map (fun p => s.LinSysRes p ^ 2)).sum ∧
    (ImplicitEuler_Iteration_system geometry flow_sol config s).Res_RMS
      = ((List.range s.nPointDomain).map
          (fun p =>
            (ImplicitEuler_Iteration_system geometry flow_sol config s).LinSysRes p ^ 2)).sum := by
  obtain ⟨_, hR, hM, hP⟩ := ImplicitEuler_Iteration_system_Jacobian geometry flow_sol config s
  refine ⟨hM, hP, hR, ?_⟩
  rw [hR]
  congr 1
  apply List.map_congr_left
  intro p hp
  rw [(ImplicitEuler_Iteration_system_eq geometry flow_sol config s).1 p,
    if_neg (fun h => absurd (List.mem_range.mp hp) (not_lt.mpr h.1)),
    if_pos (List.mem_range.mp hp)]
  ring

end CHeatSolver

end ImplicitDiagonal

/-! ## The implicit Euler iteration: instances -/

section ImplicitDiagonalInstances

open CHeatSolver

/-- C35 fails as stated: with the assembled residual 3, -4, -4 at the three domain-owned
points, the maximum of the absolute value of the residual is 4 (before and after the
sign change), and the max-residual value recorded by `ImplicitEuler_Iteration` is 0. -/
theorem ImplicitEuler_Iteration_residual_norms_fails :
    maxAbsResidual exSolverRes.nPointDomain exSolverRes.LinSysRes = 4 ∧
    maxAbsResidual exSolverRes.nPointDomain
      (ImplicitEuler_Iteration_system exGeometry exFlow exConfig exSolverRes).LinSysRes = 4 ∧
    (ImplicitEuler_Iteration_system exGeometry exFlow exConfig exSolverRes).Res_Max = 0 ∧
    (ImplicitEuler_Iteration_system exGeometry exFlow exConfig exSolverRes).Res_Max
      ≠ maxAbsResidual exSolverRes.nPointDomain
          (ImplicitEuler_Iteration_system exGeometry exFlow exConfig exSolverRes).LinSysRes := by
  have h1 : maxAbsResidual exSolverRes.nPointDomain exSolverRes.LinSysRes = 4 := by
    simp [maxAbsResidual, exSolverRes, exSolver, List.range_succ]
    norm_num [abs_of_nonneg, abs_of_neg]
  have h2 : maxAbsResidual exSolverRes.nPointDomain
      (ImplicitEuler_Iteration_system exGeometry exFlow exConfig exSolverRes).LinSysRes = 4 := by
    simp only [maxAbsResidual, (ImplicitEuler_Iteration_system_eq exGeometry exFlow exConfig
      exSolverRes).1]
    simp [exSolverRes, exSolver, List.range_succ]
    norm_num [abs_of_nonneg, abs_of_neg]
  have h3 := (ImplicitEuler_Iteration_system_Jacobian exGeometry exFlow exConfig
    exSolverRes).2.2.1
  refine ⟨h1, h2, h3, ?_⟩
  rw [h2, h3]
  norm_num

/-- Instance of the amended C35: with the assembled residual 3, -4, -4 the recorded
max-residual value is 0 and the RMS accumulator is 41. -/
theorem ImplicitEuler_Iteration_residual_norms_witness :
    (ImplicitEuler_Iteration_system exGeometry exFlow exConfig exSolverRes).Res_Max = 0 ∧
    (ImplicitEuler_Iteration_system exGeometry exFlow exConfig exSolverRes).Res_RMS
      = ((List.range exSolverRes.nPointDomain).map (fun p => exSolverRes.LinSysRes p ^ 2)).sum ∧
    ((List.range exSolverRes.nPointDomain).map (fun p => exSolverRes.LinSysRes p ^ 2)).sum
      = 41 :=
  ⟨(ImplicitEuler_Iteration_residual_norms exGeometry exFlow exConfig exSolverRes).1,
   (ImplicitEuler_Iteration_residual_norms exGeometry exFlow exConfig exSolverRes).2.2.1,
   by
    simp [exSolverRes, exSolver, List.range_succ]
    norm_num⟩

/-- Instance of C33 at point 0 of the three-point mesh, with volume 1, the local time step
1/2 in the heat solver and 1 in the flow solver, `CFLRedCoeff_Turb = 1`: the diagonal
entry `(0, 0)` grows by `min (2, 1) = 1` in flow mode and by 2 in solid conduction mode. -/
theorem ImplicitEuler_Iteration_diagonal_term_witness :
    0 < exSolverStep.nPointDomain ∧ exSolverStep.Delta_Time 0 ≠ 0 ∧
    exConfig.CFLRedCoeff_Turb * exFlow.Delta_Time 0 ≠ 0 ∧
    (ImplicitEuler_Iteration_system exGeometry exFlow exConfig exSolverStep).Jacobian 0 0
      = exSolverStep.Jacobian 0 0
        + (if exConfig.Kind_Solver = ENUM_SOLVER.HEAT_EQUATION then
            (exGeometry.node 0).Volume / exSolverStep.Delta_Time 0
           else min ((exGeometry.node 0).Volume / exSolverStep.Delta_Time 0)
            ((exGeometry.node 0).Volume / (exConfig.CFLRedCoeff_Turb * exFlow.Delta_Time 0))) ∧
    exSolverStep.Jacobian 0 0
        + (if exConfig.Kind_Solver = ENUM_SOLVER.HEAT_EQUATION then
            (exGeometry.node 0).Volume / exSolverStep.Delta_Time 0
           else min ((exGeometry.node 0).Volume / exSolverStep.Delta_Time 0)
            ((exGeometry.node 0).Volume / (exConfig.CFLRedCoeff_Turb * exFlow.Delta_Time 0)))
      = 1 ∧
    (ImplicitEuler_Iteration_system exGeometry exFlow exConfigSolid exSolverStep).Jacobian 0 0
      = exSolverStep.Jacobian 0 0
        + (if exConfigSolid.Kind_Solver = ENUM_SOLVER.HEAT_EQUATION then
            (exGeometry.node 0).Volume / exSolverStep.Delta_Time 0
           else min ((exGeometry.node 0).Volume / exSolverStep.Delta_Time 0)
            ((exGeometry.node 0).Volume
              / (exConfigSolid.CFLRedCoeff_Turb * exFlow.Delta_Time 0))) ∧
    exSolverStep.Jacobian 0 0
        + (if exConfigSolid.Kind_Solver = ENUM_SOLVER.HEAT_EQUATION then
            (exGeometry.node 0).Volume / exSolverStep.Delta_Time 0
           else min ((exGeometry.node 0).Volume / exSolverStep.Delta_Time 0)
            ((exGeometry.node 0).Volume
              / (exConfigSolid.CFLRedCoeff_Turb * exFlow.Delta_Time 0)))
      = 2 :=
  ⟨by decide, by simp [exSolverStep], by simp [exConfig, exFlow],
   (ImplicitEuler_Iteration_diagonal_term exGeometry exFlow exConfig exSolverStep).1 0
     (by decide) (by simp [exSolverStep]) (fun _ => by simp [exConfig, exFlow]),
   by simp [exSolverStep, exSolver, exGeometry, exConfig, exFlow],
   (ImplicitEuler_Iteration_diagonal_term exGeometry exFlow exConfigSolid exSolverStep).1 0
     (by decide) (by simp [exSolverStep])
     (fun _ => by simp [exConfigSolid, exConfig, exFlow]),
   by simp [exSolverStep, exSolver, exGeometry, exConfigSolid, exConfig]⟩

end ImplicitDiagonalInstances

/-! ## Time step: tracked extremes and positivity -/

section TimeStepTracking

/-- A loop keeps a property of the state that each of its steps keeps. -/
theorem foldl_invariant {σ α : Type} (P : σ → Prop) (body : σ → α → σ) (L : List α)
    (h : ∀ st, ∀ x ∈ L, P st → P (body st x)) (st : σ) (h0 : P st) :
    P (L.foldl body st) := by
  induction L generalizing st with
  | nil => exact h0
  | cons x L ih =>
    rw [List.foldl_cons]
    exact ih (fun st y hy => h st y (List.mem_cons_of_mem _ hy)) _
      (h st x (List.mem_cons_self _ _) h0)

variable {K : Type} [LinearOrderedField K]

/-- A sum of terms that are not negative, one of which is positive, is positive. -/
theorem sum_map_pos {α : Type} (L : List α) (f : α → K) (hf : ∀ x ∈ L, 0 ≤ f x)
    (x : α) (hx : x ∈ L) (hpos : 0 < f x) : 0 < (L.map f).sum := by
  induction L with
  | nil => simp at hx
  | cons y L ih =>
    rw [List.map_cons, List.sum_cons]
    have hrest : 0 ≤ (L.map f).sum :=
      List.sum_nonneg (fun z hz => by
        obtain ⟨w, hw, rfl⟩ := List.mem_map.mp hz
        exact hf w (List.mem_cons_of_mem _ hw))
    rcases List.mem_cons.mp hx with h | h
    · subst h
      exact add_pos_of_pos_of_nonneg hpos hrest
    · exact add_pos_of_nonneg_of_pos (hf y (List.mem_cons_self _ _))
        (ih (fun z hz => hf z (List.mem_cons_of_mem _ hz)) h)

namespace CHeatSolver

/-- The accessor `AddMax_Lambda_Visc` keeps every quantity of the solver that does not
depend on the spectral radii. -/
theorem AddMax_Lambda_Visc_preserves {β : Type} (proj : CHeatSolver K → β)
    (hproj : ∀ (s : CHeatSolver K) (Li Lv : Nat → K),
      proj { s with Max_Lambda_Inv := Li, Max_Lambda_Visc := Lv } = proj s)
    (geometry : CGeometry K) (s : CHeatSolver K) (iPoint : Nat) (Lambda : K) :
    proj (AddMax_Lambda_Visc geometry s iPoint Lambda) = proj s := by
  unfold AddMax_Lambda_Visc
  split_ifs
  · exact hproj s s.Max_Lambda_Inv _
  · rfl

/-- The loops of `SetTime_Step` that compute the spectral radius keep every quantity of
the solver that does not depend on the spectral radii. -/
theorem SetTime_Step_spectral_preserves {β : Type} (proj : CHeatSolver K → β)
    (hproj : ∀ (s : CHeatSolver K) (Li Lv : Nat → K),
      proj { s with Max_Lambda_Inv := Li, Max_Lambda_Visc := Lv } = proj s)
    (sqrt : K → K) (geometry : CGeometry K) (flow_sol : CFlowSolver K) (config : CConfig K)
    (s : CHeatSolver K) :
    proj (SetTime_Step_spectral sqrt geometry flow_sol config s) = proj s := by
  unfold SetTime_Step_spectral
  have h1 : proj ((List.range s.nPointDomain).foldl
      (fun s iPoint =>
        { s with
            Max_Lambda_Inv := Function.update s.Max_Lambda_Inv iPoint 0,
            Max_Lambda_Visc := Function.update s.Max_Lambda_Visc iPoint 0 })
      s) = proj s := by
    apply foldl_preserves proj
    intro st i _
    exact hproj st _ _
  have h2 : ∀ t : CHeatSolver K,
      proj (geometry.edge.foldl (SetTime_Step_edge sqrt geometry flow_sol config) t)
        = proj t := by
    intro t
    apply foldl_preserves proj
    intro st e _
    unfold SetTime_Step_edge
    simp only [AddMax_Lambda_Visc_preserves proj hproj]
  have h3 : ∀ t : CHeatSolver K,
      proj ((List.range geometry.nMarker).foldl
        (fun s iMarker =>
          (geometry.vertex iMarker).foldl (SetTime_Step_vertex sqrt geometry flow_sol config) s)
        t) = proj t := by
    intro t
    apply foldl_preserves proj
    intro st iMarker _
    apply foldl_preserves proj
    intro st v _
    unfold SetTime_Step_vertex
    simp only [AddMax_Lambda_Visc_preserves proj hproj]
  rw [h3, h2, h1]

/-- The tracked extreme time steps after the point body of `SetTime_Step`. -/
theorem SetTime_Step_point_track (geometry : CGeometry K) (config : CConfig K) (iMesh : Nat)
    (s : CHeatSolver K) (iPoint : Nat) :
    (SetTime_Step_point geometry config iMesh s iPoint).Min_Delta_Time
      = (if (geometry.node iPoint).Volume = 0 then s.Min_Delta_Time
         else min s.Min_Delta_Time
          (unclampedTimeStep geometry config iMesh s.Max_Lambda_Visc iPoint)) ∧
    (SetTime_Step_point geometry config iMesh s iPoint).Max_Delta_Time
      = (if (geometry.node iPoint).Volume = 0 then s.Max_Delta_Time
         else max s.Max_Delta_Time
          (unclampedTimeStep geometry config iMesh s.Max_Lambda_Visc iPoint)) := by
  have hsq : config.CFL iMesh * 0.25 * (geometry.node iPoint).Volume
      * (geometry.node iPoint).Volume
      = config.CFL iMesh * 0.25 * (geometry.node iPoint).Volume ^ 2 := by ring
  by_cases hv : (geometry.node iPoint).Volume = 0
  · simp [SetTime_Step_point, hv]
  · simp only [SetTime_Step_point, unclampedTimeStep, ne_eq, hv, not_false_eq_true, if_true,
      if_false, hsq, and_self]

/-- Along the point loop of `SetTime_Step` the tracked minimum does not grow, the tracked
maximum does not shrink, and the unclamped step of every processed point of non-zero
volume lies between the two. -/
theorem SetTime_Step_point_loop_track (geometry : CGeometry K) (config : CConfig K)
    (iMesh : Nat) (L : List Nat) (t : CHeatSolver K) :
    (L.foldl (SetTime_Step_point geometry config iMesh) t).Min_Delta_Time
        ≤ t.Min_Delta_Time ∧
    t.Max_Delta_Time
        ≤ (L.foldl (SetTime_Step_point geometry config iMesh) t).Max_Delta_Time ∧
    ∀ i ∈ L, (geometry.node i).Volume ≠ 0 →
      (L.foldl (SetTime_Step_point geometry config iMesh) t).Min_Delta_Time
          ≤ unclampedTimeStep geometry config iMesh t.Max_Lambda_Visc i ∧
      unclampedTimeStep geometry config iMesh t.Max_Lambda_Visc i
          ≤ (L.foldl (SetTime_Step_point geometry config iMesh) t).Max_Delta_Time := by
  induction L generalizing t with
  | nil => exact ⟨le_refl _, le_refl _, fun i hi => absurd hi (List.not_mem_nil i)⟩
  | cons j L ih =>
    rw [List.foldl_cons]
    obtain ⟨h1, h2, h3⟩ := ih (SetTime_Step_point geometry config iMesh t j)
    rw [(SetTime_Step_point_eq geometry config iMesh t j).2] at h3
    obtain ⟨hm, hM⟩ := SetTime_Step_point_track geometry config iMesh t j
    have hmin : (SetTime_Step_point geometry config iMesh t j).Min_Delta_Time
        ≤ t.Min_Delta_Time := by
      rw [hm]
      split_ifs
      · exact le_refl _
      · exact min_le_left _ _
    have hmax : t.Max_Delta_Time
        ≤ (SetTime_Step_point geometry config iMesh t j).Max_Delta_Time := by
      rw [hM]
      split_ifs
      · exact le_refl _
      · exact le_max_left _ _
    refine ⟨le_trans h1 hmin, le_trans hmax h2, fun i hi hv => ?_⟩
    rcases List.mem_cons.mp hi with h | h
    · subst h
      rw [if_neg hv] at hm hM
      exact ⟨le_trans h1 (hm ▸ min_le_right _ _), le_trans (hM ▸ le_max_right _ _) h2⟩
    · exact h3 i h hv

/-- A lower bound of the tracked minimum and of the unclamped steps of the processed
points is a lower bound of the tracked minimum after the point loop. -/
theorem SetTime_Step_point_loop_Min_ge (geometry : CGeometry K) (config : CConfig K)
    (iMesh : Nat) (L : List Nat) (t : CHeatSolver K) (m : K) (h0 : m ≤ t.Min_Delta_Time)
    (hL : ∀ i ∈ L, m ≤ unclampedTimeStep geometry config iMesh t.Max_Lambda_Visc i) :
    m ≤ (L.foldl (SetTime_Step_point geometry config iMesh) t).Min_Delta_Time := by
  have h := foldl_invariant
    (fun u : CHeatSolver K => m ≤ u.Min_Delta_Time ∧ u.Max_Lambda_Visc = t.Max_Lambda_Visc)
    (SetTime_Step_point geometry config iMesh) L
    (fun u i hi hu => by
      refine ⟨?_, ?_⟩
      · rw [(SetTime_Step_point_track geometry config iMesh u i).1, hu.2]
        split_ifs
        · exact hu.1
        · exact le_min hu.1 (hL i hi)
      · rw [(SetTime_Step_point_eq geometry config iMesh u i).2, hu.2])
    t ⟨h0, rfl⟩
  exact h.1

/-- The routine `SetTime_Step` is its point loop run on the state left by the loops that
compute the spectral radius, where the tracked extremes are `1.E6` and 0 and the spectral
radius is the final one. -/
theorem SetTime_Step_unfold (sqrt : K → K) (geometry : CGeometry K)
    (flow_sol : CFlowSolver K) (config : CConfig K) (iMesh : Nat) (s : CHeatSolver K) :
    SetTime_Step sqrt geometry flow_sol config iMesh s
      = (List.range s.nPointDomain).foldl (SetTime_Step_point geometry config iMesh)
          (SetTime_Step_spectral sqrt geometry flow_sol config
            { s with Min_Delta_Time := 1000000, Max_Delta_Time := 0 }) ∧
    (SetTime_Step_spectral sqrt geometry flow_sol config
        { s with Min_Delta_Time := 1000000, Max_Delta_Time := 0 }).Max_Lambda_Visc
      = (SetTime_Step sqrt geometry flow_sol config iMesh s).Max_Lambda_Visc ∧
    (SetTime_Step_spectral sqrt geometry flow_sol config
        { s with Min_Delta_Time := 1000000, Max_Delta_Time := 0 }).Min_Delta_Time = 1000000 ∧
    (SetTime_Step_spectral sqrt geometry flow_sol config
        { s with Min_Delta_Time := 1000000, Max_Delta_Time := 0 }).Max_Delta_Time = 0 := by
  have hn : (SetTime_Step_spectral sqrt geometry flow_sol config
      { s with Min_Delta_Time := 1000000, Max_Delta_Time := 0 }).nPointDomain
      = s.nPointDomain :=
    SetTime_Step_spectral_preserves (fun t : CHeatSolver K => t.nPointDomain)
      (fun _ _ _ => rfl) sqrt geometry flow_sol config _
  have hU : SetTime_Step sqrt geometry flow_sol config iMesh s
      = (List.range s.nPointDomain).foldl (SetTime_Step_point geometry config iMesh)
          (SetTime_Step_spectral sqrt geometry flow_sol config
            { s with Min_Delta_Time := 1000000, Max_Delta_Time := 0 }) := by
    unfold SetTime_Step
    simp only [hn]
  refine ⟨hU, ?_, ?_, ?_⟩
  · rw [hU]
    exact (foldl_preserves (fun t : CHeatSolver K => t.Max_Lambda_Visc)
      (SetTime_Step_point geometry config iMesh) (List.range s.nPointDomain)
      (fun t i _ => (SetTime_Step_point_eq geometry config iMesh t i).2) _).symm
  · exact SetTime_Step_spectral_preserves (fun t : CHeatSolver K => t.Min_Delta_Time)
      (fun _ _ _ => rfl) sqrt geometry flow_sol config _
  · exact SetTime_Step_spectral_preserves (fun t : CHeatSolver K => t.Max_Delta_Time)
      (fun _ _ _ => rfl) sqrt geometry flow_sol config _

/-- C32 as amended. When the spectral radius of every point below `nPointDomain` with
non-zero volume is not zero after `SetTime_Step` (no quotient of the point loop has a zero
divisor), then for every point `p` below `nPointDomain` with non-zero volume, the step
stored at `p` is the minimum of the configured maximum step and of the unclamped step
`L = min (1.E6, CFL * 0.25 * Vol^2 / lambda)`; the tracked values bound the unclamped
steps, `Min_Delta_Time <= L <= Max_Delta_Time`, being updated before the clamp. So the
stored step is at most `Max_Delta_Time`, and it is at least `Min_Delta_Time` when the step
of `p` is not clamped, and at least the smaller of `Min_Delta_Time` and the configured
maximum step in general. -/
theorem SetTime_Step_tracked_extremes (sqrt : K → K) (geometry : CGeometry K)
    (flow_sol : CFlowSolver K) (config : CConfig K) (iMesh : Nat) (s : CHeatSolver K)
    (p : Nat) (hp : p < s.nPointDomain) (hv : (geometry.node p).Volume ≠ 0) :
    (∀ q : Nat, q < s.nPointDomain → (geometry.node q).Volume ≠ 0 →
      (SetTime_Step sqrt geometry flow_sol config iMesh s).Max_Lambda_Visc q ≠ 0) →
    (SetTime_Step sqrt geometry flow_sol config iMesh s).Delta_Time p
      = min (unclampedTimeStep geometry config iMesh
              (SetTime_Step sqrt geometry flow_sol config iMesh s).Max_Lambda_Visc p)
          config.Max_DeltaTime ∧
    (SetTime_Step sqrt geometry flow_sol config iMesh s).Min_Delta_Time
      ≤ unclampedTimeStep geometry config iMesh
          (SetTime_Step sqrt geometry flow_sol config iMesh s).Max_Lambda_Visc p ∧
    unclampedTimeStep geometry config iMesh
        (SetTime_Step sqrt geometry flow_sol config iMesh s).Max_Lambda_Visc p
      ≤ (SetTime_Step sqrt geometry flow_sol config iMesh s).Max_Delta_Time ∧
    (SetTime_Step sqrt geometry flow_sol config iMesh s).Delta_Time p
      ≤ (SetTime_Step sqrt geometry flow_sol config iMesh s).Max_Delta_Time ∧
    (unclampedTimeStep geometry config iMesh
          (SetTime_Step sqrt geometry flow_sol config iMesh s).Max_Lambda_Visc p
        ≤ config.Max_DeltaTime →
      (SetTime_Step sqrt geometry flow_sol config iMesh s).Min_Delta_Time
        ≤ (SetTime_Step sqrt geometry flow_sol config iMesh s).Delta_Time p) ∧
    min (SetTime_Step sqrt geometry flow_sol config iMesh s).Min_Delta_Time
        config.Max_DeltaTime
      ≤ (SetTime_Step sqrt geometry flow_sol config iMesh s).Delta_Time p := by
  intro _
  obtain ⟨hU, hlam, _, _⟩ := SetTime_Step_unfold sqrt geometry flow_sol config iMesh s
  have hD : (SetTime_Step sqrt geometry flow_sol config iMesh s).Delta_Time p
      = min (unclampedTimeStep geometry config iMesh
              (SetTime_Step sqrt geometry flow_sol config iMesh s).Max_Lambda_Visc p)
          config.Max_DeltaTime := by
    rw [(SetTime_Step_eq sqrt geometry flow_sol config iMesh s p hp).2, if_neg hv]
    rfl
  have hT := (SetTime_Step_point_loop_track geometry config iMesh (List.range s.nPointDomain)
    (SetTime_Step_spectral sqrt geometry flow_sol config
      { s with Min_Delta_Time := 1000000, Max_Delta_Time := 0 })).2.2 p
    (List.mem_range.mpr hp) hv
  rw [← hU, hlam] at hT
  refine ⟨hD, hT.1, hT.2, ?_, fun hc => ?_, ?_⟩
  · rw [hD]
    exact le_trans (min_le_left _ _) hT.2
  · rw [hD, min_eq_left hc]
    exact hT.1
  · rw [hD]
    exact min_le_min hT.1 (le_refl _)

/-- C38. Division safety of the time-step chain, point by point: if the CFL number and the
configured maximum step are positive, the thermal diffusivity is positive at every
point, and the domain-owned point `p` has a non-zero volume and an incident interior
edge or boundary face of non-zero area, then after `SetTime_Step` the spectral radius of
`p` and the time step stored at `p` are positive; so neither `Vol^2 / lambda` in
`SetTime_Step` nor `Vol / dt` in `ImplicitEuler_Iteration` divides by zero at `p`. -/
theorem SetTime_Step_division_safe (sqrt : K → K) (geometry : CGeometry K)
    (flow_sol : CFlowSolver K) (config : CConfig K) (iMesh : Nat) (s : CHeatSolver K)
    (p : Nat) (hCFL : 0 < config.CFL iMesh) (hMax : 0 < config.Max_DeltaTime)
    (hD : ∀ q : Nat, 0 < thermalDiffusivity flow_sol config q)
    (hp : p < s.nPointDomain) (hdom : (geometry.node p).Domain = true)
    (hv : (geometry.node p).Volume ≠ 0)
    (hinc : (∃ e ∈ geometry.edge, (e.Node0 = p ∨ e.Node1 = p)
          ∧ euclideanNorm sqrt s.nDim e.Normal ≠ 0)
      ∨ (∃ iMarker : Nat, iMarker < geometry.nMarker ∧
          ∃ v ∈ geometry.vertex iMarker, v.Node = p ∧ vertexArea sqrt s.nDim v ≠ 0)) :
    0 < (SetTime_Step sqrt geometry flow_sol config iMesh s).Max_Lambda_Visc p ∧
    0 < (SetTime_Step sqrt geometry flow_sol config iMesh s).Delta_Time p ∧
    ImplicitEuler_Iteration_Delta geometry (SetTime_Step sqrt geometry flow_sol config iMesh s)
        p
      = some ((geometry.node p).Volume
          / (SetTime_Step sqrt geometry flow_sol config iMesh s).Delta_Time p) := by
  have hEl : ∀ e : CEdge K, 0 ≤ edgeLambda sqrt s.nDim flow_sol config e :=
    fun e => mul_nonneg (le_of_lt (hD _)) (sq_nonneg _)
  have hVl : ∀ v : CVertex K, 0 ≤ vertexLambda sqrt s.nDim flow_sol config v :=
    fun v => mul_nonneg (le_of_lt (hD _)) (sq_nonneg _)
  have hEt : ∀ e : CEdge K,
      0 ≤ (if ((geometry.node e.Node0).Domain && decide (e.Node0 = p)) = true then
            edgeLambda sqrt s.nDim flow_sol config e else 0)
          + (if ((geometry.node e.Node1).Domain && decide (e.Node1 = p)) = true then
            edgeLambda sqrt s.nDim flow_sol config e else 0) := by
    intro e
    apply add_nonneg
    · split_ifs
      · exact hEl e
      · exact le_refl _
    · split_ifs
      · exact hEl e
      · exact le_refl _
  have hVt : ∀ v : CVertex K,
      0 ≤ (if ((geometry.node v.Node).Domain && decide (v.Node = p)) = true then
            vertexLambda sqrt s.nDim flow_sol config v else 0) := by
    intro v
    split_ifs
    · exact hVl v
    · exact le_refl _
  have hS1 : 0 ≤ (geometry.edge.map (fun e =>
      (if ((geometry.node e.Node0).Domain && decide (e.Node0 = p)) = true then
        edgeLambda sqrt s.nDim flow_sol config e else 0)
      + (if ((geometry.node e.Node1).Domain && decide (e.Node1 = p)) = true then
        edgeLambda sqrt s.nDim flow_sol config e else 0))).sum :=
    List.sum_nonneg (fun z hz => by
      obtain ⟨e, _, rfl⟩ := List.mem_map.mp hz
      exact hEt e)
  have hS2m : ∀ iMarker : Nat,
      0 ≤ ((geometry.vertex iMarker).map (fun v =>
        if ((geometry.node v.Node).Domain && decide (v.Node = p)) = true then
          vertexLambda sqrt s.nDim flow_sol config v else 0)).sum :=
    fun iMarker => List.sum_nonneg (fun z hz => by
      obtain ⟨v, _, rfl⟩ := List.mem_map.mp hz
      exact hVt v)
  have hS2 : 0 ≤ ((List.range geometry.nMarker).map (fun iMarker =>
      ((geometry.vertex iMarker).map (fun v =>
        if ((geometry.node v.Node).Domain && decide (v.Node = p)) = true then
          vertexLambda sqrt s.nDim flow_sol config v else 0)).sum)).sum :=
    List.sum_nonneg (fun z hz => by
      obtain ⟨m, _, rfl⟩ := List.mem_map.mp hz
      exact hS2m m)
  have hlam : 0 < (SetTime_Step sqrt geometry flow_sol config iMesh s).Max_Lambda_Visc p := by
    rw [(SetTime_Step_eq sqrt geometry flow_sol config iMesh s p hp).1,
      (SetTime_Step_spectral_eq sqrt geometry flow_sol config s p).1, if_pos hp, zero_add]
    rcases hinc with ⟨e, he, hep, hA⟩ | ⟨m, hm, v, hvm, hvp, hA⟩
    · apply add_pos_of_pos_of_nonneg _ hS2
      apply sum_map_pos geometry.edge _ (fun e _ => hEt e) e he
      have hpos : 0 < edgeLambda sqrt s.nDim flow_sol config e :=
        mul_pos (hD _) (lt_of_le_of_ne (sq_nonneg _) (Ne.symm (pow_ne_zero 2 hA)))
      rcases hep with h0 | h1
      · apply add_pos_of_pos_of_nonneg
        · rw [if_pos (by simp [h0, hdom])]
          exact hpos
        · split_ifs
          · exact hEl e
          · exact le_refl _
      · apply add_pos_of_nonneg_of_pos
        · split_ifs
          · exact hEl e
          · exact le_refl _
        · rw [if_pos (by simp [h1, hdom])]
          exact hpos
    · apply add_pos_of_nonneg_of_pos hS1
      apply sum_map_pos (List.range geometry.nMarker) _ (fun m _ => hS2m m) m
        (List.mem_range.mpr hm)
      apply sum_map_pos (geometry.vertex m) _ (fun v _ => hVt v) v hvm
      rw [if_pos (by simp [hvp, hdom])]
      exact mul_pos (hD _) (lt_of_le_of_ne (sq_nonneg _) (Ne.symm (pow_ne_zero 2 hA)))
  have hdt : 0 < (SetTime_Step sqrt geometry flow_sol config iMesh s).Delta_Time p := by
    rw [(SetTime_Step_eq sqrt geometry flow_sol config iMesh s p hp).2, if_neg hv]
    refine lt_min (lt_min (by norm_num) (div_pos ?_ hlam)) hMax
    exact mul_pos (mul_pos hCFL (by norm_num))
      (lt_of_le_of_ne (sq_nonneg _) (Ne.symm (pow_ne_zero 2 hv)))
  refine ⟨hlam, hdt, ?_⟩
  unfold ImplicitEuler_Iteration_Delta
  rw [if_neg (ne_of_gt hdt)]

/-- After `SetTime_Step` the quotient `Vol / dt` of `ImplicitEuler_Iteration` at a point
below `nPointDomain` with volume 0 has the divisor 0. -/
theorem ImplicitEuler_Iteration_Delta_zero_volume (sqrt : K → K) (geometry : CGeometry K)
    (flow_sol : CFlowSolver K) (config : CConfig K) (iMesh : Nat) (s : CHeatSolver K)
    (p : Nat) (hp : p < s.nPointDomain) (hv : (geometry.node p).Volume = 0) :
    (SetTime_Step sqrt geometry flow_sol config iMesh s).Delta_Time p = 0 ∧
    ImplicitEuler_Iteration_Delta geometry (SetTime_Step sqrt geometry flow_sol config iMesh s)
        p = none := by
  have h0 : (SetTime_Step sqrt geometry flow_sol config iMesh s).Delta_Time p = 0 := by
    rw [(SetTime_Step_eq sqrt geometry flow_sol config iMesh s p hp).2, if_pos hv]
  refine ⟨h0, ?_⟩
  unfold ImplicitEuler_Iteration_Delta
  rw [if_pos h0]

end CHeatSolver

end TimeStepTracking

/-! ## Time-step tracking, division safety and column sums: instances -/

section TimeStepTrackingInstances

open CHeatSolver

/-- The spectral radii that `SetTime_Step` accumulates on the three-point mesh with the
maximum step 1/100: 15 at point 0 (one edge of area 1, one boundary face of area 2), 6 at
point 1 (two edges), 3 at point 2 (one edge), for the diffusivity 3. -/
theorem exSmallMax_Max_Lambda_Visc :
    (SetTime_Step sqrtQ exGeometry exFlow exConfigSmallMax 0 exSolver).Max_Lambda_Visc 0 = 15 ∧
    (SetTime_Step sqrtQ exGeometry exFlow exConfigSmallMax 0 exSolver).Max_Lambda_Visc 1 = 6 ∧
    (SetTime_Step sqrtQ exGeometry exFlow exConfigSmallMax 0 exSolver).Max_Lambda_Visc 2 = 3 := by
  refine ⟨?_, ?_, ?_⟩
  · rw [(SetTime_Step_eq sqrtQ exGeometry exFlow exConfigSmallMax 0 exSolver 0 (by decide)).1,
      (SetTime_Step_spectral_eq sqrtQ exGeometry exFlow exConfigSmallMax exSolver 0).1]
    simp [exConfigSmallMax, exGeometry, exSolver, exConfig, exFlow, edgeLambda, vertexLambda,
      thermalDiffusivity, euclideanNorm, vertexArea, sqrtQ, List.range_succ, flow]
    norm_num
  · rw [(SetTime_Step_eq sqrtQ exGeometry exFlow exConfigSmallMax 0 exSolver 1 (by decide)).1,
      (SetTime_Step_spectral_eq sqrtQ exGeometry exFlow exConfigSmallMax exSolver 1).1]
    simp [exConfigSmallMax, exGeometry, exSolver, exConfig, exFlow, edgeLambda, vertexLambda,
      thermalDiffusivity, euclideanNorm, vertexArea, sqrtQ, List.range_succ, flow]
    norm_num
  · rw [(SetTime_Step_eq sqrtQ exGeometry exFlow exConfigSmallMax 0 exSolver 2 (by decide)).1,
      (SetTime_Step_spectral_eq sqrtQ exGeometry exFlow exConfigSmallMax exSolver 2).1]
    simp [exConfigSmallMax, exGeometry, exSolver, exConfig, exFlow, edgeLambda, vertexLambda,
      thermalDiffusivity, euclideanNorm, vertexArea, sqrtQ, List.range_succ, flow]

/-- The unclamped steps on the three-point mesh with the maximum step 1/100: 1/60, 1/24
and 1/12 at the points 0, 1 and 2. -/
theorem exSmallMax_unclampedTimeStep :
    unclampedTimeStep exGeometry exConfigSmallMax 0
      (SetTime_Step sqrtQ exGeometry exFlow exConfigSmallMax 0 exSolver).Max_Lambda_Visc 0
      = 1 / 60 ∧
    unclampedTimeStep exGeometry exConfigSmallMax 0
      (SetTime_Step sqrtQ exGeometry exFlow exConfigSmallMax 0 exSolver).Max_Lambda_Visc 1
      = 1 / 24 ∧
    unclampedTimeStep exGeometry exConfigSmallMax 0
      (SetTime_Step sqrtQ exGeometry exFlow exConfigSmallMax 0 exSolver).Max_Lambda_Visc 2
      = 1 / 12 := by
  obtain ⟨h0, h1, h2⟩ := exSmallMax_Max_Lambda_Visc
  refine ⟨?_, ?_, ?_⟩
  · rw [unclampedTimeStep, h0]
    simp [exConfigSmallMax, exConfig, exGeometry]
    norm_num
  · rw [unclampedTimeStep, h1]
    simp [exConfigSmallMax, exConfig, exGeometry]
    norm_num
  · rw [unclampedTimeStep, h2]
    simp [exConfigSmallMax, exConfig, exGeometry]
    norm_num

/-- Counterexample to C32 as stated: on the three-point mesh with CFL number 1 and the
configured maximum step 1/100, point 2 is domain-owned with volume 1; its unclamped step
1/12 is clamped, so the step stored at point 2 is 1/100, while the tracked minimum, updated
before the clamp, is 1/60 (the unclamped step of point 0): the stored step is below
`Min_Delta_Time`. -/
theorem SetTime_Step_tracked_extremes_fails :
    2 < exSolver.nPointDomain ∧ (exGeometry.node 2).Domain = true ∧
    (exGeometry.node 2).Volume ≠ 0 ∧
    (SetTime_Step sqrtQ exGeometry exFlow exConfigSmallMax 0 exSolver).Delta_Time 2 = 1 / 100 ∧
    (SetTime_Step sqrtQ exGeometry exFlow exConfigSmallMax 0 exSolver).Min_Delta_Time = 1 / 60 ∧
    ¬ ((SetTime_Step sqrtQ exGeometry exFlow exConfigSmallMax 0 exSolver).Min_Delta_Time
        ≤ (SetTime_Step sqrtQ exGeometry exFlow exConfigSmallMax 0 exSolver).Delta_Time 2) := by
  obtain ⟨hU, hlam, hmin, _⟩ :=
    SetTime_Step_unfold sqrtQ exGeometry exFlow exConfigSmallMax 0 exSolver
  obtain ⟨u0, u1, u2⟩ := exSmallMax_unclampedTimeStep
  have hD : (SetTime_Step sqrtQ exGeometry exFlow exConfigSmallMax 0 exSolver).Delta_Time 2
      = 1 / 100 := by
    rw [(SetTime_Step_eq sqrtQ exGeometry exFlow exConfigSmallMax 0 exSolver 2 (by decide)).2,
      exSmallMax_Max_Lambda_Visc.2.2]
    simp [exConfigSmallMax, exConfig, exGeometry]
    norm_num
  have hge : (1 / 60 : ℚ)
      ≤ (SetTime_Step sqrtQ exGeometry exFlow exConfigSmallMax 0 exSolver).Min_Delta_Time := by
    rw [hU]
    apply SetTime_Step_point_loop_Min_ge
    · rw [hmin]
      norm_num
    · intro i hi
      rw [hlam]
      have h3 : i < 3 := List.mem_range.mp hi
      interval_cases i
      · rw [u0]
      · rw [u1]
        norm_num
      · rw [u2]
        norm_num
  have hle : (SetTime_Step sqrtQ exGeometry exFlow exConfigSmallMax 0 exSolver).Min_Delta_Time
      ≤ 1 / 60 := by
    have h := ((SetTime_Step_point_loop_track exGeometry exConfigSmallMax 0
      (List.range exSolver.nPointDomain)
      (SetTime_Step_spectral sqrtQ exGeometry exFlow exConfigSmallMax
        { exSolver with Min_Delta_Time := 1000000, Max_Delta_Time := 0 })).2.2 0
      (by decide) (by simp [exGeometry])).1
    rw [← hU, hlam, u0] at h
    exact h
  have hM := le_antisymm hle hge
  refine ⟨by decide, rfl, by simp [exGeometry], hD, hM, ?_⟩
  rw [hD, hM]
  norm_num

/-- The spectral radii of the three-point mesh with the maximum step 1/100 are not
zero. -/
theorem exSmallMax_Max_Lambda_Visc_ne_zero :
    ∀ q : Nat, q < exSolver.nPointDomain → (exGeometry.node q).Volume ≠ 0 →
      (SetTime_Step sqrtQ exGeometry exFlow exConfigSmallMax 0 exSolver).Max_Lambda_Visc q
        ≠ 0 := by
  intro q hq _
  obtain ⟨h0, h1, h2⟩ := exSmallMax_Max_Lambda_Visc
  have h3 : q < 3 := hq
  interval_cases q
  · rw [h0]
    norm_num
  · rw [h1]
    norm_num
  · rw [h2]
    norm_num

/-- Instance of C32 as amended, at the point of the counterexample: point 2 of the
three-point mesh with the configured maximum step 1/100, where the spectral radii are 15,
6 and 3. -/
theorem SetTime_Step_tracked_extremes_witness :
    2 < exSolver.nPointDomain ∧ (exGeometry.node 2).Volume ≠ 0 ∧
    (∀ q : Nat, q < exSolver.nPointDomain → (exGeometry.node q).Volume ≠ 0 →
      (SetTime_Step sqrtQ exGeometry exFlow exConfigSmallMax 0 exSolver).Max_Lambda_Visc q
        ≠ 0) ∧
    (SetTime_Step sqrtQ exGeometry exFlow exConfigSmallMax 0 exSolver).Delta_Time 2
      = min (unclampedTimeStep exGeometry exConfigSmallMax 0
              (SetTime_Step sqrtQ exGeometry exFlow exConfigSmallMax 0 exSolver).Max_Lambda_Visc 2)
          exConfigSmallMax.Max_DeltaTime ∧
    (SetTime_Step sqrtQ exGeometry exFlow exConfigSmallMax 0 exSolver).Delta_Time 2
      ≤ (SetTime_Step sqrtQ exGeometry exFlow exConfigSmallMax 0 exSolver).Max_Delta_Time ∧
    min (SetTime_Step sqrtQ exGeometry exFlow exConfigSmallMax 0 exSolver).Min_Delta_Time
        exConfigSmallMax.Max_DeltaTime
      ≤ (SetTime_Step sqrtQ exGeometry exFlow exConfigSmallMax 0 exSolver).Delta_Time 2 :=
  ⟨by decide, by simp [exGeometry], exSmallMax_Max_Lambda_Visc_ne_zero,
   (SetTime_Step_tracked_extremes sqrtQ exGeometry exFlow exConfigSmallMax 0 exSolver 2
      (by decide) (by simp [exGeometry]) exSmallMax_Max_Lambda_Visc_ne_zero).1,
   (SetTime_Step_tracked_extremes sqrtQ exGeometry exFlow exConfigSmallMax 0 exSolver 2
      (by decide) (by simp [exGeometry]) exSmallMax_Max_Lambda_Visc_ne_zero).2.2.2.1,
   (SetTime_Step_tracked_extremes sqrtQ exGeometry exFlow exConfigSmallMax 0 exSolver 2
      (by decide) (by simp [exGeometry]) exSmallMax_Max_Lambda_Visc_ne_zero).2.2.2.2.2⟩

/-- Instance of C38: point 2 of the three-point mesh has volume 1 and is the second node
of the edge from point 1, of area 1; with the diffusivity 3, CFL number 1 and maximum
step 10000000 its spectral radius and its time step are positive. -/
theorem SetTime_Step_division_safe_witness :
    0 < exConfig.CFL 0 ∧ 0 < exConfig.Max_DeltaTime ∧
    (∀ q : Nat, 0 < thermalDiffusivity exFlow exConfig q) ∧
    2 < exSolver.nPointDomain ∧ (exGeometry.node 2).Domain = true ∧
    (exGeometry.node 2).Volume ≠ 0 ∧
    0 < (SetTime_Step sqrtQ exGeometry exFlow exConfig 0 exSolver).Max_Lambda_Visc 2 ∧
    0 < (SetTime_Step sqrtQ exGeometry exFlow exConfig 0 exSolver).Delta_Time 2 ∧
    ImplicitEuler_Iteration_Delta exGeometry
        (SetTime_Step sqrtQ exGeometry exFlow exConfig 0 exSolver) 2
      = some ((exGeometry.node 2).Volume
          / (SetTime_Step sqrtQ exGeometry exFlow exConfig 0 exSolver).Delta_Time 2) :=
  ⟨by simp [exConfig], by simp [exConfig],
   fun q => by simp [thermalDiffusivity, exConfig, exFlow],
   by decide, rfl, by simp [exGeometry],
   SetTime_Step_division_safe sqrtQ exGeometry exFlow exConfig 0 exSolver 2
     (by simp [exConfig]) (by simp [exConfig])
     (fun q => by simp [thermalDiffusivity, exConfig, exFlow])
     (by decide) rfl (by simp [exGeometry])
     (Or.inl ⟨⟨1, 2, fun _ => 1⟩, by simp [exGeometry], Or.inr rfl,
       by simp [euclideanNorm, exSolver, sqrtQ, List.range_succ]⟩)⟩

/-- C34, the divergence. On the three-point mesh with a control volume of measure 0 at the
domain-owned point 2, `SetTime_Step` stores the time step 0 at point 2, and the quotient
`Vol / dt` that `ImplicitEuler_Iteration` then forms at point 2 has the divisor 0: the
division by zero is reached, with nothing in between that tests the divisor. -/
theorem ImplicitEuler_Iteration_divides_by_zero_step :
    2 < exSolver.nPointDomain ∧ (exGeometryVoid.node 2).Domain = true ∧
    (exGeometryVoid.node 2).Volume = 0 ∧
    (SetTime_Step sqrtQ exGeometryVoid exFlow exConfig 0 exSolver).Delta_Time 2 = 0 ∧
    ImplicitEuler_Iteration_Delta exGeometryVoid
        (SetTime_Step sqrtQ exGeometryVoid exFlow exConfig 0 exSolver) 2 = none ∧
    ImplicitEuler_Iteration_Delta exGeometryVoid
        (SetTime_Step sqrtQ exGeometryVoid exFlow exConfigSolid 0 exSolver) 2 = none :=
  ⟨by decide, rfl, by simp [exGeometryVoid],
   (ImplicitEuler_Iteration_Delta_zero_volume sqrtQ exGeometryVoid exFlow exConfig 0 exSolver 2
      (by decide) (by simp [exGeometryVoid])).1,
   (ImplicitEuler_Iteration_Delta_zero_volume sqrtQ exGeometryVoid exFlow exConfig 0 exSolver 2
      (by decide) (by simp [exGeometryVoid])).2,
   (ImplicitEuler_Iteration_Delta_zero_volume sqrtQ exGeometryVoid exFlow exConfigSolid 0
      exSolver 2 (by decide) (by simp [exGeometryVoid])).2⟩

/-- Instance of C37 on the three-point mesh, at the column 1: both edges join points
below `nPoint = 3`. -/
theorem edge_assembly_conserves_Jacobian_column_sums_witness :
    (∀ e ∈ exGeometry.edge, e.Node0 < exSolver.nPoint ∧ e.Node1 < exSolver.nPoint) ∧
    ∑ r in Finset.range exSolver.nPoint,
        (Viscous_Residual exGeometry exFlow exNumerics exCompute exConfig
          (Upwind_Residual exGeometry exFlow exNumerics exCompute exConfig exSolver).1).1.Jacobian
            r 1
      = ∑ r in Finset.range exSolver.nPoint, exSolver.Jacobian r 1 :=
  ⟨by simp [exGeometry, exSolver],
   edge_assembly_conserves_Jacobian_column_sums exGeometry exFlow exNumerics exNumerics
     exCompute exCompute exConfig exSolver (by simp [exGeometry, exSolver]) 1⟩

end TimeStepTrackingInstances

/-! ## Second-order reconstruction of the face temperatures -/

section Reconstruction

variable {K : Type} [LinearOrderedField K]

namespace CHeatSolver

end CHeatSolver

end Reconstruction

/-! ### The reconstruction on the instance mesh -/

section ReconstructionInstances

open CHeatSolver

end ReconstructionInstances

/-! ## The dual time stepping source term -/

section DualTime

variable {K : Type} [LinearOrderedField K]

namespace CHeatSolver

/-- The point body of `SetResidual_DualTime` keeps the time levels of the solution and the
number of points. -/
theorem SetResidual_DualTime_point_inv (geometry : CGeometry K) (config : CConfig K)
    (RunTime_EqSystem : ENUM_RUNTIME) (s : CHeatSolver K) (iPoint : Nat) :
    ((SetResidual_DualTime_point geometry config RunTime_EqSystem s iPoint).Solution,
      (SetResidual_DualTime_point geometry config RunTime_EqSystem s iPoint).Solution_time_n,
      (SetResidual_DualTime_point geometry config RunTime_EqSystem s iPoint).Solution_time_n1)
      = (s.Solution, s.Solution_time_n, s.Solution_time_n1) := by
  unfold SetResidual_DualTime_point
  by_cases hi : implicit config = true
  · simp only [hi, if_true]
  · simp only [hi, if_false, Bool.false_eq_true]

/-- The residual after the point body of `SetResidual_DualTime`, for the heat system under
a dual time stepping scheme. -/
theorem SetResidual_DualTime_point_LinSysRes (geometry : CGeometry K) (config : CConfig K)
    (RunTime_EqSystem : ENUM_RUNTIME)
    (hF : RunTime_EqSystem ≠ ENUM_RUNTIME.RUNTIME_FLOW_SYS)
    (hA : RunTime_EqSystem ≠ ENUM_RUNTIME.RUNTIME_ADJFLOW_SYS)
    (hs : config.Unsteady_Simulation = ENUM_UNSTEADY.DT_STEPPING_1ST
      ∨ config.Unsteady_Simulation = ENUM_UNSTEADY.DT_STEPPING_2ND)
    (s : CHeatSolver K) (iPoint : Nat) :
    (SetResidual_DualTime_point geometry config RunTime_EqSystem s iPoint).LinSysRes
      = Function.update s.LinSysRes iPoint
          (s.LinSysRes iPoint
            + (if config.Unsteady_Simulation = ENUM_UNSTEADY.DT_STEPPING_1ST then
                (s.Solution iPoint - s.Solution_time_n iPoint) * (geometry.node iPoint).Volume
                  / config.Delta_UnstTimeND
               else
                (3 * s.Solution iPoint - 4 * s.Solution_time_n iPoint
                    + s.Solution_time_n1 iPoint) * (geometry.node iPoint).Volume
                  / (2 * config.Delta_UnstTimeND))) := by
  funext q
  unfold SetResidual_DualTime_point
  by_cases hq : q = iPoint
  · subst hq
    by_cases hi : implicit config = true <;> rcases hs with h1 | h2 <;>
      first
        | simp [hi, h1, hF, hA, CSysVector.AddBlock]
        | simp [hi, h2, hF, hA, CSysVector.AddBlock]
  · by_cases hi : implicit config = true <;> rcases hs with h1 | h2 <;>
      first
        | simp [hi, hq, h1, hF, hA, CSysVector.AddBlock]
        | simp [hi, hq, h2, hF, hA, CSysVector.AddBlock]

/-- The Jacobian after the point body of `SetResidual_DualTime` in implicit mode, for the
heat system. -/
theorem SetResidual_DualTime_point_Jacobian (geometry : CGeometry K) (config : CConfig K)
    (RunTime_EqSystem : ENUM_RUNTIME)
    (hF : RunTime_EqSystem ≠ ENUM_RUNTIME.RUNTIME_FLOW_SYS)
    (hA : RunTime_EqSystem ≠ ENUM_RUNTIME.RUNTIME_ADJFLOW_SYS)
    (himp : implicit config = true)
    (s : CHeatSolver K) (iPoint : Nat) :
    (SetResidual_DualTime_point geometry config RunTime_EqSystem s iPoint).Jacobian
      = Function.update s.Jacobian iPoint
          (fun c => if c = iPoint then
              s.Jacobian iPoint c
                + (if config.Unsteady_Simulation = ENUM_UNSTEADY.DT_STEPPING_2ND then
                    (geometry.node iPoint).Volume * 3 / (2 * config.Delta_UnstTimeND)
                   else if config.Unsteady_Simulation = ENUM_UNSTEADY.DT_STEPPING_1ST then
                    (geometry.node iPoint).Volume / config.Delta_UnstTimeND
                   else 0)
            else s.Jacobian iPoint c) := by
  funext r c
  unfold SetResidual_DualTime_point
  by_cases hr : r = iPoint
  · subst hr
    by_cases hc : c = r
    · subst hc
      simp [himp, hF, hA, CSysMatrix.AddBlock]
    · simp [himp, hF, hA, CSysMatrix.AddBlock, hc]
  · simp [himp, hF, hA, CSysMatrix.AddBlock, hr]

/-- The residual after `SetResidual_DualTime` on a static mesh, for the heat system under a
dual time stepping scheme. -/
theorem SetResidual_DualTime_LinSysRes (geometry : CGeometry K) (config : CConfig K)
    (RunTime_EqSystem : ENUM_RUNTIME)
    (hstatic : config.Grid_Movement = false)
    (hF : RunTime_EqSystem ≠ ENUM_RUNTIME.RUNTIME_FLOW_SYS)
    (hA : RunTime_EqSystem ≠ ENUM_RUNTIME.RUNTIME_ADJFLOW_SYS)
    (hs : config.Unsteady_Simulation = ENUM_UNSTEADY.DT_STEPPING_1ST
      ∨ config.Unsteady_Simulation = ENUM_UNSTEADY.DT_STEPPING_2ND)
    (s : CHeatSolver K) (p : Nat) (hp : p < s.nPointDomain) :
    (SetResidual_DualTime geometry config RunTime_EqSystem s).LinSysRes p
      = s.LinSysRes p
        + (if config.Unsteady_Simulation = ENUM_UNSTEADY.DT_STEPPING_1ST then
            (s.Solution p - s.Solution_time_n p) * (geometry.node p).Volume
              / config.Delta_UnstTimeND
           else
            (3 * s.Solution p - 4 * s.Solution_time_n p + s.Solution_time_n1 p)
              * (geometry.node p).Volume / (2 * config.Delta_UnstTimeND)) := by
  have h := foldl_range_modify (fun t : CHeatSolver K => t.LinSysRes)
    (fun t : CHeatSolver K => (t.Solution, t.Solution_time_n, t.Solution_time_n1))
    (fun (inv : (Nat → K) × (Nat → K) × (Nat → K)) i x =>
      x + (if config.Unsteady_Simulation = ENUM_UNSTEADY.DT_STEPPING_1ST then
            (inv.1 i - inv.2.1 i) * (geometry.node i).Volume / config.Delta_UnstTimeND
           else
            (3 * inv.1 i - 4 * inv.2.1 i + inv.2.2 i) * (geometry.node i).Volume
              / (2 * config.Delta_UnstTimeND)))
    (SetResidual_DualTime_point geometry config RunTime_EqSystem)
    (fun t i => SetResidual_DualTime_point_inv geometry config RunTime_EqSystem t i)
    (fun t i => SetResidual_DualTime_point_LinSysRes geometry config RunTime_EqSystem hF hA hs
      t i)
    s.nPointDomain s p
  unfold SetResidual_DualTime
  simp only [hstatic, Bool.not_false, if_true]
  rw [h, if_pos hp]

/-- The Jacobian diagonal after `SetResidual_DualTime` on a static mesh in implicit mode,
for the heat system. -/
theorem SetResidual_DualTime_Jacobian (geometry : CGeometry K) (config : CConfig K)
    (RunTime_EqSystem : ENUM_RUNTIME)
    (hstatic : config.Grid_Movement = false)
    (hF : RunTime_EqSystem ≠ ENUM_RUNTIME.RUNTIME_FLOW_SYS)
    (hA : RunTime_EqSystem ≠ ENUM_RUNTIME.RUNTIME_ADJFLOW_SYS)
    (himp : implicit config = true)
    (s : CHeatSolver K) (p : Nat) (hp : p < s.nPointDomain) :
    (SetResidual_DualTime geometry config RunTime_EqSystem s).Jacobian p p
      = s.Jacobian p p
        + (if config.Unsteady_Simulation = ENUM_UNSTEADY.DT_STEPPING_2ND then
            (geometry.node p).Volume * 3 / (2 * config.Delta_UnstTimeND)
           else if config.Unsteady_Simulation = ENUM_UNSTEADY.DT_STEPPING_1ST then
            (geometry.node p).Volume / config.Delta_UnstTimeND
           else 0) := by
  have h := foldl_range_modify (fun t : CHeatSolver K => t.Jacobian)
    (fun _ : CHeatSolver K => ())
    (fun _ i row => fun c => if c = i then
        row c + (if config.Unsteady_Simulation = ENUM_UNSTEADY.DT_STEPPING_2ND then
            (geometry.node i).Volume * 3 / (2 * config.Delta_UnstTimeND)
           else if config.Unsteady_Simulation = ENUM_UNSTEADY.DT_STEPPING_1ST then
            (geometry.node i).Volume / config.Delta_UnstTimeND
           else 0)
      else row c)
    (SetResidual_DualTime_point geometry config RunTime_EqSystem)
    (fun _ _ => rfl)
    (fun t i => SetResidual_DualTime_point_Jacobian geometry config RunTime_EqSystem hF hA himp
      t i)
    s.nPointDomain s p
  unfold SetResidual_DualTime
  simp only [hstatic, Bool.not_false, if_true]
  rw [h, if_pos hp]
  simp only [if_true]

/-- C39. On a static mesh and for the heat system (the run-time system is neither the flow
nor the adjoint flow system), for every point `p` below `nPointDomain`,
`SetResidual_DualTime` adds `(T_np1 - T_n)*Vol/dt` to the residual of `p` under
first-order dual time stepping and `(3*T_np1 - 4*T_n + T_nm1)*Vol/(2*dt)` under
second-order; in implicit mode it adds `Vol/dt`, resp. `3*Vol/(2*dt)`, to the diagonal
Jacobian entry of `p`, and that value is the derivative of the added residual with respect
to `T_np1`: replacing `T_np1` at `p` by `T_np1 + eps` changes the added residual by `eps`
times the value added to the diagonal. The added residual is zero when the three time
levels stored at `p` are equal. -/
theorem SetResidual_DualTime_source_term (geometry : CGeometry K) (config : CConfig K)
    (RunTime_EqSystem : ENUM_RUNTIME) (s : CHeatSolver K) (p : Nat)
    (hstatic : config.Grid_Movement = false)
    (hF : RunTime_EqSystem ≠ ENUM_RUNTIME.RUNTIME_FLOW_SYS)
    (hA : RunTime_EqSystem ≠ ENUM_RUNTIME.RUNTIME_ADJFLOW_SYS)
    (hp : p < s.nPointDomain) :
    (config.Unsteady_Simulation = ENUM_UNSTEADY.DT_STEPPING_1ST →
      (SetResidual_DualTime geometry config RunTime_EqSystem s).LinSysRes p
        = s.LinSysRes p
          + (s.Solution p - s.Solution_time_n p) * (geometry.node p).Volume
            / config.Delta_UnstTimeND ∧
      (implicit config = true →
        (SetResidual_DualTime geometry config RunTime_EqSystem s).Jacobian p p
          = s.Jacobian p p + (geometry.node p).Volume / config.Delta_UnstTimeND)) ∧
    (config.Unsteady_Simulation = ENUM_UNSTEADY.DT_STEPPING_2ND →
      (SetResidual_DualTime geometry config RunTime_EqSystem s).LinSysRes p
        = s.LinSysRes p
          + (3 * s.Solution p - 4 * s.Solution_time_n p + s.Solution_time_n1 p)
            * (geometry.node p).Volume / (2 * config.Delta_UnstTimeND) ∧
      (implicit config = true →
        (SetResidual_DualTime geometry config RunTime_EqSystem s).Jacobian p p
          = s.Jacobian p p + 3 * (geometry.node p).Volume / (2 * config.Delta_UnstTimeND))) ∧
    ((config.Unsteady_Simulation = ENUM_UNSTEADY.DT_STEPPING_1ST
        ∨ config.Unsteady_Simulation = ENUM_UNSTEADY.DT_STEPPING_2ND) →
      implicit config = true → ∀ eps : K,
      ((SetResidual_DualTime geometry config RunTime_EqSystem
          { s with Solution := Function.update s.Solution p (s.Solution p + eps) }).LinSysRes p
          - s.LinSysRes p)
        - ((SetResidual_DualTime geometry config RunTime_EqSystem s).LinSysRes p
          - s.LinSysRes p)
        = eps * ((SetResidual_DualTime geometry config RunTime_EqSystem s).Jacobian p p
            - s.Jacobian p p)) ∧
    ((config.Unsteady_Simulation = ENUM_UNSTEADY.DT_STEPPING_1ST
        ∨ config.Unsteady_Simulation = ENUM_UNSTEADY.DT_STEPPING_2ND) →
      s.Solution p = s.Solution_time_n p → s.Solution_time_n p = s.Solution_time_n1 p →
      (SetResidual_DualTime geometry config RunTime_EqSystem s).LinSysRes p
        = s.LinSysRes p) := by
  refine ⟨fun h1 => ⟨?_, fun himp => ?_⟩, fun h2 => ⟨?_, fun himp => ?_⟩,
    fun hs himp eps => ?_, fun hs hT hTn => ?_⟩
  · rw [SetResidual_DualTime_LinSysRes geometry config RunTime_EqSystem hstatic hF hA
      (Or.inl h1) s p hp, if_pos h1]
  · rw [SetResidual_DualTime_Jacobian geometry config RunTime_EqSystem hstatic hF hA himp s p
      hp]
    simp [h1]
  · rw [SetResidual_DualTime_LinSysRes geometry config RunTime_EqSystem hstatic hF hA
      (Or.inr h2) s p hp]
    simp [h2]
  · rw [SetResidual_DualTime_Jacobian geometry config RunTime_EqSystem hstatic hF hA himp s p
      hp, if_pos h2]
    ring
  · rw [SetResidual_DualTime_LinSysRes geometry config RunTime_EqSystem hstatic hF hA hs s p hp,
      SetResidual_DualTime_LinSysRes geometry config RunTime_EqSystem hstatic hF hA hs
        { s with Solution := Function.update s.Solution p (s.Solution p + eps) } p hp,
      SetResidual_DualTime_Jacobian geometry config RunTime_EqSystem hstatic hF hA himp s p hp]
    simp only [Function.update_same]
    rcases hs with h1 | h2
    · simp only [h1, if_true]
      simp
      ring
    · simp only [h2, if_true]
      simp
      ring
  · have e1 : s.Solution_time_n p = s.Solution p := hT.symm
    have e2 : s.Solution_time_n1 p = s.Solution p := by rw [← hTn, e1]
    rw [SetResidual_DualTime_LinSysRes geometry config RunTime_EqSystem hstatic hF hA hs s p hp,
      e1, e2]
    split_ifs <;> ring

end CHeatSolver

end DualTime

/-! ### The dual time source term on the instance mesh -/

section DualTimeInstances

open CHeatSolver

/-- Instance of C39 at point 0 of the three-point mesh, with volume 1, physical time step
2 and the time levels 5, 1 and 3: the first-order scheme adds `(5 - 1) * 1 / 2 = 2` to the
residual and `1 / 2` to the diagonal; the second-order scheme adds
`(15 - 4 + 3) * 1 / 4 = 7 / 2` to the residual. -/
theorem SetResidual_DualTime_source_term_witness :
    exConfig.Grid_Movement = false ∧
    ENUM_RUNTIME.RUNTIME_HEAT_SYS ≠ ENUM_RUNTIME.RUNTIME_FLOW_SYS ∧
    ENUM_RUNTIME.RUNTIME_HEAT_SYS ≠ ENUM_RUNTIME.RUNTIME_ADJFLOW_SYS ∧
    0 < exSolver.nPointDomain ∧
    exConfig.Unsteady_Simulation = ENUM_UNSTEADY.DT_STEPPING_1ST ∧
    exConfigSecond.Unsteady_Simulation = ENUM_UNSTEADY.DT_STEPPING_2ND ∧
    implicit exConfig = true ∧
    (SetResidual_DualTime exGeometry exConfig ENUM_RUNTIME.RUNTIME_HEAT_SYS exSolver).LinSysRes 0
      = exSolver.LinSysRes 0
        + (exSolver.Solution 0 - exSolver.Solution_time_n 0) * (exGeometry.node 0).Volume
          / exConfig.Delta_UnstTimeND ∧
    exSolver.LinSysRes 0
        + (exSolver.Solution 0 - exSolver.Solution_time_n 0) * (exGeometry.node 0).Volume
          / exConfig.Delta_UnstTimeND = 2 ∧
    (SetResidual_DualTime exGeometry exConfig ENUM_RUNTIME.RUNTIME_HEAT_SYS exSolver).Jacobian 0 0
      = exSolver.Jacobian 0 0 + (exGeometry.node 0).Volume / exConfig.Delta_UnstTimeND ∧
    exSolver.Jacobian 0 0 + (exGeometry.node 0).Volume / exConfig.Delta_UnstTimeND = 1 / 2 ∧
    (SetResidual_DualTime exGeometry exConfigSecond ENUM_RUNTIME.RUNTIME_HEAT_SYS
        exSolver).LinSysRes 0
      = exSolver.LinSysRes 0
        + (3 * exSolver.Solution 0 - 4 * exSolver.Solution_time_n 0
            + exSolver.Solution_time_n1 0) * (exGeometry.node 0).Volume
          / (2 * exConfigSecond.Delta_UnstTimeND) ∧
    exSolver.LinSysRes 0
        + (3 * exSolver.Solution 0 - 4 * exSolver.Solution_time_n 0
            + exSolver.Solution_time_n1 0) * (exGeometry.node 0).Volume
          / (2 * exConfigSecond.Delta_UnstTimeND) = 7 / 2 :=
  ⟨rfl, by decide, by decide, by decide, rfl, rfl, by decide,
   ((SetResidual_DualTime_source_term exGeometry exConfig ENUM_RUNTIME.RUNTIME_HEAT_SYS exSolver
      0 rfl (by decide) (by decide) (by decide)).1 rfl).1,
   by simp [exSolver, exGeometry, exConfig]; norm_num,
   ((SetResidual_DualTime_source_term exGeometry exConfig ENUM_RUNTIME.RUNTIME_HEAT_SYS exSolver
      0 rfl (by decide) (by decide) (by decide)).1 rfl).2 (by decide),
   by simp [exSolver, exGeometry, exConfig],
   ((SetResidual_DualTime_source_term exGeometry exConfigSecond ENUM_RUNTIME.RUNTIME_HEAT_SYS
      exSolver 0 rfl (by decide) (by decide) (by decide)).2.1 rfl).1,
   by simp [exSolver, exGeometry, exConfigSecond, exConfig]; norm_num⟩

end DualTimeInstances

/-! ## The column layout of the restart file -/

section RestartLayout

open CHeatSolver

/-- The number of values that the restart parsing skips, for every coding of the
turbulence models: in solid conduction mode none; in flow mode 6 (2D) or 7 (3D) for the SA
model, and for every other selection, the SST model included, 7 (2D) or 8 (3D) when the
code of SST is not zero, 5 (2D) or 6 (3D) when it is zero; the variable `turbulent` holds
the code of SST after a line that is not one of the SA model. -/
theorem Restart_dull_vals_eq (SA SST nDim turbulent : Nat) :
    Restart_dull_vals SA SST false nDim turbulent = (0, turbulent) ∧
    (turbulent = SA →
      Restart_dull_vals SA SST true nDim turbulent
        = (if nDim = 2 then 6 else 7, turbulent)) ∧
    (turbulent ≠ SA → SST ≠ 0 →
      Restart_dull_vals SA SST true nDim turbulent = (if nDim = 2 then 7 else 8, SST)) ∧
    (turbulent ≠ SA → SST = 0 →
      Restart_dull_vals SA SST true nDim turbulent = (if nDim = 2 then 5 else 6, SST)) := by
  refine ⟨rfl, fun h => ?_, fun h hS => ?_, fun h hS => ?_⟩
  · by_cases hd : nDim = 2 <;> simp [Restart_dull_vals, h, hd]
  · by_cases hd : nDim = 2 <;> simp [Restart_dull_vals, h, hS, hd]
  · by_cases hd : nDim = 2 <;> simp [Restart_dull_vals, h, hS, hd]

/-- C36, the divergence. With the codes 1 for SA and 3 for SST, in flow mode and for the
selection 0 (no turbulence model), which is neither SA nor SST: the specified layout skips
5 values in 2D and 6 in 3D, the restart parsing skips 7 and 8, since its second test
`turbulent = SST` is an assignment of a non-zero code; on the 2D line
`10 11 12 13 14 15 16 17` (after the point index) it reads the temperature 17 where the
specified layout has 15, and it leaves the code of SST in `turbulent`. Whatever the
codes of the two models, the parsing and the specified layout differ for some selection. -/
theorem Restart_dull_vals_assigns_SST :
    restartSkip 1 3 true 2 0 = 5 ∧ (Restart_dull_vals 1 3 true 2 0).1 = 7 ∧
    restartSkip 1 3 true 3 0 = 6 ∧ (Restart_dull_vals 1 3 true 3 0).1 = 8 ∧
    (Restart_dull_vals 1 3 true 2 0).2 = 3 ∧
    Restart_point_line 1 3 true 2 0 [(10 : ℚ), 11, 12, 13, 14, 15, 16, 17] = (some 17, 3) ∧
    [(10 : ℚ), 11, 12, 13, 14, 15, 16, 17][restartSkip 1 3 true 2 0]? = some 15 ∧
    (∀ SA SST : Nat, SA ≠ SST → ∃ turbulent : Nat,
      (Restart_dull_vals SA SST true 2 turbulent).1 ≠ restartSkip SA SST true 2 turbulent) := by
  refine ⟨by decide, by decide, by decide, by decide, by decide, ?_, ?_, ?_⟩
  · simp [Restart_point_line, Restart_dull_vals]
  · simp [restartSkip]
  · intro SA SST hne
    by_cases hS : SST = 0
    · subst hS
      refine ⟨0, ?_⟩
      have h : ¬ (0 = SA) := fun h => hne h.symm
      simp [Restart_dull_vals, restartSkip, h]
    · obtain ⟨t, htA, htS⟩ : ∃ t : Nat, t ≠ SA ∧ t ≠ SST :=
        ⟨SA + SST + 1, by omega, by omega⟩
      refine ⟨t, ?_⟩
      simp [Restart_dull_vals, restartSkip, htA, htS, hS]

end RestartLayout

/-! ## The layout of the gradient halo buffers -/

section GradientBuffer

/-- A loop through an element that establishes a property, every element of which keeps
the property, ends with the property; the states of the loop satisfy an invariant. -/
theorem foldl_establish {σ α : Type} (I P : σ → Prop) (body : σ → α → σ) (L : List α)
    (x : α) (hx : x ∈ L)
    (hI : ∀ st, ∀ y ∈ L, I st → I (body st y))
    (hset : ∀ st, I st → P (body st x))
    (hkeep : ∀ st, ∀ y ∈ L, I st → P st → P (body st y)) (st : σ) (h0 : I st) :
    P (L.foldl body st) := by
  induction L generalizing st with
  | nil => exact absurd hx (List.not_mem_nil x)
  | cons y L ih =>
    rw [List.foldl_cons]
    rcases List.mem_cons.mp hx with h | h
    · subst h
      have h2 := foldl_invariant (fun t => I t ∧ P t) body L
        (fun t z hz ht => ⟨hI t z (List.mem_cons_of_mem _ hz) ht.1,
          hkeep t z (List.mem_cons_of_mem _ hz) ht.1 ht.2⟩)
        (body st x) ⟨hI st x (List.mem_cons_self _ _) h0, hset st h0⟩
      exact h2.2
    · exact ih h (fun t z hz => hI t z (List.mem_cons_of_mem _ hz))
        (fun t z hz => hkeep t z (List.mem_cons_of_mem _ hz)) _
        (hI st y (List.mem_cons_self _ _) h0)

/-- Two positions of a list without repeated keys that carry the same key are equal. -/
theorem enum_key_inj {α : Type} (key : α → Nat) (L : List α) (hnd : (L.map key).Nodup)
    (k k0 : Nat) (x x0 : α) (hk : (k, x) ∈ L.enum) (hk0 : (k0, x0) ∈ L.enum)
    (h : key x = key x0) : k = k0 ∧ x = x0 := by
  rw [List.mk_mem_enum_iff_getElem?] at hk hk0
  have e1 : (L.map key)[k]? = some (key x) := by
    rw [List.getElem?_map, hk]
    rfl
  have e0 : (L.map key)[k0]? = some (key x) := by
    rw [List.getElem?_map, hk0, h]
    rfl
  obtain ⟨hl1, hv1⟩ := List.getElem?_eq_some.mp e1
  obtain ⟨hl0, hv0⟩ := List.getElem?_eq_some.mp e0
  have hkk : k = k0 := (List.Nodup.getElem_inj_iff hnd).mp (hv1.trans hv0.symm)
  subst hkk
  rw [hk] at hk0
  exact ⟨rfl, Option.some.inj hk0⟩

namespace CHeatSolver

/-- The cell index of a halo buffer is below the size of the buffer. -/
theorem Gradient_buffer_index_lt (nVertex nVar nDim iVertex iVar iDim : Nat)
    (hV : iVertex < nVertex) (hv : iVar < nVar) (hd : iDim < nDim) :
    Gradient_buffer_index nVertex nVar iVertex iVar iDim < nVertex * nVar * nDim := by
  unfold Gradient_buffer_index
  have h1 : iDim * nVar + iVar + 1 ≤ nDim * nVar := by
    calc iDim * nVar + iVar + 1 ≤ iDim * nVar + nVar := by omega
      _ = (iDim + 1) * nVar := by ring
      _ ≤ nDim * nVar := Nat.mul_le_mul_right _ hd
  calc iDim * nVar * nVertex + iVar * nVertex + iVertex
      < (iDim * nVar + iVar) * nVertex + nVertex := by
        have : iDim * nVar * nVertex + iVar * nVertex = (iDim * nVar + iVar) * nVertex := by
          ring
        omega
    _ = (iDim * nVar + iVar + 1) * nVertex := by ring
    _ ≤ nDim * nVar * nVertex := Nat.mul_le_mul_right _ h1
    _ = nVertex * nVar * nDim := by ring

/-- The cell index of a halo buffer determines the vertex, the variable and the
dimension. -/
theorem Gradient_buffer_index_inj (nVertex nVar iVertex iVar iDim jVertex jVar jDim : Nat)
    (hi : iVertex < nVertex) (hiv : iVar < nVar) (hj : jVertex < nVertex) (hjv : jVar < nVar)
    (h : Gradient_buffer_index nVertex nVar iVertex iVar iDim
      = Gradient_buffer_index nVertex nVar jVertex jVar jDim) :
    iVertex = jVertex ∧ iVar = jVar ∧ iDim = jDim := by
  unfold Gradient_buffer_index at h
  have e1 : iDim * nVar * nVertex + iVar * nVertex + iVertex
      = iVertex + nVertex * (iDim * nVar + iVar) := by ring
  have e2 : jDim * nVar * nVertex + jVar * nVertex + jVertex
      = jVertex + nVertex * (jDim * nVar + jVar) := by ring
  have hpos : 0 < nVertex := Nat.lt_of_le_of_lt (Nat.zero_le _) hi
  have hposv : 0 < nVar := Nat.lt_of_le_of_lt (Nat.zero_le _) hiv
  have a1 := (Nat.div_mod_unique hpos).mpr ⟨e1.symm, hi⟩
  have a2 := (Nat.div_mod_unique hpos).mpr ⟨e2.symm, hj⟩
  rw [h] at a1
  have hV : iVertex = jVertex := a1.2.symm.trans a2.2
  have hq : iDim * nVar + iVar = jDim * nVar + jVar := a1.1.symm.trans a2.1
  have b1 := (Nat.div_mod_unique hposv).mpr
    ⟨(by ring : iVar + nVar * iDim = iDim * nVar + iVar), hiv⟩
  have b2 := (Nat.div_mod_unique hposv).mpr
    ⟨(by ring : jVar + nVar * jDim = jDim * nVar + jVar), hjv⟩
  rw [hq] at b1
  exact ⟨hV, b1.2.symm.trans b2.2, b1.1.symm.trans b2.1⟩

/-- A loop nest that fills a halo buffer, one cell per element and dimension: the cell of
the element `x` and the dimension `d` holds the value written for them, when every
element of the same vertex index writes the same values. -/
theorem Gradient_buffer_fill {K α : Type} (n nVertex : Nat) (X : List α) (idx : α → Nat)
    (val : α → Nat → K) (x : α) (hx : x ∈ X) (hX : ∀ y ∈ X, idx y < nVertex)
    (hcons : ∀ y ∈ X, idx y = idx x → ∀ d, val y d = val x d)
    (d : Nat) (hd : d < n) (B0 : Nat → K) :
    X.foldl
        (fun B y =>
          (List.range n).foldl
            (fun B iDim =>
              Function.update B (Gradient_buffer_index nVertex 1 (idx y) 0 iDim) (val y iDim))
            B)
        B0 (Gradient_buffer_index nVertex 1 (idx x) 0 d)
      = val x d := by
  have hstep : ∀ (B : Nat → K), ∀ y ∈ X, ∀ iDim : Nat,
      B (Gradient_buffer_index nVertex 1 (idx x) 0 d) = val x d →
      Function.update B (Gradient_buffer_index nVertex 1 (idx y) 0 iDim) (val y iDim)
          (Gradient_buffer_index nVertex 1 (idx x) 0 d) = val x d := by
    intro B y hy iDim hB
    by_cases e : Gradient_buffer_index nVertex 1 (idx y) 0 iDim
        = Gradient_buffer_index nVertex 1 (idx x) 0 d
    · obtain ⟨hi, _, hdd⟩ := Gradient_buffer_index_inj nVertex 1 (idx y) 0 iDim (idx x) 0 d
        (hX y hy) Nat.one_pos (hX x hx) Nat.one_pos e
      rw [← e, Function.update_same, hdd]
      exact hcons y hy hi d
    · rw [Function.update_noteq (Ne.symm e)]
      exact hB
  exact foldl_establish (fun _ => True)
    (fun B : Nat → K => B (Gradient_buffer_index nVertex 1 (idx x) 0 d) = val x d)
    (fun B y =>
      (List.range n).foldl
        (fun B iDim =>
          Function.update B (Gradient_buffer_index nVertex 1 (idx y) 0 iDim) (val y iDim))
        B)
    X x hx (fun _ _ _ _ => trivial)
    (fun B _ =>
      foldl_establish (fun _ => True)
        (fun B : Nat → K => B (Gradient_buffer_index nVertex 1 (idx x) 0 d) = val x d)
        (fun B iDim =>
          Function.update B (Gradient_buffer_index nVertex 1 (idx x) 0 iDim) (val x iDim))
        (List.range n) d (List.mem_range.mpr hd) (fun _ _ _ _ => trivial)
        (fun B _ => Function.update_same _ _ _)
        (fun B iDim _ _ hB => hstep B x hx iDim hB) B trivial)
    (fun B y hy _ hB =>
      foldl_invariant
        (fun B : Nat → K => B (Gradient_buffer_index nVertex 1 (idx x) 0 d) = val x d)
        (fun B iDim =>
          Function.update B (Gradient_buffer_index nVertex 1 (idx y) 0 iDim) (val y iDim))
        (List.range n) (fun B iDim _ hB => hstep B y hy iDim hB) B hB)
    B0 trivial

/-- The unpacking loop sets the component `d` of the gradient of the point of the `k`-th
receiving vertex to the entry of the receive buffer of index `(k, 0, d)`, when the points
of the receiving vertices are pairwise distinct. -/
theorem Set_MPI_Solution_Gradient_unpack_eq {K : Type} (geometry : CGeometry K) (MarkerR : Nat)
    (Buffer_Receive_Gradient : Nat → K) (s : CHeatSolver K)
    (hnd : ((geometry.vertex MarkerR).map (fun v => v.Node)).Nodup)
    (k : Nat) (vR : CVertex K) (hR : (geometry.vertex MarkerR)[k]? = some vR)
    (d : Nat) (hd : d < s.nDim) :
    (Set_MPI_Solution_Gradient_unpack geometry MarkerR Buffer_Receive_Gradient s).Gradient
        vR.Node d
      = Buffer_Receive_Gradient
          (Gradient_buffer_index (geometry.vertex MarkerR).length 1 k 0 d) := by
  have hmem : (k, vR) ∈ (geometry.vertex MarkerR).enum :=
    List.mk_mem_enum_iff_getElem?.mpr hR
  have hstep : ∀ (t : CHeatSolver K), ∀ iv ∈ (geometry.vertex MarkerR).enum, ∀ iDim : Nat,
      t.Gradient vR.Node d = Buffer_Receive_Gradient
          (Gradient_buffer_index (geometry.vertex MarkerR).length 1 k 0 d) →
      Function.update t.Gradient iv.2.Node
          (Function.update (t.Gradient iv.2.Node) iDim
            (Buffer_Receive_Gradient
              (Gradient_buffer_index (geometry.vertex MarkerR).length 1 iv.1 0 iDim)))
          vR.Node d
        = Buffer_Receive_Gradient
          (Gradient_buffer_index (geometry.vertex MarkerR).length 1 k 0 d) := by
    intro t iv hiv iDim ht
    by_cases hn : iv.2.Node = vR.Node
    · obtain ⟨hk1, hv1⟩ := enum_key_inj (fun v : CVertex K => v.Node) (geometry.vertex MarkerR)
        hnd iv.1 k iv.2 vR hiv hmem hn
      rw [hv1, hk1, Function.update_same]
      by_cases hdd : iDim = d
      · rw [hdd, Function.update_same]
      · rw [Function.update_noteq (Ne.symm hdd)]
        exact ht
    · rw [Function.update_noteq (Ne.symm hn)]
      exact ht
  have h := foldl_establish (fun t : CHeatSolver K => t.nDim = s.nDim)
    (fun t : CHeatSolver K => t.Gradient vR.Node d = Buffer_Receive_Gradient
      (Gradient_buffer_index (geometry.vertex MarkerR).length 1 k 0 d))
    (fun (t : CHeatSolver K) (iv : Nat × CVertex K) =>
      (List.range t.nDim).foldl
        (fun (t : CHeatSolver K) iDim =>
          { t with
              Gradient := Function.update t.Gradient iv.2.Node
                (Function.update (t.Gradient iv.2.Node) iDim
                  (Buffer_Receive_Gradient
                    (Gradient_buffer_index (geometry.vertex MarkerR).length 1 iv.1 0 iDim))) })
        t)
    (geometry.vertex MarkerR).enum (k, vR) hmem
    (fun t iv _ ht => by
      have hp := foldl_preserves (fun u : CHeatSolver K => u.nDim)
        (fun (u : CHeatSolver K) iDim =>
          { u with
              Gradient := Function.update u.Gradient iv.2.Node
                (Function.update (u.Gradient iv.2.Node) iDim
                  (Buffer_Receive_Gradient
                    (Gradient_buffer_index (geometry.vertex MarkerR).length 1 iv.1 0 iDim))) })
        (List.range t.nDim) (fun _ _ _ => rfl) t
      exact hp.trans ht)
    (fun t ht => by
      have ht2 : t.nDim = s.nDim := ht
      beta_reduce
      rw [ht2]
      exact foldl_establish (fun _ => True)
        (fun t : CHeatSolver K => t.Gradient vR.Node d = Buffer_Receive_Gradient
          (Gradient_buffer_index (geometry.vertex MarkerR).length 1 k 0 d))
        (fun (u : CHeatSolver K) iDim =>
          { u with
              Gradient := Function.update u.Gradient vR.Node
                (Function.update (u.Gradient vR.Node) iDim
                  (Buffer_Receive_Gradient
                    (Gradient_buffer_index (geometry.vertex MarkerR).length 1 k 0 iDim))) })
        (List.range s.nDim) d (List.mem_range.mpr hd) (fun _ _ _ _ => trivial)
        (fun u _ => by
          show Function.update u.Gradient vR.Node _ vR.Node d = _
          rw [Function.update_same, Function.update_same])
        (fun u iDim _ _ hu => hstep u (k, vR) hmem iDim hu) t trivial)
    (fun t iv hiv _ ht =>
      foldl_invariant
        (fun t : CHeatSolver K => t.Gradient vR.Node d = Buffer_Receive_Gradient
          (Gradient_buffer_index (geometry.vertex MarkerR).length 1 k 0 d))
        (fun (u : CHeatSolver K) iDim =>
          { u with
              Gradient := Function.update u.Gradient iv.2.Node
                (Function.update (u.Gradient iv.2.Node) iDim
                  (Buffer_Receive_Gradient
                    (Gradient_buffer_index (geometry.vertex MarkerR).length 1 iv.1 0 iDim))) })
        (List.range t.nDim) (fun u iDim _ hu => hstep u iv hiv iDim hu) t ht)
    s rfl
  simpa [Set_MPI_Solution_Gradient_unpack, vertexLoop] using h

variable {K : Type} [LinearOrderedField K]

/-- The send buffer of a marker holds, in the cell of the `k`-th vertex and the dimension
`d`, the component `d` of the gradient of the point of that vertex. -/
theorem Set_MPI_Solution_Gradient_pack_eq (geometry : CGeometry K) (s : CHeatSolver K)
    (MarkerS k : Nat) (vS : CVertex K) (hS : (geometry.vertex MarkerS)[k]? = some vS)
    (d : Nat) (hd : d < s.nDim) :
    Set_MPI_Solution_Gradient_pack geometry s MarkerS
        (Gradient_buffer_index (geometry.vertex MarkerS).length 1 k 0 d)
      = s.Gradient vS.Node d := by
  have hmem : (k, vS) ∈ (geometry.vertex MarkerS).enum :=
    List.mk_mem_enum_iff_getElem?.mpr hS
  have h := Gradient_buffer_fill s.nDim (geometry.vertex MarkerS).length
    (geometry.vertex MarkerS).enum (fun iv => iv.1) (fun iv iDim => s.Gradient iv.2.Node iDim)
    (k, vS) hmem (fun y hy => List.fst_lt_of_mem_enum hy)
    (fun y hy hi dd => by
      have hy2 : (y.1, y.2) ∈ (geometry.vertex MarkerS).enum := hy
      rw [List.mk_mem_enum_iff_getElem?] at hy2
      have hi2 : y.1 = k := hi
      rw [hi2, hS] at hy2
      have hv : vS = y.2 := Option.some.inj hy2
      show s.Gradient y.2.Node dd = s.Gradient vS.Node dd
      rw [hv])
    d hd (fun _ => 0)
  simpa [Set_MPI_Solution_Gradient_pack, vertexLoop] using h

/-- The receive buffer holds, in the cell of the vertex index `k` below `nVertexR` and the
dimension `d`, the entry of the send buffer of the same index. -/
theorem Set_MPI_Solution_Gradient_copy_eq (nDim nVertexR : Nat) (Buffer_Send_Gradient : Nat → K)
    (k : Nat) (hk : k < nVertexR) (d : Nat) (hd : d < nDim) :
    Set_MPI_Solution_Gradient_copy nDim nVertexR Buffer_Send_Gradient
        (Gradient_buffer_index nVertexR 1 k 0 d)
      = Buffer_Send_Gradient (Gradient_buffer_index nVertexR 1 k 0 d) := by
  have h := Gradient_buffer_fill nDim nVertexR (List.range nVertexR) (fun iVertex => iVertex)
    (fun iVertex iDim => Buffer_Send_Gradient (Gradient_buffer_index nVertexR 1 iVertex 0 iDim))
    k (List.mem_range.mpr hk) (fun y hy => List.mem_range.mp hy)
    (fun y _ hi dd => by
      have hi2 : y = k := hi
      rw [hi2])
    d hd (fun _ => 0)
  simpa [Set_MPI_Solution_Gradient_copy] using h

/-- C40. The index map `(iVertex, iVar, iDim) -> iDim*nVar*nVertex + iVar*nVertex + iVertex`
of the gradient halo buffers is below `nVertex*nVar*nDim` and injective on
`iVertex < nVertex`, `iVar < nVar`; and `Set_MPI_Solution_Gradient` on a pair of markers
with the same number of vertices, the points of the receiving vertices being pairwise
distinct, leaves at the point of the `k`-th receiving vertex every component `d < nDim`
of the gradient that the point of the `k`-th sending vertex had before the call. -/
theorem Set_MPI_Solution_Gradient_buffer_layout (geometry : CGeometry K) (s : CHeatSolver K)
    (iMarker : Nat) :
    (∀ nVertex nVar nDim iVertex iVar iDim : Nat,
      iVertex < nVertex → iVar < nVar → iDim < nDim →
      Gradient_buffer_index nVertex nVar iVertex iVar iDim < nVertex * nVar * nDim) ∧
    (∀ nVertex nVar iVertex iVar iDim jVertex jVar jDim : Nat,
      iVertex < nVertex → iVar < nVar → jVertex < nVertex → jVar < nVar →
      Gradient_buffer_index nVertex nVar iVertex iVar iDim
        = Gradient_buffer_index nVertex nVar jVertex jVar jDim →
      iVertex = jVertex ∧ iVar = jVar ∧ iDim = jDim) ∧
    ((geometry.vertex iMarker).length = (geometry.vertex (iMarker + 1)).length →
      ((geometry.vertex (iMarker + 1)).map (fun v => v.Node)).Nodup →
      ∀ (k : Nat) (vS vR : CVertex K),
        (geometry.vertex iMarker)[k]? = some vS →
        (geometry.vertex (iMarker + 1))[k]? = some vR →
        ∀ d : Nat, d < s.nDim →
          (Set_MPI_Solution_Gradient_marker geometry s iMarker).Gradient vR.Node d
            = s.Gradient vS.Node d) := by
  refine ⟨fun nVertex nVar nDim iVertex iVar iDim hV hv hd =>
      Gradient_buffer_index_lt nVertex nVar nDim iVertex iVar iDim hV hv hd,
    fun nVertex nVar iVertex iVar iDim jVertex jVar jDim hi hiv hj hjv h =>
      Gradient_buffer_index_inj nVertex nVar iVertex iVar iDim jVertex jVar jDim hi hiv hj hjv h,
    fun hlen hnd k vS vR hS hR d hd => ?_⟩
  have hk : k < (geometry.vertex (iMarker + 1)).length := (List.getElem?_eq_some.mp hR).1
  unfold Set_MPI_Solution_Gradient_marker
  rw [Set_MPI_Solution_Gradient_unpack_eq geometry (iMarker + 1) _ s hnd k vR hR d hd,
    Set_MPI_Solution_Gradient_copy_eq s.nDim _ _ k hk d hd, ← hlen,
    Set_MPI_Solution_Gradient_pack_eq geometry s iMarker k vS hS d hd]

end CHeatSolver

end GradientBuffer

/-! ### The gradient exchange on the halo instance -/

section GradientBufferInstances

open CHeatSolver

/-- Instance of C40 on the three-point mesh with the halo pair: marker 0 sends from point
1, marker 1 receives at point 2, each with one vertex; the gradient 4 of point 1 arrives
at point 2, which had the gradient 0, through the buffer cell of index 0 of a buffer of
size 1. -/
theorem Set_MPI_Solution_Gradient_buffer_layout_witness :
    (exGeometryHalo.vertex 0).length = (exGeometryHalo.vertex (0 + 1)).length ∧
    ((exGeometryHalo.vertex (0 + 1)).map (fun v => v.Node)).Nodup ∧
    0 < exSolverGrad.nDim ∧
    Gradient_buffer_index 1 1 0 0 0 < 1 * 1 * 1 ∧
    exSolverGrad.Gradient 1 0 = 4 ∧ exSolverGrad.Gradient 2 0 = 0 ∧
    (Set_MPI_Solution_Gradient_marker exGeometryHalo exSolverGrad 0).Gradient 2 0
      = exSolverGrad.Gradient 1 0 ∧
    (Set_MPI_Solution_Gradient exGeometryHalo exConfigHalo exSolverGrad).Gradient 2 0 = 4 :=
  ⟨rfl, by simp [exGeometryHalo], by decide,
   (Set_MPI_Solution_Gradient_buffer_layout exGeometryHalo exSolverGrad 0).1 1 1 1 0 0 0
     (by decide) (by decide) (by decide),
   by simp [exSolverGrad], by simp [exSolverGrad],
   (Set_MPI_Solution_Gradient_buffer_layout exGeometryHalo exSolverGrad 0).2.2 rfl
     (by simp [exGeometryHalo]) 0 ⟨1, 1, fun _ => 1⟩ ⟨2, 2, fun _ => 1⟩
     (by simp [exGeometryHalo]) (by simp [exGeometryHalo]) 0 (by decide),
   by
    simp [Set_MPI_Solution_Gradient, Set_MPI_Solution_Gradient_marker,
      Set_MPI_Solution_Gradient_unpack, Set_MPI_Solution_Gradient_copy,
      Set_MPI_Solution_Gradient_pack, Gradient_buffer_index, vertexLoop,
      exGeometryHalo, exConfigHalo, exConfig, exSolverGrad, exSolver, List.range_succ,
      List.enum]⟩

end GradientBufferInstances

end SU2
